import Mathlib

/-!
D3D12 texture cache (xenia/gpu/d3d12/d3d12_texture_cache.cc)

A shallow embedding of the host format table, the load mode selection, the draw
resolution scale clamp and the scaled-resolve virtual address space manager of
`D3D12TextureCache`, with the properties proved about them.

Conventions: `uint32_t` and `uint64_t` values are natural numbers, reduced modulo
`2 ^ 32` or `2 ^ 64` wherever the C++ arithmetic can wrap; arrays indexed by a
machine integer are total functions on `Nat`; a smart pointer is an `Option`.
-/

namespace D3D12TextureCache

/-! ## Machine arithmetic -/

/-- Wrapping `uint32_t` value of a natural number. -/
def u32 (n : Nat) : Nat := n % 2 ^ 32

/-- Wrapping `uint64_t` value of a natural number. -/
def u64 (n : Nat) : Nat := n % 2 ^ 64

/-- Wrapping subtraction `a - b` of two `uint32_t` values. -/
def sub32 (a b : Nat) : Nat := (a + 2 ^ 32 - b % 2 ^ 32) % 2 ^ 32

/-- Wrapping subtraction `a - b` of two `uint64_t` values. -/
def sub64 (a b : Nat) : Nat := (a + 2 ^ 64 - b % 2 ^ 64) % 2 ^ 64

/-- The `SIZE_MAX` constant (64-bit `size_t`). -/
def SIZE_MAX : Nat := 2 ^ 64 - 1

/-- Number of significant bits of `v`, looking at its lowest `n` bits only: the
position of the highest set bit among them plus one, 0 when none is set. -/
def bitLength : Nat → Nat → Nat
  | 0, _ => 0
  | n + 1, v => if 2 ^ n ≤ v % 2 ^ (n + 1) then n + 1 else bitLength n v

/-- Count of leading zero bits of a `uint64_t` (`xe::lzcnt`), 64 for zero. -/
def lzcnt64 (v : Nat) : Nat := 64 - bitLength 64 v

/-! ## Host format table -/

/-- The `DXGI_FORMAT` values that occur in `host_formats_`. -/
inductive DXGI_FORMAT where
  | UNKNOWN
  | R8_TYPELESS | R8_UNORM | R8_SNORM
  | R8G8_TYPELESS | R8G8_UNORM | R8G8_SNORM
  | R8G8B8A8_TYPELESS | R8G8B8A8_UNORM | R8G8B8A8_SNORM
  | R10G10B10A2_TYPELESS | R10G10B10A2_UNORM
  | B5G5R5A1_UNORM | B5G6R5_UNORM | B4G4R4A4_UNORM
  | G8R8_G8B8_UNORM | R8G8_B8G8_UNORM
  | R16_TYPELESS | R16_UNORM | R16_SNORM | R16_FLOAT
  | R16G16_TYPELESS | R16G16_UNORM | R16G16_SNORM | R16G16_FLOAT
  | R16G16B16A16_TYPELESS | R16G16B16A16_UNORM | R16G16B16A16_SNORM
  | R16G16B16A16_FLOAT
  | R32_FLOAT | R32G32_FLOAT | R32G32B32A32_FLOAT
  | BC1_UNORM | BC2_UNORM | BC3_UNORM | BC4_UNORM | BC5_UNORM
  deriving DecidableEq, Repr

/-- The `LoadMode` enumeration, in the order of `load_mode_info_`; `kUnknown`
is the sentinel (`kCount`). -/
inductive LoadMode where
  | k8bpb | k16bpb | k32bpb | k64bpb | k128bpb
  | kR5G5B5A1ToB5G5R5A1 | kR5G6B5ToB5G6R5 | kR5G5B6ToB5G6R5WithRBGASwizzle
  | kR4G4B4A4ToB4G4R4A4
  | kR10G11B11ToRGBA16 | kR10G11B11ToRGBA16SNorm
  | kR11G11B10ToRGBA16 | kR11G11B10ToRGBA16SNorm
  | kDXT1ToRGBA8 | kDXT3ToRGBA8 | kDXT5ToRGBA8 | kDXNToRG8
  | kDXT3A | kDXT3AAs1111ToBGRA4 | kDXT5AToR8 | kCTX1
  | kDepthUnorm | kDepthFloat
  | kUnknown
  deriving DecidableEq, Repr

/-- The host component swizzles that occur in `host_formats_`
(`XE_GPU_TEXTURE_SWIZZLE_*`, and `XE_GPU_MAKE_TEXTURE_SWIZZLE(R, B, G, G)`). -/
inductive Swizzle where
  | RRRR | RGGG | RGBB | RGBA | BGRR | RBGG
  deriving DecidableEq, Repr

/-- One row of `host_formats_` (`D3D12TextureCache::HostFormat`), fields in the
order of the initializers. -/
structure HostFormat where
  dxgi_format_resource : DXGI_FORMAT
  dxgi_format_unorm : DXGI_FORMAT
  load_mode : LoadMode
  dxgi_format_snorm : DXGI_FORMAT
  load_mode_snorm : LoadMode
  dxgi_format_block_aligned : Bool
  dxgi_format_uncompressed : DXGI_FORMAT
  decompress_mode : LoadMode
  swizzle : Swizzle
  deriving DecidableEq, Repr

/-- The rows of `host_formats_[64]`, indexed by `xenos::TextureFormat`. -/
def host_formats_table : List HostFormat := [
  -- 0: k_1_REVERSE
  ⟨.UNKNOWN, .UNKNOWN, .kUnknown, .UNKNOWN, .kUnknown, false, .UNKNOWN, .kUnknown, .RRRR⟩,
  -- 1: k_1
  ⟨.UNKNOWN, .UNKNOWN, .kUnknown, .UNKNOWN, .kUnknown, false, .UNKNOWN, .kUnknown, .RRRR⟩,
  -- 2: k_8
  ⟨.R8_TYPELESS, .R8_UNORM, .k8bpb, .R8_SNORM, .kUnknown, false, .UNKNOWN, .kUnknown, .RRRR⟩,
  -- 3: k_1_5_5_5
  ⟨.B5G5R5A1_UNORM, .B5G5R5A1_UNORM, .kR5G5B5A1ToB5G5R5A1, .UNKNOWN, .kUnknown, false, .UNKNOWN, .kUnknown, .RGBA⟩,
  -- 4: k_5_6_5
  ⟨.B5G6R5_UNORM, .B5G6R5_UNORM, .kR5G6B5ToB5G6R5, .UNKNOWN, .kUnknown, false, .UNKNOWN, .kUnknown, .RGBB⟩,
  -- 5: k_6_5_5
  ⟨.B5G6R5_UNORM, .B5G6R5_UNORM, .kR5G5B6ToB5G6R5WithRBGASwizzle, .UNKNOWN, .kUnknown, false, .UNKNOWN, .kUnknown, .RBGG⟩,
  -- 6: k_8_8_8_8
  ⟨.R8G8B8A8_TYPELESS, .R8G8B8A8_UNORM, .k32bpb, .R8G8B8A8_SNORM, .kUnknown, false, .UNKNOWN, .kUnknown, .RGBA⟩,
  -- 7: k_2_10_10_10
  ⟨.R10G10B10A2_TYPELESS, .R10G10B10A2_UNORM, .k32bpb, .UNKNOWN, .kUnknown, false, .UNKNOWN, .kUnknown, .RGBA⟩,
  -- 8: k_8_A
  ⟨.R8_TYPELESS, .R8_UNORM, .k8bpb, .R8_SNORM, .kUnknown, false, .UNKNOWN, .kUnknown, .RRRR⟩,
  -- 9: k_8_B
  ⟨.UNKNOWN, .UNKNOWN, .kUnknown, .UNKNOWN, .kUnknown, false, .UNKNOWN, .kUnknown, .RRRR⟩,
  -- 10: k_8_8
  ⟨.R8G8_TYPELESS, .R8G8_UNORM, .k16bpb, .R8G8_SNORM, .kUnknown, false, .UNKNOWN, .kUnknown, .RGGG⟩,
  -- 11: k_Cr_Y1_Cb_Y0_REP
  ⟨.G8R8_G8B8_UNORM, .G8R8_G8B8_UNORM, .k32bpb, .UNKNOWN, .kUnknown, true, .UNKNOWN, .kUnknown, .BGRR⟩,
  -- 12: k_Y1_Cr_Y0_Cb_REP
  ⟨.R8G8_B8G8_UNORM, .R8G8_B8G8_UNORM, .k32bpb, .UNKNOWN, .kUnknown, true, .UNKNOWN, .kUnknown, .BGRR⟩,
  -- 13: k_16_16_EDRAM
  ⟨.UNKNOWN, .UNKNOWN, .kUnknown, .UNKNOWN, .kUnknown, false, .UNKNOWN, .kUnknown, .RGGG⟩,
  -- 14: k_8_8_8_8_A
  ⟨.UNKNOWN, .UNKNOWN, .kUnknown, .UNKNOWN, .kUnknown, false, .UNKNOWN, .kUnknown, .RGBA⟩,
  -- 15: k_4_4_4_4
  ⟨.B4G4R4A4_UNORM, .B4G4R4A4_UNORM, .kR4G4B4A4ToB4G4R4A4, .UNKNOWN, .kUnknown, false, .UNKNOWN, .kUnknown, .RGBA⟩,
  -- 16: k_10_11_11
  ⟨.R16G16B16A16_TYPELESS, .R16G16B16A16_UNORM, .kR11G11B10ToRGBA16, .R16G16B16A16_SNORM, .kR11G11B10ToRGBA16SNorm, false, .UNKNOWN, .kUnknown, .RGBB⟩,
  -- 17: k_11_11_10
  ⟨.R16G16B16A16_TYPELESS, .R16G16B16A16_UNORM, .kR10G11B11ToRGBA16, .R16G16B16A16_SNORM, .kR10G11B11ToRGBA16SNorm, false, .UNKNOWN, .kUnknown, .RGBB⟩,
  -- 18: k_DXT1
  ⟨.BC1_UNORM, .BC1_UNORM, .k64bpb, .UNKNOWN, .kUnknown, true, .R8G8B8A8_UNORM, .kDXT1ToRGBA8, .RGBA⟩,
  -- 19: k_DXT2_3
  ⟨.BC2_UNORM, .BC2_UNORM, .k128bpb, .UNKNOWN, .kUnknown, true, .R8G8B8A8_UNORM, .kDXT3ToRGBA8, .RGBA⟩,
  -- 20: k_DXT4_5
  ⟨.BC3_UNORM, .BC3_UNORM, .k128bpb, .UNKNOWN, .kUnknown, true, .R8G8B8A8_UNORM, .kDXT5ToRGBA8, .RGBA⟩,
  -- 21: k_16_16_16_16_EDRAM
  ⟨.UNKNOWN, .UNKNOWN, .kUnknown, .UNKNOWN, .kUnknown, false, .UNKNOWN, .kUnknown, .RGBA⟩,
  -- 22: k_24_8
  ⟨.R32_FLOAT, .R32_FLOAT, .kDepthUnorm, .R32_FLOAT, .kUnknown, false, .UNKNOWN, .kUnknown, .RRRR⟩,
  -- 23: k_24_8_FLOAT
  ⟨.R32_FLOAT, .R32_FLOAT, .kDepthFloat, .R32_FLOAT, .kUnknown, false, .UNKNOWN, .kUnknown, .RRRR⟩,
  -- 24: k_16
  ⟨.R16_TYPELESS, .R16_UNORM, .k16bpb, .R16_SNORM, .kUnknown, false, .UNKNOWN, .kUnknown, .RRRR⟩,
  -- 25: k_16_16
  ⟨.R16G16_TYPELESS, .R16G16_UNORM, .k32bpb, .R16G16_SNORM, .kUnknown, false, .UNKNOWN, .kUnknown, .RGGG⟩,
  -- 26: k_16_16_16_16
  ⟨.R16G16B16A16_TYPELESS, .R16G16B16A16_UNORM, .k64bpb, .R16G16B16A16_SNORM, .kUnknown, false, .UNKNOWN, .kUnknown, .RGBA⟩,
  -- 27: k_16_EXPAND
  ⟨.R16_FLOAT, .R16_FLOAT, .k16bpb, .R16_FLOAT, .kUnknown, false, .UNKNOWN, .kUnknown, .RRRR⟩,
  -- 28: k_16_16_EXPAND
  ⟨.R16G16_FLOAT, .R16G16_FLOAT, .k32bpb, .R16G16_FLOAT, .kUnknown, false, .UNKNOWN, .kUnknown, .RGGG⟩,
  -- 29: k_16_16_16_16_EXPAND
  ⟨.R16G16B16A16_FLOAT, .R16G16B16A16_FLOAT, .k64bpb, .R16G16B16A16_FLOAT, .kUnknown, false, .UNKNOWN, .kUnknown, .RGBA⟩,
  -- 30: k_16_FLOAT
  ⟨.R16_FLOAT, .R16_FLOAT, .k16bpb, .R16_FLOAT, .kUnknown, false, .UNKNOWN, .kUnknown, .RRRR⟩,
  -- 31: k_16_16_FLOAT
  ⟨.R16G16_FLOAT, .R16G16_FLOAT, .k32bpb, .R16G16_FLOAT, .kUnknown, false, .UNKNOWN, .kUnknown, .RGGG⟩,
  -- 32: k_16_16_16_16_FLOAT
  ⟨.R16G16B16A16_FLOAT, .R16G16B16A16_FLOAT, .k64bpb, .R16G16B16A16_FLOAT, .kUnknown, false, .UNKNOWN, .kUnknown, .RGBA⟩,
  -- 33: k_32
  ⟨.UNKNOWN, .UNKNOWN, .kUnknown, .UNKNOWN, .kUnknown, false, .UNKNOWN, .kUnknown, .RRRR⟩,
  -- 34: k_32_32
  ⟨.UNKNOWN, .UNKNOWN, .kUnknown, .UNKNOWN, .kUnknown, false, .UNKNOWN, .kUnknown, .RGGG⟩,
  -- 35: k_32_32_32_32
  ⟨.UNKNOWN, .UNKNOWN, .kUnknown, .UNKNOWN, .kUnknown, false, .UNKNOWN, .kUnknown, .RGBA⟩,
  -- 36: k_32_FLOAT
  ⟨.R32_FLOAT, .R32_FLOAT, .k32bpb, .R32_FLOAT, .kUnknown, false, .UNKNOWN, .kUnknown, .RRRR⟩,
  -- 37: k_32_32_FLOAT
  ⟨.R32G32_FLOAT, .R32G32_FLOAT, .k64bpb, .R32G32_FLOAT, .kUnknown, false, .UNKNOWN, .kUnknown, .RGGG⟩,
  -- 38: k_32_32_32_32_FLOAT
  ⟨.R32G32B32A32_FLOAT, .R32G32B32A32_FLOAT, .k128bpb, .R32G32B32A32_FLOAT, .kUnknown, false, .UNKNOWN, .kUnknown, .RGBA⟩,
  -- 39: k_32_AS_8
  ⟨.UNKNOWN, .UNKNOWN, .kUnknown, .UNKNOWN, .kUnknown, false, .UNKNOWN, .kUnknown, .RRRR⟩,
  -- 40: k_32_AS_8_8
  ⟨.UNKNOWN, .UNKNOWN, .kUnknown, .UNKNOWN, .kUnknown, false, .UNKNOWN, .kUnknown, .RGGG⟩,
  -- 41: k_16_MPEG
  ⟨.UNKNOWN, .UNKNOWN, .kUnknown, .UNKNOWN, .kUnknown, false, .UNKNOWN, .kUnknown, .RRRR⟩,
  -- 42: k_16_16_MPEG
  ⟨.UNKNOWN, .UNKNOWN, .kUnknown, .UNKNOWN, .kUnknown, false, .UNKNOWN, .kUnknown, .RGGG⟩,
  -- 43: k_8_INTERLACED
  ⟨.UNKNOWN, .UNKNOWN, .kUnknown, .UNKNOWN, .kUnknown, false, .UNKNOWN, .kUnknown, .RRRR⟩,
  -- 44: k_32_AS_8_INTERLACED
  ⟨.UNKNOWN, .UNKNOWN, .kUnknown, .UNKNOWN, .kUnknown, false, .UNKNOWN, .kUnknown, .RRRR⟩,
  -- 45: k_32_AS_8_8_INTERLACED
  ⟨.UNKNOWN, .UNKNOWN, .kUnknown, .UNKNOWN, .kUnknown, false, .UNKNOWN, .kUnknown, .RGGG⟩,
  -- 46: k_16_INTERLACED
  ⟨.UNKNOWN, .UNKNOWN, .kUnknown, .UNKNOWN, .kUnknown, false, .UNKNOWN, .kUnknown, .RRRR⟩,
  -- 47: k_16_MPEG_INTERLACED
  ⟨.UNKNOWN, .UNKNOWN, .kUnknown, .UNKNOWN, .kUnknown, false, .UNKNOWN, .kUnknown, .RRRR⟩,
  -- 48: k_16_16_MPEG_INTERLACED
  ⟨.UNKNOWN, .UNKNOWN, .kUnknown, .UNKNOWN, .kUnknown, false, .UNKNOWN, .kUnknown, .RGGG⟩,
  -- 49: k_DXN
  ⟨.BC5_UNORM, .BC5_UNORM, .k128bpb, .UNKNOWN, .kUnknown, true, .R8G8_UNORM, .kDXNToRG8, .RGGG⟩,
  -- 50: k_8_8_8_8_AS_16_16_16_16
  ⟨.R8G8B8A8_TYPELESS, .R8G8B8A8_UNORM, .k32bpb, .R8G8B8A8_SNORM, .kUnknown, false, .UNKNOWN, .kUnknown, .RGBA⟩,
  -- 51: k_DXT1_AS_16_16_16_16
  ⟨.BC1_UNORM, .BC1_UNORM, .k64bpb, .UNKNOWN, .kUnknown, true, .R8G8B8A8_UNORM, .kDXT1ToRGBA8, .RGBA⟩,
  -- 52: k_DXT2_3_AS_16_16_16_16
  ⟨.BC2_UNORM, .BC2_UNORM, .k128bpb, .UNKNOWN, .kUnknown, true, .R8G8B8A8_UNORM, .kDXT3ToRGBA8, .RGBA⟩,
  -- 53: k_DXT4_5_AS_16_16_16_16
  ⟨.BC3_UNORM, .BC3_UNORM, .k128bpb, .UNKNOWN, .kUnknown, true, .R8G8B8A8_UNORM, .kDXT5ToRGBA8, .RGBA⟩,
  -- 54: k_2_10_10_10_AS_16_16_16_16
  ⟨.R10G10B10A2_UNORM, .R10G10B10A2_UNORM, .k32bpb, .UNKNOWN, .kUnknown, false, .UNKNOWN, .kUnknown, .RGBA⟩,
  -- 55: k_10_11_11_AS_16_16_16_16
  ⟨.R16G16B16A16_TYPELESS, .R16G16B16A16_UNORM, .kR11G11B10ToRGBA16, .R16G16B16A16_SNORM, .kR11G11B10ToRGBA16SNorm, false, .UNKNOWN, .kUnknown, .RGBB⟩,
  -- 56: k_11_11_10_AS_16_16_16_16
  ⟨.R16G16B16A16_TYPELESS, .R16G16B16A16_UNORM, .kR10G11B11ToRGBA16, .R16G16B16A16_SNORM, .kR10G11B11ToRGBA16SNorm, false, .UNKNOWN, .kUnknown, .RGBB⟩,
  -- 57: k_32_32_32_FLOAT
  ⟨.UNKNOWN, .UNKNOWN, .kUnknown, .UNKNOWN, .kUnknown, false, .UNKNOWN, .kUnknown, .RGBB⟩,
  -- 58: k_DXT3A
  ⟨.R8_UNORM, .R8_UNORM, .kDXT3A, .UNKNOWN, .kUnknown, false, .UNKNOWN, .kUnknown, .RRRR⟩,
  -- 59: k_DXT5A
  ⟨.BC4_UNORM, .BC4_UNORM, .k64bpb, .UNKNOWN, .kUnknown, true, .R8_UNORM, .kDXT5AToR8, .RRRR⟩,
  -- 60: k_CTX1
  ⟨.R8G8_UNORM, .R8G8_UNORM, .kCTX1, .UNKNOWN, .kUnknown, false, .UNKNOWN, .kUnknown, .RGGG⟩,
  -- 61: k_DXT3A_AS_1_1_1_1
  ⟨.B4G4R4A4_UNORM, .B4G4R4A4_UNORM, .kDXT3AAs1111ToBGRA4, .UNKNOWN, .kUnknown, false, .UNKNOWN, .kUnknown, .RGBA⟩,
  -- 62: k_8_8_8_8_GAMMA_EDRAM
  ⟨.UNKNOWN, .UNKNOWN, .kUnknown, .UNKNOWN, .kUnknown, false, .UNKNOWN, .kUnknown, .RGBA⟩,
  -- 63: k_2_10_10_10_FLOAT_EDRAM
  ⟨.UNKNOWN, .UNKNOWN, .kUnknown, .UNKNOWN, .kUnknown, false, .UNKNOWN, .kUnknown, .RGBA⟩
]

/-- The row used for an index outside the table (never reached: the format is
a 6-bit field). -/
def HostFormat.unknown : HostFormat :=
  ⟨.UNKNOWN, .UNKNOWN, .kUnknown, .UNKNOWN, .kUnknown, false, .UNKNOWN,
   .kUnknown, .RRRR⟩

/-- Lookup `host_formats_[uint32_t(format)]`. -/
def host_formats_ (format : Fin 64) : HostFormat :=
  host_formats_table.getD format.val HostFormat.unknown

/-! ## Texture keys and load mode selection -/

/-- The enumeration `xenos::DataDimension`. -/
inductive DataDimension where
  | k1D | k2DOrStacked | k3D | kCube
  deriving DecidableEq, Repr

/-- The fields of `TextureCache::TextureKey` read by the code embedded here.
The format is a 6-bit field; widths, heights and depths are stored minus one. -/
structure TextureKey where
  format : Fin 64
  width_minus_1 : Nat
  height_minus_1 : Nat
  signed_separate : Bool
  scaled_resolve : Bool := false
  dimension : DataDimension := DataDimension.k2DOrStacked
  depth_or_array_size_minus_1 : Nat := 0
  mip_max_level : Nat := 0
  tiled : Bool := false
  endianness : Nat := 0
  base_page : Nat := 0
  mip_page : Nat := 0
  is_valid : Bool := true
  deriving DecidableEq, Repr

/-- A valid, untiled 2D key with one layer and one mip level, of the given
format, size (minus one) and `signed_separate` flag. -/
def TextureKey.ofSize (format : Fin 64) (width_minus_1 height_minus_1 : Nat)
    (signed_separate : Bool) : TextureKey :=
  { format := format, width_minus_1 := width_minus_1, height_minus_1 := height_minus_1,
    signed_separate := signed_separate }

/-- The `TextureKey::GetWidth` accessor. -/
def TextureKey.GetWidth (key : TextureKey) : Nat := key.width_minus_1 + 1

/-- The `TextureKey::GetHeight` accessor. -/
def TextureKey.GetHeight (key : TextureKey) : Nat := key.height_minus_1 + 1

/-- The `TextureKey::GetDepthOrArraySize` accessor. -/
def TextureKey.GetDepthOrArraySize (key : TextureKey) : Nat :=
  key.depth_or_array_size_minus_1 + 1

/-- The block dimensions of a guest format, the part of `FormatInfo` that
`IsDecompressionNeeded` reads. -/
structure FormatInfo where
  block_width : Nat
  block_height : Nat
  deriving DecidableEq, Repr

/-- Embedding of `D3D12TextureCache::IsDecompressionNeeded`. The guest format
table behind `FormatInfo::Get` is declared outside this file and is the
parameter `format_info`. -/
def IsDecompressionNeeded (format_info : Fin 64 → FormatInfo) (format : Fin 64)
    (width height : Nat) : Bool :=
  let dxgi_format_uncompressed := (host_formats_ format).dxgi_format_uncompressed
  if dxgi_format_uncompressed = DXGI_FORMAT.UNKNOWN then
    false
  else
    let info := format_info format
    (width &&& sub32 info.block_width 1) != 0 ||
      (height &&& sub32 info.block_height 1) != 0

/-- Embedding of `D3D12TextureCache::GetLoadMode`. -/
def GetLoadMode (format_info : Fin 64 → FormatInfo) (key : TextureKey) : LoadMode :=
  let host_format := host_formats_ key.format
  if key.signed_separate then
    host_format.load_mode_snorm
  else if IsDecompressionNeeded format_info key.format key.GetWidth key.GetHeight then
    host_format.decompress_mode
  else
    host_format.load_mode

/-- Modelled from the spec: the block sizes of the guest formats, which
`FormatInfo::Get` (xenia/gpu/texture_info.h, not part of this file) returns.
The block-compressed formats (DXT1, DXT2/3, DXT4/5, DXN, DXT3A, DXT5A, CTX1 and
their `AS_16_16_16_16` and `AS_1_1_1_1` aliases) have 4x4 blocks, the two
packed-chroma formats 2x1 blocks, every other format single-texel blocks. -/
def xenosFormatInfo (format : Fin 64) : FormatInfo :=
  if format.val ∈ [18, 19, 20, 49, 51, 52, 53, 58, 59, 60, 61] then ⟨4, 4⟩
  else if format.val ∈ [11, 12] then ⟨2, 1⟩
  else ⟨1, 1⟩

/-- Every block dimension of the guest format table is a power of two that fits
32 bits: what the mask test `size & (block - 1)` of `IsDecompressionNeeded`
presupposes. -/
def BlocksArePow2 (format_info : Fin 64 → FormatInfo) : Prop :=
  ∀ f : Fin 64, (∃ a, a < 32 ∧ (format_info f).block_width = 2 ^ a) ∧
    (∃ b, b < 32 ∧ (format_info f).block_height = 2 ^ b)

/-- The load modes that occur in the `decompress_mode` column of
`host_formats_`. -/
def LoadMode.isDecompression : LoadMode → Bool
  | .kDXT1ToRGBA8 | .kDXT3ToRGBA8 | .kDXT5ToRGBA8 | .kDXNToRG8 | .kDXT5AToR8 => true
  | _ => false

/-! ## Draw resolution scale clamp -/

/-- Modelled from the spec: `SharedMemory::kBufferSize`, the size of the guest
physical address space (512 MB), declared in xenia/gpu/shared_memory.h, which
is not part of this file. -/
def kBufferSize : Nat := 2 ^ 29

/-- The two properties of `ui::d3d12::D3D12Provider` the clamp reads:
`GetTiledResourcesTier()` and `GetVirtualAddressBitsPerResource()`. -/
structure D3D12Provider where
  tiled_resources_tier : Nat
  virtual_address_bits_per_resource : Nat
  deriving DecidableEq, Repr

/-- The D3D12 enumerator `D3D12_TILED_RESOURCES_TIER_1`. -/
def D3D12_TILED_RESOURCES_TIER_1 : Nat := 1

/-- The local `highest_scaled_address` of the clamp loop:
`uint64_t(SharedMemory::kBufferSize) * (scale_x * scale_y) - 1`, the product of
the scales being a `uint32_t` product. -/
def highest_scaled_address (scale_x scale_y : Nat) : Nat :=
  sub64 (u64 (kBufferSize * u32 (scale_x * scale_y))) 1

/-- The outcome of `ClampDrawResolutionScaleToMaxSupported`: the returned
`bool` and the two scales written back through the references. -/
structure ClampResult where
  result : Bool
  scale_x : Nat
  scale_y : Nat
  deriving DecidableEq, Repr

/-- The `while (scale_x > 1 || scale_y > 1)` loop of the clamp, run for at most
`fuel` iterations; `none` when the fuel runs out before the loop ends. -/
def clampLoop (virtual_address_bits_per_resource : Nat) :
    Nat → Nat → Nat → Bool → Option (Nat × Nat × Bool)
  | 0, _, _, _ => none
  | fuel + 1, scale_x, scale_y, was_clamped =>
    if scale_x > 1 ∨ scale_y > 1 then
      if 64 - lzcnt64 (highest_scaled_address scale_x scale_y) ≤
          virtual_address_bits_per_resource then
        some (scale_x, scale_y, was_clamped)
      else if scale_x ≥ scale_y then
        clampLoop virtual_address_bits_per_resource fuel (sub32 scale_x 1) scale_y true
      else
        clampLoop virtual_address_bits_per_resource fuel scale_x (sub32 scale_y 1) true
    else
      some (scale_x, scale_y, was_clamped)

/-- Embedding of `D3D12TextureCache::ClampDrawResolutionScaleToMaxSupported`.
The loop gets `scale_x + scale_y + 1` iterations of fuel; the result is `none`
only if that is not enough. -/
def ClampDrawResolutionScaleToMaxSupported (scale_x scale_y : Nat)
    (provider : D3D12Provider) : Option ClampResult :=
  if provider.tiled_resources_tier < D3D12_TILED_RESOURCES_TIER_1 then
    let was_clamped : Bool := decide (scale_x > 1 ∨ scale_y > 1)
    some ⟨!was_clamped, 1, 1⟩
  else
    match clampLoop provider.virtual_address_bits_per_resource
        (scale_x + scale_y + 1) scale_x scale_y false with
    | some (x, y, was_clamped) => some ⟨!was_clamped, x, y⟩
    | none => none

/-! ## Scaled-resolve virtual address space manager -/

/-- A `ScaledResolveVirtualBuffer`: the D3D12 resource (a handle), its tracked
resource state and the pending-UAV-barrier flag. -/
structure ScaledResolveVirtualBuffer where
  resource : Nat
  resource_state : Nat
  uav_barrier_pending : Bool
  deriving DecidableEq, Repr

/-- The D3D12 enumerator `D3D12_RESOURCE_STATE_UNORDERED_ACCESS`. -/
def D3D12_RESOURCE_STATE_UNORDERED_ACCESS : Nat := 0x8

/-- The D3D12 constant `D3D12_TILED_RESOURCE_TILE_SIZE_IN_BYTES`. -/
def D3D12_TILED_RESOURCE_TILE_SIZE_IN_BYTES : Nat := 65536

/-- The enumerators of `D3D12_SRV_DIMENSION` used for texture views. -/
inductive D3D12_SRV_DIMENSION where
  | TEXTURE2DARRAY | TEXTURE3D | TEXTURECUBE
  deriving DecidableEq, Repr

/-- The fields of `D3D12_SHADER_RESOURCE_VIEW_DESC` that
`FindOrCreateTextureDescriptor` fills; `ArraySize` only for a 2D array view. -/
structure SRVDesc where
  Format : DXGI_FORMAT
  ViewDimension : D3D12_SRV_DIMENSION
  MipLevels : Nat
  ArraySize : Option Nat
  Shader4ComponentMapping : Nat
  deriving DecidableEq, Repr

/-- A `D3D12_PLACED_SUBRESOURCE_FOOTPRINT`: the `UINT64` offset in the scratch
buffer and the footprint. -/
structure HostFootprint where
  Offset : Nat
  Format : DXGI_FORMAT
  Width : Nat
  Height : Nat
  Depth : Nat
  RowPitch : Nat
  deriving DecidableEq, Repr

/-- A `D3D12_BOX`. -/
structure Box where
  left : Nat
  top : Nat
  front : Nat
  right : Nat
  bottom : Nat
  back : Nat
  deriving DecidableEq, Repr

/-- The `LoadConstants` of a load dispatch, as written by the loader. -/
structure LoadConstants where
  is_tiled_3d_endian_scale : Nat
  guest_offset : Nat
  guest_pitch_aligned : Nat
  guest_z_stride_block_rows_aligned : Nat
  size_blocks_0 : Nat
  size_blocks_1 : Nat
  size_blocks_2 : Nat
  height_texels : Nat
  host_offset : Nat
  host_pitch : Nat
  deriving DecidableEq, Repr

/-- The descriptor bound as a compute root descriptor table: one of the
descriptors allocated for the load (by its place in `descriptors_allocated`), or
the bindless shared memory descriptor of an element size. -/
inductive DescriptorRef where
  | allocated (index : Nat)
  | sharedMemoryBindless (element_size_log2 : Nat)
  deriving DecidableEq, Repr

/-- A call made to the device, the direct queue, the command processor or the
command list by the code embedded here, in the order made. -/
inductive DeviceCall where
  /-- The call `device->CreateReservedResource` for a buffer of `size` bytes. -/
  | CreateReservedResource (size : Nat) (succeeded : Bool)
  /-- The call `device->CreateHeap` for a heap of `size` bytes. -/
  | CreateHeap (size : Nat) (succeeded : Bool)
  /-- The call `direct_queue->UpdateTileMappings` binding `heap` into
  `resource` starting at tile `x`. -/
  | UpdateTileMappings (resource : Nat) (x : Nat) (num_tiles : Nat) (heap : Nat)
  /-- The call `command_processor_.NotifyQueueOperationsDoneDirectly`. -/
  | NotifyQueueOperationsDoneDirectly
  /-- The call `command_processor_.PushAliasingBarrier(before, after)`. -/
  | PushAliasingBarrier (before after : Nat)
  /-- The call `device->CreateDescriptorHeap` for a descriptor cache page. -/
  | CreateDescriptorHeap (num_descriptors : Nat) (succeeded : Bool)
  /-- The call `device->CreateShaderResourceView` into the descriptor
  `descriptor_index`. -/
  | CreateShaderResourceView (resource : Nat) (desc : SRVDesc) (descriptor_index : Nat)
  /-- The call `command_processor_.RequestPersistentViewBindlessDescriptor`. -/
  | RequestPersistentViewBindlessDescriptor (result : Nat)
  /-- The call `command_processor_.ReleaseViewBindlessDescriptorImmediately`. -/
  | ReleaseViewBindlessDescriptorImmediately (descriptor_index : Nat)
  /-- The call `command_processor_.RequestScratchGPUBuffer(size, state)`. -/
  | RequestScratchGPUBuffer (size state : Nat) (succeeded : Bool)
  /-- The call `command_processor_.ReleaseScratchGPUBuffer(buffer, state)`. -/
  | ReleaseScratchGPUBuffer (buffer state : Nat)
  /-- The call `command_processor_.RequestOneUseSingleViewDescriptors`. -/
  | RequestOneUseSingleViewDescriptors (count : Nat) (succeeded : Bool)
  /-- The call `command_processor_.SetExternalPipeline`. -/
  | SetExternalPipeline (pipeline : Nat)
  /-- The call `command_list.D3DSetComputeRootSignature`. -/
  | D3DSetComputeRootSignature (root_signature : Nat)
  /-- The call `ui::d3d12::util::CreateBufferTypedUAV` for the scratch buffer. -/
  | CreateBufferTypedUAV (descriptor buffer element_size_log2 num_elements : Nat)
  /-- The call `ui::d3d12::util::CreateBufferTypedSRV` for the current scaled
  resolve range. -/
  | CreateBufferTypedSRV (descriptor buffer element_size_log2 num_elements first_element : Nat)
  /-- The call `command_list.D3DSetComputeRootDescriptorTable`. -/
  | D3DSetComputeRootDescriptorTable (root_parameter : Nat) (descriptor : DescriptorRef)
  /-- The call `d3d12_shared_memory.UseForReading`. -/
  | UseForReading
  /-- The call `d3d12_shared_memory.WriteUintPow2SRVDescriptor`. -/
  | WriteUintPow2SRVDescriptor (descriptor element_size_log2 : Nat)
  /-- The call `cbuffer_pool.Request` for one `LoadConstants`. -/
  | RequestConstantBuffer (succeeded : Bool)
  /-- The call `command_list.D3DSetComputeRootConstantBufferView` for the
  constants just copied into the constant buffer. -/
  | D3DSetComputeRootConstantBufferView (root_parameter : Nat) (constants : LoadConstants)
  /-- The call `command_processor_.SubmitBarriers`. -/
  | SubmitBarriers
  /-- The call `command_list.D3DDispatch`. -/
  | D3DDispatch (group_count_x group_count_y group_count_z : Nat)
  /-- The call of the loader to `MakeScaledResolveRangeCurrent(start, length)` and
  the `bool` it returned, recorded when it returns (after the calls that it
  made itself). -/
  | MakeScaledResolveRangeCurrent (start_unscaled length_unscaled : Nat) (result : Bool)
  /-- The call `command_processor_.PushTransitionBarrier(resource, old, new)`. -/
  | PushTransitionBarrier (resource old_state new_state : Nat)
  /-- The call `MarkAsUsed` on the texture with this resource. -/
  | MarkAsUsed (resource : Nat)
  /-- The call `command_list.D3DCopyTextureRegion` from a placed footprint of
  the scratch buffer, with an optional source box, into a subresource. -/
  | D3DCopyTextureRegion (dest_subresource : Nat) (source : HostFootprint)
      (source_box : Option Box)
  deriving DecidableEq, Repr

/-- The members of `D3D12TextureCache` used by the scaled-resolve manager, and
the trace of the calls it has made to its collaborators. -/
structure Cache where
  draw_resolution_scale_x : Nat
  draw_resolution_scale_y : Nat
  scaled_resolve_2gb_buffers_ : Nat → Option ScaledResolveVirtualBuffer
  scaled_resolve_heaps_ : Nat → Option Nat
  scaled_resolve_heap_count_ : Nat
  scaled_resolve_1gb_buffer_indices_ : Nat → Nat
  scaled_resolve_current_range_start_scaled_ : Nat
  scaled_resolve_current_range_length_scaled_ : Nat
  calls : List DeviceCall

/-- What the code embedded here uses from declarations outside this file
(d3d12_texture_cache.h): the heap granule size and the inline member
`GetPossibleScaledResolveBufferIndices`, a function of the draw resolution
scale and of the scaled address. -/
structure Header where
  kScaledResolveHeapSizeLog2 : Nat
  GetPossibleScaledResolveBufferIndices : Nat → Nat → Nat → Nat × Nat

/-- The outcomes of the fallible device calls: the resource handle returned by
the `CreateReservedResource` call made for buffer `i` and the heap returned by
the `CreateHeap` call made for heap `i`, `none` when the call `FAILED`. -/
structure Device where
  CreateReservedResource : Nat → Option Nat
  CreateHeap : Nat → Option Nat

/-- The local `draw_resolution_scale_area`, a `uint32_t` product. -/
def Cache.draw_resolution_scale_area (c : Cache) : Nat :=
  u32 (c.draw_resolution_scale_x * c.draw_resolution_scale_y)

/-- Array assignment `a[i] = v`. -/
def setAt {α : Type} (a : Nat → α) (i : Nat) (v : α) : Nat → α :=
  fun j => if j = i then v else a j

/-- How one iteration of a loop body, or a whole loop, ends. -/
inductive Flow (σ : Type) where
  /-- Fell through (or `continue`): go on with the next iteration. -/
  | next (s : σ)
  /-- Executed `return false`. -/
  | return_false (s : σ)
  /-- Dereferenced a null pointer, or never ends. -/
  | undefined

/-- The iterations `i, i + 1, ..., i + n - 1` of a loop body, stopping at the
first one that does not fall through. -/
def loopFrom {σ : Type} (body : Nat → σ → Flow σ) : Nat → Nat → σ → Flow σ
  | 0, _, s => .next s
  | n + 1, i, s =>
    match body i s with
    | .next s1 => loopFrom body n (i + 1) s1
    | .return_false s1 => .return_false s1
    | .undefined => .undefined

/-- The loop `for (T i = first; i <= last; ++i) body` for an unsigned `T` of
`bits` bits. When `last` is the largest value of `T` the condition never
fails and `i` wraps around: the loop can then end only by an early return, and
since the bodies used here skip the entries that exist, a second lap that
falls through all the way means that the loop spins forever. -/
def forLE {σ : Type} (bits : Nat) (body : Nat → σ → Flow σ) (first last : Nat)
    (s : σ) : Flow σ :=
  if last < first then .next s
  else if last + 1 < 2 ^ bits then loopFrom body (last + 1 - first) first s
  else
    match loopFrom body (2 ^ bits - first) first s with
    | .next s1 =>
      match loopFrom body (2 ^ bits) 0 s1 with
      | .next _ => .undefined
      | r => r
    | r => r

/-- Body of the buffer loop of `EnsureScaledResolveMemoryCommitted`. -/
def ensureBufferBody (dev : Device) (i : Nat) (c : Cache) : Flow Cache :=
  match c.scaled_resolve_2gb_buffers_ i with
  | some _ => .next c
  | none =>
    let size := min (2 ^ 31)
      (sub64 (u64 (kBufferSize * c.draw_resolution_scale_area)) (u64 (i <<< 30)))
    match dev.CreateReservedResource i with
    | none =>
      .return_false { c with calls := c.calls ++ [.CreateReservedResource size false] }
    | some resource =>
      .next { c with
        scaled_resolve_2gb_buffers_ := setAt c.scaled_resolve_2gb_buffers_ i
          (some ⟨resource, D3D12_RESOURCE_STATE_UNORDERED_ACCESS, false⟩)
        calls := c.calls ++ [.CreateReservedResource size true] }

/-- The `UpdateTileMappings` call of the inner loop over `buffer_indices[j]`
for heap `i`; `none` when the buffer is null. -/
def updateTileMapping (h : Header) (c : Cache) (i heap buffer_index : Nat) :
    Option DeviceCall :=
  match c.scaled_resolve_2gb_buffers_ buffer_index with
  | none => none
  | some buffer =>
    let x := u32 (sub64 (u64 (i <<< h.kScaledResolveHeapSizeLog2)) (u64 (buffer_index <<< 30)) /
      D3D12_TILED_RESOURCE_TILE_SIZE_IN_BYTES)
    some (.UpdateTileMappings buffer.resource x
      (u64 (1 <<< h.kScaledResolveHeapSizeLog2) / D3D12_TILED_RESOURCE_TILE_SIZE_IN_BYTES) heap)

/-- Body of the heap loop of `EnsureScaledResolveMemoryCommitted`. -/
def ensureHeapBody (h : Header) (dev : Device) (i : Nat) (c : Cache) : Flow Cache :=
  match c.scaled_resolve_heaps_ i with
  | some _ => .next c
  | none =>
    let heap_size := u64 (1 <<< h.kScaledResolveHeapSizeLog2)
    match dev.CreateHeap i with
    | none => .return_false { c with calls := c.calls ++ [.CreateHeap heap_size false] }
    | some heap =>
      let c1 : Cache := { c with
        scaled_resolve_heaps_ := setAt c.scaled_resolve_heaps_ i (some heap)
        scaled_resolve_heap_count_ := c.scaled_resolve_heap_count_ + 1
        calls := c.calls ++ [.CreateHeap heap_size true] }
      let buffer_indices := h.GetPossibleScaledResolveBufferIndices
        c.draw_resolution_scale_x c.draw_resolution_scale_y
        (u64 (i <<< h.kScaledResolveHeapSizeLog2))
      match updateTileMapping h c1 i heap buffer_indices.1 with
      | none => .undefined
      | some call0 =>
        if buffer_indices.2 = buffer_indices.1 then
          .next { c1 with calls := c1.calls ++ [call0, .NotifyQueueOperationsDoneDirectly] }
        else
          match updateTileMapping h c1 i heap buffer_indices.2 with
          | none => .undefined
          | some call1 =>
            .next { c1 with
              calls := c1.calls ++ [call0, call1, .NotifyQueueOperationsDoneDirectly] }

/-- Embedding of `D3D12TextureCache::EnsureScaledResolveMemoryCommitted`: the
returned `bool` and the cache afterwards, `none` when the call dereferences a
null buffer or never returns. -/
def EnsureScaledResolveMemoryCommitted (h : Header) (dev : Device) (c : Cache)
    (start_unscaled length_unscaled : Nat) : Option (Bool × Cache) :=
  if length_unscaled = 0 then some (true, c)
  else if start_unscaled > kBufferSize ∨ sub32 kBufferSize start_unscaled < length_unscaled then
    some (false, c)
  else
    let draw_resolution_scale_area := c.draw_resolution_scale_area
    let first_scaled := u64 (start_unscaled * draw_resolution_scale_area)
    let last_scaled :=
      u64 (u32 (start_unscaled + sub32 length_unscaled 1) * draw_resolution_scale_area)
    let possible_buffers_first := h.GetPossibleScaledResolveBufferIndices
      c.draw_resolution_scale_x c.draw_resolution_scale_y first_scaled
    let possible_buffers_last := h.GetPossibleScaledResolveBufferIndices
      c.draw_resolution_scale_x c.draw_resolution_scale_y last_scaled
    let possible_buffer_first := min possible_buffers_first.1 possible_buffers_first.2
    let possible_buffer_last := max possible_buffers_last.1 possible_buffers_last.2
    match forLE 64 (ensureBufferBody dev) possible_buffer_first possible_buffer_last c with
    | .undefined => none
    | .return_false c1 => some (false, c1)
    | .next c1 =>
      let heap_first := u32 (first_scaled >>> h.kScaledResolveHeapSizeLog2)
      let heap_last := u32 (last_scaled >>> h.kScaledResolveHeapSizeLog2)
      match forLE 32 (ensureHeapBody h dev) heap_first heap_last c1 with
      | .undefined => none
      | .return_false c2 => some (false, c2)
      | .next c2 => some (true, c2)

/-- The entries of a `std::array<size_t, 2>` of possible buffer indices that the
loops of `MakeScaledResolveRangeCurrent` visit: index 0, and index 1 when it
differs from index 0. -/
def visitedIndices (indices : Nat × Nat) : List Nat :=
  if indices.1 ≠ indices.2 then [indices.1, indices.2] else [indices.1]

/-- The array `possible_buffer_indices_common` (its first
`possible_buffer_indices_common_count` entries) built by the nested loops of
`MakeScaledResolveRangeCurrent`: each index of the first address that is also
an index of the last address, added once. -/
def possibleBufferIndicesCommon (first last : Nat × Nat) : List Nat :=
  (visitedIndices first).foldl
    (fun common possible_buffer_index_first =>
      (visitedIndices last).foldl
        (fun common possible_buffer_index_last =>
          if possible_buffer_index_last = possible_buffer_index_first then
            if common.contains possible_buffer_index_first then common
            else common ++ [possible_buffer_index_first]
          else common)
        common)
    []

/-- The counters `possible_buffer_indices_already_used[j]`: the number of
gigabytes `gigabyte_first ... gigabyte_first + n - 1` currently owned by
buffer `candidate`. -/
def alreadyUsed (owners : Nat → Nat) (candidate : Nat) : Nat → Nat → Nat
  | 0, _ => 0
  | n + 1, i => (if candidate = owners i then 1 else 0) + alreadyUsed owners candidate n (i + 1)

/-- Body of the ownership loop of `MakeScaledResolveRangeCurrent`. -/
def makeCurrentBody (new_buffer_index new_buffer_resource : Nat) (i : Nat) (c : Cache) :
    Flow Cache :=
  let gigabyte_current_buffer_index := c.scaled_resolve_1gb_buffer_indices_ i
  if gigabyte_current_buffer_index = new_buffer_index then .next c
  else if gigabyte_current_buffer_index ≠ SIZE_MAX then
    match c.scaled_resolve_2gb_buffers_ gigabyte_current_buffer_index with
    | none => .undefined
    | some gigabyte_current_buffer =>
      .next { c with
        calls := c.calls ++
          [.PushAliasingBarrier gigabyte_current_buffer.resource new_buffer_resource]
        scaled_resolve_2gb_buffers_ := setAt c.scaled_resolve_2gb_buffers_
          gigabyte_current_buffer_index
          (some { gigabyte_current_buffer with uav_barrier_pending := false })
        scaled_resolve_1gb_buffer_indices_ :=
          setAt c.scaled_resolve_1gb_buffer_indices_ i new_buffer_index }
  else
    .next { c with
      scaled_resolve_1gb_buffer_indices_ :=
        setAt c.scaled_resolve_1gb_buffer_indices_ i new_buffer_index }

/-- The buffer index `new_buffer_index` that `MakeScaledResolveRangeCurrent`
chooses among the common candidates. -/
def chooseNewBufferIndex (owners : Nat → Nat) (common : List Nat)
    (gigabyte_first gigabyte_last : Nat) : Nat :=
  if common.length ≥ 2 then
    let used0 := alreadyUsed owners (common.getD 0 0) (gigabyte_last + 1 - gigabyte_first)
      gigabyte_first
    let used1 := alreadyUsed owners (common.getD 1 0) (gigabyte_last + 1 - gigabyte_first)
      gigabyte_first
    common.getD (if used1 > used0 then 1 else 0) 0
  else
    common.getD 0 0

/-- Embedding of `D3D12TextureCache::MakeScaledResolveRangeCurrent`: the
returned `bool` and the cache afterwards, `none` when the call dereferences a
null buffer. -/
def MakeScaledResolveRangeCurrent (h : Header) (c : Cache)
    (start_unscaled length_unscaled : Nat) : Option (Bool × Cache) :=
  if length_unscaled = 0 ∨ start_unscaled ≥ kBufferSize ∨
      sub32 kBufferSize start_unscaled < length_unscaled then
    some (false, c)
  else
    let draw_resolution_scale_area := c.draw_resolution_scale_area
    let start_scaled := u64 (start_unscaled * draw_resolution_scale_area)
    let length_scaled := u64 (length_unscaled * draw_resolution_scale_area)
    let last_scaled := u64 (start_scaled + sub64 length_scaled 1)
    let possible_buffer_indices_first := h.GetPossibleScaledResolveBufferIndices
      c.draw_resolution_scale_x c.draw_resolution_scale_y start_scaled
    let possible_buffer_indices_last := h.GetPossibleScaledResolveBufferIndices
      c.draw_resolution_scale_x c.draw_resolution_scale_y last_scaled
    let possible_buffer_indices_common :=
      possibleBufferIndicesCommon possible_buffer_indices_first possible_buffer_indices_last
    if possible_buffer_indices_common.length = 0 then some (false, c)
    else
      let gigabyte_first := start_scaled >>> 30
      let gigabyte_last := last_scaled >>> 30
      let new_buffer_index := chooseNewBufferIndex c.scaled_resolve_1gb_buffer_indices_
        possible_buffer_indices_common gigabyte_first gigabyte_last
      match c.scaled_resolve_2gb_buffers_ new_buffer_index with
      | none => none
      | some new_buffer =>
        match forLE 64 (makeCurrentBody new_buffer_index new_buffer.resource)
            gigabyte_first gigabyte_last c with
        | .next c1 =>
          some (true, { c1 with
            scaled_resolve_current_range_start_scaled_ := start_scaled
            scaled_resolve_current_range_length_scaled_ := length_scaled })
        | _ => none

/-- Modelled from the spec: `GetScaledResolveBufferCount`, declared in
d3d12_texture_cache.h, which is not part of this file: one buffer per started
gigabyte of the scaled address space. -/
def GetScaledResolveBufferCount (scale_x scale_y : Nat) : Nat :=
  u64 (u64 (kBufferSize * u32 (scale_x * scale_y)) + (2 ^ 30 - 1)) >>> 30

/-- Modelled from the spec: `GetPossibleScaledResolveBufferIndices`, declared
in d3d12_texture_cache.h, which is not part of this file. Buffer `i` starts at
gigabyte `i` and is up to 2 GB long (as the sizes and tile offsets computed in
`EnsureScaledResolveMemoryCommitted` say), so the address in gigabyte `g` can
be reached through buffer `g` and through buffer `g - 1`, both limited to the
last buffer. -/
def possibleScaledResolveBufferIndices (scale_x scale_y address_scaled : Nat) : Nat × Nat :=
  let address_gb := address_scaled >>> 30
  let max_index := sub64 (GetScaledResolveBufferCount scale_x scale_y) 1
  (min address_gb max_index, min (max address_gb 1 - 1) max_index)

/-- Modelled from the spec: the declarations of d3d12_texture_cache.h, which is
not part of this file: 16 MB heap granules (`kScaledResolveHeapSizeLog2` = 24)
and the overlapping 2 GB buffers of `possibleScaledResolveBufferIndices`. -/
def xeniaHeader : Header := ⟨24, possibleScaledResolveBufferIndices⟩

/-- The load mode selection as the specification words it: the signed load mode
for a separate signed texture, else the decompression load mode when the width
or the height is not a multiple of the block size, else the default one. -/
def GetLoadMode_asSpecified (format_info : Fin 64 → FormatInfo) (key : TextureKey) :
    LoadMode :=
  let host_format := host_formats_ key.format
  if key.signed_separate then host_format.load_mode_snorm
  else if ¬ (format_info key.format).block_width ∣ key.GetWidth ∨
      ¬ (format_info key.format).block_height ∣ key.GetHeight then
    host_format.decompress_mode
  else host_format.load_mode

/-- The cache of a draw resolution scale before any scaled-resolve memory is
committed, as `Initialize` leaves it: no buffer, no heap, every gigabyte
unowned (`memset` with `UINT8_MAX`). -/
def Cache.initial (scale_x scale_y : Nat) : Cache :=
  ⟨scale_x, scale_y, fun _ => none, fun _ => none, 0, fun _ => SIZE_MAX, 0, 0, []⟩

/-- The initial cache with every virtual buffer of the scale created. -/
def Cache.withAllBuffers (scale_x scale_y : Nat) : Cache :=
  { Cache.initial scale_x scale_y with
    scaled_resolve_2gb_buffers_ := fun i =>
      if i < GetScaledResolveBufferCount scale_x scale_y then
        some ⟨1000 + i, D3D12_RESOURCE_STATE_UNORDERED_ACCESS, false⟩
      else none }

/-- A device on which every creation succeeds. -/
def Device.succeeding : Device := ⟨fun i => some (1000 + i), fun i => some (2000 + i)⟩

/-- A device on which every creation fails. -/
def Device.failing : Device := ⟨fun _ => none, fun _ => none⟩

/-- What both loops of `EnsureScaledResolveMemoryCommitted` keep: the draw
resolution scale, and every buffer and heap that exists. -/
def CommitStable (c c1 : Cache) : Prop :=
  c1.draw_resolution_scale_x = c.draw_resolution_scale_x ∧
  c1.draw_resolution_scale_y = c.draw_resolution_scale_y ∧
  (∀ j, (c.scaled_resolve_2gb_buffers_ j).isSome → (c1.scaled_resolve_2gb_buffers_ j).isSome) ∧
  (∀ j, (c.scaled_resolve_heaps_ j).isSome → (c1.scaled_resolve_heaps_ j).isSome)

/-- The owner of every gigabyte is `SIZE_MAX` or a buffer that exists. -/
def OwnersCreated (c : Cache) : Prop :=
  ∀ i, c.scaled_resolve_1gb_buffer_indices_ i ≠ SIZE_MAX →
    (c.scaled_resolve_2gb_buffers_ (c.scaled_resolve_1gb_buffer_indices_ i)).isSome


/-! ## The request of `MakeScaledResolveRangeCurrent`, named -/

/-- The local `start_scaled` of `MakeScaledResolveRangeCurrent`. -/
def Cache.start_scaled (c : Cache) (start_unscaled : Nat) : Nat :=
  u64 (start_unscaled * c.draw_resolution_scale_area)

/-- The local `length_scaled` of `MakeScaledResolveRangeCurrent`. -/
def Cache.length_scaled (c : Cache) (length_unscaled : Nat) : Nat :=
  u64 (length_unscaled * c.draw_resolution_scale_area)

/-- The local `last_scaled` of `MakeScaledResolveRangeCurrent`. -/
def Cache.last_scaled (c : Cache) (start_unscaled length_unscaled : Nat) : Nat :=
  u64 (c.start_scaled start_unscaled + sub64 (c.length_scaled length_unscaled) 1)

/-- The local `gigabyte_first` of `MakeScaledResolveRangeCurrent`. -/
def Cache.gigabyte_first (c : Cache) (start_unscaled : Nat) : Nat :=
  c.start_scaled start_unscaled >>> 30

/-- The local `gigabyte_last` of `MakeScaledResolveRangeCurrent`. -/
def Cache.gigabyte_last (c : Cache) (start_unscaled length_unscaled : Nat) : Nat :=
  c.last_scaled start_unscaled length_unscaled >>> 30

/-- The number of ownership units `gigabyte_first ... gigabyte_last` that the
loops of `MakeScaledResolveRangeCurrent` visit. -/
def Cache.gigabyte_count (c : Cache) (start_unscaled length_unscaled : Nat) : Nat :=
  c.gigabyte_last start_unscaled length_unscaled + 1 - c.gigabyte_first start_unscaled

/-- The candidates `possible_buffer_indices_common` of a request. -/
def candidateBuffers (h : Header) (c : Cache) (start_unscaled length_unscaled : Nat) :
    List Nat :=
  possibleBufferIndicesCommon
    (h.GetPossibleScaledResolveBufferIndices c.draw_resolution_scale_x
      c.draw_resolution_scale_y (c.start_scaled start_unscaled))
    (h.GetPossibleScaledResolveBufferIndices c.draw_resolution_scale_x
      c.draw_resolution_scale_y (c.last_scaled start_unscaled length_unscaled))

/-- The `new_buffer_index` that `MakeScaledResolveRangeCurrent` chooses for a
request. -/
def chosenBuffer (h : Header) (c : Cache) (start_unscaled length_unscaled : Nat) : Nat :=
  chooseNewBufferIndex c.scaled_resolve_1gb_buffer_indices_
    (candidateBuffers h c start_unscaled length_unscaled)
    (c.gigabyte_first start_unscaled) (c.gigabyte_last start_unscaled length_unscaled)

/-- The aliasing barrier due for ownership unit `i` when the range moves to buffer
`new_buffer_index`: one barrier from the owner of the unit, if the unit is
owned by another buffer, none if it is unowned (`SIZE_MAX`) or owned by the new
buffer already. -/
def unitBarrier (owners : Nat → Nat) (buffers : Nat → Option ScaledResolveVirtualBuffer)
    (new_buffer_index new_buffer_resource i : Nat) : List DeviceCall :=
  if owners i = new_buffer_index ∨ owners i = SIZE_MAX then []
  else
    match buffers (owners i) with
    | some old => [.PushAliasingBarrier old.resource new_buffer_resource]
    | none => []

/-- The aliasing barriers due for the units `i, ..., i + n - 1`, in order. -/
def unitBarriers (owners : Nat → Nat) (buffers : Nat → Option ScaledResolveVirtualBuffer)
    (new_buffer_index new_buffer_resource : Nat) : Nat → Nat → List DeviceCall
  | 0, _ => []
  | n + 1, i =>
    unitBarrier owners buffers new_buffer_index new_buffer_resource i ++
      unitBarriers owners buffers new_buffer_index new_buffer_resource n (i + 1)

/-- The number of units `i, ..., i + n - 1` owned by a buffer other than
`candidate`. -/
def ownedByOther (owners : Nat → Nat) (candidate : Nat) : Nat → Nat → Nat
  | 0, _ => 0
  | n + 1, i =>
    (if owners i = candidate ∨ owners i = SIZE_MAX then 0 else 1) +
      ownedByOther owners candidate n (i + 1)

/-- The cache with every buffer of the scale created and the given owner
table. -/
def Cache.withOwners (scale_x scale_y : Nat) (owners : Nat → Nat) : Cache :=
  { Cache.withAllBuffers scale_x scale_y with scaled_resolve_1gb_buffer_indices_ := owners }

/-! ## Texture bindings and active keys -/

/-- The `UINT32_MAX` constant, the sentinel of a missing descriptor index. -/
def UINT32_MAX : Nat := 2 ^ 32 - 1

/-- The enumeration `xenos::FetchOpDimension`. -/
inductive FetchOpDimension where
  | k1D | k2D | k3DOrStacked | kCube
  deriving DecidableEq, Repr

/-- The fields of `TextureCache::TextureBinding` read by the code embedded
here; a texture pointer is the identity of the texture, `none` when null. -/
structure TextureBinding where
  key : TextureKey
  host_swizzle : Nat
  swizzled_signs : Nat
  texture : Option Nat
  texture_signed : Option Nat
  deriving DecidableEq, Repr

/-- The stored key `D3D12TextureCache::TextureSRVKey` of an active texture. -/
structure TextureSRVKey where
  key : TextureKey
  host_swizzle : Nat
  swizzled_signs : Nat
  deriving DecidableEq, Repr

/-- The entry `D3D12TextureBinding` of `d3d12_texture_bindings_`. -/
structure D3D12TextureBinding where
  descriptor_index : Nat
  descriptor_index_signed : Nat
  deriving DecidableEq, Repr

/-- The fields of `D3D12Shader::TextureBinding` read by the code embedded
here. -/
structure ShaderTextureBinding where
  fetch_constant : Nat
  dimension : FetchOpDimension
  is_signed : Bool
  deriving DecidableEq, Repr

/-- The enumeration `NullSRVDescriptorIndex` of the null descriptor heap. -/
inductive NullSRVDescriptorIndex where
  | k2DArray | k3D | kCube
  deriving DecidableEq, Repr

/-- What the binding code uses from declarations outside this file: the
predicates `TextureCache::AreDimensionsCompatible`,
`texture_util::IsAnySignSigned` and `texture_util::IsAnySignNotSigned`, and the
three null texture enumerators of `D3D12CommandProcessor::SystemBindlessView`
as 32-bit values. -/
structure BindingDecls where
  AreDimensionsCompatible : FetchOpDimension → DataDimension → Bool
  IsAnySignSigned : Nat → Bool
  IsAnySignNotSigned : Nat → Bool
  kNullTexture2DArray : Nat
  kNullTexture3D : Nat
  kNullTextureCube : Nat

/-- Modelled from the spec: `TextureKey::MakeInvalid`, declared in
texture_cache.h, which is not part of this file: the key is zeroed, so that it
is not valid any more. -/
def TextureKey.MakeInvalid : TextureKey :=
  { format := 0, width_minus_1 := 0, height_minus_1 := 0, signed_separate := false,
    scaled_resolve := false, dimension := DataDimension.k1D,
    depth_or_array_size_minus_1 := 0, mip_max_level := 0, tiled := false, endianness := 0,
    base_page := 0, mip_page := 0, is_valid := false }

/-- Modelled from the spec: `TextureCache::GetValidTextureBinding`, declared in
texture_cache.h, which is not part of this file: the binding of a fetch
constant, null unless the key of the binding is valid. -/
def GetValidTextureBinding (texture_bindings_ : Nat → TextureBinding)
    (fetch_constant_index : Nat) : Option TextureBinding :=
  if (texture_bindings_ fetch_constant_index).key.is_valid then
    some (texture_bindings_ fetch_constant_index)
  else none

/-- Modelled from the spec: the constant `xenos::XE_GPU_TEXTURE_SWIZZLE_0000`
(xenos.h), the swizzle with the constant 0 in every component. -/
def XE_GPU_TEXTURE_SWIZZLE_0000 : Nat := 4 ||| (4 <<< 3) ||| (4 <<< 6) ||| (4 <<< 9)

/-- Modelled from the spec: the constant `kSwizzledSignsUnsigned`
(texture_cache.h), all four components unsigned. -/
def kSwizzledSignsUnsigned : Nat := 0

/-- The iterations `i, i + 1, ...` of the loop of
`AreActiveTextureSRVKeysUpToDate` over the remaining shader bindings. -/
def areKeysUpToDateFrom (texture_bindings_ : Nat → TextureBinding)
    (keys : Nat → TextureSRVKey) : List ShaderTextureBinding → Nat → Bool
  | [], _ => true
  | host_shader_binding :: rest, i =>
    let key := keys i
    match GetValidTextureBinding texture_bindings_ host_shader_binding.fetch_constant with
    | none =>
      if key.key.is_valid then false
      else areKeysUpToDateFrom texture_bindings_ keys rest (i + 1)
    | some binding =>
      if key.key ≠ binding.key ∨ key.host_swizzle ≠ binding.host_swizzle ∨
          key.swizzled_signs ≠ binding.swizzled_signs then false
      else areKeysUpToDateFrom texture_bindings_ keys rest (i + 1)

/-- Embedding of `D3D12TextureCache::AreActiveTextureSRVKeysUpToDate`; the
array `host_shader_bindings` with its count is a list. -/
def AreActiveTextureSRVKeysUpToDate (texture_bindings_ : Nat → TextureBinding)
    (keys : Nat → TextureSRVKey) (host_shader_bindings : List ShaderTextureBinding) : Bool :=
  areKeysUpToDateFrom texture_bindings_ keys host_shader_bindings 0

/-- The iterations `i, i + 1, ...` of the loop of `WriteActiveTextureSRVKeys`
over the remaining shader bindings. -/
def writeKeysFrom (texture_bindings_ : Nat → TextureBinding) :
    List ShaderTextureBinding → Nat → (Nat → TextureSRVKey) → (Nat → TextureSRVKey)
  | [], _, keys => keys
  | host_shader_binding :: rest, i, keys =>
    match GetValidTextureBinding texture_bindings_ host_shader_binding.fetch_constant with
    | none =>
      writeKeysFrom texture_bindings_ rest (i + 1)
        (setAt keys i ⟨TextureKey.MakeInvalid, XE_GPU_TEXTURE_SWIZZLE_0000,
          kSwizzledSignsUnsigned⟩)
    | some binding =>
      writeKeysFrom texture_bindings_ rest (i + 1)
        (setAt keys i ⟨binding.key, binding.host_swizzle, binding.swizzled_signs⟩)

/-- Embedding of `D3D12TextureCache::WriteActiveTextureSRVKeys`: the array
`keys` after the call. -/
def WriteActiveTextureSRVKeys (texture_bindings_ : Nat → TextureBinding)
    (keys : Nat → TextureSRVKey) (host_shader_bindings : List ShaderTextureBinding) :
    Nat → TextureSRVKey :=
  writeKeysFrom texture_bindings_ host_shader_bindings 0 keys

/-- Embedding of `D3D12TextureCache::IsSignedVersionSeparateForFormat`. -/
def IsSignedVersionSeparateForFormat (key : TextureKey) : Bool :=
  let host_format := host_formats_ key.format
  host_format.load_mode_snorm != LoadMode.kUnknown &&
    host_format.load_mode_snorm != host_format.load_mode

/-- The local `descriptor_index` of `GetActiveTextureBindlessSRVIndex` before
the null texture fallback: the cached index of a valid binding of a compatible
dimension, `UINT32_MAX` otherwise. -/
def activeBindlessDescriptorIndex (decls : BindingDecls)
    (texture_bindings_ : Nat → TextureBinding)
    (d3d12_texture_bindings_ : Nat → D3D12TextureBinding)
    (host_shader_binding : ShaderTextureBinding) : Nat :=
  let fetch_constant_index := host_shader_binding.fetch_constant
  match GetValidTextureBinding texture_bindings_ fetch_constant_index with
  | some binding =>
    if decls.AreDimensionsCompatible host_shader_binding.dimension binding.key.dimension then
      let d3d12_binding := d3d12_texture_bindings_ fetch_constant_index
      if host_shader_binding.is_signed then d3d12_binding.descriptor_index_signed
      else d3d12_binding.descriptor_index
    else UINT32_MAX
  | none => UINT32_MAX

/-- Embedding of `D3D12TextureCache::GetActiveTextureBindlessSRVIndex`. -/
def GetActiveTextureBindlessSRVIndex (decls : BindingDecls)
    (texture_bindings_ : Nat → TextureBinding)
    (d3d12_texture_bindings_ : Nat → D3D12TextureBinding)
    (host_shader_binding : ShaderTextureBinding) : Nat :=
  let descriptor_index := activeBindlessDescriptorIndex decls texture_bindings_
    d3d12_texture_bindings_ host_shader_binding
  if descriptor_index = UINT32_MAX then
    match host_shader_binding.dimension with
    | .k3DOrStacked => decls.kNullTexture3D
    | .kCube => decls.kNullTextureCube
    | _ => decls.kNullTexture2DArray
  else descriptor_index

/-- The source descriptor that `WriteActiveTextureBindfulSRV` copies: a cached
texture descriptor or a null descriptor. -/
inductive DescriptorSource where
  /-- The cached descriptor `GetTextureDescriptorCPUHandle(descriptor_index)`. -/
  | descriptor (descriptor_index : Nat)
  /-- The descriptor of the null heap at `null_descriptor_index`. -/
  | null (null_descriptor_index : NullSRVDescriptorIndex)
  deriving DecidableEq, Repr

/-- The effects of `WriteActiveTextureBindfulSRV`: the texture marked as used,
if any, and the source of the `CopyDescriptorsSimple` call. -/
structure BindfulSRVWrite where
  marked_as_used : Option Nat
  source : DescriptorSource
  deriving DecidableEq, Repr

/-- The locals `descriptor_index` and `texture` of
`WriteActiveTextureBindfulSRV` before the null descriptor fallback. -/
def activeBindfulDescriptor (decls : BindingDecls)
    (texture_bindings_ : Nat → TextureBinding)
    (d3d12_texture_bindings_ : Nat → D3D12TextureBinding)
    (host_shader_binding : ShaderTextureBinding) : Nat × Option Nat :=
  let fetch_constant_index := host_shader_binding.fetch_constant
  match GetValidTextureBinding texture_bindings_ fetch_constant_index with
  | some binding =>
    if decls.AreDimensionsCompatible host_shader_binding.dimension binding.key.dimension then
      let d3d12_binding := d3d12_texture_bindings_ fetch_constant_index
      if host_shader_binding.is_signed then
        if decls.IsAnySignSigned binding.swizzled_signs then
          (d3d12_binding.descriptor_index_signed,
            if IsSignedVersionSeparateForFormat binding.key then binding.texture_signed
            else binding.texture)
        else (UINT32_MAX, none)
      else
        if decls.IsAnySignNotSigned binding.swizzled_signs then
          (d3d12_binding.descriptor_index, binding.texture)
        else (UINT32_MAX, none)
    else (UINT32_MAX, none)
  | none => (UINT32_MAX, none)

/-- Embedding of `D3D12TextureCache::WriteActiveTextureBindfulSRV`; `none` when
the texture of a cached descriptor is null (it is dereferenced). -/
def WriteActiveTextureBindfulSRV (decls : BindingDecls)
    (texture_bindings_ : Nat → TextureBinding)
    (d3d12_texture_bindings_ : Nat → D3D12TextureBinding)
    (host_shader_binding : ShaderTextureBinding) : Option BindfulSRVWrite :=
  let found := activeBindfulDescriptor decls texture_bindings_ d3d12_texture_bindings_
    host_shader_binding
  let descriptor_index := found.1
  let texture := found.2
  if descriptor_index ≠ UINT32_MAX then
    match texture with
    | none => none
    | some t => some ⟨some t, .descriptor descriptor_index⟩
  else
    let null_descriptor_index :=
      match host_shader_binding.dimension with
      | .k3DOrStacked => NullSRVDescriptorIndex.k3D
      | .kCube => NullSRVDescriptorIndex.kCube
      | _ => NullSRVDescriptorIndex.k2DArray
    some ⟨none, .null null_descriptor_index⟩

/-- The stored tuple matches the current binding of the slot: equal to the
tuple of the valid binding, or not valid when there is no valid binding. -/
def slotUpToDate (texture_bindings_ : Nat → TextureBinding) (key : TextureSRVKey)
    (host_shader_binding : ShaderTextureBinding) : Prop :=
  match GetValidTextureBinding texture_bindings_ host_shader_binding.fetch_constant with
  | none => key.key.is_valid = false
  | some binding => key = ⟨binding.key, binding.host_swizzle, binding.swizzled_signs⟩

/-- A binding of a 256x256 texture of format `k_8_8_8_8` whose key is valid or
not, with the unsigned texture 1. -/
def TextureBinding.sample (is_valid : Bool) : TextureBinding :=
  ⟨{ TextureKey.ofSize 6 255 255 false with is_valid := is_valid }, 0, 0, some 1, none⟩

/-! ## Textures and the descriptor cache -/

/-- One level of a `texture_util::TextureGuestLayout`: the fields read by the
loader. -/
structure GuestLevel where
  row_pitch_bytes : Nat
  z_slice_stride_block_rows : Nat
  array_slice_stride_bytes : Nat
  x_extent_blocks : Nat
  y_extent_blocks : Nat
  z_extent : Nat
  deriving DecidableEq, Repr

/-- The fields of `texture_util::TextureGuestLayout` read by the loader. -/
structure TextureGuestLayout where
  base : GuestLevel
  mips : Nat → GuestLevel
  packed_level : Nat
  mip_offsets_bytes : Nat → Nat

/-- The key `D3D12Texture::SRVDescriptorKey` of a view of a texture. -/
structure SRVDescriptorKey where
  is_signed : Bool
  host_swizzle : Nat
  deriving DecidableEq, Repr

/-- A `D3D12Texture`: its key, guest layout and guest sizes, its resource (a
handle) with the tracked resource state, the map `srv_descriptors_` from view
keys to descriptor indices (in iteration order), and whether `MarkAsUsed` was
called. -/
structure D3D12Texture where
  key : TextureKey
  guest_layout : TextureGuestLayout
  guest_base_size : Nat
  guest_mips_size : Nat
  resource : Nat
  resource_state : Nat
  srv_descriptors_ : List (SRVDescriptorKey × Nat)
  marked_as_used : Bool

/-- Modelled from the spec: `D3D12Texture::GetSRVDescriptorIndex`, declared in
d3d12_texture_cache.h, which is not part of this file: the index cached for
the view key, `UINT32_MAX` when there is none. -/
def D3D12Texture.GetSRVDescriptorIndex (texture : D3D12Texture)
    (descriptor_key : SRVDescriptorKey) : Nat :=
  match texture.srv_descriptors_.find? (fun p => p.1 = descriptor_key) with
  | some p => p.2
  | none => UINT32_MAX

/-- Modelled from the spec: `D3D12Texture::AddSRVDescriptorIndex`, declared in
d3d12_texture_cache.h, which is not part of this file: the index is recorded
for the view key (`emplace`: a key that is present keeps its index). -/
def D3D12Texture.AddSRVDescriptorIndex (texture : D3D12Texture)
    (descriptor_key : SRVDescriptorKey) (descriptor_index : Nat) : D3D12Texture :=
  if (texture.srv_descriptors_.find? (fun p => p.1 = descriptor_key)).isSome then texture
  else { texture with
    srv_descriptors_ := texture.srv_descriptors_ ++ [(descriptor_key, descriptor_index)] }

/-- The members of `D3D12TextureCache` used by the descriptor resolver, and the
trace of the calls it has made to its collaborators. `srv_descriptor_cache_`
holds the heap of every page; the free list is a vector whose back is the end
of the list. -/
structure DescriptorCache where
  bindless_resources_used_ : Bool
  srv_descriptor_cache_free_ : List Nat
  srv_descriptor_cache_allocated_ : Nat
  srv_descriptor_cache_ : List Nat
  unsupported_format_features_used_ : Fin 64 → Nat
  calls : List DeviceCall

/-- What the descriptor resolver uses from declarations outside this file
(d3d12_texture_cache.h): the descriptor cache page size and the bits of
`unsupported_format_features_used_`. -/
structure DescriptorDecls where
  kSRVDescriptorCachePageSize : Nat
  kUnsupportedUnormBit : Nat
  kUnsupportedSnormBit : Nat

/-- The outcomes of the fallible calls of the descriptor resolver: the index
returned by `RequestPersistentViewBindlessDescriptor` (`UINT32_MAX` when none
is free) and the heap returned by the `CreateDescriptorHeap` call made for
page `i`, `none` when the call `FAILED`. -/
structure DescriptorDevice where
  RequestPersistentViewBindlessDescriptor : Nat
  CreateDescriptorHeap : Nat → Option Nat

/-- The D3D12 constant
`D3D12_SHADER_COMPONENT_MAPPING_ALWAYS_SET_BIT_AVOIDING_ZEROMEM_MISTAKES`. -/
def D3D12_SHADER_COMPONENT_MAPPING_ALWAYS_SET_BIT : Nat := 1 <<< 12

/-- Modelled from the spec: `D3D12TextureCache::GetDXGIUnormFormat`, declared
in d3d12_texture_cache.h, which is not part of this file: the decompressed
host format when decompression is needed, the unsigned host format
otherwise. -/
def GetDXGIUnormFormat (format_info : Fin 64 → FormatInfo) (key : TextureKey) : DXGI_FORMAT :=
  if IsDecompressionNeeded format_info key.format key.GetWidth key.GetHeight then
    (host_formats_ key.format).dxgi_format_uncompressed
  else (host_formats_ key.format).dxgi_format_unorm

/-- Modelled from the spec: `D3D12TextureCache::GetDXGIResourceFormat`,
declared in d3d12_texture_cache.h, which is not part of this file: the
decompressed host format when decompression is needed, the resource format
otherwise. -/
def GetDXGIResourceFormat (format_info : Fin 64 → FormatInfo) (format : Fin 64)
    (width height : Nat) : DXGI_FORMAT :=
  if IsDecompressionNeeded format_info format width height then
    (host_formats_ format).dxgi_format_uncompressed
  else (host_formats_ format).dxgi_format_resource

/-- The view description built by `FindOrCreateTextureDescriptor` for a known
view format. -/
def textureSRVDesc (texture_key : TextureKey) (format : DXGI_FORMAT) (host_swizzle : Nat) :
    SRVDesc :=
  let mip_levels := u32 (texture_key.mip_max_level + 1)
  let mapping := host_swizzle ||| D3D12_SHADER_COMPONENT_MAPPING_ALWAYS_SET_BIT
  match texture_key.dimension with
  | .k1D | .k2DOrStacked =>
    ⟨format, .TEXTURE2DARRAY, mip_levels, some texture_key.GetDepthOrArraySize, mapping⟩
  | .k3D => ⟨format, .TEXTURE3D, mip_levels, none, mapping⟩
  | .kCube => ⟨format, .TEXTURECUBE, mip_levels, none, mapping⟩

/-- The loop `while (srv_descriptor_cache_.size() < cache_pages_needed)` of
`FindOrCreateTextureDescriptor`, with `n` pages still to create: the cache
afterwards and whether every heap was created. -/
def createCachePages (decls : DescriptorDecls) (dev : DescriptorDevice) :
    Nat → DescriptorCache → Bool × DescriptorCache
  | 0, c => (true, c)
  | n + 1, c =>
    match dev.CreateDescriptorHeap c.srv_descriptor_cache_.length with
    | none =>
      (false, { c with
        calls := c.calls ++ [.CreateDescriptorHeap decls.kSRVDescriptorCachePageSize false] })
    | some cache_heap =>
      createCachePages decls dev n { c with
        srv_descriptor_cache_ := c.srv_descriptor_cache_ ++ [cache_heap]
        calls := c.calls ++ [.CreateDescriptorHeap decls.kSRVDescriptorCachePageSize true] }

/-- The allocation of a descriptor index in `FindOrCreateTextureDescriptor`
(the `if (bindless_resources_used_)` statement): the index, `none` when the
function returns `UINT32_MAX` there, and the cache afterwards. -/
def allocateDescriptorIndex (decls : DescriptorDecls) (dev : DescriptorDevice)
    (c : DescriptorCache) : Option Nat × DescriptorCache :=
  if c.bindless_resources_used_ then
    let descriptor_index := dev.RequestPersistentViewBindlessDescriptor
    let c1 : DescriptorCache := { c with
      calls := c.calls ++ [.RequestPersistentViewBindlessDescriptor descriptor_index] }
    if descriptor_index = UINT32_MAX then (none, c1) else (some descriptor_index, c1)
  else
    match c.srv_descriptor_cache_free_.getLast? with
    | some descriptor_index =>
      (some descriptor_index,
        { c with srv_descriptor_cache_free_ := c.srv_descriptor_cache_free_.dropLast })
    | none =>
      let cache_pages_needed :=
        u32 (c.srv_descriptor_cache_allocated_ + decls.kSRVDescriptorCachePageSize) /
          decls.kSRVDescriptorCachePageSize
      match createCachePages decls dev
          (cache_pages_needed - c.srv_descriptor_cache_.length) c with
      | (false, c1) => (none, c1)
      | (true, c1) =>
        (some c1.srv_descriptor_cache_allocated_,
          { c1 with
            srv_descriptor_cache_allocated_ := u32 (c1.srv_descriptor_cache_allocated_ + 1) })

/-- Embedding of `D3D12TextureCache::FindOrCreateTextureDescriptor`: the
returned index, the descriptor cache and the texture afterwards. -/
def FindOrCreateTextureDescriptor (decls : DescriptorDecls)
    (format_info : Fin 64 → FormatInfo) (dev : DescriptorDevice) (c : DescriptorCache)
    (texture : D3D12Texture) (is_signed : Bool) (host_swizzle : Nat) :
    Nat × DescriptorCache × D3D12Texture :=
  let descriptor_key : SRVDescriptorKey := ⟨is_signed, host_swizzle⟩
  let existing_descriptor_index := texture.GetSRVDescriptorIndex descriptor_key
  if existing_descriptor_index ≠ UINT32_MAX then (existing_descriptor_index, c, texture)
  else
    let texture_key := texture.key
    if IsSignedVersionSeparateForFormat texture_key ∧ texture_key.signed_separate ≠ is_signed then
      (UINT32_MAX, c, texture)
    else
      let format := texture_key.format
      let desc_format :=
        if is_signed then (host_formats_ format).dxgi_format_snorm
        else GetDXGIUnormFormat format_info texture_key
      if desc_format = DXGI_FORMAT.UNKNOWN then
        (UINT32_MAX,
          { c with unsupported_format_features_used_ :=
              fun f => if f = format then
                c.unsupported_format_features_used_ f |||
                  (if is_signed then decls.kUnsupportedSnormBit else decls.kUnsupportedUnormBit)
              else c.unsupported_format_features_used_ f },
          texture)
      else
        let desc := textureSRVDesc texture_key desc_format host_swizzle
        match allocateDescriptorIndex decls dev c with
        | (none, c1) => (UINT32_MAX, c1, texture)
        | (some descriptor_index, c1) =>
          (descriptor_index,
            { c1 with calls := c1.calls ++
                [.CreateShaderResourceView texture.resource desc descriptor_index] },
            texture.AddSRVDescriptorIndex descriptor_key descriptor_index)

/-- Embedding of `D3D12TextureCache::ReleaseTextureDescriptor`. -/
def ReleaseTextureDescriptor (c : DescriptorCache) (descriptor_index : Nat) : DescriptorCache :=
  if c.bindless_resources_used_ then
    { c with calls := c.calls ++ [.ReleaseViewBindlessDescriptorImmediately descriptor_index] }
  else
    { c with srv_descriptor_cache_free_ := c.srv_descriptor_cache_free_ ++ [descriptor_index] }

/-- Embedding of the destructor `D3D12Texture::~D3D12Texture`: every
descriptor of the texture is released, in the iteration order of
`srv_descriptors_`. -/
def destroyTexture (c : DescriptorCache) (texture : D3D12Texture) : DescriptorCache :=
  texture.srv_descriptors_.foldl (fun c1 descriptor_pair =>
    ReleaseTextureDescriptor c1 descriptor_pair.2) c

/-- The descriptor map of a texture holds no `UINT32_MAX` index: the sentinel
is never recorded. -/
def D3D12Texture.DescriptorsValid (texture : D3D12Texture) : Prop :=
  ∀ p ∈ texture.srv_descriptors_, p.2 ≠ UINT32_MAX

/-- A sequence of calls of `FindOrCreateTextureDescriptor`, each for its own
texture: the indices returned by the successful creations among them (the
calls that miss the texture's map and return an index other than
`UINT32_MAX`), in order, and the descriptor cache at the end. -/
def createdIndices (decls : DescriptorDecls) (format_info : Fin 64 → FormatInfo)
    (dev : DescriptorDevice) :
    DescriptorCache → List (D3D12Texture × Bool × Nat) → List Nat × DescriptorCache
  | c, [] => ([], c)
  | c, (texture, is_signed, host_swizzle) :: rest =>
    let r := FindOrCreateTextureDescriptor decls format_info dev c texture is_signed host_swizzle
    let rs := createdIndices decls format_info dev r.2.1 rest
    (if texture.GetSRVDescriptorIndex ⟨is_signed, host_swizzle⟩ = UINT32_MAX ∧ r.1 ≠ UINT32_MAX
      then r.1 :: rs.1 else rs.1, rs.2)

/-- A texture of the given key with the given descriptor map, for examples:
resource handle 7, no guest data. -/
def D3D12Texture.sample (key : TextureKey) (srv_descriptors : List (SRVDescriptorKey × Nat)) :
    D3D12Texture :=
  { key := key
    guest_layout := ⟨⟨0, 0, 0, 0, 0, 0⟩, fun _ => ⟨0, 0, 0, 0, 0, 0⟩, 0, fun _ => 0⟩
    guest_base_size := 0
    guest_mips_size := 0
    resource := 7
    resource_state := 0
    srv_descriptors_ := srv_descriptors
    marked_as_used := false }

/-- A bindful descriptor cache with the given free list, allocated count and
pages, for examples. -/
def DescriptorCache.bindful (free : List Nat) (allocated : Nat) (pages : List Nat) :
    DescriptorCache :=
  ⟨false, free, allocated, pages, fun _ => 0, []⟩

/-- A descriptor device on which every heap creation succeeds (page `i` gets
the handle `500 + i`) and the bindless request returns the given index. -/
def DescriptorDevice.succeeding (bindless_index : Nat) : DescriptorDevice :=
  ⟨bindless_index, fun i => some (500 + i)⟩

/-- Example values of the header constants of the descriptor resolver. -/
def DescriptorDecls.sample : DescriptorDecls := ⟨65536, 2, 4⟩

instance (texture : D3D12Texture) : Decidable texture.DescriptorsValid := by
  unfold D3D12Texture.DescriptorsValid
  infer_instance

/-! ## The texture loader: host layout -/

/-- A row of `load_mode_info_`: whether the resolution-scaled shader is present
(not `nullptr`), and the four numbers of the row. -/
structure LoadModeInfo where
  shader_scaled : Bool
  srv_bpe_log2 : Nat
  uav_bpe_log2 : Nat
  guest_x_blocks_per_thread_log2 : Nat
  host_x_blocks_per_thread : Nat
  deriving DecidableEq, Repr

/-- The table `load_mode_info_`, indexed by `LoadMode`; `kUnknown` is past the
end of the table and is never looked up. -/
def load_mode_info_ : LoadMode → LoadModeInfo
  | .k8bpb => ⟨true, 3, 4, 4, 16⟩
  | .k16bpb => ⟨true, 4, 4, 4, 16⟩
  | .k32bpb => ⟨true, 4, 4, 3, 8⟩
  | .k64bpb => ⟨true, 4, 4, 2, 4⟩
  | .k128bpb => ⟨true, 4, 4, 1, 2⟩
  | .kR5G5B5A1ToB5G5R5A1 => ⟨true, 4, 4, 4, 16⟩
  | .kR5G6B5ToB5G6R5 => ⟨true, 4, 4, 4, 16⟩
  | .kR5G5B6ToB5G6R5WithRBGASwizzle => ⟨true, 4, 4, 4, 16⟩
  | .kR4G4B4A4ToB4G4R4A4 => ⟨true, 4, 4, 4, 16⟩
  | .kR10G11B11ToRGBA16 => ⟨true, 4, 4, 3, 8⟩
  | .kR10G11B11ToRGBA16SNorm => ⟨true, 4, 4, 3, 8⟩
  | .kR11G11B10ToRGBA16 => ⟨true, 4, 4, 3, 8⟩
  | .kR11G11B10ToRGBA16SNorm => ⟨true, 4, 4, 3, 8⟩
  | .kDXT1ToRGBA8 => ⟨false, 4, 4, 2, 16⟩
  | .kDXT3ToRGBA8 => ⟨false, 4, 4, 1, 8⟩
  | .kDXT5ToRGBA8 => ⟨false, 4, 4, 1, 8⟩
  | .kDXNToRG8 => ⟨false, 4, 4, 1, 8⟩
  | .kDXT3A => ⟨false, 4, 4, 2, 16⟩
  | .kDXT3AAs1111ToBGRA4 => ⟨false, 4, 4, 2, 16⟩
  | .kDXT5AToR8 => ⟨false, 4, 4, 2, 16⟩
  | .kCTX1 => ⟨false, 4, 4, 2, 16⟩
  | .kDepthUnorm => ⟨true, 4, 4, 3, 8⟩
  | .kDepthFloat => ⟨true, 4, 4, 3, 8⟩
  | .kUnknown => ⟨false, 0, 0, 0, 0⟩

/-- The D3D12 constant `D3D12_TEXTURE_DATA_PITCH_ALIGNMENT`. -/
def D3D12_TEXTURE_DATA_PITCH_ALIGNMENT : Nat := 256

/-- The D3D12 constant `D3D12_TEXTURE_DATA_PLACEMENT_ALIGNMENT`. -/
def D3D12_TEXTURE_DATA_PLACEMENT_ALIGNMENT : Nat := 512

/-- Modelled from the spec: `xe::round_up` of xenia/base/math.h, which is not
part of this file, on `uint32_t` with the default `force_non_zero`: the value
rounded up to a multiple, and the multiple itself for zero. -/
def round_up (value multiple : Nat) : Nat :=
  if value = 0 then multiple else u32 (u32 (value + multiple - 1) / multiple * multiple)

/-- Modelled from the spec: `xe::align` of xenia/base/math.h, which is not part
of this file, on an unsigned type of `bits` bits: the value rounded up to the
alignment, a power of two. -/
def align (bits value alignment : Nat) : Nat :=
  (value + alignment - 1) % 2 ^ bits / alignment * alignment

/-- What the loader uses from outside this file, and the members of the cache
it reads: the guest format table (`FormatInfo::Get`, block sizes and
`bytes_per_block`), `ui::d3d12::util::GetFormatCopyInfo` (copy format, block
width, block height and bytes per block of a resource format),
`texture_util::GetPackedMipOffset`, the thread group constants of the header,
the header of the scaled resolve manager, and the members
`load_pipelines_`, `load_pipelines_scaled_`, `load_root_signature_` and
`bindless_resources_used_`. -/
structure LoadEnv where
  format_info : Fin 64 → FormatInfo
  bytes_per_block : Fin 64 → Nat
  GetFormatCopyInfo : DXGI_FORMAT → DXGI_FORMAT × Nat × Nat × Nat
  GetPackedMipOffset : Nat → Nat → Nat → Fin 64 → Nat → Nat × Nat × Nat
  kLoadGuestXThreadsPerGroupLog2 : Nat
  kLoadGuestYBlocksPerGroupLog2 : Nat
  header : Header
  load_pipelines_ : LoadMode → Option Nat
  load_pipelines_scaled_ : LoadMode → Option Nat
  load_root_signature_ : Nat
  bindless_resources_used_ : Bool

/-- The locals that `LoadTextureDataFromResidentMemoryImpl` computes before the
host layout and does not change afterwards. The `copy_` fields are the outputs
of `GetFormatCopyInfo`. -/
structure LoadLocals where
  load_mode_info : LoadModeInfo
  is_3d : Bool
  width : Nat
  height : Nat
  depth : Nat
  array_size : Nat
  block_width : Nat
  block_height : Nat
  bytes_per_block : Nat
  level_first : Nat
  level_last : Nat
  level_packed : Nat
  level_stored_first : Nat
  level_stored_last : Nat
  texture_resolution_scale_x : Nat
  texture_resolution_scale_y : Nat
  host_copy_format : DXGI_FORMAT
  copy_block_width : Nat
  copy_block_height : Nat
  copy_bytes_per_block : Nat
  deriving DecidableEq, Repr

/-- The locals of `LoadTextureDataFromResidentMemoryImpl` for a texture, a
request and the draw resolution scale of the cache. -/
def loadLocals (env : LoadEnv) (scale_x scale_y : Nat) (texture : D3D12Texture)
    (load_base load_mips : Bool) : LoadLocals :=
  let texture_key := texture.key
  let is_3d := decide (texture_key.dimension = DataDimension.k3D)
  let width := texture_key.GetWidth
  let height := texture_key.GetHeight
  let depth_or_array_size := texture_key.GetDepthOrArraySize
  let guest_format := texture_key.format
  let level_first := if load_base then 0 else 1
  let level_last := if load_mips then texture_key.mip_max_level else 0
  let level_packed := texture.guest_layout.packed_level
  let copy_info := env.GetFormatCopyInfo (GetDXGIResourceFormat env.format_info guest_format
    width height)
  { load_mode_info := load_mode_info_ (GetLoadMode env.format_info texture_key)
    is_3d := is_3d
    width := width
    height := height
    depth := if is_3d then depth_or_array_size else 1
    array_size := if is_3d then 1 else depth_or_array_size
    block_width := (env.format_info guest_format).block_width
    block_height := (env.format_info guest_format).block_height
    bytes_per_block := env.bytes_per_block guest_format
    level_first := level_first
    level_last := level_last
    level_packed := level_packed
    level_stored_first := min level_first level_packed
    level_stored_last := min level_last level_packed
    texture_resolution_scale_x := if texture_key.scaled_resolve then scale_x else 1
    texture_resolution_scale_y := if texture_key.scaled_resolve then scale_y else 1
    host_copy_format := copy_info.1
    copy_block_width := copy_info.2.1
    copy_block_height := copy_info.2.2.1
    copy_bytes_per_block := copy_info.2.2.2 }

/-- The footprint of one slice and its size, as both branches of the host
layout compute them from the unscaled width, height and depth of what is
loaded, placed at the given offset. -/
def hostSliceLayout (l : LoadLocals) (offset width height depth : Nat) : HostFootprint × Nat :=
  let footprint_width :=
    round_up (u32 (width * l.texture_resolution_scale_x)) l.copy_block_width
  let footprint_height :=
    round_up (u32 (height * l.texture_resolution_scale_y)) l.copy_block_height
  let row_pitch := align 32
    (u32 (round_up (footprint_width / l.copy_block_width)
      (u32 (l.load_mode_info.host_x_blocks_per_thread * l.texture_resolution_scale_x)) *
      l.copy_bytes_per_block))
    D3D12_TEXTURE_DATA_PITCH_ALIGNMENT
  (⟨offset, l.host_copy_format, footprint_width, footprint_height, depth, row_pitch⟩,
    align 64 (u64 (row_pitch * (footprint_height / l.copy_block_height) * depth))
      D3D12_TEXTURE_DATA_PLACEMENT_ALIGNMENT)

/-- The footprint and the size of a base slice placed at an offset. -/
def hostSliceLayoutBase (l : LoadLocals) (guest_layout : TextureGuestLayout) (offset : Nat) :
    HostFootprint × Nat :=
  if l.level_packed = 0 then
    hostSliceLayout l offset (u32 (guest_layout.base.x_extent_blocks * l.block_width))
      (u32 (guest_layout.base.y_extent_blocks * l.block_height)) guest_layout.base.z_extent
  else hostSliceLayout l offset l.width l.height l.depth

/-- The footprint and the size of a slice of a stored mip level placed at an
offset. -/
def hostSliceLayoutMip (l : LoadLocals) (guest_layout : TextureGuestLayout) (level offset : Nat) :
    HostFootprint × Nat :=
  if level = l.level_packed then
    hostSliceLayout l offset (u32 ((guest_layout.mips level).x_extent_blocks * l.block_width))
      (u32 ((guest_layout.mips level).y_extent_blocks * l.block_height))
      (guest_layout.mips level).z_extent
  else
    hostSliceLayout l offset (max (l.width >>> level) 1) (max (l.height >>> level) 1)
      (max (l.depth >>> level) 1)

/-- The host layout: the `UINT64` size `copy_buffer_size`, the base footprint
with its slice size, and the array of the mip footprints with their slice
sizes; `none` is a local or an array entry that was not written. -/
structure HostLayout where
  copy_buffer_size : Nat
  base : Option (HostFootprint × Nat)
  mips : Nat → Option (HostFootprint × Nat)

/-- The iterations `level, level + 1, ...` (`n` of them) of the loop over the
stored mip levels in the host layout block. -/
def hostLayoutMips (l : LoadLocals) (guest_layout : TextureGuestLayout) :
    Nat → Nat → HostLayout → HostLayout
  | 0, _, layout => layout
  | n + 1, level, layout =>
    let host_slice_layout_mip := hostSliceLayoutMip l guest_layout level layout.copy_buffer_size
    hostLayoutMips l guest_layout n (level + 1)
      { layout with
        mips := setAt layout.mips level (some host_slice_layout_mip)
        copy_buffer_size :=
          u64 (layout.copy_buffer_size + u64 (host_slice_layout_mip.2 * l.array_size)) }

/-- The host layout block of `LoadTextureDataFromResidentMemoryImpl` (the block
that follows `UINT64 copy_buffer_size = 0`). The levels are bounded by the
4-bit `mip_max_level`, so the `uint32_t` level counter does not wrap. -/
def hostLayout (l : LoadLocals) (guest_layout : TextureGuestLayout) : HostLayout :=
  let layout0 : HostLayout := ⟨0, none, fun _ => none⟩
  let layout1 : HostLayout :=
    if l.level_first = 0 then
      let host_slice_layout_base := hostSliceLayoutBase l guest_layout layout0.copy_buffer_size
      { layout0 with
        base := some host_slice_layout_base
        copy_buffer_size :=
          u64 (layout0.copy_buffer_size + u64 (host_slice_layout_base.2 * l.array_size)) }
    else layout0
  if l.level_last ≠ 0 then
    hostLayoutMips l guest_layout (l.level_stored_last + 1 - l.level_stored_first)
      l.level_stored_first layout1
  else layout1

/-! ## The texture loader -/

/-- The D3D12 constant `D3D12_RESOURCE_STATE_NON_PIXEL_SHADER_RESOURCE`. -/
def D3D12_RESOURCE_STATE_NON_PIXEL_SHADER_RESOURCE : Nat := 0x40

/-- The D3D12 constant `D3D12_RESOURCE_STATE_COPY_DEST`. -/
def D3D12_RESOURCE_STATE_COPY_DEST : Nat := 0x400

/-- The D3D12 constant `D3D12_RESOURCE_STATE_COPY_SOURCE`. -/
def D3D12_RESOURCE_STATE_COPY_SOURCE : Nat := 0x800

/-- The outcomes of the fallible calls of the loader: the scratch buffer
returned for a size (`none` is `nullptr`), whether the request of a number of
one-use descriptors succeeds, and whether the constant buffer request made for
a loop level and a slice returns a mapping. -/
structure LoadDevice where
  RequestScratchGPUBuffer : Nat → Option Nat
  RequestOneUseSingleViewDescriptors : Nat → Bool
  RequestConstantBuffer : Nat → Nat → Bool

/-- The cache with more calls recorded. -/
def Cache.record (c : Cache) (calls : List DeviceCall) : Cache :=
  { c with calls := c.calls ++ calls }

/-- Modelled from the spec: `ScaledResolveVirtualBuffer::SetResourceState`,
declared in d3d12_texture_cache.h, which is not part of this file: the state
is replaced, a pending UAV barrier is dropped when the old state was
`UNORDERED_ACCESS`, and the old state is returned. -/
def ScaledResolveVirtualBuffer.SetResourceState (buffer : ScaledResolveVirtualBuffer)
    (new_state : Nat) : Nat × ScaledResolveVirtualBuffer :=
  (buffer.resource_state,
    { buffer with
      resource_state := new_state
      uav_barrier_pending :=
        if buffer.resource_state = D3D12_RESOURCE_STATE_UNORDERED_ACCESS then false
        else buffer.uav_barrier_pending })

/-- Modelled from the spec: `GetCurrentScaledResolveBufferIndex`, declared in
d3d12_texture_cache.h, which is not part of this file: the owner of the
gigabyte in which the current range starts. -/
def Cache.GetCurrentScaledResolveBufferIndex (c : Cache) : Nat :=
  c.scaled_resolve_1gb_buffer_indices_ (c.scaled_resolve_current_range_start_scaled_ >>> 30)

/-- Embedding of `D3D12TextureCache::TransitionCurrentScaledResolveRange`,
`none` when the current buffer is null. -/
def TransitionCurrentScaledResolveRange (c : Cache) (new_state : Nat) : Option Cache :=
  match c.scaled_resolve_2gb_buffers_ c.GetCurrentScaledResolveBufferIndex with
  | none => none
  | some buffer =>
    some ({ c with
      scaled_resolve_2gb_buffers_ := setAt c.scaled_resolve_2gb_buffers_
        c.GetCurrentScaledResolveBufferIndex (some (buffer.SetResourceState new_state).2) }.record
      [.PushTransitionBarrier buffer.resource (buffer.SetResourceState new_state).1 new_state])

/-- Embedding of `D3D12TextureCache::CreateCurrentScaledResolveRangeUintPow2SRV`
for the descriptor with the given place in `descriptors_allocated`, `none`
when the current buffer is null. -/
def CreateCurrentScaledResolveRangeUintPow2SRV (c : Cache) (handle element_size_bytes_pow2 : Nat) :
    Option Cache :=
  let buffer_index := c.GetCurrentScaledResolveBufferIndex
  match c.scaled_resolve_2gb_buffers_ buffer_index with
  | none => none
  | some buffer =>
    some (c.record [.CreateBufferTypedSRV handle buffer.resource element_size_bytes_pow2
      (u32 (c.scaled_resolve_current_range_length_scaled_ >>> element_size_bytes_pow2))
      (sub64 c.scaled_resolve_current_range_start_scaled_ (u64 (buffer_index <<< 30)) >>>
        element_size_bytes_pow2)])

/-- Modelled from the spec: `LoadModeInfo::GetGuestXBlocksPerGroupLog2`,
declared in d3d12_texture_cache.h, which is not part of this file: the threads
of a group along X times the blocks of a thread, as logarithms. -/
def LoadModeInfo.GetGuestXBlocksPerGroupLog2 (env : LoadEnv) (info : LoadModeInfo) : Nat :=
  env.kLoadGuestXThreadsPerGroupLog2 + info.guest_x_blocks_per_thread_log2

/-- The locals that the dispatch loop of the loader changes: the cache (with
the recorded calls), the next place in `descriptors_allocated`, the flag
`scaled_mips_source_set_up` and `load_constants`. -/
structure LoadState where
  cache : Cache
  descriptor_write_index : Nat
  scaled_mips_source_set_up : Bool
  load_constants : LoadConstants

/-- The state with more calls recorded. -/
def LoadState.record (s : LoadState) (calls : List DeviceCall) : LoadState :=
  { s with cache := s.cache.record calls }

/-- One iteration of the loop over the slices of a dispatched level. -/
def loadSliceBody (dev : LoadDevice) (copy_buffer loop_level group_count_x group_count_y
    guest_slice_stride host_slice_size : Nat) (slice : Nat) (s : LoadState) : Flow LoadState :=
  if dev.RequestConstantBuffer loop_level slice then
    .next { (s.record [.RequestConstantBuffer true,
        .D3DSetComputeRootConstantBufferView 0 s.load_constants, .SubmitBarriers,
        .D3DDispatch group_count_x group_count_y s.load_constants.size_blocks_2]) with
      load_constants := { s.load_constants with
        guest_offset := u32 (s.load_constants.guest_offset + guest_slice_stride)
        host_offset := u32 (s.load_constants.host_offset + host_slice_size) } }
  else
    .return_false (s.record [.RequestConstantBuffer false,
      .ReleaseScratchGPUBuffer copy_buffer D3D12_RESOURCE_STATE_UNORDERED_ACCESS])

/-- The set-up of the base or mips source of a resolution-scaled texture in
the dispatch loop (the body of
`if (texture_resolution_scaled && (is_base || !scaled_mips_source_set_up))`). -/
def loadScaledSource (env : LoadEnv) (l : LoadLocals) (texture : D3D12Texture)
    (copy_buffer : Nat) (is_base : Bool) (guest_address : Nat) (s : LoadState) :
    Flow LoadState :=
  let guest_size_unscaled :=
    if is_base then texture.guest_base_size else texture.guest_mips_size
  match MakeScaledResolveRangeCurrent env.header s.cache guest_address guest_size_unscaled with
  | none => .undefined
  | some (false, c1) =>
    .return_false { s with
      cache := c1.record
        [.MakeScaledResolveRangeCurrent guest_address guest_size_unscaled false,
          .ReleaseScratchGPUBuffer copy_buffer D3D12_RESOURCE_STATE_UNORDERED_ACCESS] }
  | some (true, c1) =>
    match TransitionCurrentScaledResolveRange
        (c1.record [.MakeScaledResolveRangeCurrent guest_address guest_size_unscaled true])
        D3D12_RESOURCE_STATE_NON_PIXEL_SHADER_RESOURCE with
    | none => .undefined
    | some c2 =>
      match CreateCurrentScaledResolveRangeUintPow2SRV c2 s.descriptor_write_index
          l.load_mode_info.srv_bpe_log2 with
      | none => .undefined
      | some c3 =>
        .next { s with
          cache := c3.record [.D3DSetComputeRootDescriptorTable 1
            (.allocated s.descriptor_write_index)]
          descriptor_write_index := s.descriptor_write_index + 1
          scaled_mips_source_set_up := if is_base then s.scaled_mips_source_set_up else true }

/-- The number of thread groups along an axis of a dispatch of the loader,
`(size_blocks + ((UINT32_C(1) << log2) - 1)) >> log2` in `uint32_t`, for the
blocks to load along the axis and the logarithm of the blocks that one group
covers. -/
def loadGroupCount (size_blocks blocks_per_group_log2 : Nat) : Nat :=
  u32 (size_blocks + sub32 (u32 (1 <<< blocks_per_group_log2)) 1) >>> blocks_per_group_log2

/-- One iteration of the dispatch loop of the loader, for the loop counter
`loop_level`. -/
def loadLevelBody (env : LoadEnv) (dev : LoadDevice) (l : LoadLocals) (texture : D3D12Texture)
    (layout : HostLayout) (copy_buffer : Nat) (loop_level : Nat) (s : LoadState) :
    Flow LoadState :=
  let texture_key := texture.key
  let guest_layout := texture.guest_layout
  let is_base := decide (loop_level = 0)
  let level := if l.level_packed = 0 then 0 else loop_level
  let guest_address :=
    u32 ((if is_base then texture_key.base_page else texture_key.mip_page) <<< 12)
  let scale_area := u32 (l.texture_resolution_scale_x * l.texture_resolution_scale_y)
  match (if texture_key.scaled_resolve ∧ (is_base ∨ ¬ s.scaled_mips_source_set_up) then
      loadScaledSource env l texture copy_buffer is_base guest_address s else .next s) with
  | .undefined => .undefined
  | .return_false s1 => .return_false s1
  | .next s1 =>
    let guest_offset_source := if texture_key.scaled_resolve then 0 else guest_address
    let guest_offset :=
      if is_base then guest_offset_source
      else u32 (guest_offset_source + u32 (guest_layout.mip_offsets_bytes level * scale_area))
    let level_guest_layout := if is_base then guest_layout.base else guest_layout.mips level
    let level_guest_pitch :=
      if texture_key.tiled then level_guest_layout.row_pitch_bytes / l.bytes_per_block
      else level_guest_layout.row_pitch_bytes
    let level_width :=
      if level = l.level_packed then u32 (level_guest_layout.x_extent_blocks * l.block_width)
      else max (l.width >>> level) 1
    let level_height :=
      if level = l.level_packed then u32 (level_guest_layout.y_extent_blocks * l.block_height)
      else max (l.height >>> level) 1
    let level_depth :=
      if level = l.level_packed then level_guest_layout.z_extent
      else max (l.depth >>> level) 1
    let size_blocks_0 := u32 (u32 (level_width + sub32 l.block_width 1) / l.block_width *
      l.texture_resolution_scale_x)
    let size_blocks_1 := u32 (u32 (level_height + sub32 l.block_height 1) / l.block_height *
      l.texture_resolution_scale_y)
    let guest_x_blocks_per_group_log2 := l.load_mode_info.GetGuestXBlocksPerGroupLog2 env
    let group_count_x := loadGroupCount size_blocks_0 guest_x_blocks_per_group_log2
    let group_count_y := loadGroupCount size_blocks_1 env.kLoadGuestYBlocksPerGroupLog2
    match (if is_base then layout.base else layout.mips level) with
    | none => .undefined
    | some host_slice_layout =>
      loopFrom
        (loadSliceBody dev copy_buffer loop_level group_count_x group_count_y
          (u32 (level_guest_layout.array_slice_stride_bytes * scale_area))
          (u32 host_slice_layout.2))
        l.array_size 0
        { s1 with load_constants := { s1.load_constants with
            guest_offset := guest_offset
            guest_pitch_aligned := level_guest_pitch
            guest_z_stride_block_rows_aligned := level_guest_layout.z_slice_stride_block_rows
            size_blocks_0 := size_blocks_0
            size_blocks_1 := size_blocks_1
            size_blocks_2 := level_depth
            height_texels := level_height
            host_offset := u32 host_slice_layout.1.Offset
            host_pitch := host_slice_layout.1.RowPitch } }

/-- The loop over the slices of a copied level: `n` more slices, the next
destination subresource and source footprint. -/
def copySlices (texture_level_count host_slice_size : Nat) (source_box : Option Box) :
    Nat → Nat → HostFootprint → Cache → Cache
  | 0, _, _, c => c
  | n + 1, dest_subresource, source, c =>
    copySlices texture_level_count host_slice_size source_box n
      (u32 (dest_subresource + texture_level_count))
      { source with Offset := u64 (source.Offset + host_slice_size) }
      (c.record [.D3DCopyTextureRegion dest_subresource source source_box])

/-- One iteration of the copy loop of the loader, for a mip level. -/
def copyLevelBody (env : LoadEnv) (l : LoadLocals) (texture : D3D12Texture)
    (layout : HostLayout) (host_block_width host_block_height : Nat) (level : Nat) (c : Cache) :
    Flow Cache :=
  let guest_level := min level l.level_packed
  let source_box : Option Box :=
    if level ≥ l.level_packed then
      let level_offset := env.GetPackedMipOffset l.width l.height l.depth texture.key.format level
      let left := u32 (level_offset.1 * l.block_width)
      let top := u32 (level_offset.2.1 * l.block_height)
      let front := level_offset.2.2
      some ⟨left, top, front,
        u32 (left + align 32 (max (l.width >>> level) 1) host_block_width),
        u32 (top + align 32 (max (l.height >>> level) 1) host_block_height),
        u32 (front + max (l.depth >>> level) 1)⟩
    else none
  match (if level ≠ 0 then layout.mips guest_level else layout.base) with
  | none => .undefined
  | some host_slice_layout =>
    .next (copySlices (u32 (texture.key.mip_max_level + 1)) host_slice_layout.2 source_box
      l.array_size level host_slice_layout.1 c)

/-- The locals changed by the dispatch loop as they are when the loop starts:
the source descriptor of an unscaled texture has been set up (after the
destination descriptor, whose calls are recorded in `c` already), and
`is_tiled_3d_endian_scale` has been written. -/
def loadInitialState (env : LoadEnv) (l : LoadLocals) (texture : D3D12Texture) (c : Cache) :
    LoadState :=
  let texture_key := texture.key
  let is_tiled_3d_endian_scale :=
    (if texture_key.tiled then 1 else 0) ||| ((if l.is_3d then 1 else 0) <<< 1) |||
    u32 (texture_key.endianness <<< 2) ||| u32 (l.texture_resolution_scale_x <<< 4) |||
    u32 (l.texture_resolution_scale_y <<< 6)
  let load_constants : LoadConstants := ⟨is_tiled_3d_endian_scale, 0, 0, 0, 0, 0, 0, 0, 0, 0⟩
  if texture_key.scaled_resolve then ⟨c, 1, false, load_constants⟩
  else if env.bindless_resources_used_ then
    ⟨c.record [.UseForReading,
      .D3DSetComputeRootDescriptorTable 1
        (.sharedMemoryBindless l.load_mode_info.srv_bpe_log2)],
      1, false, load_constants⟩
  else
    ⟨c.record [.UseForReading,
      .WriteUintPow2SRVDescriptor 1 l.load_mode_info.srv_bpe_log2,
      .D3DSetComputeRootDescriptorTable 1 (.allocated 1)],
      2, false, load_constants⟩

/-- The first loop counter of the dispatch loop. -/
def LoadLocals.loop_level_first (l : LoadLocals) : Nat :=
  if l.level_packed = 0 then (if l.level_first ≠ 0 then 1 else 0) else l.level_stored_first

/-- The last loop counter of the dispatch loop. -/
def LoadLocals.loop_level_last (l : LoadLocals) : Nat :=
  if l.level_packed = 0 then (if l.level_last ≠ 0 then 1 else 0) else l.level_stored_last

/-- The part of `LoadTextureDataFromResidentMemoryImpl` from the dispatch loop
to the end: the dispatch loop, the transition of the texture and of the
scratch buffer, the copy loop and the release of the scratch buffer. -/
def loadDispatchAndCopy (env : LoadEnv) (dev : LoadDevice) (l : LoadLocals)
    (texture : D3D12Texture) (layout : HostLayout)
    (copy_buffer host_block_width host_block_height : Nat) (s0 : LoadState) :
    Option (Bool × Cache × D3D12Texture) :=
  match loopFrom (loadLevelBody env dev l texture layout copy_buffer)
      (l.loop_level_last + 1 - l.loop_level_first) l.loop_level_first s0 with
  | .undefined => none
  | .return_false s1 => some (false, s1.cache, texture)
  | .next s1 =>
    match loopFrom (copyLevelBody env l texture layout host_block_width host_block_height)
        (l.level_last + 1 - l.level_first) l.level_first
        (s1.cache.record [.MarkAsUsed texture.resource,
          .PushTransitionBarrier texture.resource texture.resource_state
            D3D12_RESOURCE_STATE_COPY_DEST,
          .PushTransitionBarrier copy_buffer D3D12_RESOURCE_STATE_UNORDERED_ACCESS
            D3D12_RESOURCE_STATE_COPY_SOURCE,
          .SubmitBarriers]) with
    | .next c4 =>
      some (true,
        c4.record [.ReleaseScratchGPUBuffer copy_buffer D3D12_RESOURCE_STATE_COPY_SOURCE],
        { texture with
          marked_as_used := true
          resource_state := D3D12_RESOURCE_STATE_COPY_DEST })
    | _ => none

/-- The number of one-use descriptors that the loader requests: one for the
destination, and for the source one or two of the scaled resolve buffers, or
one of the shared memory unless the resources are bindless. -/
def loadDescriptorCount (env : LoadEnv) (l : LoadLocals) (texture : D3D12Texture) : Nat :=
  if texture.key.scaled_resolve then
    1 + (if l.level_first = 0 ∧ l.level_last ≠ 0 then 2 else 1)
  else if ¬ env.bindless_resources_used_ then 2 else 1

/-- Embedding of `D3D12TextureCache::LoadTextureDataFromResidentMemoryImpl`:
the returned `bool`, the cache (with the calls recorded) and the texture
afterwards; `none` when the call reads a footprint that was not written or
dereferences a null buffer. The descriptors allocated for the load are named
by their place in `descriptors_allocated`. The levels are bounded by the 4-bit
`mip_max_level`, so the `uint32_t` level counters do not wrap. -/
def LoadTextureDataFromResidentMemoryImpl (env : LoadEnv) (dev : LoadDevice) (c : Cache)
    (texture : D3D12Texture) (load_base load_mips : Bool) :
    Option (Bool × Cache × D3D12Texture) :=
  let texture_key := texture.key
  let load_mode := GetLoadMode env.format_info texture_key
  if load_mode = LoadMode.kUnknown then some (false, c, texture)
  else
    match (if texture_key.scaled_resolve then env.load_pipelines_scaled_ load_mode
        else env.load_pipelines_ load_mode) with
    | none => some (false, c, texture)
    | some pipeline =>
      let l := loadLocals env c.draw_resolution_scale_x c.draw_resolution_scale_y texture
        load_base load_mips
      let layout := hostLayout l texture.guest_layout
      let copy_buffer_state := D3D12_RESOURCE_STATE_UNORDERED_ACCESS
      match dev.RequestScratchGPUBuffer (u32 layout.copy_buffer_size) with
      | none =>
        some (false,
          c.record [.RequestScratchGPUBuffer (u32 layout.copy_buffer_size) copy_buffer_state
            false],
          texture)
      | some copy_buffer =>
        let block_aligned : Bool :=
          (host_formats_ texture_key.format).dxgi_format_block_aligned &&
            !IsDecompressionNeeded env.format_info texture_key.format l.width l.height
        let host_block_width := if block_aligned then l.block_width else 1
        let host_block_height := if block_aligned then l.block_height else 1
        let descriptor_count := loadDescriptorCount env l texture
        if dev.RequestOneUseSingleViewDescriptors descriptor_count = false then
          some (false,
            c.record [.RequestScratchGPUBuffer (u32 layout.copy_buffer_size) copy_buffer_state
                true,
              .RequestOneUseSingleViewDescriptors descriptor_count false,
              .ReleaseScratchGPUBuffer copy_buffer copy_buffer_state],
            texture)
        else
          loadDispatchAndCopy env dev l texture layout copy_buffer host_block_width
            host_block_height
            (loadInitialState env l texture
              (c.record [.RequestScratchGPUBuffer (u32 layout.copy_buffer_size)
                  copy_buffer_state true,
                .RequestOneUseSingleViewDescriptors descriptor_count true,
                .SetExternalPipeline pipeline,
                .D3DSetComputeRootSignature env.load_root_signature_,
                .CreateBufferTypedUAV 0 copy_buffer l.load_mode_info.uav_bpe_log2
                  (u32 layout.copy_buffer_size >>> l.load_mode_info.uav_bpe_log2),
                .D3DSetComputeRootDescriptorTable 2 (.allocated 0)]))

/-! ## Example environments of the loader -/

/-- The calls `D3DDispatch` recorded in a trace: their number. -/
def dispatchCount (calls : List DeviceCall) : Nat :=
  calls.countP (fun call => match call with
    | .D3DDispatch _ _ _ => true
    | _ => false)

/-- The calls `D3DCopyTextureRegion` recorded in a trace: their number. -/
def copyRegionCount (calls : List DeviceCall) : Nat :=
  calls.countP (fun call => match call with
    | .D3DCopyTextureRegion _ _ _ => true
    | _ => false)

/-- The `host_offset` of the constants of every dispatch of a trace, in
order. -/
def dispatchHostOffsets (calls : List DeviceCall) : List Nat :=
  calls.filterMap (fun call => match call with
    | .D3DSetComputeRootConstantBufferView _ constants => some constants.host_offset
    | _ => none)

/-- The offset of the source footprint of every copy of a trace, in order. -/
def copySourceOffsets (calls : List DeviceCall) : List Nat :=
  calls.filterMap (fun call => match call with
    | .D3DCopyTextureRegion _ source _ => some source.Offset
    | _ => none)

/-- The slice size of the footprint that the dispatch loop uses for a loop
counter: the base for 0, otherwise the stored mip level; 0 when it was not
written. -/
def dispatchedSliceSize (l : LoadLocals) (layout : HostLayout) (loop_level : Nat) : Nat :=
  match (if loop_level = 0 then layout.base
    else layout.mips (if l.level_packed = 0 then 0 else loop_level)) with
  | some host_slice_layout => host_slice_layout.2
  | none => 0

/-- The sum, over the levels that the dispatch loop loads into the scratch
buffer and over the array slices, of the slice sizes of their footprints. -/
def dispatchedFootprintBytes (l : LoadLocals) (layout : HostLayout) : Nat :=
  ((List.range (l.loop_level_last + 1 - l.loop_level_first)).map (fun i =>
    dispatchedSliceSize l layout (l.loop_level_first + i) * l.array_size)).sum

/-- Example values of what the loader uses from outside this file, for the
formats of the examples (`k_8_8_8_8`, 4 bytes per texel, and `k_DXT1`, 4x4
blocks of 8 bytes): the compute pipelines exist for every load mode, the
resolution-scaled ones for the modes whose row of `load_mode_info_` has a scaled
shader, as `Initialize` creates them. -/
def LoadEnv.sample (bindless_resources_used : Bool) : LoadEnv :=
  { format_info := xenosFormatInfo
    bytes_per_block := fun format => if format.val = 18 then 8 else 4
    GetFormatCopyInfo := fun format =>
      if format = DXGI_FORMAT.BC1_UNORM then (format, 4, 4, 8) else (format, 1, 1, 4)
    GetPackedMipOffset := fun _ _ _ _ _ => (0, 0, 0)
    kLoadGuestXThreadsPerGroupLog2 := 2
    kLoadGuestYBlocksPerGroupLog2 := 5
    header := xeniaHeader
    load_pipelines_ := fun load_mode =>
      if load_mode = LoadMode.kUnknown then none else some (100 + load_mode.toCtorIdx)
    load_pipelines_scaled_ := fun load_mode =>
      if (load_mode_info_ load_mode).shader_scaled then some (200 + load_mode.toCtorIdx)
      else none
    load_root_signature_ := 50
    bindless_resources_used_ := bindless_resources_used }

/-- A loader device on which every request succeeds; the scratch buffer has
the handle 900. -/
def LoadDevice.succeeding : LoadDevice := ⟨fun _ => some 900, fun _ => true, fun _ _ => true⟩

/-- A 64x64 `k_8_8_8_8` texture with three mip levels whose packed mip tail
starts at level 2, with the guest layout of such a texture: linear rows of 256,
128 and 128 bytes, and a tail of 32x16 blocks. -/
def D3D12Texture.sampleMips : D3D12Texture :=
  { key :=
      { format := 6, width_minus_1 := 63, height_minus_1 := 63, signed_separate := false
        mip_max_level := 2
        base_page := 16
        mip_page := 32 }
    guest_layout :=
      { base := ⟨256, 64, 16384, 64, 64, 1⟩
        mips := fun level =>
          if level = 1 then ⟨128, 32, 4096, 32, 32, 1⟩ else ⟨128, 32, 4096, 32, 16, 1⟩
        packed_level := 2
        mip_offsets_bytes := fun level => if level ≤ 1 then 0 else 4096 }
    guest_base_size := 16384
    guest_mips_size := 8192
    resource := 7
    resource_state := D3D12_RESOURCE_STATE_NON_PIXEL_SHADER_RESOURCE
    srv_descriptors_ := []
    marked_as_used := false }

/-- A 256x256 `k_DXT1` texture with a single mip level and the given number of
array slices (minus one), with the guest layout of such a texture. -/
def D3D12Texture.sampleDXT1 (array_size_minus_1 : Nat) : D3D12Texture :=
  { key :=
      { format := 18, width_minus_1 := 255, height_minus_1 := 255, signed_separate := false
        depth_or_array_size_minus_1 := array_size_minus_1
        base_page := 16 }
    guest_layout :=
      { base := ⟨512, 64, 32768, 64, 64, 1⟩
        mips := fun _ => ⟨0, 0, 0, 0, 0, 0⟩
        packed_level := 4
        mip_offsets_bytes := fun _ => 0 }
    guest_base_size := 32768 * (array_size_minus_1 + 1)
    guest_mips_size := 0
    resource := 7
    resource_state := D3D12_RESOURCE_STATE_NON_PIXEL_SHADER_RESOURCE
    srv_descriptors_ := []
    marked_as_used := false }

/-- The bytes that `n` stored mip levels from `level` on take in the scratch
buffer, all array slices included, as a sum of natural numbers. -/
def mipsBytes (l : LoadLocals) (guest_layout : TextureGuestLayout) : Nat → Nat → Nat
  | 0, _ => 0
  | n + 1, level =>
    (hostSliceLayoutMip l guest_layout level 0).2 * l.array_size +
      mipsBytes l guest_layout n (level + 1)

/-- The bytes that the footprints written by the host layout take in the
scratch buffer, all array slices included, as a sum of natural numbers: what
`copy_buffer_size` holds as long as the `UINT64` does not wrap. -/
def hostLayoutTotal (l : LoadLocals) (guest_layout : TextureGuestLayout) : Nat :=
  (if l.level_first = 0 then (hostSliceLayoutBase l guest_layout 0).2 * l.array_size else 0) +
  (if l.level_last ≠ 0 then
    mipsBytes l guest_layout (l.level_stored_last + 1 - l.level_stored_first)
      l.level_stored_first
   else 0)

/-- The footprint written by the host layout for a slot: the base (`none`) or
a stored mip level. -/
def HostLayout.placed (layout : HostLayout) : Option Nat → Option (HostFootprint × Nat)
  | none => layout.base
  | some level => layout.mips level

/-- The footprints written so far are placed and sized in multiples of the
placement alignment, and so is the running size. -/
def HostLayout.Aligned (layout : HostLayout) : Prop :=
  512 ∣ layout.copy_buffer_size ∧
  ∀ (slot : Option Nat) (f : HostFootprint × Nat),
    layout.placed slot = some f → 512 ∣ f.1.Offset ∧ 512 ∣ f.2

/-! ## Reading the trace of the loader -/

/-- The state in which one iteration of a loop body, or a whole loop, ends,
whether it fell through or returned false; `none` when it is undefined. -/
def Flow.state? {σ : Type} : Flow σ → Option σ
  | .next s => some s
  | .return_false s => some s
  | .undefined => none

/-- The trace `calls1` continues the trace `calls` with calls that all
satisfy `P`. -/
def CallsExtend (P : DeviceCall → Prop) (calls calls1 : List DeviceCall) : Prop :=
  ∃ new, calls1 = calls ++ new ∧ ∀ x ∈ new, P x

/-- The calls of the loader to `MakeScaledResolveRangeCurrent` recorded in a
trace, in order: start, length and returned `bool`. -/
def rangeCalls (calls : List DeviceCall) : List (Nat × Nat × Bool) :=
  calls.filterMap (fun call => match call with
    | .MakeScaledResolveRangeCurrent start_unscaled length_unscaled result =>
      some (start_unscaled, length_unscaled, result)
    | _ => none)

/-- The number of calls `ReleaseScratchGPUBuffer` recorded in a trace. -/
def scratchReleaseCount (calls : List DeviceCall) : Nat :=
  calls.countP (fun call => match call with
    | .ReleaseScratchGPUBuffer _ _ => true
    | _ => false)

/-- The number of calls `RequestScratchGPUBuffer` that returned a buffer
recorded in a trace. -/
def scratchRequestCount (calls : List DeviceCall) : Nat :=
  calls.countP (fun call => match call with
    | .RequestScratchGPUBuffer _ _ true => true
    | _ => false)

/-- The kinds of calls recorded while the loader sets up a source of a
resolution-scaled texture: the aliasing barriers of
`MakeScaledResolveRangeCurrent`, the call itself, the release of the scratch
buffer when it fails, the transition of the scaled resolve buffer, the creation
of its view and the binding of the view. -/
def DeviceCall.isSourceSetup : DeviceCall → Prop
  | .PushAliasingBarrier _ _ => True
  | .MakeScaledResolveRangeCurrent _ _ _ => True
  | .ReleaseScratchGPUBuffer _ _ => True
  | .PushTransitionBarrier _ _ _ => True
  | .CreateBufferTypedSRV _ _ _ _ _ => True
  | .D3DSetComputeRootDescriptorTable _ _ => True
  | _ => False


/-! ## Host resources and a resolution-scaled example -/

/-- The fields of the `D3D12_RESOURCE_DESC` that `CreateTexture` fills from
the key (the others are constants): `Width` is a `UINT64`, `Height` a `UINT`,
`DepthOrArraySize` and `MipLevels` are `UINT16`. -/
structure ResourceDesc where
  Format : DXGI_FORMAT
  is_texture3d : Bool
  Width : Nat
  Height : Nat
  DepthOrArraySize : Nat
  MipLevels : Nat
  deriving DecidableEq, Repr

/-- The resource description that `D3D12TextureCache::CreateTexture` passes to
`CreateCommittedResource` for a key, with the draw resolution scale of the
cache; `none` when the format has no host format and `nullptr` is returned
before a resource is described. -/
def createTextureDesc (info : Fin 64 → FormatInfo) (scale_x scale_y : Nat) (key : TextureKey) :
    Option ResourceDesc :=
  let format := GetDXGIResourceFormat info key.format key.GetWidth key.GetHeight
  if format = DXGI_FORMAT.UNKNOWN then none
  else
    some
      { Format := format
        is_texture3d := decide (key.dimension = DataDimension.k3D)
        Width := if key.scaled_resolve then u64 (key.GetWidth * scale_x) else key.GetWidth
        Height := if key.scaled_resolve then u32 (key.GetHeight * scale_y) else key.GetHeight
        DepthOrArraySize := key.GetDepthOrArraySize % 2 ^ 16
        MipLevels := (key.mip_max_level + 1) % 2 ^ 16 }

/-- The source boxes of the copies recorded in a trace, in order (`none` is a
copy of the whole footprint). -/
def copyBoxes (calls : List DeviceCall) : List (Option Box) :=
  calls.filterMap (fun call => match call with
    | .D3DCopyTextureRegion _ _ source_box => some source_box
    | _ => none)

/-- A 16x16 `k_8_8_8_8` texture from a resolve, with one mip level stored in
a packed tail of 32x16 blocks (packed level 0), for examples. -/
def D3D12Texture.sampleScaled : D3D12Texture :=
  { key :=
      { format := 6, width_minus_1 := 15, height_minus_1 := 15, signed_separate := false
        scaled_resolve := true
        base_page := 16 }
    guest_layout :=
      { base := ⟨128, 32, 4096, 32, 16, 1⟩
        mips := fun _ => ⟨0, 0, 0, 0, 0, 0⟩
        packed_level := 0
        mip_offsets_bytes := fun _ => 0 }
    guest_base_size := 4096
    guest_mips_size := 0
    resource := 7
    resource_state := D3D12_RESOURCE_STATE_NON_PIXEL_SHADER_RESOURCE
    srv_descriptors_ := []
    marked_as_used := false }

/-! ## Where the slices of a level lie in the scratch buffer -/

/-- The footprint that the dispatch loop takes for a loop counter
(`is_base ? host_slice_layout_base : host_slice_layouts_mips[level]`, with
`level = level_packed ? loop_level : 0`), as a slot of the host layout. -/
def LoadLocals.dispatchSlot (l : LoadLocals) (loop_level : Nat) : Option Nat :=
  if loop_level = 0 then none else some (if l.level_packed = 0 then 0 else loop_level)

/-- The footprint that the copy loop takes for a mip level
(`level ? host_slice_layouts_mips[guest_level] : host_slice_layout_base`, with
`guest_level = min(level, level_packed)`), as a slot of the host layout. -/
def LoadLocals.copySlot (l : LoadLocals) (level : Nat) : Option Nat :=
  if level ≠ 0 then some (min level l.level_packed) else none

/-- The offsets of the array slices of the footprint written for a slot:
slice `s` lies `s` slice sizes after the offset of the footprint. Nothing when
the footprint was not written. -/
def sliceOffsets (layout : HostLayout) (array_size : Nat) (slot : Option Nat) : List Nat :=
  match layout.placed slot with
  | some host_slice_layout =>
    (List.range array_size).map (fun slice =>
      host_slice_layout.1.Offset + slice * host_slice_layout.2)
  | none => []

/-- The offsets of `sliceOffsets` as the dispatch loop holds them in the
`uint32_t host_offset` of the constants. -/
def sliceOffsets32 (layout : HostLayout) (array_size : Nat) (slot : Option Nat) : List Nat :=
  (sliceOffsets layout array_size slot).map u32

/-- The offsets of `sliceOffsets` as the copy loop holds them in the `UINT64
Offset` of the source footprint. -/
def sliceOffsets64 (layout : HostLayout) (array_size : Nat) (slot : Option Nat) : List Nat :=
  (sliceOffsets layout array_size slot).map u64

/-- An 8192x8192 `k_8_8_8_8` array texture with one mip level, with the guest
layout of such a texture (rows of 32768 bytes, slices of 256 MB), for
examples. -/
def D3D12Texture.sampleLarge (array_size_minus_1 : Nat) : D3D12Texture :=
  { key :=
      { format := 6, width_minus_1 := 8191, height_minus_1 := 8191, signed_separate := false
        depth_or_array_size_minus_1 := array_size_minus_1
        base_page := 16 }
    guest_layout :=
      { base := ⟨32768, 8192, 268435456, 8192, 8192, 1⟩
        mips := fun _ => ⟨0, 0, 0, 0, 0, 0⟩
        packed_level := 14
        mip_offsets_bytes := fun _ => 0 }
    guest_base_size := 268435456 * (array_size_minus_1 + 1)
    guest_mips_size := 0
    resource := 7
    resource_state := D3D12_RESOURCE_STATE_NON_PIXEL_SHADER_RESOURCE
    srv_descriptors_ := []
    marked_as_used := false }

/-- A 16x16 `k_8_8_8_8` array texture of two slices with three mip levels,
all of them in packed tails of 32x16 blocks (packed level 0): one tail for the
base and one for the mips, for examples. -/
def D3D12Texture.sampleTails : D3D12Texture :=
  { key :=
      { format := 6, width_minus_1 := 15, height_minus_1 := 15, signed_separate := false
        depth_or_array_size_minus_1 := 1
        mip_max_level := 2
        base_page := 16
        mip_page := 32 }
    guest_layout :=
      { base := ⟨128, 32, 4096, 32, 16, 1⟩
        mips := fun _ => ⟨128, 32, 4096, 32, 16, 1⟩
        packed_level := 0
        mip_offsets_bytes := fun _ => 0 }
    guest_base_size := 8192
    guest_mips_size := 8192
    resource := 7
    resource_state := D3D12_RESOURCE_STATE_NON_PIXEL_SHADER_RESOURCE
    srv_descriptors_ := []
    marked_as_used := false }

/-! ## The descriptor cache and the textures that hold its indices -/

/-- The descriptor cache together with the textures that are alive: the
indices in the `srv_descriptors_` maps of these textures are the indices in
use. -/
structure DescriptorSystem where
  cache : DescriptorCache
  textures : List D3D12Texture

/-- What happens to the descriptors of the textures: a texture is created, a
view of a live texture is looked up or created, a live texture is destroyed,
or the cache is cleared. A texture is named by its place among the live
textures; the device of a lookup answers the calls made by that lookup. -/
inductive DescriptorOp where
  | createTexture (texture : D3D12Texture)
  | findOrCreate (dev : DescriptorDevice) (texture_index : Nat) (is_signed : Bool)
      (host_swizzle : Nat)
  | destroyTexture (texture_index : Nat)
  | clearCache

/-- The descriptor indices held by the live textures, texture after texture
in the iteration order of each map. -/
def liveDescriptorIndices (textures : List D3D12Texture) : List Nat :=
  textures.flatMap (fun texture => texture.srv_descriptors_.map (fun p => p.2))

/-- Modelled from the spec: `TextureCache::ClearCache` of the base class,
defined outside this file: every texture is destroyed, each destructor
releasing the descriptors of its texture. -/
def TextureCache.ClearCache (sys : DescriptorSystem) : DescriptorSystem :=
  { cache := sys.textures.foldl destroyTexture sys.cache, textures := [] }

/-- Embedding of `D3D12TextureCache::ClearCache`: after the base class has
cleared the textures, the free list is cleared, the allocated count is reset
and the pages are dropped. -/
def ClearCache (sys : DescriptorSystem) : DescriptorSystem :=
  let sys1 := TextureCache.ClearCache sys
  { sys1 with
    cache := { sys1.cache with
      srv_descriptor_cache_free_ := []
      srv_descriptor_cache_allocated_ := 0
      srv_descriptor_cache_ := [] } }

/-- One step of the life of the descriptors. A created texture starts with an
empty descriptor map; a lookup or a destruction of a texture that is not alive
does nothing. -/
def DescriptorSystem.step (decls : DescriptorDecls) (format_info : Fin 64 → FormatInfo)
    (sys : DescriptorSystem) : DescriptorOp → DescriptorSystem
  | .createTexture texture =>
    { sys with textures := sys.textures ++ [{ texture with srv_descriptors_ := [] }] }
  | .findOrCreate dev texture_index is_signed host_swizzle =>
    match sys.textures.get? texture_index with
    | none => sys
    | some texture =>
      let r := FindOrCreateTextureDescriptor decls format_info dev sys.cache texture is_signed
        host_swizzle
      { cache := r.2.1, textures := sys.textures.set texture_index r.2.2 }
  | .destroyTexture texture_index =>
    match sys.textures.get? texture_index with
    | none => sys
    | some texture =>
      { cache := destroyTexture sys.cache texture
        textures := sys.textures.eraseIdx texture_index }
  | .clearCache => ClearCache sys

/-- Embedding of `D3D12TextureCache::GetTextureDescriptorCPUHandle`: the heap
(`none` for the bindless view heap) and the offset in it of the returned
handle; `none` when `srv_descriptor_cache_` is indexed past its end. -/
def GetTextureDescriptorCPUHandle (decls : DescriptorDecls) (c : DescriptorCache)
    (descriptor_index : Nat) : Option (Option Nat × Nat) :=
  if c.bindless_resources_used_ then some (none, descriptor_index)
  else
    match c.srv_descriptor_cache_.get?
        (descriptor_index / decls.kSRVDescriptorCachePageSize) with
    | some heap => some (some heap, descriptor_index % decls.kSRVDescriptorCachePageSize)
    | none => none

/-- The bindful descriptor system as `Initialize` leaves it: nothing
allocated, nothing free, no page and no texture. -/
def DescriptorSystem.initial : DescriptorSystem :=
  { cache := DescriptorCache.bindful [] 0 [], textures := [] }

/-- The descriptor system is sound after at most `n` allocations: it is
bindful, every index below the allocated count is either free or held by one
live texture, once, and nothing else is; the pages cover the allocated count,
which is at most `n`. -/
def DescriptorSystem.Sound (decls : DescriptorDecls) (n : Nat) (sys : DescriptorSystem) :
    Prop :=
  sys.cache.bindless_resources_used_ = false ∧
  (∀ a, (sys.cache.srv_descriptor_cache_free_ ++ liveDescriptorIndices sys.textures).count a =
    (List.range sys.cache.srv_descriptor_cache_allocated_).count a) ∧
  sys.cache.srv_descriptor_cache_allocated_ ≤
    sys.cache.srv_descriptor_cache_.length * decls.kSRVDescriptorCachePageSize ∧
  sys.cache.srv_descriptor_cache_allocated_ ≤ n

/-- A short life of two textures, for examples: both are created, an
unsigned view of each and a signed view of the first are created, the first
texture is destroyed, and a signed view of the other is created. -/
def DescriptorOp.sampleOps : List DescriptorOp :=
  [.createTexture (D3D12Texture.sample (TextureKey.ofSize 6 255 255 false) []),
    .createTexture (D3D12Texture.sample (TextureKey.ofSize 6 63 63 false) []),
    .findOrCreate (DescriptorDevice.succeeding 0) 0 false 1672,
    .findOrCreate (DescriptorDevice.succeeding 0) 1 false 1672,
    .findOrCreate (DescriptorDevice.succeeding 0) 0 true 1672,
    .destroyTexture 0,
    .findOrCreate (DescriptorDevice.succeeding 0) 0 true 1672]
/-! ## Properties of the load mode selection -/

theorem sub32_one {x : Nat} (h1 : 1 ≤ x) (h2 : x < 2 ^ 32) : sub32 x 1 = x - 1 := by
  unfold sub32
  norm_num at h2 ⊢
  omega

theorem sub32_pow_one {a : Nat} (ha : a < 32) : sub32 (2 ^ a) 1 = 2 ^ a - 1 :=
  sub32_one Nat.one_le_two_pow (Nat.pow_lt_pow_right (by norm_num) ha)

/-- The mask test of `IsDecompressionNeeded` on a power-of-two block size is the
divisibility test. -/
theorem mask_ne_zero_iff {a : Nat} (ha : a < 32) (size : Nat) :
    ((size &&& sub32 (2 ^ a) 1) != 0) = true ↔ ¬ 2 ^ a ∣ size := by
  rw [sub32_pow_one ha, Nat.and_pow_two_sub_one_eq_mod, Nat.dvd_iff_mod_eq_zero]
  simp

theorem IsDecompressionNeeded_iff (format_info : Fin 64 → FormatInfo)
    (hpow : BlocksArePow2 format_info) (format : Fin 64) (width height : Nat) :
    IsDecompressionNeeded format_info format width height = true ↔
      (host_formats_ format).dxgi_format_uncompressed ≠ DXGI_FORMAT.UNKNOWN ∧
      (¬ (format_info format).block_width ∣ width ∨
        ¬ (format_info format).block_height ∣ height) := by
  obtain ⟨⟨a, ha, hw⟩, ⟨b, hb, hh⟩⟩ := hpow format
  unfold IsDecompressionNeeded
  by_cases hu : (host_formats_ format).dxgi_format_uncompressed = DXGI_FORMAT.UNKNOWN
  · simp [hu]
  · simp only [hu, if_false, Bool.or_eq_true, hw, hh, mask_ne_zero_iff ha, mask_ne_zero_iff hb]
    simp [hu]

theorem host_formats_unknown_rows : ∀ f : Fin 64,
    (host_formats_ f).dxgi_format_resource = DXGI_FORMAT.UNKNOWN →
      (host_formats_ f).load_mode = LoadMode.kUnknown ∧
      (host_formats_ f).load_mode_snorm = LoadMode.kUnknown ∧
      (host_formats_ f).decompress_mode = LoadMode.kUnknown := by
  decide

theorem host_formats_no_decompression_by_default : ∀ f : Fin 64,
    (host_formats_ f).load_mode.isDecompression = false ∧
    (host_formats_ f).load_mode_snorm.isDecompression = false := by
  decide

theorem xenosFormatInfo_pow2 : BlocksArePow2 xenosFormatInfo := by
  intro f
  unfold xenosFormatInfo
  split_ifs
  · exact ⟨⟨2, by norm_num, by norm_num⟩, ⟨2, by norm_num, by norm_num⟩⟩
  · exact ⟨⟨1, by norm_num, by norm_num⟩, ⟨0, by norm_num, by norm_num⟩⟩
  · exact ⟨⟨0, by norm_num, by norm_num⟩, ⟨0, by norm_num, by norm_num⟩⟩

/-- C1 (as amended): for a guest format table with power-of-two block sizes and
every texture key, `GetLoadMode` returns the signed load mode if
`signed_separate` is set; otherwise the decompression load mode if the format
has an uncompressed host format and the width or the height of the key is not a
multiple of the block width or height; otherwise the default load mode. -/
theorem GetLoadMode_cases (format_info : Fin 64 → FormatInfo)
    (hpow : BlocksArePow2 format_info) (key : TextureKey) :
    GetLoadMode format_info key =
      if key.signed_separate then (host_formats_ key.format).load_mode_snorm
      else if (host_formats_ key.format).dxgi_format_uncompressed ≠ DXGI_FORMAT.UNKNOWN ∧
          (¬ (format_info key.format).block_width ∣ key.GetWidth ∨
            ¬ (format_info key.format).block_height ∣ key.GetHeight) then
        (host_formats_ key.format).decompress_mode
      else (host_formats_ key.format).load_mode := by
  unfold GetLoadMode
  by_cases hs : key.signed_separate = true
  · simp [hs]
  · have hiff := IsDecompressionNeeded_iff format_info hpow key.format key.GetWidth key.GetHeight
    by_cases hd : IsDecompressionNeeded format_info key.format key.GetWidth key.GetHeight = true
    · rw [if_neg hs, if_pos hd, if_neg hs, if_pos (hiff.mp hd)]
    · rw [if_neg hs, if_neg hd, if_neg hs, if_neg (fun h => hd (hiff.mpr h))]

/-- Witness of C1: the 5x5 DXT1 key (format 18), whose load mode is the
decompressing one. -/
theorem GetLoadMode_cases_witness :
    BlocksArePow2 xenosFormatInfo ∧
    GetLoadMode xenosFormatInfo (TextureKey.ofSize 18 4 4 false) = LoadMode.kDXT1ToRGBA8 :=
  ⟨xenosFormatInfo_pow2,
   (GetLoadMode_cases xenosFormatInfo xenosFormatInfo_pow2 (TextureKey.ofSize 18 4 4 false)).trans
     (by decide)⟩

/-- C1 (counterexample): for the 3x4 key of format 58 (k_DXT3A, 4x4 blocks, no
uncompressed host format) the width is not a multiple of the block width, yet
`GetLoadMode` returns the default load mode `kDXT3A`, not the decompression
load mode of the format (`kUnknown`) that the claim as worded asks for. -/
theorem GetLoadMode_asSpecified_counterexample :
    ¬ (xenosFormatInfo 58).block_width ∣ (TextureKey.ofSize 58 2 3 false).GetWidth ∧
    GetLoadMode xenosFormatInfo (TextureKey.ofSize 58 2 3 false) = LoadMode.kDXT3A ∧
    GetLoadMode_asSpecified xenosFormatInfo (TextureKey.ofSize 58 2 3 false) = LoadMode.kUnknown ∧
    GetLoadMode xenosFormatInfo (TextureKey.ofSize 58 2 3 false) ≠
      GetLoadMode_asSpecified xenosFormatInfo (TextureKey.ofSize 58 2 3 false) := by
  decide

/-- C2: for a guest format table with power-of-two block sizes, every format
code and every key of that format whose width and height are multiples of the
block width and height, signed or not, `GetLoadMode` returns none of the
decompression load modes kDXT1ToRGBA8, kDXT3ToRGBA8, kDXT5ToRGBA8, kDXNToRG8,
kDXT5AToR8; and these five are the only load modes other than kUnknown in the
`decompress_mode` column of `host_formats_`. -/
theorem GetLoadMode_block_aligned_not_decompression (format_info : Fin 64 → FormatInfo)
    (hpow : BlocksArePow2 format_info) (key : TextureKey)
    (hwidth : (format_info key.format).block_width ∣ key.GetWidth)
    (hheight : (format_info key.format).block_height ∣ key.GetHeight) :
    (GetLoadMode format_info key ≠ LoadMode.kDXT1ToRGBA8 ∧
     GetLoadMode format_info key ≠ LoadMode.kDXT3ToRGBA8 ∧
     GetLoadMode format_info key ≠ LoadMode.kDXT5ToRGBA8 ∧
     GetLoadMode format_info key ≠ LoadMode.kDXNToRG8 ∧
     GetLoadMode format_info key ≠ LoadMode.kDXT5AToR8) ∧
    (∀ f : Fin 64, (host_formats_ f).decompress_mode ∈
      [LoadMode.kUnknown, LoadMode.kDXT1ToRGBA8, LoadMode.kDXT3ToRGBA8,
       LoadMode.kDXT5ToRGBA8, LoadMode.kDXNToRG8, LoadMode.kDXT5AToR8]) := by
  refine ⟨?_, by decide⟩
  have htab := host_formats_no_decompression_by_default key.format
  have hnot : (GetLoadMode format_info key).isDecompression = false := by
    unfold GetLoadMode
    by_cases hs : key.signed_separate = true
    · simp only [hs, if_true]
      exact htab.2
    · have hd : ¬ IsDecompressionNeeded format_info key.format key.GetWidth key.GetHeight
          = true := fun hd =>
        ((IsDecompressionNeeded_iff format_info hpow _ _ _).mp hd).2.elim
          (fun hw => hw hwidth) (fun hh => hh hheight)
      simp only [hs, hd, if_false]
      exact htab.1
  refine ⟨?_, ?_, ?_, ?_, ?_⟩ <;> intro h <;> rw [h] at hnot <;> exact absurd hnot (by decide)

/-- Witness of C2: the 8x8 DXT1 key (format 18, 4x4 blocks). -/
theorem GetLoadMode_block_aligned_not_decompression_witness :
    BlocksArePow2 xenosFormatInfo ∧
    (xenosFormatInfo 18).block_width ∣ (TextureKey.ofSize 18 7 7 false).GetWidth ∧
    (xenosFormatInfo 18).block_height ∣ (TextureKey.ofSize 18 7 7 false).GetHeight ∧
    GetLoadMode xenosFormatInfo (TextureKey.ofSize 18 7 7 false) ≠ LoadMode.kDXT1ToRGBA8 :=
  ⟨xenosFormatInfo_pow2, by decide, by decide,
   (GetLoadMode_block_aligned_not_decompression xenosFormatInfo xenosFormatInfo_pow2
     (TextureKey.ofSize 18 7 7 false) (by decide) (by decide)).1.1⟩

/-- C3: for every guest format table, every format code whose `host_formats_`
row has the resource format `DXGI_FORMAT_UNKNOWN` and every key of that format,
whatever its width, height and `signed_separate` flag, `GetLoadMode` returns
`LoadMode::kUnknown`. -/
theorem GetLoadMode_unsupported_format (format_info : Fin 64 → FormatInfo) (key : TextureKey)
    (hunknown : (host_formats_ key.format).dxgi_format_resource = DXGI_FORMAT.UNKNOWN) :
    GetLoadMode format_info key = LoadMode.kUnknown := by
  obtain ⟨h1, h2, h3⟩ := host_formats_unknown_rows key.format hunknown
  unfold GetLoadMode
  simp only [h1, h2, h3]
  split_ifs <;> rfl

/-- Witness of C3: a signed 3x5 key of format 0 (k_1_REVERSE). -/
theorem GetLoadMode_unsupported_format_witness :
    (host_formats_ 0).dxgi_format_resource = DXGI_FORMAT.UNKNOWN ∧
    GetLoadMode xenosFormatInfo (TextureKey.ofSize 0 2 4 true) = LoadMode.kUnknown :=
  ⟨by decide, GetLoadMode_unsupported_format xenosFormatInfo (TextureKey.ofSize 0 2 4 true) (by decide)⟩

/-! ## Properties of the draw resolution scale clamp -/

theorem bitLength_le (n v : Nat) : bitLength n v ≤ n := by
  induction n with
  | zero => simp [bitLength]
  | succ n ih =>
    unfold bitLength
    split_ifs
    · exact le_rfl
    · exact Nat.le_succ_of_le ih

/-- The lowest `n` bits of `v` are a number of `bitLength n v` bits. -/
theorem lt_two_pow_bitLength (n v : Nat) : v % 2 ^ n < 2 ^ bitLength n v := by
  induction n with
  | zero => simp [bitLength, Nat.mod_one]
  | succ n ih =>
    unfold bitLength
    split_ifs with hbit
    · exact Nat.mod_lt _ (by positivity)
    · have hlt : v % 2 ^ (n + 1) < 2 ^ n := Nat.lt_of_not_le hbit
      have hmod : v % 2 ^ (n + 1) % 2 ^ n = v % 2 ^ n :=
        Nat.mod_mod_of_dvd v (Dvd.intro (2 ^ 1) (by rw [← pow_add]))
      rw [Nat.mod_eq_of_lt hlt] at hmod
      rw [hmod]
      exact ih

/-- A 64-bit value that needs at most `bits` bits by the `64 - lzcnt` measure of
the clamp is below `2 ^ bits`. -/
theorem lt_two_pow_of_lzcnt64 {v bits : Nat} (hv : v < 2 ^ 64)
    (h : 64 - lzcnt64 v ≤ bits) : v < 2 ^ bits := by
  unfold lzcnt64 at h
  have h1 := bitLength_le 64 v
  have h2 := lt_two_pow_bitLength 64 v
  rw [Nat.mod_eq_of_lt hv] at h2
  have h3 : bitLength 64 v ≤ bits := by omega
  exact lt_of_lt_of_le h2 (Nat.pow_le_pow_right (by norm_num) h3)

theorem highest_scaled_address_eq {x y : Nat} (h1 : 1 ≤ x * y) (h2 : x * y < 2 ^ 32) :
    highest_scaled_address x y = kBufferSize * x * y - 1 := by
  unfold highest_scaled_address sub64 u64 u32 kBufferSize
  rw [Nat.mod_eq_of_lt h2, Nat.mul_assoc]
  norm_num at h2 ⊢
  omega

theorem highest_scaled_address_lt (x y : Nat) : highest_scaled_address x y < 2 ^ 64 := by
  unfold highest_scaled_address sub64
  exact Nat.mod_lt _ (by positivity)

/-- What the clamp loop computes, from any state with enough fuel: it ends, the
scales only decrease and never pass below one, the result is (at most) 1x1 or
fits the address width, a nearly square scale stays nearly square, and
`was_clamped` is set exactly when a scale was decremented. -/
theorem clampLoop_spec (bits : Nat) : ∀ (fuel sx sy : Nat) (wc : Bool),
    sx < 2 ^ 32 → sy < 2 ^ 32 → sx + sy < fuel →
    ∃ x y w, clampLoop bits fuel sx sy wc = some (x, y, w) ∧
      x ≤ sx ∧ y ≤ sy ∧ (1 ≤ sx → 1 ≤ x) ∧ (1 ≤ sy → 1 ≤ y) ∧
      ((x ≤ 1 ∧ y ≤ 1) ∨ 64 - lzcnt64 (highest_scaled_address x y) ≤ bits) ∧
      (sx ≤ sy → sy ≤ sx + 1 → x ≤ y ∧ y ≤ x + 1) ∧
      (w = true ↔ (wc = true ∨ x ≠ sx ∨ y ≠ sy)) := by
  intro fuel
  induction fuel with
  | zero => intro sx sy wc _ _ h; omega
  | succ fuel ih =>
    intro sx sy wc hx hy hfuel
    unfold clampLoop
    by_cases hcond : sx > 1 ∨ sy > 1
    · rw [if_pos hcond]
      by_cases hfit : 64 - lzcnt64 (highest_scaled_address sx sy) ≤ bits
      · rw [if_pos hfit]
        exact ⟨sx, sy, wc, rfl, le_rfl, le_rfl, id, id, Or.inr hfit, fun a b => ⟨a, b⟩,
          by simp⟩
      · rw [if_neg hfit]
        by_cases hge : sx ≥ sy
        · rw [if_pos hge]
          have hsx : 1 < sx := by omega
          rw [sub32_one (by omega) hx]
          obtain ⟨x, y, w, heq, h1, h2, h3, h4, h5, h6, h7⟩ :=
            ih (sx - 1) sy true (by omega) hy (by omega)
          refine ⟨x, y, w, heq, by omega, h2, fun _ => h3 (by omega), h4, h5, ?_, ?_⟩
          · intro ha hb
            exact h6 (by omega) (by omega)
          · constructor
            · intro _; right; left; omega
            · intro _; exact h7.mpr (Or.inl rfl)
        · rw [if_neg hge]
          have hsy : 1 ≤ sy := by omega
          rw [sub32_one hsy hy]
          obtain ⟨x, y, w, heq, h1, h2, h3, h4, h5, h6, h7⟩ :=
            ih sx (sy - 1) true hx (by omega) (by omega)
          refine ⟨x, y, w, heq, h1, by omega, h3, fun _ => h4 (by omega), h5, ?_, ?_⟩
          · intro ha hb
            exact h6 (by omega) (by omega)
          · constructor
            · intro _; right; right; omega
            · intro _; exact h7.mpr (Or.inl rfl)
    · rw [if_neg hcond]
      exact ⟨sx, sy, wc, rfl, le_rfl, le_rfl, id, id, Or.inl (by omega), fun a b => ⟨a, b⟩,
        by simp⟩

/-- C4 (counterexample): with tiled resources supported and 28 virtual address
bits per resource, the scale 1x1 is returned unchanged, although its highest
scaled address `kBufferSize * 1 * 1 - 1` needs 29 bits. -/
theorem ClampDrawResolutionScaleToMaxSupported_counterexample :
    ClampDrawResolutionScaleToMaxSupported 1 1 ⟨1, 28⟩ = some ⟨true, 1, 1⟩ ∧
    ¬ (64 - lzcnt64 (kBufferSize * 1 * 1 - 1) ≤ 28) := by
  decide

/-- C4 (as amended): for every requested scale of at least 1 along each axis
(32-bit values), every tiled resources tier and every address width of at
least 29 bits (what `kBufferSize - 1` needs), the clamp returns, and the
highest scaled address of the returned scale, as the code computes it from the
32-bit product of the scales, needs at most that many bits (64 - lzcnt of it
is at most the width, so it is below 2 ^ width); when the requested product
`scale_x * scale_y` fits 32 bits this is the address
`kBufferSize * scale_x * scale_y - 1` itself. -/
theorem ClampDrawResolutionScaleToMaxSupported_fits (scale_x scale_y : Nat)
    (provider : D3D12Provider)
    (hx1 : 1 ≤ scale_x) (hy1 : 1 ≤ scale_y) (hx : scale_x < 2 ^ 32) (hy : scale_y < 2 ^ 32)
    (hbits : 29 ≤ provider.virtual_address_bits_per_resource) :
    ∃ r, ClampDrawResolutionScaleToMaxSupported scale_x scale_y provider = some r ∧
      64 - lzcnt64 (highest_scaled_address r.scale_x r.scale_y) ≤
        provider.virtual_address_bits_per_resource ∧
      highest_scaled_address r.scale_x r.scale_y <
        2 ^ provider.virtual_address_bits_per_resource ∧
      (scale_x * scale_y < 2 ^ 32 →
        64 - lzcnt64 (kBufferSize * r.scale_x * r.scale_y - 1) ≤
          provider.virtual_address_bits_per_resource ∧
        kBufferSize * r.scale_x * r.scale_y - 1 <
          2 ^ provider.virtual_address_bits_per_resource) := by
  have h11 : 64 - lzcnt64 (highest_scaled_address 1 1) = 29 := by decide
  have key : ∀ x y, 1 ≤ x → x ≤ scale_x → 1 ≤ y → y ≤ scale_y →
      64 - lzcnt64 (highest_scaled_address x y) ≤ provider.virtual_address_bits_per_resource →
      64 - lzcnt64 (highest_scaled_address x y) ≤ provider.virtual_address_bits_per_resource ∧
      highest_scaled_address x y < 2 ^ provider.virtual_address_bits_per_resource ∧
      (scale_x * scale_y < 2 ^ 32 →
        64 - lzcnt64 (kBufferSize * x * y - 1) ≤ provider.virtual_address_bits_per_resource ∧
        kBufferSize * x * y - 1 < 2 ^ provider.virtual_address_bits_per_resource) := by
    intro x y hx1 hxs hy1 hys hfit
    have hlt := lt_two_pow_of_lzcnt64 (highest_scaled_address_lt x y) hfit
    refine ⟨hfit, hlt, fun hprod => ?_⟩
    have hxy : x * y < 2 ^ 32 := lt_of_le_of_lt (Nat.mul_le_mul hxs hys) hprod
    have h1 : 1 ≤ x * y := Nat.mul_pos hx1 hy1
    rw [← highest_scaled_address_eq h1 hxy]
    exact ⟨hfit, hlt⟩
  unfold ClampDrawResolutionScaleToMaxSupported
  by_cases htier : provider.tiled_resources_tier < D3D12_TILED_RESOURCES_TIER_1
  · rw [if_pos htier]
    exact ⟨_, rfl, key 1 1 le_rfl hx1 le_rfl hy1 (by rw [h11]; exact hbits)⟩
  · rw [if_neg htier]
    obtain ⟨x, y, w, heq, h1, h2, h3, h4, h5, _, _⟩ :=
      clampLoop_spec provider.virtual_address_bits_per_resource (scale_x + scale_y + 1)
        scale_x scale_y false hx hy (by omega)
    rw [heq]
    refine ⟨_, rfl, key x y (h3 hx1) h1 (h4 hy1) h2 ?_⟩
    rcases h5 with ⟨hx', hy'⟩ | hfit
    · have ex : x = 1 := le_antisymm hx' (h3 hx1)
      have ey : y = 1 := le_antisymm hy' (h4 hy1)
      rw [ex, ey, h11]; exact hbits
    · exact hfit

/-- Witness of C4: the request 3x3 with 31 address bits is clamped to 2x2. -/
theorem ClampDrawResolutionScaleToMaxSupported_fits_witness :
    ∃ r, ClampDrawResolutionScaleToMaxSupported 3 3 ⟨2, 31⟩ = some r ∧
      64 - lzcnt64 (highest_scaled_address r.scale_x r.scale_y) ≤ 31 ∧
      highest_scaled_address r.scale_x r.scale_y < 2 ^ 31 ∧
      (3 * 3 < 2 ^ 32 →
        64 - lzcnt64 (kBufferSize * r.scale_x * r.scale_y - 1) ≤ 31 ∧
        kBufferSize * r.scale_x * r.scale_y - 1 < 2 ^ 31) :=
  ClampDrawResolutionScaleToMaxSupported_fits 3 3 ⟨2, 31⟩ (by decide) (by decide)
    (by decide) (by decide) (by decide)

/-- C5: for every provider (any tiled resources tier, any virtual address
width), the clamp called with the scale 1x1 returns true and leaves both scales
at 1. -/
theorem ClampDrawResolutionScaleToMaxSupported_one_one (provider : D3D12Provider) :
    ClampDrawResolutionScaleToMaxSupported 1 1 provider = some ⟨true, 1, 1⟩ := by
  unfold ClampDrawResolutionScaleToMaxSupported
  by_cases htier : provider.tiled_resources_tier < D3D12_TILED_RESOURCES_TIER_1
  · rw [if_pos htier]; rfl
  · rw [if_neg htier]
    simp [clampLoop]

/-- C6: with tiled resources supported, every reduction step of the clamp loop
(the loop condition holds and the scale does not fit) decrements `scale_x` if
`scale_x >= scale_y` and otherwise decrements `scale_y`; and for every square
request (n, n) the clamp returns a scale (x, y) with x <= y <= x + 1. -/
theorem ClampDrawResolutionScaleToMaxSupported_reduction_order (bits : Nat) :
    (∀ (fuel scale_x scale_y : Nat) (was_clamped : Bool),
      scale_x < 2 ^ 32 → scale_y < 2 ^ 32 → (scale_x > 1 ∨ scale_y > 1) →
      ¬ (64 - lzcnt64 (highest_scaled_address scale_x scale_y) ≤ bits) →
      clampLoop bits (fuel + 1) scale_x scale_y was_clamped =
        if scale_x ≥ scale_y then clampLoop bits fuel (scale_x - 1) scale_y true
        else clampLoop bits fuel scale_x (scale_y - 1) true) ∧
    (∀ (n tier : Nat), n < 2 ^ 32 → D3D12_TILED_RESOURCES_TIER_1 ≤ tier →
      ∃ r, ClampDrawResolutionScaleToMaxSupported n n ⟨tier, bits⟩ = some r ∧
        r.scale_x ≤ r.scale_y ∧ r.scale_y ≤ r.scale_x + 1) := by
  constructor
  · intro fuel sx sy wc hx hy hcond hfit
    rw [clampLoop, if_pos hcond, if_neg hfit]
    by_cases hge : sx ≥ sy
    · rw [if_pos hge, if_pos hge, sub32_one (by omega) hx]
    · rw [if_neg hge, if_neg hge, sub32_one (by omega) hy]
  · intro n tier hn htier
    unfold ClampDrawResolutionScaleToMaxSupported
    rw [if_neg (by simpa using htier)]
    obtain ⟨x, y, w, heq, _, _, _, _, _, h6, _⟩ :=
      clampLoop_spec bits (n + n + 1) n n false hn hn (by omega)
    simp only [heq]
    exact ⟨_, rfl, h6 le_rfl (by omega)⟩

/-- Witness of C6: the request 3x3 with 32 address bits ends at 2x3, the
horizontal scale having been reduced first. -/
theorem ClampDrawResolutionScaleToMaxSupported_reduction_order_witness :
    (3 < 2 ^ 32 ∧ D3D12_TILED_RESOURCES_TIER_1 ≤ 2) ∧
    ClampDrawResolutionScaleToMaxSupported 3 3 ⟨2, 32⟩ = some ⟨false, 2, 3⟩ ∧
    ∃ r, ClampDrawResolutionScaleToMaxSupported 3 3 ⟨2, 32⟩ = some r ∧
      r.scale_x ≤ r.scale_y ∧ r.scale_y ≤ r.scale_x + 1 :=
  ⟨by decide, by decide,
   (ClampDrawResolutionScaleToMaxSupported_reduction_order 32).2 3 2 (by decide) (by decide)⟩

/-! ## Properties of the loops -/

/-- A loop whose body falls through without changing the state at every index
of the range leaves the state unchanged. -/
theorem loopFrom_skip {σ : Type} (body : Nat → σ → Flow σ) (s : σ) :
    ∀ (n i : Nat), (∀ j, i ≤ j → j < i + n → body j s = Flow.next s) →
      loopFrom body n i s = Flow.next s := by
  intro n
  induction n with
  | zero => intro i _; rfl
  | succ n ih =>
    intro i hall
    rw [loopFrom, hall i le_rfl (by omega)]
    exact ih (i + 1) (fun j h1 h2 => hall j (by omega) (by omega))

/-- Invariant rule for a loop that falls through: a preorder `R` that every
iteration respects relates the first state to the last, and a property `P j`
that iteration `j` establishes and `R` preserves holds at the end for every
index of the range. -/
theorem loopFrom_next {σ : Type} (body : Nat → σ → Flow σ) (P : Nat → σ → Prop)
    (R : σ → σ → Prop) (hrefl : ∀ s, R s s) (htrans : ∀ a b c, R a b → R b c → R a c)
    (hmono : ∀ j a b, R a b → P j a → P j b)
    (hstep : ∀ i s s1, body i s = Flow.next s1 → R s s1 ∧ P i s1) :
    ∀ (n i : Nat) (s s1 : σ), loopFrom body n i s = Flow.next s1 →
      R s s1 ∧ ∀ j, i ≤ j → j < i + n → P j s1 := by
  intro n
  induction n with
  | zero =>
    intro i s s1 h
    rw [loopFrom] at h
    cases h
    exact ⟨hrefl s, fun j h1 h2 => by omega⟩
  | succ n ih =>
    intro i s s1 h
    rw [loopFrom] at h
    cases hb : body i s with
    | next s2 =>
      rw [hb] at h
      obtain ⟨hR, hP⟩ := hstep i s s2 hb
      obtain ⟨hR2, hP2⟩ := ih (i + 1) s2 s1 h
      refine ⟨htrans _ _ _ hR hR2, fun j h1 h2 => ?_⟩
      by_cases hj : j = i
      · subst hj; exact hmono _ _ _ hR2 hP
      · exact hP2 j (by omega) (by omega)
    | return_false s2 => rw [hb] at h; cases h
    | undefined => rw [hb] at h; cases h

/-- A `for` loop that falls through either had an empty range or ran once over
its range, whose upper end is not the largest value of the index type. -/
theorem forLE_next {σ : Type} {bits : Nat} {body : Nat → σ → Flow σ} {first last : Nat}
    {s s1 : σ} (h : forLE bits body first last s = Flow.next s1) :
    (last < first ∧ s1 = s) ∨
    (first ≤ last ∧ last + 1 < 2 ^ bits ∧
      loopFrom body (last + 1 - first) first s = Flow.next s1) := by
  unfold forLE at h
  by_cases h1 : last < first
  · rw [if_pos h1] at h
    cases h
    exact Or.inl ⟨h1, rfl⟩
  · rw [if_neg h1] at h
    by_cases h2 : last + 1 < 2 ^ bits
    · rw [if_pos h2] at h
      exact Or.inr ⟨by omega, h2, h⟩
    · rw [if_neg h2] at h
      exfalso
      cases hl : loopFrom body (2 ^ bits - first) first s with
      | next s2 =>
        rw [hl] at h
        cases hl2 : loopFrom body (2 ^ bits) 0 s2 with
        | next s3 => simp only [hl2] at h; cases h
        | return_false s3 => simp only [hl2] at h; cases h
        | undefined => simp only [hl2] at h; cases h
      | return_false s2 => rw [hl] at h; cases h
      | undefined => rw [hl] at h; cases h

/-- A `for` loop over a range that does not wrap leaves the state unchanged
when its body falls through without changing it at every index. -/
theorem forLE_skip {σ : Type} (bits : Nat) (body : Nat → σ → Flow σ) (first last : Nat) (s : σ)
    (hrange : last < first ∨ last + 1 < 2 ^ bits)
    (hall : ∀ j, first ≤ j → j ≤ last → body j s = Flow.next s) :
    forLE bits body first last s = Flow.next s := by
  unfold forLE
  by_cases h1 : last < first
  · rw [if_pos h1]
  · rw [if_neg h1, if_pos (by omega)]
    exact loopFrom_skip body s _ _ (fun j h2 h3 => hall j h2 (by omega))

/-! ## Properties of `EnsureScaledResolveMemoryCommitted` -/

theorem CommitStable.refl (c : Cache) : CommitStable c c :=
  ⟨rfl, rfl, fun _ h => h, fun _ h => h⟩

theorem CommitStable.trans (a b c : Cache) (h1 : CommitStable a b) (h2 : CommitStable b c) :
    CommitStable a c :=
  ⟨h2.1.trans h1.1, h2.2.1.trans h1.2.1, fun j h => h2.2.2.1 j (h1.2.2.1 j h),
    fun j h => h2.2.2.2 j (h1.2.2.2 j h)⟩

theorem ensureBufferBody_next (dev : Device) (i : Nat) (c c1 : Cache)
    (h : ensureBufferBody dev i c = Flow.next c1) :
    CommitStable c c1 ∧ (c1.scaled_resolve_2gb_buffers_ i).isSome := by
  unfold ensureBufferBody at h
  cases hb : c.scaled_resolve_2gb_buffers_ i with
  | some b =>
    rw [hb] at h
    cases h
    exact ⟨CommitStable.refl c, by rw [hb]; rfl⟩
  | none =>
    rw [hb] at h
    cases hd : dev.CreateReservedResource i with
    | none => rw [hd] at h; cases h
    | some r =>
      rw [hd] at h
      cases h
      refine ⟨⟨rfl, rfl, fun j hj => ?_, fun _ hj => hj⟩, by simp [setAt]⟩
      simp only [setAt]
      split_ifs
      · rfl
      · exact hj

theorem ensureHeapBody_next (h : Header) (dev : Device) (i : Nat) (c c1 : Cache)
    (hn : ensureHeapBody h dev i c = Flow.next c1) :
    CommitStable c c1 ∧ (c1.scaled_resolve_heaps_ i).isSome := by
  unfold ensureHeapBody at hn
  cases hb : c.scaled_resolve_heaps_ i with
  | some b =>
    rw [hb] at hn
    cases hn
    exact ⟨CommitStable.refl c, by rw [hb]; rfl⟩
  | none =>
    rw [hb] at hn
    cases hd : dev.CreateHeap i with
    | none => rw [hd] at hn; cases hn
    | some heap =>
      rw [hd] at hn
      have hset : ∀ j, (c.scaled_resolve_heaps_ j).isSome →
          (setAt c.scaled_resolve_heaps_ i (some heap) j).isSome := by
        intro j hj
        simp only [setAt]
        split_ifs
        · rfl
        · exact hj
      simp only at hn
      split at hn
      · cases hn
      · split_ifs at hn
        · cases hn
          exact ⟨⟨rfl, rfl, fun _ hj => hj, hset⟩, by simp [setAt]⟩
        · split at hn
          · cases hn
          · cases hn
            exact ⟨⟨rfl, rfl, fun _ hj => hj, hset⟩, by simp [setAt]⟩

theorem ensureBufferBody_skip (dev : Device) (i : Nat) (c : Cache)
    (h : (c.scaled_resolve_2gb_buffers_ i).isSome) : ensureBufferBody dev i c = Flow.next c := by
  unfold ensureBufferBody
  cases hb : c.scaled_resolve_2gb_buffers_ i with
  | some b => rfl
  | none => rw [hb] at h; cases h

theorem ensureHeapBody_skip (h : Header) (dev : Device) (i : Nat) (c : Cache)
    (hs : (c.scaled_resolve_heaps_ i).isSome) : ensureHeapBody h dev i c = Flow.next c := by
  unfold ensureHeapBody
  cases hb : c.scaled_resolve_heaps_ i with
  | some b => rfl
  | none => rw [hb] at hs; cases hs

/-- After a `for` loop that fell through, with a body that respects
`CommitStable` and establishes `P i` at index `i`, the states are related and
`P` holds on the whole range, which does not wrap. -/
theorem forLE_commit {bits : Nat} {body : Nat → Cache → Flow Cache} (P : Nat → Cache → Prop)
    (hmono : ∀ j a b, CommitStable a b → P j a → P j b)
    (hstep : ∀ i s s1, body i s = Flow.next s1 → CommitStable s s1 ∧ P i s1)
    {first last : Nat} {c c1 : Cache} (h : forLE bits body first last c = Flow.next c1) :
    CommitStable c c1 ∧ (last < first ∨ last + 1 < 2 ^ bits) ∧
      ∀ j, first ≤ j → j ≤ last → P j c1 := by
  rcases forLE_next h with ⟨hlt, rfl⟩ | ⟨hle, hb, hloop⟩
  · exact ⟨CommitStable.refl _, Or.inl hlt, fun j h1 h2 => by omega⟩
  · obtain ⟨hR, hP⟩ := loopFrom_next body P CommitStable CommitStable.refl CommitStable.trans
      hmono hstep _ _ _ _ hloop
    exact ⟨hR, Or.inr hb, fun j h1 h2 => hP j h1 (by omega)⟩

/-- C7: `EnsureScaledResolveMemoryCommitted` is idempotent. For every cache
state, every outcome of the device calls and every (start, length) for which a
call returns true, an immediately repeated call with the same arguments
returns true whatever the device would answer, and leaves the whole cache as
it was: no call is added to the trace (no virtual buffer and no heap is
created), and `scaled_resolve_heap_count_`, the heaps and the virtual buffers
are unchanged. -/
theorem EnsureScaledResolveMemoryCommitted_idempotent (h : Header) (dev dev2 : Device)
    (c c1 : Cache) (start_unscaled length_unscaled : Nat)
    (hfirst : EnsureScaledResolveMemoryCommitted h dev c start_unscaled length_unscaled =
      some (true, c1)) :
    EnsureScaledResolveMemoryCommitted h dev2 c1 start_unscaled length_unscaled =
      some (true, c1) := by
  unfold EnsureScaledResolveMemoryCommitted at hfirst ⊢
  by_cases hlen : length_unscaled = 0
  · rw [if_pos hlen] at hfirst ⊢
  · rw [if_neg hlen] at hfirst ⊢
    by_cases hout : start_unscaled > kBufferSize ∨
        sub32 kBufferSize start_unscaled < length_unscaled
    · rw [if_pos hout] at hfirst
      cases hfirst
    · rw [if_neg hout] at hfirst ⊢
      simp only at hfirst ⊢
      split at hfirst
      · cases hfirst
      · cases hfirst
      · rename_i cb hbuf
        split at hfirst
        · cases hfirst
        · cases hfirst
        · rename_i c2 hheap
          have hc := (Prod.mk.inj (Option.some.inj hfirst)).2
          subst hc
          obtain ⟨hRb, hrb, hPb⟩ := forLE_commit
            (fun j s => (s.scaled_resolve_2gb_buffers_ j).isSome)
            (fun j a b hab => hab.2.2.1 j) (ensureBufferBody_next dev) hbuf
          obtain ⟨hRh, hrh, hPh⟩ := forLE_commit
            (fun j s => (s.scaled_resolve_heaps_ j).isSome)
            (fun j a b hab => hab.2.2.2 j) (ensureHeapBody_next h dev) hheap
          have hsx : c2.draw_resolution_scale_x = c.draw_resolution_scale_x :=
            hRh.1.trans hRb.1
          have hsy : c2.draw_resolution_scale_y = c.draw_resolution_scale_y :=
            hRh.2.1.trans hRb.2.1
          have harea : c2.draw_resolution_scale_area = c.draw_resolution_scale_area := by
            unfold Cache.draw_resolution_scale_area; rw [hsx, hsy]
          rw [harea, hsx, hsy]
          rw [forLE_skip 64 (ensureBufferBody dev2) _ _ c2 hrb
            (fun j h1 h2 => ensureBufferBody_skip dev2 j c2 (hRh.2.2.1 j (hPb j h1 h2)))]
          simp only
          rw [forLE_skip 32 (ensureHeapBody h dev2) _ _ c2 hrh
            (fun j h1 h2 => ensureHeapBody_skip h dev2 j c2 (hPh j h1 h2))]

/-- Witness of C7: at scale 2x2, committing guest bytes 4096 .. 12287 creates
buffer 0 and one heap; the repeated call succeeds on a device that can create
nothing and changes nothing. -/
theorem EnsureScaledResolveMemoryCommitted_idempotent_witness :
    ∃ c1, EnsureScaledResolveMemoryCommitted xeniaHeader Device.succeeding
        (Cache.initial 2 2) 4096 8192 = some (true, c1) ∧
      c1.scaled_resolve_heap_count_ = 1 ∧
      EnsureScaledResolveMemoryCommitted xeniaHeader Device.failing c1 4096 8192 =
        some (true, c1) :=
  ⟨_, rfl, rfl,
    EnsureScaledResolveMemoryCommitted_idempotent xeniaHeader Device.succeeding Device.failing
      (Cache.initial 2 2) _ 4096 8192 rfl⟩

/-- C8 (failing input): at scale 3x3 (area 9) with 16 MB heap granules, the
call for start 0 and length 1864136 returns true having created heap 0 only:
heap 1 stays null, although the scaled bytes 16777216 .. 16777223 of the scaled
range [0 * 9, (0 + 1864136) * 9) lie in it. -/
theorem EnsureScaledResolveMemoryCommitted_misses_last_heap :
    ∃ c1, EnsureScaledResolveMemoryCommitted xeniaHeader Device.succeeding
        (Cache.initial 3 3) 0 1864136 = some (true, c1) ∧
      (Cache.initial 3 3).draw_resolution_scale_area = 9 ∧
      0 * 9 ≤ 16777216 ∧ 16777216 < (0 + 1864136) * 9 ∧
      16777216 >>> xeniaHeader.kScaledResolveHeapSizeLog2 = 1 ∧
      c1.scaled_resolve_heaps_ 0 = some 2000 ∧
      c1.scaled_resolve_heaps_ 1 = none ∧
      c1.scaled_resolve_heap_count_ = 1 :=
  ⟨_, rfl, by decide, by decide, by decide, by decide, rfl, rfl, rfl⟩

/-! ## Properties of `MakeScaledResolveRangeCurrent` -/

theorem mem_visitedIndices (p : Nat × Nat) (b : Nat) :
    b ∈ visitedIndices p ↔ b = p.1 ∨ b = p.2 := by
  unfold visitedIndices
  split_ifs with hne
  · simp
  · have heq : p.1 = p.2 := not_not.mp hne
    simp [heq]

theorem mem_commonInner (f : Nat) : ∀ (ls init : List Nat) (b : Nat),
    b ∈ ls.foldl (fun common l =>
        if l = f then (if common.contains f then common else common ++ [f]) else common) init ↔
      b ∈ init ∨ (b = f ∧ f ∈ ls) := by
  intro ls
  induction ls with
  | nil => intro init b; simp
  | cons l ls ih =>
    intro init b
    rw [List.foldl_cons, ih]
    by_cases hl : l = f
    · subst hl
      by_cases hc : init.contains l = true
      · have hmem : l ∈ init := by simpa using hc
        simp only [if_true, hc, List.mem_cons, true_or, and_true]
        constructor
        · rintro (h | ⟨h, _⟩)
          · exact Or.inl h
          · exact Or.inr h
        · rintro (h | h)
          · exact Or.inl h
          · exact Or.inl (h ▸ hmem)
      · simp only [if_true, hc, List.mem_cons, true_or, and_true, List.mem_append,
          List.mem_singleton, Bool.false_eq_true, if_false]
        tauto
    · simp only [if_neg hl, List.mem_cons]
      have : f ≠ l := fun h => hl h.symm
      tauto

/-- The common candidates are the buffer indices possible for both the first
and the last address. -/
theorem mem_possibleBufferIndicesCommon (first last : Nat × Nat) (b : Nat) :
    b ∈ possibleBufferIndicesCommon first last ↔
      (b = first.1 ∨ b = first.2) ∧ (b = last.1 ∨ b = last.2) := by
  have outer : ∀ (fs init : List Nat),
      b ∈ fs.foldl (fun common f => (visitedIndices last).foldl (fun common l =>
          if l = f then (if common.contains f then common else common ++ [f]) else common)
          common) init ↔ b ∈ init ∨ (b ∈ fs ∧ b ∈ visitedIndices last) := by
    intro fs
    induction fs with
    | nil => intro init; simp
    | cons f fs ih =>
      intro init
      rw [List.foldl_cons, ih, mem_commonInner, List.mem_cons]
      constructor
      · rintro ((h | ⟨h1, h2⟩) | ⟨h1, h2⟩)
        · exact Or.inl h
        · exact Or.inr ⟨Or.inl h1, h1 ▸ h2⟩
        · exact Or.inr ⟨Or.inr h1, h2⟩
      · rintro (h | ⟨h1 | h1, h2⟩)
        · exact Or.inl (Or.inl h)
        · exact Or.inl (Or.inr ⟨h1, h1 ▸ h2⟩)
        · exact Or.inr ⟨h1, h2⟩
  unfold possibleBufferIndicesCommon
  rw [outer, mem_visitedIndices, mem_visitedIndices]
  simp

theorem chooseNewBufferIndex_mem (owners : Nat → Nat) (common : List Nat)
    (gigabyte_first gigabyte_last : Nat) (hne : common ≠ []) :
    chooseNewBufferIndex owners common gigabyte_first gigabyte_last ∈ common := by
  unfold chooseNewBufferIndex
  rcases common with _ | ⟨a, _ | ⟨b, t⟩⟩
  · exact absurd rfl hne
  · simp
  · simp only [List.length_cons, ge_iff_le]
    rw [if_pos (by omega)]
    split_ifs <;> simp

theorem makeCurrentBody_next (new_buffer_index new_buffer_resource i : Nat) (c : Cache)
    (hown : OwnersCreated c) (hnew : (c.scaled_resolve_2gb_buffers_ new_buffer_index).isSome) :
    ∃ c1, makeCurrentBody new_buffer_index new_buffer_resource i c = Flow.next c1 ∧
      OwnersCreated c1 ∧ (c1.scaled_resolve_2gb_buffers_ new_buffer_index).isSome := by
  unfold makeCurrentBody
  simp only
  by_cases h1 : c.scaled_resolve_1gb_buffer_indices_ i = new_buffer_index
  · rw [if_pos h1]
    exact ⟨c, rfl, hown, hnew⟩
  · rw [if_neg h1]
    by_cases h2 : c.scaled_resolve_1gb_buffer_indices_ i ≠ SIZE_MAX
    · rw [if_pos h2]
      have hex := hown i h2
      cases hb : c.scaled_resolve_2gb_buffers_ (c.scaled_resolve_1gb_buffer_indices_ i) with
      | none => rw [hb] at hex; cases hex
      | some buffer =>
        have hkeep : ∀ k, (c.scaled_resolve_2gb_buffers_ k).isSome →
            (setAt c.scaled_resolve_2gb_buffers_ (c.scaled_resolve_1gb_buffer_indices_ i)
              (some { buffer with uav_barrier_pending := false }) k).isSome := by
          intro k hk
          simp only [setAt]
          split_ifs
          · rfl
          · exact hk
        refine ⟨_, rfl, ?_, hkeep _ hnew⟩
        intro j hj
        simp only [setAt] at hj ⊢
        by_cases hji : j = i
        · simp only [hji, if_true] at hj ⊢
          split_ifs
          · rfl
          · exact hnew
        · simp only [hji, if_false] at hj ⊢
          split_ifs
          · rfl
          · exact hown j hj
    · rw [if_neg h2]
      refine ⟨_, rfl, ?_, hnew⟩
      intro j hj
      simp only [setAt] at hj ⊢
      by_cases hji : j = i
      · simp only [hji, if_true] at hj ⊢
        exact hnew
      · simp only [hji, if_false] at hj ⊢
        exact hown j hj

theorem makeCurrentLoop_next (new_buffer_index new_buffer_resource : Nat) :
    ∀ (n i : Nat) (c : Cache), OwnersCreated c →
      (c.scaled_resolve_2gb_buffers_ new_buffer_index).isSome →
      ∃ c1, loopFrom (makeCurrentBody new_buffer_index new_buffer_resource) n i c =
        Flow.next c1 := by
  intro n
  induction n with
  | zero => intro i c _ _; exact ⟨c, rfl⟩
  | succ n ih =>
    intro i c hown hnew
    obtain ⟨c1, hb, hown1, hnew1⟩ :=
      makeCurrentBody_next new_buffer_index new_buffer_resource i c hown hnew
    rw [loopFrom, hb]
    exact ih (i + 1) c1 hown1 hnew1

theorem shiftRight_succ_lt {x : Nat} (h1 : x < 2 ^ 64) : (x >>> 30) + 1 < 2 ^ 64 := by
  have h3 : x >>> 30 < 2 ^ 34 := by
    rw [Nat.shiftRight_eq_div_pow, Nat.div_lt_iff_lt_mul (by positivity)]
    calc x < 2 ^ 64 := h1
      _ = 2 ^ 34 * 2 ^ 30 := by norm_num
  have : (2 : Nat) ^ 34 + 1 < 2 ^ 64 := by norm_num
  omega

/-- The scaled range of an in-bounds request, without wrap-around. -/
theorem scaled_range_eq {start len area : Nat} (hlen : len ≠ 0) (hstart : start < kBufferSize)
    (hfit : len ≤ kBufferSize - start) (harea0 : 0 < area) (harea : area < 2 ^ 32) :
    u64 (start * area) = start * area ∧ u64 (len * area) = len * area ∧
    u64 (u64 (start * area) + sub64 (u64 (len * area)) 1) = start * area + len * area - 1 ∧
    start * area + len * area - 1 < 2 ^ 64 := by
  unfold kBufferSize at hstart hfit
  have hsum : (start + len) * area ≤ 2 ^ 29 * 2 ^ 32 :=
    Nat.mul_le_mul (by omega) (le_of_lt harea)
  have hpos : 1 ≤ len * area := Nat.mul_pos (Nat.pos_of_ne_zero hlen) harea0
  rw [Nat.add_mul] at hsum
  generalize start * area = a at *
  generalize len * area = b at *
  unfold u64 sub64
  norm_num at hsum ⊢
  omega

theorem makeCurrent_forLE_next (new_buffer_index new_buffer_resource first last : Nat)
    (c : Cache) (hown : OwnersCreated c)
    (hnew : (c.scaled_resolve_2gb_buffers_ new_buffer_index).isSome)
    (hwrap : last + 1 < 2 ^ 64) :
    ∃ c1, forLE 64 (makeCurrentBody new_buffer_index new_buffer_resource) first last c =
      Flow.next c1 := by
  unfold forLE
  by_cases h1 : last < first
  · rw [if_pos h1]; exact ⟨c, rfl⟩
  · rw [if_neg h1, if_pos hwrap]
    exact makeCurrentLoop_next new_buffer_index new_buffer_resource _ _ c hown hnew

/-- C9: for a cache with a nonzero draw resolution scale area, whose gigabyte
owners are buffers that exist and in which the candidate buffers of the request
have been created, `MakeScaledResolveRangeCurrent(start, length)` returns, and
it returns false if and only if length = 0, or start >= kBufferSize, or
kBufferSize - start < length, or no buffer index is among the possible buffers
of both the first scaled byte `start * area` and the last scaled byte
`start * area + length * area - 1`; in every other case it returns true. -/
theorem MakeScaledResolveRangeCurrent_false_iff (h : Header) (c : Cache)
    (start_unscaled length_unscaled : Nat)
    (harea : 0 < c.draw_resolution_scale_area)
    (howners : OwnersCreated c)
    (hcreated : ∀ b,
      (b = (h.GetPossibleScaledResolveBufferIndices c.draw_resolution_scale_x
              c.draw_resolution_scale_y (start_unscaled * c.draw_resolution_scale_area)).1 ∨
        b = (h.GetPossibleScaledResolveBufferIndices c.draw_resolution_scale_x
              c.draw_resolution_scale_y (start_unscaled * c.draw_resolution_scale_area)).2) →
      (b = (h.GetPossibleScaledResolveBufferIndices c.draw_resolution_scale_x
              c.draw_resolution_scale_y (start_unscaled * c.draw_resolution_scale_area +
                length_unscaled * c.draw_resolution_scale_area - 1)).1 ∨
        b = (h.GetPossibleScaledResolveBufferIndices c.draw_resolution_scale_x
              c.draw_resolution_scale_y (start_unscaled * c.draw_resolution_scale_area +
                length_unscaled * c.draw_resolution_scale_area - 1)).2) →
      (c.scaled_resolve_2gb_buffers_ b).isSome) :
    ∃ result c1,
      MakeScaledResolveRangeCurrent h c start_unscaled length_unscaled = some (result, c1) ∧
      (result = false ↔
        (length_unscaled = 0 ∨ start_unscaled ≥ kBufferSize ∨
          kBufferSize - start_unscaled < length_unscaled ∨
          ¬ ∃ b,
            (b = (h.GetPossibleScaledResolveBufferIndices c.draw_resolution_scale_x
                    c.draw_resolution_scale_y
                    (start_unscaled * c.draw_resolution_scale_area)).1 ∨
              b = (h.GetPossibleScaledResolveBufferIndices c.draw_resolution_scale_x
                    c.draw_resolution_scale_y
                    (start_unscaled * c.draw_resolution_scale_area)).2) ∧
            (b = (h.GetPossibleScaledResolveBufferIndices c.draw_resolution_scale_x
                    c.draw_resolution_scale_y (start_unscaled * c.draw_resolution_scale_area +
                      length_unscaled * c.draw_resolution_scale_area - 1)).1 ∨
              b = (h.GetPossibleScaledResolveBufferIndices c.draw_resolution_scale_x
                    c.draw_resolution_scale_y (start_unscaled * c.draw_resolution_scale_area +
                      length_unscaled * c.draw_resolution_scale_area - 1)).2))) := by
  have harea32 : c.draw_resolution_scale_area < 2 ^ 32 := Nat.mod_lt _ (by positivity)
  unfold MakeScaledResolveRangeCurrent
  by_cases hearly : length_unscaled = 0 ∨ start_unscaled ≥ kBufferSize ∨
      sub32 kBufferSize start_unscaled < length_unscaled
  · rw [if_pos hearly]
    refine ⟨false, c, rfl, ?_⟩
    simp only [true_iff]
    rcases hearly with h1 | h2 | h3
    · exact Or.inl h1
    · exact Or.inr (Or.inl h2)
    · by_cases hs : start_unscaled ≥ kBufferSize
      · exact Or.inr (Or.inl hs)
      · refine Or.inr (Or.inr (Or.inl ?_))
        unfold sub32 kBufferSize at h3
        unfold kBufferSize at hs
        norm_num at h3 hs
        unfold kBufferSize
        omega
  · rw [if_neg hearly]
    have hlen : length_unscaled ≠ 0 := fun h0 => hearly (Or.inl h0)
    have hstart : start_unscaled < kBufferSize := by
      by_contra hs
      exact hearly (Or.inr (Or.inl (by omega)))
    have hfit : length_unscaled ≤ kBufferSize - start_unscaled := by
      by_contra hs
      apply hearly
      refine Or.inr (Or.inr ?_)
      unfold sub32
      unfold kBufferSize at hs hstart ⊢
      norm_num at hs hstart ⊢
      omega
    obtain ⟨e1, e2, e3, e4⟩ := scaled_range_eq hlen hstart hfit harea harea32
    simp only [e1, e2] at e3 ⊢
    rw [e3]
    set pf := h.GetPossibleScaledResolveBufferIndices c.draw_resolution_scale_x
      c.draw_resolution_scale_y (start_unscaled * c.draw_resolution_scale_area) with hpf
    set pl := h.GetPossibleScaledResolveBufferIndices c.draw_resolution_scale_x
      c.draw_resolution_scale_y (start_unscaled * c.draw_resolution_scale_area +
        length_unscaled * c.draw_resolution_scale_area - 1) with hpl
    set common := possibleBufferIndicesCommon pf pl with hcom
    by_cases hcommon : common.length = 0
    · rw [if_pos hcommon]
      refine ⟨false, c, rfl, ?_⟩
      simp only [true_iff]
      refine Or.inr (Or.inr (Or.inr ?_))
      rintro ⟨b, hb1, hb2⟩
      have hmem := (mem_possibleBufferIndicesCommon pf pl b).mpr ⟨hb1, hb2⟩
      rw [← hcom, List.length_eq_zero.mp hcommon] at hmem
      cases hmem
    · rw [if_neg hcommon]
      have hne : common ≠ [] := fun h0 => hcommon (by rw [h0]; rfl)
      set idx := chooseNewBufferIndex c.scaled_resolve_1gb_buffer_indices_ common
        ((start_unscaled * c.draw_resolution_scale_area) >>> 30)
        ((start_unscaled * c.draw_resolution_scale_area +
          length_unscaled * c.draw_resolution_scale_area - 1) >>> 30) with hidx
      have hchosen : idx ∈ common := chooseNewBufferIndex_mem _ _ _ _ hne
      have hmem := (mem_possibleBufferIndicesCommon pf pl idx).mp hchosen
      have hexists := hcreated idx hmem.1 hmem.2
      cases hnb : c.scaled_resolve_2gb_buffers_ idx with
      | none => rw [hnb] at hexists; cases hexists
      | some new_buffer =>
        simp only
        obtain ⟨c1, hloop⟩ := makeCurrent_forLE_next idx new_buffer.resource
          ((start_unscaled * c.draw_resolution_scale_area) >>> 30)
          ((start_unscaled * c.draw_resolution_scale_area +
            length_unscaled * c.draw_resolution_scale_area - 1) >>> 30) c howners
          (by rw [hnb]; rfl) (shiftRight_succ_lt e4)
        rw [hloop]
        refine ⟨true, _, rfl, ?_⟩
        simp only [Bool.true_eq_false, false_iff]
        rintro (h1 | h2 | h3 | h4)
        · exact hlen h1
        · omega
        · omega
        · obtain ⟨b, hb⟩ := List.exists_mem_of_ne_nil _ hne
          exact h4 ⟨b, (mem_possibleBufferIndicesCommon pf pl b).mp hb⟩

/-- Witness of C9: at scale 2x2 with both buffers created, the request for guest
bytes 4096 .. 12287 is covered by buffer 0 and the call returns true. -/
theorem MakeScaledResolveRangeCurrent_false_iff_witness :
    (0 < (Cache.withAllBuffers 2 2).draw_resolution_scale_area ∧
      OwnersCreated (Cache.withAllBuffers 2 2)) ∧
    ∃ c1, MakeScaledResolveRangeCurrent xeniaHeader (Cache.withAllBuffers 2 2) 4096 8192 =
      some (true, c1) := by
  have harea : 0 < (Cache.withAllBuffers 2 2).draw_resolution_scale_area := by decide
  have hown : OwnersCreated (Cache.withAllBuffers 2 2) := fun i hi => absurd rfl hi
  refine ⟨⟨harea, hown⟩, ?_⟩
  obtain ⟨result, c1, hcall, hiff⟩ :=
    MakeScaledResolveRangeCurrent_false_iff xeniaHeader (Cache.withAllBuffers 2 2) 4096 8192
      harea hown (by
        intro b hb _
        rcases hb with rfl | rfl <;> decide)
  cases result with
  | true => exact ⟨c1, hcall⟩
  | false =>
    exfalso
    rcases hiff.mp rfl with h1 | h2 | h3 | h4
    · exact absurd h1 (by decide)
    · exact absurd h2 (by decide)
    · exact absurd h3 (by decide)
    · exact h4 ⟨0, Or.inl (by decide), Or.inr (by decide)⟩

/-- C10: whenever `MakeScaledResolveRangeCurrent` returns false, the cache is
exactly as before the call: the per-gigabyte owner table
`scaled_resolve_1gb_buffer_indices_`, the current range (start and length), the
trace of calls (no aliasing barrier pushed) and every other member are
unchanged. -/
theorem MakeScaledResolveRangeCurrent_false_unchanged (h : Header) (c c1 : Cache)
    (start_unscaled length_unscaled : Nat)
    (hfalse : MakeScaledResolveRangeCurrent h c start_unscaled length_unscaled =
      some (false, c1)) :
    c1 = c := by
  unfold MakeScaledResolveRangeCurrent at hfalse
  split_ifs at hfalse with h1
  · exact ((Prod.mk.inj (Option.some.inj hfalse)).2).symm
  · simp only at hfalse
    split_ifs at hfalse with h2
    · exact ((Prod.mk.inj (Option.some.inj hfalse)).2).symm
    · split at hfalse
      · cases hfalse
      · split at hfalse
        · cases hfalse
        · cases hfalse

/-- Witness of C10: at scale 3x3 the whole guest memory (4.5 GB scaled) is
covered by no single buffer; the call fails and the cache is unchanged. -/
theorem MakeScaledResolveRangeCurrent_false_unchanged_witness :
    MakeScaledResolveRangeCurrent xeniaHeader (Cache.initial 3 3) 0 536870912 =
      some (false, Cache.initial 3 3) ∧
    Cache.initial 3 3 = Cache.initial 3 3 :=
  ⟨rfl, MakeScaledResolveRangeCurrent_false_unchanged xeniaHeader (Cache.initial 3 3)
    (Cache.initial 3 3) 0 536870912 rfl⟩

/-! ## Ownership changes of `MakeScaledResolveRangeCurrent` -/

/-- A `for` loop that fell through ran its body over the whole range, once. -/
theorem forLE_next_loop {σ : Type} {bits : Nat} {body : Nat → σ → Flow σ} {first last : Nat}
    {s s1 : σ} (h : forLE bits body first last s = Flow.next s1) :
    loopFrom body (last + 1 - first) first s = Flow.next s1 := by
  rcases forLE_next h with ⟨hlt, rfl⟩ | ⟨_, _, hloop⟩
  · have : last + 1 - first = 0 := by omega
    rw [this]; rfl
  · exact hloop

theorem unitBarriers_congr (owners owners1 : Nat → Nat)
    (buffers buffers1 : Nat → Option ScaledResolveVirtualBuffer) (b r : Nat)
    (hres : ∀ k, (buffers1 k).map (fun x => x.resource) = (buffers k).map (fun x => x.resource)) :
    ∀ (n i : Nat), (∀ j, i ≤ j → owners1 j = owners j) →
      unitBarriers owners1 buffers1 b r n i = unitBarriers owners buffers b r n i := by
  intro n
  induction n with
  | zero => intro i _; rfl
  | succ n ih =>
    intro i hown
    rw [unitBarriers, unitBarriers, ih (i + 1) (fun j hj => hown j (by omega))]
    congr 1
    unfold unitBarrier
    rw [hown i le_rfl]
    split_ifs
    · rfl
    · have := hres (owners i)
      cases h1 : buffers1 (owners i) <;> cases h2 : buffers (owners i) <;>
        rw [h1, h2] at this <;> simp at this ⊢
      exact this

/-- One iteration of the ownership loop that falls through: the barrier of the
unit is pushed, the unit is owned by the new buffer, every other unit keeps its
owner, and every buffer keeps its resource. -/
theorem makeCurrentBody_spec (b r i : Nat) (c c1 : Cache)
    (h : makeCurrentBody b r i c = Flow.next c1) :
    c1.calls = c.calls ++
        unitBarrier c.scaled_resolve_1gb_buffer_indices_ c.scaled_resolve_2gb_buffers_ b r i ∧
      c1.scaled_resolve_1gb_buffer_indices_ i = b ∧
      (∀ j, j ≠ i → c1.scaled_resolve_1gb_buffer_indices_ j =
        c.scaled_resolve_1gb_buffer_indices_ j) ∧
      (∀ k, (c1.scaled_resolve_2gb_buffers_ k).map (fun x => x.resource) =
        (c.scaled_resolve_2gb_buffers_ k).map (fun x => x.resource)) ∧
      (c.scaled_resolve_1gb_buffer_indices_ i ≠ b →
        c.scaled_resolve_1gb_buffer_indices_ i ≠ SIZE_MAX →
        (c.scaled_resolve_2gb_buffers_ (c.scaled_resolve_1gb_buffer_indices_ i)).isSome) ∧
      c1.draw_resolution_scale_x = c.draw_resolution_scale_x ∧
      c1.draw_resolution_scale_y = c.draw_resolution_scale_y ∧
      c1.scaled_resolve_heaps_ = c.scaled_resolve_heaps_ ∧
      c1.scaled_resolve_heap_count_ = c.scaled_resolve_heap_count_ := by
  unfold makeCurrentBody at h
  simp only at h
  unfold unitBarrier
  by_cases h1 : c.scaled_resolve_1gb_buffer_indices_ i = b
  · rw [if_pos h1] at h
    cases h
    simp [h1]
  · rw [if_neg h1] at h
    by_cases h2 : c.scaled_resolve_1gb_buffer_indices_ i ≠ SIZE_MAX
    · rw [if_pos h2] at h
      cases hb : c.scaled_resolve_2gb_buffers_ (c.scaled_resolve_1gb_buffer_indices_ i) with
      | none => rw [hb] at h; cases h
      | some old =>
        rw [hb] at h
        cases h
        refine ⟨by simp [h1, h2], by simp [setAt], fun j hj => by simp [setAt, hj], ?_,
          fun _ _ => rfl, rfl, rfl, rfl, rfl⟩
        intro k
        simp only [setAt]
        split_ifs with hk
        · rw [hk, hb]; rfl
        · rfl
    · rw [if_neg h2] at h
      cases h
      have h2' : c.scaled_resolve_1gb_buffer_indices_ i = SIZE_MAX := not_not.mp h2
      exact ⟨by simp [h2'], by simp [setAt], fun j hj => by simp [setAt, hj], fun k => rfl,
        fun _ hne => absurd h2' hne, rfl, rfl, rfl, rfl⟩

/-- The ownership loop that falls through, over the units `i, ..., i + n - 1`:
the barriers due are pushed in order, the units visited are owned by the new
buffer, the others keep their owner, and every buffer keeps its resource. -/
theorem makeCurrentLoop_spec (b r : Nat) : ∀ (n i : Nat) (c c1 : Cache),
    loopFrom (makeCurrentBody b r) n i c = Flow.next c1 →
    c1.calls = c.calls ++
        unitBarriers c.scaled_resolve_1gb_buffer_indices_ c.scaled_resolve_2gb_buffers_ b r n i ∧
      (∀ j, i ≤ j → j < i + n → c1.scaled_resolve_1gb_buffer_indices_ j = b) ∧
      (∀ j, ¬ (i ≤ j ∧ j < i + n) → c1.scaled_resolve_1gb_buffer_indices_ j =
        c.scaled_resolve_1gb_buffer_indices_ j) ∧
      (∀ k, (c1.scaled_resolve_2gb_buffers_ k).map (fun x => x.resource) =
        (c.scaled_resolve_2gb_buffers_ k).map (fun x => x.resource)) ∧
      (∀ j, i ≤ j → j < i + n → c.scaled_resolve_1gb_buffer_indices_ j ≠ b →
        c.scaled_resolve_1gb_buffer_indices_ j ≠ SIZE_MAX →
        (c.scaled_resolve_2gb_buffers_ (c.scaled_resolve_1gb_buffer_indices_ j)).isSome) ∧
      c1.draw_resolution_scale_x = c.draw_resolution_scale_x ∧
      c1.draw_resolution_scale_y = c.draw_resolution_scale_y ∧
      c1.scaled_resolve_heaps_ = c.scaled_resolve_heaps_ ∧
      c1.scaled_resolve_heap_count_ = c.scaled_resolve_heap_count_ := by
  intro n
  induction n with
  | zero =>
    intro i c c1 h
    rw [loopFrom] at h
    cases h
    exact ⟨by simp [unitBarriers], fun j h1 h2 => by omega, fun _ _ => rfl, fun _ => rfl,
      fun j h1 h2 => by omega, rfl, rfl, rfl, rfl⟩
  | succ n ih =>
    intro i c c1 h
    rw [loopFrom] at h
    cases hb : makeCurrentBody b r i c with
    | return_false s => rw [hb] at h; cases h
    | undefined => rw [hb] at h; cases h
    | next c2 =>
      rw [hb] at h
      obtain ⟨b1, b2, b3, b4, b5, b6, b7, b8, b9⟩ := makeCurrentBody_spec b r i c c2 hb
      obtain ⟨l1, l2, l3, l4, l5, l6, l7, l8, l9⟩ := ih (i + 1) c2 c1 h
      have hcongr := unitBarriers_congr c.scaled_resolve_1gb_buffer_indices_
        c2.scaled_resolve_1gb_buffer_indices_ c.scaled_resolve_2gb_buffers_
        c2.scaled_resolve_2gb_buffers_ b r b4 n (i + 1) (fun j hj => b3 j (by omega))
      refine ⟨?_, ?_, ?_, fun k => (l4 k).trans (b4 k), ?_, l6.trans b6, l7.trans b7,
        l8.trans b8, l9.trans b9⟩
      · rw [l1, b1, hcongr, unitBarriers, List.append_assoc]
      · intro j h1 h2
        by_cases hj : j = i
        · rw [l3 j (by omega), hj, b2]
        · exact l2 j (by omega) (by omega)
      · intro j hj
        rw [l3 j (by omega), b3 j (by omega)]
      · intro j h1 h2 hne1 hne2
        by_cases hj : j = i
        · subst hj; exact b5 hne1 hne2
        · have hsame := b3 j hj
          have := l5 j (by omega) (by omega) (by rw [hsame]; exact hne1)
            (by rw [hsame]; exact hne2)
          rw [hsame] at this
          have hres := b4 (c.scaled_resolve_1gb_buffer_indices_ j)
          cases hx : c.scaled_resolve_2gb_buffers_ (c.scaled_resolve_1gb_buffer_indices_ j) with
          | some v => rfl
          | none =>
            rw [hx] at hres
            cases hy : c2.scaled_resolve_2gb_buffers_ (c.scaled_resolve_1gb_buffer_indices_ j) with
            | none => rw [hy] at this; cases this
            | some v => rw [hy] at hres; cases hres

/-- What a successful `MakeScaledResolveRangeCurrent` did: the chosen buffer
exists, the ownership loop ran over the units of the request and fell through,
and the current range was set. -/
theorem MakeScaledResolveRangeCurrent_success_inv (h : Header) (c c1 : Cache)
    (start_unscaled length_unscaled : Nat)
    (hs : MakeScaledResolveRangeCurrent h c start_unscaled length_unscaled = some (true, c1)) :
    ∃ new_buffer c2,
      c.scaled_resolve_2gb_buffers_ (chosenBuffer h c start_unscaled length_unscaled) =
        some new_buffer ∧
      loopFrom (makeCurrentBody (chosenBuffer h c start_unscaled length_unscaled)
          new_buffer.resource) (c.gigabyte_count start_unscaled length_unscaled)
          (c.gigabyte_first start_unscaled) c = Flow.next c2 ∧
      c1 = { c2 with
        scaled_resolve_current_range_start_scaled_ := c.start_scaled start_unscaled
        scaled_resolve_current_range_length_scaled_ := c.length_scaled length_unscaled } ∧
      candidateBuffers h c start_unscaled length_unscaled ≠ [] := by
  unfold MakeScaledResolveRangeCurrent at hs
  split_ifs at hs with h1
  · cases hs
  · simp only at hs
    split_ifs at hs with h2
    · cases hs
    · have hne : candidateBuffers h c start_unscaled length_unscaled ≠ [] := by
        intro h0
        apply h2
        unfold candidateBuffers Cache.last_scaled Cache.start_scaled Cache.length_scaled at h0
        rw [h0]; rfl
      split at hs
      · cases hs
      · rename_i new_buffer hnb
        split at hs
        · rename_i c2 hloop
          refine ⟨new_buffer, c2, hnb, forLE_next_loop hloop, ?_, hne⟩
          exact ((Prod.mk.inj (Option.some.inj hs)).2).symm
        · cases hs

/-- C11: when `MakeScaledResolveRangeCurrent` succeeds, with chosen buffer b
(which exists): the calls it adds to the trace are, for the ownership units
`gigabyte_first ... gigabyte_last` in order, exactly one aliasing barrier
(resource of the old owner -> resource of b) for each unit that was owned by a
buffer other than b and none for a unit that was unowned or owned by b;
afterwards every touched unit is owned by b, every untouched unit keeps its
previous owner, and the current range is (start_scaled, length_scaled). -/
theorem MakeScaledResolveRangeCurrent_ownership (h : Header) (c c1 : Cache)
    (start_unscaled length_unscaled : Nat)
    (hs : MakeScaledResolveRangeCurrent h c start_unscaled length_unscaled = some (true, c1)) :
    ∃ new_buffer,
      c.scaled_resolve_2gb_buffers_ (chosenBuffer h c start_unscaled length_unscaled) =
        some new_buffer ∧
      c1.calls = c.calls ++
        unitBarriers c.scaled_resolve_1gb_buffer_indices_ c.scaled_resolve_2gb_buffers_
          (chosenBuffer h c start_unscaled length_unscaled) new_buffer.resource
          (c.gigabyte_count start_unscaled length_unscaled) (c.gigabyte_first start_unscaled) ∧
      (∀ i, c.gigabyte_first start_unscaled ≤ i →
        i ≤ c.gigabyte_last start_unscaled length_unscaled →
        (c.scaled_resolve_1gb_buffer_indices_ i ≠
            chosenBuffer h c start_unscaled length_unscaled →
          c.scaled_resolve_1gb_buffer_indices_ i ≠ SIZE_MAX →
          ∃ old, c.scaled_resolve_2gb_buffers_ (c.scaled_resolve_1gb_buffer_indices_ i) =
              some old ∧
            unitBarrier c.scaled_resolve_1gb_buffer_indices_ c.scaled_resolve_2gb_buffers_
              (chosenBuffer h c start_unscaled length_unscaled) new_buffer.resource i =
              [DeviceCall.PushAliasingBarrier old.resource new_buffer.resource]) ∧
        ((c.scaled_resolve_1gb_buffer_indices_ i =
            chosenBuffer h c start_unscaled length_unscaled ∨
          c.scaled_resolve_1gb_buffer_indices_ i = SIZE_MAX) →
          unitBarrier c.scaled_resolve_1gb_buffer_indices_ c.scaled_resolve_2gb_buffers_
            (chosenBuffer h c start_unscaled length_unscaled) new_buffer.resource i = []) ∧
        c1.scaled_resolve_1gb_buffer_indices_ i =
          chosenBuffer h c start_unscaled length_unscaled) ∧
      (∀ i, ¬ (c.gigabyte_first start_unscaled ≤ i ∧
          i ≤ c.gigabyte_last start_unscaled length_unscaled) →
        c1.scaled_resolve_1gb_buffer_indices_ i = c.scaled_resolve_1gb_buffer_indices_ i) ∧
      c1.scaled_resolve_current_range_start_scaled_ = c.start_scaled start_unscaled ∧
      c1.scaled_resolve_current_range_length_scaled_ = c.length_scaled length_unscaled := by
  obtain ⟨new_buffer, c2, hnb, hloop, hc1, _⟩ :=
    MakeScaledResolveRangeCurrent_success_inv h c c1 start_unscaled length_unscaled hs
  obtain ⟨l1, l2, l3, _, l5, _⟩ := makeCurrentLoop_spec _ _ _ _ c c2 hloop
  subst hc1
  unfold Cache.gigabyte_count at l2 l3 l5
  refine ⟨new_buffer, hnb, l1, ?_, ?_, rfl, rfl⟩
  · intro i hi1 hi2
    refine ⟨?_, ?_, l2 i hi1 (by omega)⟩
    · intro hne1 hne2
      have hsome := l5 i hi1 (by omega) hne1 hne2
      cases hold : c.scaled_resolve_2gb_buffers_ (c.scaled_resolve_1gb_buffer_indices_ i) with
      | none => rw [hold] at hsome; cases hsome
      | some old =>
        refine ⟨old, rfl, ?_⟩
        unfold unitBarrier
        rw [if_neg (by tauto), hold]
    · intro hor
      unfold unitBarrier
      rw [if_pos hor]
  · intro i hi
    exact l3 i (by omega)

/-- Witness of C11: at scale 3x3 with all buffers created and gigabyte 0 owned
by buffer 1, the request for guest bytes 0 .. 4095 can only be served by buffer
0: the call pushes one aliasing barrier (buffer 1 -> buffer 0) and gigabyte 0 is
owned by buffer 0 afterwards. -/
theorem MakeScaledResolveRangeCurrent_ownership_witness :
    ∃ c1, MakeScaledResolveRangeCurrent xeniaHeader
        (Cache.withOwners 3 3 (fun i => if i = 0 then 1 else SIZE_MAX)) 0 4096 =
          some (true, c1) ∧
      c1.calls = [DeviceCall.PushAliasingBarrier 1001 1000] ∧
      c1.scaled_resolve_1gb_buffer_indices_ 0 = 0 := by
  refine ⟨_, rfl, ?_, ?_⟩
  · obtain ⟨nb, hnb, hcalls, _⟩ := MakeScaledResolveRangeCurrent_ownership xeniaHeader
      (Cache.withOwners 3 3 (fun i => if i = 0 then 1 else SIZE_MAX)) _ 0 4096 rfl
    rfl
  · rfl

/-! ## The choice between two candidate buffers -/

theorem ownedByOther_add_alreadyUsed (owners : Nat → Nat) (x : Nat) (hx : x ≠ SIZE_MAX) :
    ∀ (n i : Nat), ownedByOther owners x n i + alreadyUsed owners x n i =
      ownedByOther owners SIZE_MAX n i := by
  intro n
  induction n with
  | zero => intro i; rfl
  | succ n ih =>
    intro i
    have := ih (i + 1)
    rw [ownedByOther, alreadyUsed, ownedByOther]
    by_cases h1 : owners i = x
    · have h2 : ¬ (owners i = SIZE_MAX ∨ owners i = SIZE_MAX) := by
        rintro (h | h) <;> exact hx (h1 ▸ h)
      rw [if_pos (Or.inl h1), if_pos h1.symm, if_neg h2]
      omega
    · by_cases h2 : owners i = SIZE_MAX
      · rw [if_pos (Or.inr h2), if_neg (fun h => h1 h.symm), if_pos (Or.inl h2)]
        omega
      · rw [if_neg (by tauto), if_neg (fun h => h1 h.symm), if_neg (by tauto)]
        omega

theorem unitBarriers_length (owners : Nat → Nat)
    (buffers : Nat → Option ScaledResolveVirtualBuffer) (b r : Nat) :
    ∀ (n i : Nat),
      (∀ j, i ≤ j → j < i + n → owners j ≠ b → owners j ≠ SIZE_MAX →
        (buffers (owners j)).isSome) →
      (unitBarriers owners buffers b r n i).length = ownedByOther owners b n i := by
  intro n
  induction n with
  | zero => intro i _; rfl
  | succ n ih =>
    intro i hex
    rw [unitBarriers, ownedByOther, List.length_append,
      ih (i + 1) (fun j h1 h2 => hex j (by omega) (by omega))]
    congr 1
    unfold unitBarrier
    split_ifs with hor
    · rfl
    · have hsome := hex i le_rfl (by omega) (fun h => hor (Or.inl h)) (fun h => hor (Or.inr h))
      cases hold : buffers (owners i) with
      | none => rw [hold] at hsome; cases hsome
      | some old => rfl

/-- The number of barriers pushed by an ownership loop that falls through is
the number of units owned by a buffer other than the new one. -/
theorem makeCurrentLoop_length (b r : Nat) (n i : Nat) (c c1 : Cache)
    (hloop : loopFrom (makeCurrentBody b r) n i c = Flow.next c1) :
    c1.calls.length = c.calls.length +
      ownedByOther c.scaled_resolve_1gb_buffer_indices_ b n i := by
  obtain ⟨l1, _, _, _, l5, _⟩ := makeCurrentLoop_spec b r n i c c1 hloop
  rw [l1, List.length_append, unitBarriers_length _ _ b r n i l5]

/-- C12: when two buffers `a0`, `a1` (in the order found) can serve the whole
requested range and `MakeScaledResolveRangeCurrent` succeeds, the buffer it
chooses is `a1` if `a1` already owns more of the touched ownership units than
`a0`, and `a0` otherwise (the first candidate on a tie): the chosen one owns at
least as many touched units as the other, and the number of aliasing barriers
the call pushes is less than or equal to the number the ownership loop pushes
for either candidate, whatever the owner table. -/
theorem MakeScaledResolveRangeCurrent_majority (h : Header) (c c1 : Cache)
    (start_unscaled length_unscaled a0 a1 : Nat)
    (hs : MakeScaledResolveRangeCurrent h c start_unscaled length_unscaled = some (true, c1))
    (hcand : candidateBuffers h c start_unscaled length_unscaled = [a0, a1])
    (h0 : a0 ≠ SIZE_MAX) (h1 : a1 ≠ SIZE_MAX) :
    chosenBuffer h c start_unscaled length_unscaled =
      (if alreadyUsed c.scaled_resolve_1gb_buffer_indices_ a1
            (c.gigabyte_count start_unscaled length_unscaled)
            (c.gigabyte_first start_unscaled) >
          alreadyUsed c.scaled_resolve_1gb_buffer_indices_ a0
            (c.gigabyte_count start_unscaled length_unscaled)
            (c.gigabyte_first start_unscaled) then a1 else a0) ∧
    (∀ other, other = a0 ∨ other = a1 →
      alreadyUsed c.scaled_resolve_1gb_buffer_indices_ other
          (c.gigabyte_count start_unscaled length_unscaled)
          (c.gigabyte_first start_unscaled) ≤
        alreadyUsed c.scaled_resolve_1gb_buffer_indices_
          (chosenBuffer h c start_unscaled length_unscaled)
          (c.gigabyte_count start_unscaled length_unscaled)
          (c.gigabyte_first start_unscaled)) ∧
    (∀ other other_resource c2, other = a0 ∨ other = a1 →
      forLE 64 (makeCurrentBody other other_resource) (c.gigabyte_first start_unscaled)
        (c.gigabyte_last start_unscaled length_unscaled) c = Flow.next c2 →
      c1.calls.length - c.calls.length ≤ c2.calls.length - c.calls.length) := by
  have hchoice : chosenBuffer h c start_unscaled length_unscaled =
      (if alreadyUsed c.scaled_resolve_1gb_buffer_indices_ a1
            (c.gigabyte_count start_unscaled length_unscaled)
            (c.gigabyte_first start_unscaled) >
          alreadyUsed c.scaled_resolve_1gb_buffer_indices_ a0
            (c.gigabyte_count start_unscaled length_unscaled)
            (c.gigabyte_first start_unscaled) then a1 else a0) := by
    unfold chosenBuffer chooseNewBufferIndex Cache.gigabyte_count
    rw [hcand]
    simp only [List.length_cons, List.length_nil, ge_iff_le]
    rw [if_pos (by omega)]
    have e0 : [a0, a1].getD 0 0 = a0 := rfl
    have e1 : [a0, a1].getD 1 0 = a1 := rfl
    rw [e0, e1]
    split_ifs
    · exact e1
    · exact e0
  have hmaj : ∀ other, other = a0 ∨ other = a1 →
      alreadyUsed c.scaled_resolve_1gb_buffer_indices_ other
          (c.gigabyte_count start_unscaled length_unscaled)
          (c.gigabyte_first start_unscaled) ≤
        alreadyUsed c.scaled_resolve_1gb_buffer_indices_
          (chosenBuffer h c start_unscaled length_unscaled)
          (c.gigabyte_count start_unscaled length_unscaled)
          (c.gigabyte_first start_unscaled) := by
    intro other hother
    rw [hchoice]
    split_ifs with hgt <;> rcases hother with rfl | rfl <;> omega
  have hchosen_ne : chosenBuffer h c start_unscaled length_unscaled ≠ SIZE_MAX := by
    rw [hchoice]; split_ifs <;> assumption
  refine ⟨hchoice, hmaj, ?_⟩
  intro other other_resource c2 hother hloop2
  obtain ⟨new_buffer, c3, _, hloop, hc1, _⟩ :=
    MakeScaledResolveRangeCurrent_success_inv h c c1 start_unscaled length_unscaled hs
  have hlen1 := makeCurrentLoop_length _ _ _ _ c c3 hloop
  have hlen2 := makeCurrentLoop_length _ _ _ _ c c2 (forLE_next_loop hloop2)
  have hsum1 := ownedByOther_add_alreadyUsed c.scaled_resolve_1gb_buffer_indices_ _ hchosen_ne
    (c.gigabyte_count start_unscaled length_unscaled) (c.gigabyte_first start_unscaled)
  have hother_ne : other ≠ SIZE_MAX := by rcases hother with rfl | rfl <;> assumption
  have hsum2 := ownedByOther_add_alreadyUsed c.scaled_resolve_1gb_buffer_indices_ _ hother_ne
    (c.gigabyte_count start_unscaled length_unscaled) (c.gigabyte_first start_unscaled)
  have hm := hmaj other hother
  have hcalls : c1.calls = c3.calls := by rw [hc1]
  rw [hcalls]
  unfold Cache.gigabyte_count at *
  omega

/-- Witness of C12: at scale 3x3 a request inside gigabyte 1 can be served by
buffers 1 and 0; gigabyte 1 being owned by buffer 0, buffer 0 is chosen and no
barrier is pushed. -/
theorem MakeScaledResolveRangeCurrent_majority_witness :
    candidateBuffers xeniaHeader
      (Cache.withOwners 3 3 (fun i => if i = 1 then 0 else SIZE_MAX)) 134217728 4096 = [1, 0] ∧
    ∃ c1, MakeScaledResolveRangeCurrent xeniaHeader
        (Cache.withOwners 3 3 (fun i => if i = 1 then 0 else SIZE_MAX)) 134217728 4096 =
          some (true, c1) ∧
      chosenBuffer xeniaHeader
        (Cache.withOwners 3 3 (fun i => if i = 1 then 0 else SIZE_MAX)) 134217728 4096 = 0 ∧
      c1.calls = [] :=
  ⟨by decide, _, rfl,
    ((MakeScaledResolveRangeCurrent_majority xeniaHeader
      (Cache.withOwners 3 3 (fun i => if i = 1 then 0 else SIZE_MAX)) _ 134217728 4096 1 0
      rfl (by decide) (by decide) (by decide)).1).trans (by decide), rfl⟩
/-! ## Properties of the active texture keys and bindings -/

theorem areKeysUpToDateFrom_iff (texture_bindings_ : Nat → TextureBinding)
    (keys : Nat → TextureSRVKey) : ∀ (bindings : List ShaderTextureBinding) (i : Nat),
    areKeysUpToDateFrom texture_bindings_ keys bindings i = true ↔
      ∀ (j : Nat) (hj : j < bindings.length),
        slotUpToDate texture_bindings_ (keys (i + j)) (bindings.get ⟨j, hj⟩) := by
  intro bindings
  induction bindings with
  | nil => intro i; simp [areKeysUpToDateFrom]
  | cons b rest ih =>
    intro i
    have hsplit : (∀ (j : Nat) (hj : j < (b :: rest).length),
        slotUpToDate texture_bindings_ (keys (i + j)) ((b :: rest).get ⟨j, hj⟩)) ↔
        slotUpToDate texture_bindings_ (keys i) b ∧
        ∀ (j : Nat) (hj : j < rest.length),
          slotUpToDate texture_bindings_ (keys (i + 1 + j)) (rest.get ⟨j, hj⟩) := by
      constructor
      · intro hall
        refine ⟨hall 0 (by simp), fun j hj => ?_⟩
        have := hall (j + 1) (by simp; omega)
        rw [show i + (j + 1) = i + 1 + j by omega] at this
        exact this
      · rintro ⟨h0, hrest⟩ j hj
        cases j with
        | zero => exact h0
        | succ j =>
          have := hrest j (by simp at hj; omega)
          rw [show i + 1 + j = i + (j + 1) by omega] at this
          exact this
    rw [areKeysUpToDateFrom, hsplit, ← ih (i + 1)]
    unfold slotUpToDate
    cases hb : GetValidTextureBinding texture_bindings_ b.fetch_constant with
    | none =>
      simp only
      by_cases hv : (keys i).key.is_valid = true
      · simp [hv]
      · simp [hv]
    | some binding =>
      simp only
      by_cases hne : (keys i).key ≠ binding.key ∨ (keys i).host_swizzle ≠ binding.host_swizzle ∨
          (keys i).swizzled_signs ≠ binding.swizzled_signs
      · rw [if_pos hne]
        simp only [Bool.false_eq_true, false_iff, not_and]
        intro heq
        rw [heq] at hne
        simp at hne
      · rw [if_neg hne]
        have heq : keys i = ⟨binding.key, binding.host_swizzle, binding.swizzled_signs⟩ := by
          have h1 : (keys i).key = binding.key := by tauto
          have h2 : (keys i).host_swizzle = binding.host_swizzle := by tauto
          have h3 : (keys i).swizzled_signs = binding.swizzled_signs := by tauto
          cases hk : keys i
          rw [hk] at h1 h2 h3
          simp only at h1 h2 h3
          rw [h1, h2, h3]
        simp [heq]

theorem writeKeysFrom_lt (texture_bindings_ : Nat → TextureBinding) :
    ∀ (bindings : List ShaderTextureBinding) (i : Nat) (keys : Nat → TextureSRVKey) (k : Nat),
      k < i → writeKeysFrom texture_bindings_ bindings i keys k = keys k := by
  intro bindings
  induction bindings with
  | nil => intro i keys k _; rfl
  | cons b rest ih =>
    intro i keys k hk
    unfold writeKeysFrom
    cases GetValidTextureBinding texture_bindings_ b.fetch_constant with
    | none =>
      simp only
      rw [ih (i + 1) _ k (by omega)]
      simp [setAt]; omega
    | some binding =>
      simp only
      rw [ih (i + 1) _ k (by omega)]
      simp [setAt]; omega

/-- Every slot written by `WriteActiveTextureSRVKeys` holds the tuple of the
valid binding of its fetch constant, or the invalid key. -/
theorem writeKeysFrom_get (texture_bindings_ : Nat → TextureBinding) :
    ∀ (bindings : List ShaderTextureBinding) (i : Nat) (keys : Nat → TextureSRVKey)
      (j : Nat) (hj : j < bindings.length),
      writeKeysFrom texture_bindings_ bindings i keys (i + j) =
        match GetValidTextureBinding texture_bindings_ (bindings.get ⟨j, hj⟩).fetch_constant with
        | none => ⟨TextureKey.MakeInvalid, XE_GPU_TEXTURE_SWIZZLE_0000, kSwizzledSignsUnsigned⟩
        | some binding => ⟨binding.key, binding.host_swizzle, binding.swizzled_signs⟩ := by
  intro bindings
  induction bindings with
  | nil => intro i keys j hj; simp at hj
  | cons b rest ih =>
    intro i keys j hj
    cases j with
    | zero =>
      unfold writeKeysFrom
      simp only [List.get_eq_getElem, List.getElem_cons_zero, Nat.add_zero]
      cases GetValidTextureBinding texture_bindings_ b.fetch_constant with
      | none =>
        simp only
        rw [writeKeysFrom_lt texture_bindings_ rest (i + 1) _ i (by omega)]
        simp [setAt]
      | some binding =>
        simp only
        rw [writeKeysFrom_lt texture_bindings_ rest (i + 1) _ i (by omega)]
        simp [setAt]
    | succ j =>
      have hj' : j < rest.length := by simp at hj; omega
      unfold writeKeysFrom
      cases GetValidTextureBinding texture_bindings_ b.fetch_constant with
      | none =>
        simp only
        rw [show i + (j + 1) = i + 1 + j by omega, ih (i + 1) _ j hj']
        rfl
      | some binding =>
        simp only
        rw [show i + (j + 1) = i + 1 + j by omega, ih (i + 1) _ j hj']
        rfl

/-- C17: for every array of stored keys and every list of shader texture
bindings, `AreActiveTextureSRVKeysUpToDate` returns true if and only if, for
every slot, the stored tuple (texture key, host swizzle, swizzled signs) equals
the tuple of the currently valid binding of the fetch constant of the slot, a
slot with no valid binding matching only a stored key that is not valid; it
returns true right after `WriteActiveTextureSRVKeys` on unchanged bindings, and
false when a slot that was valid at write time has become invalid. -/
theorem AreActiveTextureSRVKeysUpToDate_iff (texture_bindings_ : Nat → TextureBinding)
    (keys : Nat → TextureSRVKey) (host_shader_bindings : List ShaderTextureBinding) :
    (AreActiveTextureSRVKeysUpToDate texture_bindings_ keys host_shader_bindings = true ↔
      ∀ (i : Nat) (hi : i < host_shader_bindings.length),
        match GetValidTextureBinding texture_bindings_
            (host_shader_bindings.get ⟨i, hi⟩).fetch_constant with
        | none => (keys i).key.is_valid = false
        | some binding =>
          keys i = ⟨binding.key, binding.host_swizzle, binding.swizzled_signs⟩) ∧
    AreActiveTextureSRVKeysUpToDate texture_bindings_
      (WriteActiveTextureSRVKeys texture_bindings_ keys host_shader_bindings)
      host_shader_bindings = true ∧
    (∀ (later_bindings_ : Nat → TextureBinding) (i : Nat)
        (hi : i < host_shader_bindings.length),
      GetValidTextureBinding texture_bindings_
          (host_shader_bindings.get ⟨i, hi⟩).fetch_constant ≠ none →
      GetValidTextureBinding later_bindings_
          (host_shader_bindings.get ⟨i, hi⟩).fetch_constant = none →
      AreActiveTextureSRVKeysUpToDate later_bindings_
        (WriteActiveTextureSRVKeys texture_bindings_ keys host_shader_bindings)
        host_shader_bindings = false) := by
  have hiff : ∀ (tb : Nat → TextureBinding) (ks : Nat → TextureSRVKey),
      AreActiveTextureSRVKeysUpToDate tb ks host_shader_bindings = true ↔
      ∀ (i : Nat) (hi : i < host_shader_bindings.length),
        slotUpToDate tb (ks i) (host_shader_bindings.get ⟨i, hi⟩) := by
    intro tb ks
    unfold AreActiveTextureSRVKeysUpToDate
    rw [areKeysUpToDateFrom_iff]
    simp only [Nat.zero_add]
  have hwritten : ∀ (i : Nat) (hi : i < host_shader_bindings.length),
      WriteActiveTextureSRVKeys texture_bindings_ keys host_shader_bindings i =
        match GetValidTextureBinding texture_bindings_
            (host_shader_bindings.get ⟨i, hi⟩).fetch_constant with
        | none => ⟨TextureKey.MakeInvalid, XE_GPU_TEXTURE_SWIZZLE_0000, kSwizzledSignsUnsigned⟩
        | some binding => ⟨binding.key, binding.host_swizzle, binding.swizzled_signs⟩ := by
    intro i hi
    have := writeKeysFrom_get texture_bindings_ host_shader_bindings 0 keys i hi
    rw [Nat.zero_add] at this
    exact this
  refine ⟨?_, ?_, ?_⟩
  · rw [hiff]
    rfl
  · rw [hiff]
    intro i hi
    unfold slotUpToDate
    rw [hwritten i hi]
    cases GetValidTextureBinding texture_bindings_
      (host_shader_bindings.get ⟨i, hi⟩).fetch_constant with
    | none => rfl
    | some binding => rfl
  · intro later i hi hvalid hlater
    cases hres : AreActiveTextureSRVKeysUpToDate later
      (WriteActiveTextureSRVKeys texture_bindings_ keys host_shader_bindings)
      host_shader_bindings with
    | false => rfl
    | true =>
      exfalso
      have hslot := (hiff later _).mp hres i hi
      unfold slotUpToDate at hslot
      rw [hlater, hwritten i hi] at hslot
      cases hb : GetValidTextureBinding texture_bindings_
        (host_shader_bindings.get ⟨i, hi⟩).fetch_constant with
      | none => exact hvalid hb
      | some binding =>
        rw [hb] at hslot
        simp only at hslot
        unfold GetValidTextureBinding at hb
        split_ifs at hb with hv
        cases hb
        rw [hv] at hslot
        cases hslot

/-- Witness of C17: the keys written while fetch constant 0 had a valid binding
are not up to date once that binding is not valid any more. -/
theorem AreActiveTextureSRVKeysUpToDate_iff_witness :
    GetValidTextureBinding (fun _ => TextureBinding.sample true) 0 ≠ none ∧
    GetValidTextureBinding (fun _ => TextureBinding.sample false) 0 = none ∧
    AreActiveTextureSRVKeysUpToDate (fun _ => TextureBinding.sample false)
      (WriteActiveTextureSRVKeys (fun _ => TextureBinding.sample true)
        (fun _ => ⟨TextureKey.MakeInvalid, 0, 0⟩) [⟨0, FetchOpDimension.k2D, false⟩])
      [⟨0, FetchOpDimension.k2D, false⟩] = false :=
  ⟨by decide, by decide,
    (AreActiveTextureSRVKeysUpToDate_iff (fun _ => TextureBinding.sample true)
      (fun _ => ⟨TextureKey.MakeInvalid, 0, 0⟩) [⟨0, FetchOpDimension.k2D, false⟩]).2.2
      (fun _ => TextureBinding.sample false) 0 (by decide) (by decide) (by decide)⟩

/-- C18: for every shader texture binding, with null texture enumerators other
than `UINT32_MAX`, `GetActiveTextureBindlessSRVIndex` never returns the
sentinel `UINT32_MAX`: it returns the cached descriptor index of the binding
(signed or unsigned as the shader asks) when the fetch constant has a valid
binding of a compatible dimension and that cached index is not the sentinel,
and in every other case the null texture view of the dimension of the shader
binding (3D for k3DOrStacked, cube for kCube, 2D array otherwise);
`WriteActiveTextureBindfulSRV` copies a cached descriptor other than
`UINT32_MAX` or the null descriptor chosen by the dimension in the same way. -/
theorem GetActiveTextureBindlessSRVIndex_never_sentinel (decls : BindingDecls)
    (texture_bindings_ : Nat → TextureBinding)
    (d3d12_texture_bindings_ : Nat → D3D12TextureBinding)
    (host_shader_binding : ShaderTextureBinding)
    (h2d : decls.kNullTexture2DArray ≠ UINT32_MAX) (h3d : decls.kNullTexture3D ≠ UINT32_MAX)
    (hcube : decls.kNullTextureCube ≠ UINT32_MAX) :
    GetActiveTextureBindlessSRVIndex decls texture_bindings_ d3d12_texture_bindings_
      host_shader_binding ≠ UINT32_MAX ∧
    (∀ binding,
      GetValidTextureBinding texture_bindings_ host_shader_binding.fetch_constant =
        some binding →
      decls.AreDimensionsCompatible host_shader_binding.dimension binding.key.dimension =
        true →
      (if host_shader_binding.is_signed then
          (d3d12_texture_bindings_ host_shader_binding.fetch_constant).descriptor_index_signed
        else (d3d12_texture_bindings_ host_shader_binding.fetch_constant).descriptor_index) ≠
        UINT32_MAX →
      GetActiveTextureBindlessSRVIndex decls texture_bindings_ d3d12_texture_bindings_
          host_shader_binding =
        (if host_shader_binding.is_signed then
          (d3d12_texture_bindings_ host_shader_binding.fetch_constant).descriptor_index_signed
        else (d3d12_texture_bindings_ host_shader_binding.fetch_constant).descriptor_index)) ∧
    ((¬ ∃ binding,
        GetValidTextureBinding texture_bindings_ host_shader_binding.fetch_constant =
          some binding ∧
        decls.AreDimensionsCompatible host_shader_binding.dimension binding.key.dimension =
          true ∧
        (if host_shader_binding.is_signed then
            (d3d12_texture_bindings_ host_shader_binding.fetch_constant).descriptor_index_signed
          else (d3d12_texture_bindings_ host_shader_binding.fetch_constant).descriptor_index) ≠
          UINT32_MAX) →
      GetActiveTextureBindlessSRVIndex decls texture_bindings_ d3d12_texture_bindings_
          host_shader_binding =
        (match host_shader_binding.dimension with
          | FetchOpDimension.k3DOrStacked => decls.kNullTexture3D
          | FetchOpDimension.kCube => decls.kNullTextureCube
          | FetchOpDimension.k1D => decls.kNullTexture2DArray
          | FetchOpDimension.k2D => decls.kNullTexture2DArray)) ∧
    (∀ write,
      WriteActiveTextureBindfulSRV decls texture_bindings_ d3d12_texture_bindings_
        host_shader_binding = some write →
      (∃ descriptor_index, descriptor_index ≠ UINT32_MAX ∧
        write.source = DescriptorSource.descriptor descriptor_index) ∨
      write.source = DescriptorSource.null
        (match host_shader_binding.dimension with
          | FetchOpDimension.k3DOrStacked => NullSRVDescriptorIndex.k3D
          | FetchOpDimension.kCube => NullSRVDescriptorIndex.kCube
          | FetchOpDimension.k1D => NullSRVDescriptorIndex.k2DArray
          | FetchOpDimension.k2D => NullSRVDescriptorIndex.k2DArray)) := by
  have hnull : (match host_shader_binding.dimension with
      | FetchOpDimension.k3DOrStacked => decls.kNullTexture3D
      | FetchOpDimension.kCube => decls.kNullTextureCube
      | _ => decls.kNullTexture2DArray) ≠ UINT32_MAX := by
    cases host_shader_binding.dimension <;> assumption
  have hsame : (match host_shader_binding.dimension with
      | FetchOpDimension.k3DOrStacked => decls.kNullTexture3D
      | FetchOpDimension.kCube => decls.kNullTextureCube
      | _ => decls.kNullTexture2DArray) =
      (match host_shader_binding.dimension with
        | FetchOpDimension.k3DOrStacked => decls.kNullTexture3D
        | FetchOpDimension.kCube => decls.kNullTextureCube
        | FetchOpDimension.k1D => decls.kNullTexture2DArray
        | FetchOpDimension.k2D => decls.kNullTexture2DArray) := by
    cases host_shader_binding.dimension <;> rfl
  have hcached : ∀ binding,
      GetValidTextureBinding texture_bindings_ host_shader_binding.fetch_constant =
        some binding →
      decls.AreDimensionsCompatible host_shader_binding.dimension binding.key.dimension =
        true →
      activeBindlessDescriptorIndex decls texture_bindings_ d3d12_texture_bindings_
          host_shader_binding =
        (if host_shader_binding.is_signed then
          (d3d12_texture_bindings_ host_shader_binding.fetch_constant).descriptor_index_signed
        else (d3d12_texture_bindings_ host_shader_binding.fetch_constant).descriptor_index) := by
    intro binding hb hc
    unfold activeBindlessDescriptorIndex
    simp only [hb, hc, if_true]
  refine ⟨?_, ?_, ?_, ?_⟩
  · unfold GetActiveTextureBindlessSRVIndex
    simp only
    by_cases h : activeBindlessDescriptorIndex decls texture_bindings_
        d3d12_texture_bindings_ host_shader_binding = UINT32_MAX
    · rw [if_pos h]; exact hnull
    · rw [if_neg h]; exact h
  · intro binding hb hc hidx
    unfold GetActiveTextureBindlessSRVIndex
    simp only
    rw [hcached binding hb hc, if_neg hidx]
  · intro hno
    unfold GetActiveTextureBindlessSRVIndex
    simp only
    rw [← hsame]
    by_cases h : activeBindlessDescriptorIndex decls texture_bindings_
        d3d12_texture_bindings_ host_shader_binding = UINT32_MAX
    · rw [if_pos h]
    · exfalso
      cases hb : GetValidTextureBinding texture_bindings_ host_shader_binding.fetch_constant with
      | none =>
        apply h
        unfold activeBindlessDescriptorIndex
        simp only [hb]
      | some binding =>
        by_cases hc : decls.AreDimensionsCompatible host_shader_binding.dimension
            binding.key.dimension = true
        · rw [hcached binding hb hc] at h
          exact hno ⟨binding, hb, hc, h⟩
        · apply h
          unfold activeBindlessDescriptorIndex
          simp only [hb, hc]
          rfl
  · intro write hw
    unfold WriteActiveTextureBindfulSRV at hw
    simp only at hw
    by_cases h : (activeBindfulDescriptor decls texture_bindings_ d3d12_texture_bindings_
        host_shader_binding).1 ≠ UINT32_MAX
    · rw [if_pos h] at hw
      split at hw
      · cases hw
      · cases hw
        exact Or.inl ⟨_, h, rfl⟩
    · rw [if_neg h] at hw
      cases hw
      right
      cases host_shader_binding.dimension <;> rfl

/-- Witness of C18: with no valid binding for fetch constant 0, a cube shader
binding gets the null cube view. -/
theorem GetActiveTextureBindlessSRVIndex_never_sentinel_witness :
    GetActiveTextureBindlessSRVIndex ⟨fun _ _ => true, fun _ => true, fun _ => true, 7, 8, 9⟩
      (fun _ => TextureBinding.sample false) (fun _ => ⟨UINT32_MAX, UINT32_MAX⟩)
      ⟨0, FetchOpDimension.kCube, false⟩ = 9 ∧
    GetActiveTextureBindlessSRVIndex ⟨fun _ _ => true, fun _ => true, fun _ => true, 7, 8, 9⟩
      (fun _ => TextureBinding.sample false) (fun _ => ⟨UINT32_MAX, UINT32_MAX⟩)
      ⟨0, FetchOpDimension.kCube, false⟩ ≠ UINT32_MAX :=
  ⟨by decide,
    (GetActiveTextureBindlessSRVIndex_never_sentinel
      ⟨fun _ _ => true, fun _ => true, fun _ => true, 7, 8, 9⟩
      (fun _ => TextureBinding.sample false) (fun _ => ⟨UINT32_MAX, UINT32_MAX⟩)
      ⟨0, FetchOpDimension.kCube, false⟩ (by decide) (by decide) (by decide)).1⟩
/-! ## Properties of the descriptor resolver -/

theorem GetSRVDescriptorIndex_miss (texture : D3D12Texture) (descriptor_key : SRVDescriptorKey)
    (hvalid : texture.DescriptorsValid)
    (hmiss : texture.GetSRVDescriptorIndex descriptor_key = UINT32_MAX) :
    texture.srv_descriptors_.find? (fun p => p.1 = descriptor_key) = none := by
  unfold D3D12Texture.GetSRVDescriptorIndex at hmiss
  cases hf : texture.srv_descriptors_.find? (fun p => p.1 = descriptor_key) with
  | none => rfl
  | some p =>
    rw [hf] at hmiss
    exact absurd hmiss (hvalid p (List.mem_of_find?_eq_some hf))

theorem GetSRVDescriptorIndex_add (texture : D3D12Texture) (descriptor_key : SRVDescriptorKey)
    (descriptor_index : Nat)
    (hnone : texture.srv_descriptors_.find? (fun p => p.1 = descriptor_key) = none) :
    (texture.AddSRVDescriptorIndex descriptor_key descriptor_index).GetSRVDescriptorIndex
      descriptor_key = descriptor_index := by
  unfold D3D12Texture.AddSRVDescriptorIndex D3D12Texture.GetSRVDescriptorIndex
  rw [hnone]
  simp [List.find?_append, hnone]

theorem FindOrCreateTextureDescriptor_hit (decls : DescriptorDecls)
    (format_info : Fin 64 → FormatInfo) (dev : DescriptorDevice) (c : DescriptorCache)
    (texture : D3D12Texture) (is_signed : Bool) (host_swizzle : Nat)
    (hhit : texture.GetSRVDescriptorIndex ⟨is_signed, host_swizzle⟩ ≠ UINT32_MAX) :
    FindOrCreateTextureDescriptor decls format_info dev c texture is_signed host_swizzle =
      (texture.GetSRVDescriptorIndex ⟨is_signed, host_swizzle⟩, c, texture) := by
  unfold FindOrCreateTextureDescriptor
  simp only
  rw [if_pos hhit]

/-- What a call of `FindOrCreateTextureDescriptor` that misses the texture's
map does: it fails before allocating, or fails in the allocation, or creates a
view at the allocated index and records the index. -/
theorem FindOrCreateTextureDescriptor_miss (decls : DescriptorDecls)
    (format_info : Fin 64 → FormatInfo) (dev : DescriptorDevice) (c : DescriptorCache)
    (texture : D3D12Texture) (is_signed : Bool) (host_swizzle : Nat)
    (hmiss : texture.GetSRVDescriptorIndex ⟨is_signed, host_swizzle⟩ = UINT32_MAX) :
    let r := FindOrCreateTextureDescriptor decls format_info dev c texture is_signed host_swizzle
    (r.1 = UINT32_MAX ∧ r.2.2 = texture ∧
      r.2.1.bindless_resources_used_ = c.bindless_resources_used_ ∧
      r.2.1.srv_descriptor_cache_free_ = c.srv_descriptor_cache_free_ ∧
      r.2.1.srv_descriptor_cache_allocated_ = c.srv_descriptor_cache_allocated_ ∧
      r.2.1.srv_descriptor_cache_ = c.srv_descriptor_cache_ ∧ r.2.1.calls = c.calls) ∨
    (r.1 = UINT32_MAX ∧ r.2.2 = texture ∧
      (allocateDescriptorIndex decls dev c).1 = none ∧
      r.2.1 = (allocateDescriptorIndex decls dev c).2) ∨
    (∃ desc, (allocateDescriptorIndex decls dev c).1 = some r.1 ∧
      r.2.1 = { (allocateDescriptorIndex decls dev c).2 with
        calls := (allocateDescriptorIndex decls dev c).2.calls ++
          [.CreateShaderResourceView texture.resource desc r.1] } ∧
      r.2.2 = texture.AddSRVDescriptorIndex ⟨is_signed, host_swizzle⟩ r.1) := by
  intro r
  have hr : r = FindOrCreateTextureDescriptor decls format_info dev c texture is_signed
      host_swizzle := rfl
  unfold FindOrCreateTextureDescriptor at hr
  simp only at hr
  rw [if_neg (by rw [hmiss]; exact fun h => h rfl)] at hr
  split_ifs at hr
  all_goals first
    | (left; rw [hr]; exact ⟨rfl, rfl, rfl, rfl, rfl, rfl, rfl⟩)
    | (cases ha : allocateDescriptorIndex decls dev c with
       | mk o c1 =>
         rw [ha] at hr
         cases o with
         | none => right; left; rw [hr]; exact ⟨rfl, rfl, rfl, rfl⟩
         | some descriptor_index => right; right; rw [hr]; exact ⟨_, rfl, rfl, rfl⟩)

/-- C15: when `FindOrCreateTextureDescriptor` returns an index other than
`UINT32_MAX` for a texture whose descriptor map holds no `UINT32_MAX`, the
immediately repeated call with the same texture, signedness and swizzle
(whatever the device would answer) returns the same index and leaves the
descriptor cache (free list, allocated count, pages, recorded calls, so no
view is created) and the texture (its descriptor map) unchanged. -/
theorem FindOrCreateTextureDescriptor_repeat (decls : DescriptorDecls)
    (format_info : Fin 64 → FormatInfo) (dev dev2 : DescriptorDevice) (c : DescriptorCache)
    (texture : D3D12Texture) (is_signed : Bool) (host_swizzle : Nat)
    (hvalid : texture.DescriptorsValid)
    (hret : (FindOrCreateTextureDescriptor decls format_info dev c texture is_signed
      host_swizzle).1 ≠ UINT32_MAX) :
    FindOrCreateTextureDescriptor decls format_info dev2
      (FindOrCreateTextureDescriptor decls format_info dev c texture is_signed host_swizzle).2.1
      (FindOrCreateTextureDescriptor decls format_info dev c texture is_signed host_swizzle).2.2
      is_signed host_swizzle =
    FindOrCreateTextureDescriptor decls format_info dev c texture is_signed host_swizzle := by
  by_cases hhit : texture.GetSRVDescriptorIndex ⟨is_signed, host_swizzle⟩ = UINT32_MAX
  · have hm := FindOrCreateTextureDescriptor_miss decls format_info dev c texture is_signed
      host_swizzle hhit
    simp only at hm
    rcases hm with ⟨h1, _⟩ | ⟨h1, _⟩ | ⟨desc, ha, hc, ht⟩
    · exact absurd h1 hret
    · exact absurd h1 hret
    · have hget := GetSRVDescriptorIndex_add texture ⟨is_signed, host_swizzle⟩
        (FindOrCreateTextureDescriptor decls format_info dev c texture is_signed host_swizzle).1
        (GetSRVDescriptorIndex_miss texture _ hvalid hhit)
      rw [← ht] at hget
      rw [FindOrCreateTextureDescriptor_hit decls format_info dev2 _ _ is_signed host_swizzle
        (by rw [hget]; exact hret), hget]
  · rw [FindOrCreateTextureDescriptor_hit decls format_info dev c texture is_signed host_swizzle
      hhit]
    exact FindOrCreateTextureDescriptor_hit decls format_info dev2 c texture is_signed
      host_swizzle hhit

theorem FindOrCreateTextureDescriptor_repeat_witness :
    (D3D12Texture.sample (TextureKey.ofSize 6 255 255 false) []).DescriptorsValid ∧
    (FindOrCreateTextureDescriptor DescriptorDecls.sample xenosFormatInfo
      (DescriptorDevice.succeeding 0) (DescriptorCache.bindful [5, 9] 12 [500])
      (D3D12Texture.sample (TextureKey.ofSize 6 255 255 false) []) false 1672).1 = 9 ∧
    FindOrCreateTextureDescriptor DescriptorDecls.sample xenosFormatInfo
      (DescriptorDevice.succeeding 3)
      (FindOrCreateTextureDescriptor DescriptorDecls.sample xenosFormatInfo
        (DescriptorDevice.succeeding 0) (DescriptorCache.bindful [5, 9] 12 [500])
        (D3D12Texture.sample (TextureKey.ofSize 6 255 255 false) []) false 1672).2.1
      (FindOrCreateTextureDescriptor DescriptorDecls.sample xenosFormatInfo
        (DescriptorDevice.succeeding 0) (DescriptorCache.bindful [5, 9] 12 [500])
        (D3D12Texture.sample (TextureKey.ofSize 6 255 255 false) []) false 1672).2.2
      false 1672 =
    FindOrCreateTextureDescriptor DescriptorDecls.sample xenosFormatInfo
      (DescriptorDevice.succeeding 0) (DescriptorCache.bindful [5, 9] 12 [500])
      (D3D12Texture.sample (TextureKey.ofSize 6 255 255 false) []) false 1672 :=
  ⟨(fun _ h => absurd h (List.not_mem_nil _)), by decide,
    FindOrCreateTextureDescriptor_repeat DescriptorDecls.sample xenosFormatInfo
      (DescriptorDevice.succeeding 0) (DescriptorDevice.succeeding 3)
      (DescriptorCache.bindful [5, 9] 12 [500])
      (D3D12Texture.sample (TextureKey.ofSize 6 255 255 false) []) false 1672
      (fun _ h => absurd h (List.not_mem_nil _)) (by decide)⟩

theorem allocateDescriptorIndex_bindful_pop (decls : DescriptorDecls) (dev : DescriptorDevice)
    (c : DescriptorCache) (l : List Nat) (x : Nat)
    (hb : c.bindless_resources_used_ = false)
    (hfree : c.srv_descriptor_cache_free_ = l ++ [x]) :
    allocateDescriptorIndex decls dev c =
      (some x, { c with srv_descriptor_cache_free_ := l }) := by
  unfold allocateDescriptorIndex
  rw [hb, hfree]
  simp

/-- One call of `FindOrCreateTextureDescriptor` in the bindful model on a
cache whose free list is not empty: the allocated count and the pages are
unchanged, and either the call is a successful creation that returns the back
of the free list and removes it, or it is not and the free list is
unchanged. -/
theorem FindOrCreateTextureDescriptor_bindful_step (decls : DescriptorDecls)
    (format_info : Fin 64 → FormatInfo) (dev : DescriptorDevice) (c : DescriptorCache)
    (texture : D3D12Texture) (is_signed : Bool) (host_swizzle : Nat) (l : List Nat) (x : Nat)
    (hb : c.bindless_resources_used_ = false)
    (hfree : c.srv_descriptor_cache_free_ = l ++ [x]) (hx : x ≠ UINT32_MAX) :
    let r := FindOrCreateTextureDescriptor decls format_info dev c texture is_signed host_swizzle
    r.2.1.bindless_resources_used_ = false ∧
    r.2.1.srv_descriptor_cache_allocated_ = c.srv_descriptor_cache_allocated_ ∧
    r.2.1.srv_descriptor_cache_ = c.srv_descriptor_cache_ ∧
    (((texture.GetSRVDescriptorIndex ⟨is_signed, host_swizzle⟩ = UINT32_MAX ∧
        r.1 ≠ UINT32_MAX) ∧ r.1 = x ∧ r.2.1.srv_descriptor_cache_free_ = l) ∨
     (¬ (texture.GetSRVDescriptorIndex ⟨is_signed, host_swizzle⟩ = UINT32_MAX ∧
        r.1 ≠ UINT32_MAX) ∧ r.2.1.srv_descriptor_cache_free_ = l ++ [x])) := by
  intro r
  by_cases hmiss : texture.GetSRVDescriptorIndex ⟨is_signed, host_swizzle⟩ = UINT32_MAX
  · have hm := FindOrCreateTextureDescriptor_miss decls format_info dev c texture is_signed
      host_swizzle hmiss
    simp only at hm
    rw [allocateDescriptorIndex_bindful_pop decls dev c l x hb hfree] at hm
    rcases hm with ⟨h1, _, h3, h4, h5, h6, _⟩ | ⟨_, _, h3, _⟩ | ⟨desc, ha, hc, _⟩
    · exact ⟨by rw [h3, hb], h5, h6, Or.inr ⟨fun h => h.2 h1, by rw [h4, hfree]⟩⟩
    · cases h3
    · have hrx : r.1 = x := (Option.some.inj ha).symm
      have hc1 : r.2.1 = _ := hc
      refine ⟨by rw [hc1]; exact hb, by rw [hc1], by rw [hc1],
        Or.inl ⟨⟨hmiss, by rw [hrx]; exact hx⟩, hrx, by rw [hc1]⟩⟩
  · have hh := FindOrCreateTextureDescriptor_hit decls format_info dev c texture is_signed
      host_swizzle hmiss
    have hr : r = _ := hh
    rw [hr]
    exact ⟨hb, rfl, rfl, Or.inr ⟨fun h => hmiss h.1, hfree⟩⟩

/-- A sequence of calls in the bindful model on a cache whose free list ends
with the valid indices `fr`: as long as no more than `fr.length` creations
succeed, they return the indices of `fr` from the back, and while fewer have
succeeded the rest of `fr` is still on the free list and nothing was
allocated. -/
theorem createdIndices_from_free (decls : DescriptorDecls) (format_info : Fin 64 → FormatInfo)
    (dev : DescriptorDevice) (pre : List Nat) :
    ∀ (reqs : List (D3D12Texture × Bool × Nat)) (fr : List Nat) (c : DescriptorCache),
      c.bindless_resources_used_ = false → c.srv_descriptor_cache_free_ = pre ++ fr →
      (∀ x ∈ fr, x ≠ UINT32_MAX) →
      (createdIndices decls format_info dev c reqs).1.length ≤ fr.length →
      (createdIndices decls format_info dev c reqs).1 =
        fr.reverse.take (createdIndices decls format_info dev c reqs).1.length ∧
      ((createdIndices decls format_info dev c reqs).1.length < fr.length →
        (createdIndices decls format_info dev c reqs).2.bindless_resources_used_ = false ∧
        (createdIndices decls format_info dev c reqs).2.srv_descriptor_cache_free_ =
          pre ++ fr.take (fr.length - (createdIndices decls format_info dev c reqs).1.length) ∧
        (createdIndices decls format_info dev c reqs).2.srv_descriptor_cache_allocated_ =
          c.srv_descriptor_cache_allocated_ ∧
        (createdIndices decls format_info dev c reqs).2.srv_descriptor_cache_ =
          c.srv_descriptor_cache_) := by
  intro reqs
  induction reqs with
  | nil =>
    intro fr c hb hfree _ _
    simp [createdIndices, hb, hfree]
  | cons req rest ih =>
    intro fr c hb hfree hv hlen
    obtain ⟨texture, is_signed, host_swizzle⟩ := req
    rcases List.eq_nil_or_concat fr with hnil | ⟨l, x, hfr⟩
    · subst hnil
      have h0 : (createdIndices decls format_info dev c
          ((texture, is_signed, host_swizzle) :: rest)).1 = [] :=
        List.length_eq_zero.mp (Nat.le_zero.mp hlen)
      rw [h0]
      exact ⟨rfl, fun h => absurd h (by simp)⟩
    · rw [List.concat_eq_append] at hfr
      subst hfr
      have hx : x ≠ UINT32_MAX := hv x (by simp)
      have hvl : ∀ y ∈ l, y ≠ UINT32_MAX := fun y hy => hv y (by simp [hy])
      have hstep := FindOrCreateTextureDescriptor_bindful_step decls format_info dev c texture
        is_signed host_swizzle (pre ++ l) x hb (by rw [hfree, List.append_assoc]) hx
      simp only at hstep
      obtain ⟨hb1, ha1, hp1, hcase⟩ := hstep
      rcases hcase with ⟨hs, hrx, hf1⟩ | ⟨hs, hf1⟩
      · have hce : createdIndices decls format_info dev c
            ((texture, is_signed, host_swizzle) :: rest) =
            (x :: (createdIndices decls format_info dev
              (FindOrCreateTextureDescriptor decls format_info dev c texture is_signed
                host_swizzle).2.1 rest).1,
             (createdIndices decls format_info dev
              (FindOrCreateTextureDescriptor decls format_info dev c texture is_signed
                host_swizzle).2.1 rest).2) := by
          rw [createdIndices, if_pos hs, hrx]
        rw [hce] at hlen ⊢
        have hlen1 : (createdIndices decls format_info dev
            (FindOrCreateTextureDescriptor decls format_info dev c texture is_signed
              host_swizzle).2.1 rest).1.length ≤ l.length := by
          simpa using hlen
        have ih1 := ih l _ hb1 hf1 hvl hlen1
        obtain ⟨ihA, ihB⟩ := ih1
        refine ⟨?_, ?_⟩
        · show x :: _ = List.take (_ + 1) _
          rw [List.reverse_append, List.reverse_singleton, List.singleton_append,
            List.take_succ_cons, ← ihA]
        · intro hlt
          have hlt1 : (createdIndices decls format_info dev
              (FindOrCreateTextureDescriptor decls format_info dev c texture is_signed
                host_swizzle).2.1 rest).1.length < l.length := by
            simpa using hlt
          obtain ⟨q1, q2, q3, q4⟩ := ihB hlt1
          refine ⟨q1, ?_, by rw [q3, ha1], by rw [q4, hp1]⟩
          show _ = pre ++ List.take ((l ++ [x]).length - (_ + 1)) (l ++ [x])
          rw [q2]
          congr 1
          rw [List.take_append_of_le_length (by simp)]
          congr 1
          simp
      · have hce : createdIndices decls format_info dev c
            ((texture, is_signed, host_swizzle) :: rest) =
            createdIndices decls format_info dev
              (FindOrCreateTextureDescriptor decls format_info dev c texture is_signed
                host_swizzle).2.1 rest := by
          rw [createdIndices, if_neg hs]
        rw [hce] at hlen ⊢
        have ih1 := ih (l ++ [x]) _ hb1 (by rw [hf1, List.append_assoc]) hv hlen
        obtain ⟨ihA, ihB⟩ := ih1
        refine ⟨ihA, fun hlt => ?_⟩
        obtain ⟨q1, q2, q3, q4⟩ := ihB hlt
        exact ⟨q1, q2, by rw [q3, ha1], by rw [q4, hp1]⟩

theorem destroyTexture_bindful (c : DescriptorCache) (hb : c.bindless_resources_used_ = false) :
    ∀ (descriptors : List (SRVDescriptorKey × Nat)) (c0 : DescriptorCache),
      c0 = { c with srv_descriptor_cache_free_ := c0.srv_descriptor_cache_free_ } →
      descriptors.foldl (fun c1 descriptor_pair =>
        ReleaseTextureDescriptor c1 descriptor_pair.2) c0 =
      { c with srv_descriptor_cache_free_ :=
          c0.srv_descriptor_cache_free_ ++ descriptors.map (fun p => p.2) } := by
  intro descriptors
  induction descriptors with
  | nil => intro c0 h0; simpa using h0
  | cons p rest ih =>
    intro c0 h0
    rw [List.foldl_cons]
    have hrel : ReleaseTextureDescriptor c0 p.2 =
        { c with srv_descriptor_cache_free_ := c0.srv_descriptor_cache_free_ ++ [p.2] } := by
      unfold ReleaseTextureDescriptor
      rw [h0]
      simp [hb]
    rw [hrel, ih _ rfl]
    simp

theorem allocateDescriptorIndex_grows (decls : DescriptorDecls) (dev : DescriptorDevice)
    (c : DescriptorCache)
    (h : (allocateDescriptorIndex decls dev c).2.srv_descriptor_cache_ ≠ c.srv_descriptor_cache_ ∨
      (allocateDescriptorIndex decls dev c).2.srv_descriptor_cache_allocated_ ≠
        c.srv_descriptor_cache_allocated_) :
    c.bindless_resources_used_ = false ∧ c.srv_descriptor_cache_free_ = [] := by
  unfold allocateDescriptorIndex at h
  cases hb : c.bindless_resources_used_ with
  | true =>
    rw [hb] at h
    simp only [if_true] at h
    split_ifs at h <;> simp at h
  | false =>
    rw [hb] at h
    simp only [Bool.false_eq_true, if_false] at h
    cases hl : c.srv_descriptor_cache_free_.getLast? with
    | none => exact ⟨rfl, List.getLast?_eq_none_iff.mp hl⟩
    | some x =>
      rw [hl] at h
      simp at h

/-- C16: in the bindful model, destroying a texture whose descriptor map holds
`k` indices (none of them `UINT32_MAX`) appends exactly those indices, in the
order of the map, to the free list and changes nothing else. Among any calls
of `FindOrCreateTextureDescriptor` that follow, the first `k` successful
creations (calls that miss the texture's map and return an index other than
`UINT32_MAX`) return the freed indices, most recently freed first, and each of
them leaves the allocated count and the pages as they were before the
destruction. In general a call changes the pages or the allocated count only
in the bindful model with an empty free list. -/
theorem destroyTexture_then_create (decls : DescriptorDecls) (format_info : Fin 64 → FormatInfo)
    (dev : DescriptorDevice) (c : DescriptorCache) (texture : D3D12Texture)
    (hb : c.bindless_resources_used_ = false) (hvalid : texture.DescriptorsValid) :
    destroyTexture c texture =
      { c with srv_descriptor_cache_free_ :=
          c.srv_descriptor_cache_free_ ++ texture.srv_descriptors_.map (fun p => p.2) } ∧
    (∀ reqs : List (D3D12Texture × Bool × Nat),
      (createdIndices decls format_info dev (destroyTexture c texture) reqs).1.length ≤
        texture.srv_descriptors_.length →
      (createdIndices decls format_info dev (destroyTexture c texture) reqs).1 =
        (texture.srv_descriptors_.map (fun p => p.2)).reverse.take
          (createdIndices decls format_info dev (destroyTexture c texture) reqs).1.length) ∧
    (∀ (reqs : List (D3D12Texture × Bool × Nat)) (next : D3D12Texture) (is_signed : Bool)
        (host_swizzle : Nat),
      (createdIndices decls format_info dev (destroyTexture c texture) reqs).1.length <
        texture.srv_descriptors_.length →
      next.GetSRVDescriptorIndex ⟨is_signed, host_swizzle⟩ = UINT32_MAX →
      (FindOrCreateTextureDescriptor decls format_info dev
        (createdIndices decls format_info dev (destroyTexture c texture) reqs).2
        next is_signed host_swizzle).1 ≠ UINT32_MAX →
      (texture.srv_descriptors_.map (fun p => p.2)).reverse[
          (createdIndices decls format_info dev (destroyTexture c texture) reqs).1.length]? =
        some (FindOrCreateTextureDescriptor decls format_info dev
          (createdIndices decls format_info dev (destroyTexture c texture) reqs).2
          next is_signed host_swizzle).1 ∧
      (FindOrCreateTextureDescriptor decls format_info dev
        (createdIndices decls format_info dev (destroyTexture c texture) reqs).2
        next is_signed host_swizzle).2.1.srv_descriptor_cache_allocated_ =
          c.srv_descriptor_cache_allocated_ ∧
      (FindOrCreateTextureDescriptor decls format_info dev
        (createdIndices decls format_info dev (destroyTexture c texture) reqs).2
        next is_signed host_swizzle).2.1.srv_descriptor_cache_ = c.srv_descriptor_cache_) ∧
    (∀ (c0 : DescriptorCache) (next : D3D12Texture) (is_signed : Bool) (host_swizzle : Nat),
      ((FindOrCreateTextureDescriptor decls format_info dev c0 next is_signed
          host_swizzle).2.1.srv_descriptor_cache_ ≠ c0.srv_descriptor_cache_ ∨
        (FindOrCreateTextureDescriptor decls format_info dev c0 next is_signed
          host_swizzle).2.1.srv_descriptor_cache_allocated_ ≠
          c0.srv_descriptor_cache_allocated_) →
      c0.bindless_resources_used_ = false ∧ c0.srv_descriptor_cache_free_ = []) := by
  have hd : destroyTexture c texture =
      { c with srv_descriptor_cache_free_ :=
          c.srv_descriptor_cache_free_ ++ texture.srv_descriptors_.map (fun p => p.2) } :=
    destroyTexture_bindful c hb texture.srv_descriptors_ c rfl
  have hv : ∀ x ∈ texture.srv_descriptors_.map (fun p => p.2), x ≠ UINT32_MAX := by
    intro x hx
    obtain ⟨p, hp, rfl⟩ := List.mem_map.mp hx
    exact hvalid p hp
  have hbd : (destroyTexture c texture).bindless_resources_used_ = false := by rw [hd]; exact hb
  have hfd : (destroyTexture c texture).srv_descriptor_cache_free_ =
      c.srv_descriptor_cache_free_ ++ texture.srv_descriptors_.map (fun p => p.2) := by rw [hd]
  have had : (destroyTexture c texture).srv_descriptor_cache_allocated_ =
      c.srv_descriptor_cache_allocated_ := by rw [hd]
  have hpd : (destroyTexture c texture).srv_descriptor_cache_ = c.srv_descriptor_cache_ := by
    rw [hd]
  refine ⟨hd, ?_, ?_, ?_⟩
  · intro reqs hlen
    exact (createdIndices_from_free decls format_info dev c.srv_descriptor_cache_free_ reqs
      _ _ hbd hfd hv (by simpa using hlen)).1
  · intro reqs next is_signed host_swizzle hlt hmiss hret
    obtain ⟨q1, q2, q3, q4⟩ :=
      (createdIndices_from_free decls format_info dev c.srv_descriptor_cache_free_ reqs
        _ _ hbd hfd hv (by simpa using Nat.le_of_lt hlt)).2 (by simpa using hlt)
    generalize hn : (createdIndices decls format_info dev (destroyTexture c texture)
      reqs).1.length = n at hlt q2 ⊢
    generalize hfr : texture.srv_descriptors_.map (fun p => p.2) = freed at hv q2 ⊢
    have hk : freed.length = texture.srv_descriptors_.length := by rw [← hfr]; simp
    rw [hk] at q2
    have hm : texture.srv_descriptors_.length - n =
        (texture.srv_descriptors_.length - 1 - n) + 1 := by omega
    have hidx : texture.srv_descriptors_.length - 1 - n < freed.length := by omega
    rw [hm, List.take_succ, List.getElem?_eq_getElem hidx, Option.toList_some,
      ← List.append_assoc] at q2
    have hstep := FindOrCreateTextureDescriptor_bindful_step decls format_info dev _ next
      is_signed host_swizzle _ _ q1 q2 (hv _ (List.getElem_mem hidx))
    simp only at hstep
    obtain ⟨_, ha1, hp1, hcase⟩ := hstep
    rcases hcase with ⟨_, hrx, _⟩ | ⟨hs, _⟩
    · refine ⟨?_, by rw [ha1, q3, had], by rw [hp1, q4, hpd]⟩
      rw [List.getElem?_reverse (by omega), hrx, hk, List.getElem?_eq_getElem hidx]
    · exact absurd ⟨hmiss, hret⟩ hs
  · intro c0 next is_signed host_swizzle hch
    by_cases hmiss : next.GetSRVDescriptorIndex ⟨is_signed, host_swizzle⟩ = UINT32_MAX
    · have hm := FindOrCreateTextureDescriptor_miss decls format_info dev c0 next is_signed
        host_swizzle hmiss
      simp only at hm
      rcases hm with ⟨_, _, _, _, h5, h6, _⟩ | ⟨_, _, _, h4⟩ | ⟨desc, _, hc, _⟩
      · rcases hch with h | h
        · exact absurd h6 h
        · exact absurd h5 h
      · rw [h4] at hch
        exact allocateDescriptorIndex_grows decls dev c0 hch
      · rw [hc] at hch
        exact allocateDescriptorIndex_grows decls dev c0 hch
    · rw [FindOrCreateTextureDescriptor_hit decls format_info dev c0 next is_signed host_swizzle
        hmiss] at hch
      simp at hch

theorem destroyTexture_then_create_witness :
    (DescriptorCache.bindful [5] 12 [500]).bindless_resources_used_ = false ∧
    (D3D12Texture.sample (TextureKey.ofSize 6 255 255 false)
      [(⟨false, 1672⟩, 9), (⟨true, 1672⟩, 3)]).DescriptorsValid ∧
    (destroyTexture (DescriptorCache.bindful [5] 12 [500])
      (D3D12Texture.sample (TextureKey.ofSize 6 255 255 false)
        [(⟨false, 1672⟩, 9), (⟨true, 1672⟩, 3)])).srv_descriptor_cache_free_ = [5, 9, 3] ∧
    (createdIndices DescriptorDecls.sample xenosFormatInfo (DescriptorDevice.succeeding 0)
      (destroyTexture (DescriptorCache.bindful [5] 12 [500])
        (D3D12Texture.sample (TextureKey.ofSize 6 255 255 false)
          [(⟨false, 1672⟩, 9), (⟨true, 1672⟩, 3)]))
      [(D3D12Texture.sample (TextureKey.ofSize 6 63 63 false) [], false, 1672),
       (D3D12Texture.sample (TextureKey.ofSize 6 31 31 false) [], true, 1672)]).1 = [3, 9] :=
  have h := destroyTexture_then_create DescriptorDecls.sample xenosFormatInfo
    (DescriptorDevice.succeeding 0) (DescriptorCache.bindful [5] 12 [500])
    (D3D12Texture.sample (TextureKey.ofSize 6 255 255 false)
      [(⟨false, 1672⟩, 9), (⟨true, 1672⟩, 3)]) rfl (by decide)
  ⟨rfl, by decide, (congrArg DescriptorCache.srv_descriptor_cache_free_ h.1).trans rfl,
    (h.2.1 _ (by decide)).trans (by decide)⟩

/-! ## Properties of the host layout -/

theorem align_dvd (bits value alignment : Nat) : alignment ∣ align bits value alignment :=
  Dvd.intro_left _ rfl

theorem hostSliceLayout_eq (l : LoadLocals) (offset width height depth : Nat) :
    hostSliceLayout l offset width height depth =
      ({ (hostSliceLayout l 0 width height depth).1 with Offset := offset },
        (hostSliceLayout l 0 width height depth).2) := rfl

theorem hostSliceLayout_size_dvd (l : LoadLocals) (offset width height depth : Nat) :
    512 ∣ (hostSliceLayout l offset width height depth).2 :=
  align_dvd 64 _ 512

theorem hostSliceLayoutMip_eq (l : LoadLocals) (guest_layout : TextureGuestLayout)
    (level offset : Nat) :
    hostSliceLayoutMip l guest_layout level offset =
      ({ (hostSliceLayoutMip l guest_layout level 0).1 with Offset := offset },
        (hostSliceLayoutMip l guest_layout level 0).2) := by
  unfold hostSliceLayoutMip
  split_ifs <;> rfl

theorem hostSliceLayoutMip_size_dvd (l : LoadLocals) (guest_layout : TextureGuestLayout)
    (level offset : Nat) : 512 ∣ (hostSliceLayoutMip l guest_layout level offset).2 := by
  unfold hostSliceLayoutMip
  split_ifs <;> exact hostSliceLayout_size_dvd _ _ _ _ _

theorem hostSliceLayoutBase_size_dvd (l : LoadLocals) (guest_layout : TextureGuestLayout)
    (offset : Nat) : 512 ∣ (hostSliceLayoutBase l guest_layout offset).2 := by
  unfold hostSliceLayoutBase
  split_ifs <;> exact hostSliceLayout_size_dvd _ _ _ _ _

theorem hostSliceLayoutBase_offset (l : LoadLocals) (guest_layout : TextureGuestLayout)
    (offset : Nat) : (hostSliceLayoutBase l guest_layout offset).1.Offset = offset := by
  unfold hostSliceLayoutBase
  split_ifs <;> rfl

theorem mipsBytes_succ (l : LoadLocals) (guest_layout : TextureGuestLayout) :
    ∀ (n level : Nat), mipsBytes l guest_layout (n + 1) level =
      mipsBytes l guest_layout n level +
        (hostSliceLayoutMip l guest_layout (level + n) 0).2 * l.array_size := by
  intro n
  induction n with
  | zero => intro level; simp [mipsBytes]
  | succ n ih =>
    intro level
    rw [mipsBytes, ih (level + 1), mipsBytes]
    have : level + 1 + n = level + (n + 1) := by omega
    rw [this]
    omega

theorem mipsBytes_mono (l : LoadLocals) (guest_layout : TextureGuestLayout) (level : Nat) :
    ∀ (k n : Nat), k ≤ n → mipsBytes l guest_layout k level ≤ mipsBytes l guest_layout n level := by
  intro k n hkn
  induction n with
  | zero =>
    have : k = 0 := by omega
    rw [this]
  | succ n ih =>
    rcases Nat.eq_or_lt_of_le hkn with h | h
    · rw [h]
    · have := ih (by omega)
      rw [mipsBytes_succ]
      omega

theorem mipsBytes_dvd (l : LoadLocals) (guest_layout : TextureGuestLayout) :
    ∀ (n level : Nat), 512 ∣ mipsBytes l guest_layout n level := by
  intro n
  induction n with
  | zero => intro level; exact dvd_zero _
  | succ n ih =>
    intro level
    rw [mipsBytes]
    exact dvd_add (Dvd.dvd.mul_right (hostSliceLayoutMip_size_dvd l guest_layout level 0) _)
      (ih (level + 1))

/-- What the loop over the stored mip levels of the host layout leaves when
the running size does not wrap: the size grown by the bytes of the levels, the
base untouched, every level of the loop placed at the running size, and the
other entries untouched. -/
theorem hostLayoutMips_spec (l : LoadLocals) (guest_layout : TextureGuestLayout) :
    ∀ (n level : Nat) (layout : HostLayout),
      layout.copy_buffer_size + mipsBytes l guest_layout n level < 2 ^ 64 →
      (hostLayoutMips l guest_layout n level layout).copy_buffer_size =
        layout.copy_buffer_size + mipsBytes l guest_layout n level ∧
      (hostLayoutMips l guest_layout n level layout).base = layout.base ∧
      ∀ j, (hostLayoutMips l guest_layout n level layout).mips j =
        if level ≤ j ∧ j < level + n then
          some ({ (hostSliceLayoutMip l guest_layout j 0).1 with
              Offset := layout.copy_buffer_size + mipsBytes l guest_layout (j - level) level },
            (hostSliceLayoutMip l guest_layout j 0).2)
        else layout.mips j := by
  intro n
  induction n with
  | zero =>
    intro level layout _
    refine ⟨rfl, rfl, fun j => ?_⟩
    rw [if_neg (by omega)]
    rfl
  | succ n ih =>
    intro level layout hfit
    rw [mipsBytes] at hfit
    rw [hostLayoutMips]
    simp only
    have hsz : (hostSliceLayoutMip l guest_layout level layout.copy_buffer_size).2 =
        (hostSliceLayoutMip l guest_layout level 0).2 := by
      rw [hostSliceLayoutMip_eq]
    have hcbs : u64 (layout.copy_buffer_size +
        u64 ((hostSliceLayoutMip l guest_layout level layout.copy_buffer_size).2 *
          l.array_size)) =
        layout.copy_buffer_size + (hostSliceLayoutMip l guest_layout level 0).2 * l.array_size := by
      rw [hsz]
      unfold u64
      rw [Nat.mod_eq_of_lt (a := (hostSliceLayoutMip l guest_layout level 0).2 * l.array_size)
        (by omega), Nat.mod_eq_of_lt (by omega)]
    rw [hcbs]
    obtain ⟨h1, h2, h3⟩ := ih (level + 1)
      { layout with
        mips := setAt layout.mips level
          (some (hostSliceLayoutMip l guest_layout level layout.copy_buffer_size))
        copy_buffer_size := layout.copy_buffer_size +
          (hostSliceLayoutMip l guest_layout level 0).2 * l.array_size }
      (by simp only; omega)
    refine ⟨?_, h2, fun j => ?_⟩
    · rw [h1, mipsBytes]; simp only; omega
    · rw [h3 j]
      by_cases hj : level + 1 ≤ j ∧ j < level + 1 + n
      · rw [if_pos hj, if_pos (by omega)]
        have hjl : j - level = (j - (level + 1)) + 1 := by omega
        rw [hjl, mipsBytes]
        simp only [Nat.add_assoc]
      · rw [if_neg hj]
        by_cases hjl : j = level
        · subst hjl
          rw [if_pos (by omega)]
          simp only [setAt, if_true, Nat.sub_self, mipsBytes, Nat.add_zero]
          rw [hostSliceLayoutMip_eq]
        · rw [if_neg (by omega)]
          simp only [setAt, if_neg hjl]

theorem hostLayout_spec (l : LoadLocals) (guest_layout : TextureGuestLayout)
    (hfit : hostLayoutTotal l guest_layout < 2 ^ 64) :
    (hostLayout l guest_layout).copy_buffer_size = hostLayoutTotal l guest_layout ∧
    (hostLayout l guest_layout).base =
      (if l.level_first = 0 then some (hostSliceLayoutBase l guest_layout 0) else none) ∧
    ∀ j, (hostLayout l guest_layout).mips j =
      if l.level_last ≠ 0 ∧ l.level_stored_first ≤ j ∧
          j < l.level_stored_first + (l.level_stored_last + 1 - l.level_stored_first) then
        some ({ (hostSliceLayoutMip l guest_layout j 0).1 with
            Offset :=
              (if l.level_first = 0 then
                (hostSliceLayoutBase l guest_layout 0).2 * l.array_size else 0) +
              mipsBytes l guest_layout (j - l.level_stored_first) l.level_stored_first },
          (hostSliceLayoutMip l guest_layout j 0).2)
      else none := by
  unfold hostLayoutTotal at hfit ⊢
  unfold hostLayout
  simp only
  have hu : ∀ x, x < 2 ^ 64 → u64 (0 + u64 x) = x := by
    intro x hx
    unfold u64
    rw [Nat.zero_add, Nat.mod_mod, Nat.mod_eq_of_lt hx]
  by_cases hlast : l.level_last ≠ 0
  · by_cases h0 : l.level_first = 0
    · simp only [if_pos hlast, if_pos h0] at hfit ⊢
      rw [hu _ (by omega)]
      obtain ⟨h1, h2, h3⟩ := hostLayoutMips_spec l guest_layout
        (l.level_stored_last + 1 - l.level_stored_first) l.level_stored_first
        ⟨(hostSliceLayoutBase l guest_layout 0).2 * l.array_size,
          some (hostSliceLayoutBase l guest_layout 0), fun _ => none⟩ hfit
      refine ⟨h1, h2, fun j => ?_⟩
      rw [h3 j]
      by_cases hj : l.level_stored_first ≤ j ∧
          j < l.level_stored_first + (l.level_stored_last + 1 - l.level_stored_first)
      · rw [if_pos hj, if_pos ⟨hlast, hj⟩]
      · rw [if_neg hj, if_neg (fun h => hj h.2)]
    · simp only [if_pos hlast, if_neg h0] at hfit ⊢
      obtain ⟨h1, h2, h3⟩ := hostLayoutMips_spec l guest_layout
        (l.level_stored_last + 1 - l.level_stored_first) l.level_stored_first
        ⟨0, none, fun _ => none⟩ hfit
      refine ⟨h1, h2, fun j => ?_⟩
      rw [h3 j]
      by_cases hj : l.level_stored_first ≤ j ∧
          j < l.level_stored_first + (l.level_stored_last + 1 - l.level_stored_first)
      · rw [if_pos hj, if_pos ⟨hlast, hj⟩]
      · rw [if_neg hj, if_neg (fun h => hj h.2)]
  · by_cases h0 : l.level_first = 0
    · simp only [if_neg hlast, if_pos h0] at hfit ⊢
      rw [hu _ (by omega)]
      exact ⟨by omega, trivial, fun j => by rw [if_neg (fun h => hlast h.1)]⟩
    · simp only [if_neg hlast, if_neg h0] at hfit ⊢
      exact ⟨trivial, trivial, fun j => by rw [if_neg (fun h => hlast h.1)]⟩

theorem u64_dvd (x : Nat) (h : 512 ∣ x) : 512 ∣ u64 x :=
  (Nat.dvd_mod_iff (by norm_num : 512 ∣ 2 ^ 64)).mpr h

theorem hostLayoutMips_aligned (l : LoadLocals) (guest_layout : TextureGuestLayout) :
    ∀ (n level : Nat) (layout : HostLayout), layout.Aligned →
      (hostLayoutMips l guest_layout n level layout).Aligned := by
  intro n
  induction n with
  | zero => intro level layout h; exact h
  | succ n ih =>
    intro level layout h
    rw [hostLayoutMips]
    apply ih
    obtain ⟨hc, hp⟩ := h
    refine ⟨?_, ?_⟩
    · apply u64_dvd
      exact dvd_add hc (u64_dvd _ (Dvd.dvd.mul_right
        (hostSliceLayoutMip_size_dvd l guest_layout level _) _))
    · intro slot f hf
      cases slot with
      | none => exact hp none f hf
      | some j =>
        simp only [HostLayout.placed, setAt] at hf
        split_ifs at hf with hj
        · cases hf
          rw [hostSliceLayoutMip_eq]
          exact ⟨hc, hostSliceLayoutMip_size_dvd l guest_layout level 0⟩
        · exact hp (some j) f hf

theorem hostLayout_aligned (l : LoadLocals) (guest_layout : TextureGuestLayout) :
    (hostLayout l guest_layout).Aligned := by
  unfold hostLayout
  simp only
  have h0 : HostLayout.Aligned ⟨0, none, fun _ => none⟩ :=
    ⟨dvd_zero _, fun slot f hf => by cases slot <;> cases hf⟩
  have h1 : HostLayout.Aligned
      (if l.level_first = 0 then
        ⟨u64 (0 + u64 ((hostSliceLayoutBase l guest_layout 0).2 * l.array_size)),
          some (hostSliceLayoutBase l guest_layout 0), fun _ => none⟩
      else ⟨0, none, fun _ => none⟩) := by
    split_ifs
    · refine ⟨?_, ?_⟩
      · apply u64_dvd
        rw [Nat.zero_add]
        exact u64_dvd _ (Dvd.dvd.mul_right (hostSliceLayoutBase_size_dvd l guest_layout 0) _)
      · intro slot f hf
        cases slot with
        | none =>
          cases hf
          exact ⟨by rw [hostSliceLayoutBase_offset]; exact dvd_zero _,
            hostSliceLayoutBase_size_dvd l guest_layout 0⟩
        | some j => cases hf
    · exact h0
  by_cases hlast : l.level_last ≠ 0
  · rw [if_pos hlast]
    exact hostLayoutMips_aligned l guest_layout _ _ _ h1
  · rw [if_neg hlast]
    exact h1

/-- Where a written footprint lies when `copy_buffer_size` does not wrap: all
its slices end within `copy_buffer_size`, and the slices of another written
footprint lie entirely before or entirely after them. -/
theorem hostLayout_placed_ranges (l : LoadLocals) (guest_layout : TextureGuestLayout)
    (hfit : hostLayoutTotal l guest_layout < 2 ^ 64) (a b : Option Nat)
    (fa fb : HostFootprint × Nat)
    (ha : (hostLayout l guest_layout).placed a = some fa)
    (hb : (hostLayout l guest_layout).placed b = some fb) :
    fa.1.Offset + fa.2 * l.array_size ≤ (hostLayout l guest_layout).copy_buffer_size ∧
    (a ≠ b → fa.1.Offset + fa.2 * l.array_size ≤ fb.1.Offset ∨
      fb.1.Offset + fb.2 * l.array_size ≤ fa.1.Offset) := by
  obtain ⟨hc, hbase, hmips⟩ := hostLayout_spec l guest_layout hfit
  rw [hc]
  unfold hostLayoutTotal
  have hslot : ∀ (x : Option Nat) (fx : HostFootprint × Nat),
      (hostLayout l guest_layout).placed x = some fx →
      (x = none ∧ l.level_first = 0 ∧ fx.1.Offset = 0 ∧
        fx.2 = (hostSliceLayoutBase l guest_layout 0).2) ∨
      (∃ j, x = some j ∧ l.level_last ≠ 0 ∧ l.level_stored_first ≤ j ∧
        j < l.level_stored_first + (l.level_stored_last + 1 - l.level_stored_first) ∧
        fx.1.Offset = (if l.level_first = 0 then
            (hostSliceLayoutBase l guest_layout 0).2 * l.array_size else 0) +
          mipsBytes l guest_layout (j - l.level_stored_first) l.level_stored_first ∧
        fx.1.Offset + fx.2 * l.array_size = (if l.level_first = 0 then
            (hostSliceLayoutBase l guest_layout 0).2 * l.array_size else 0) +
          mipsBytes l guest_layout (j - l.level_stored_first + 1) l.level_stored_first) := by
    intro x fx hx
    cases x with
    | none =>
      left
      simp only [HostLayout.placed] at hx
      rw [hbase] at hx
      split_ifs at hx with h0
      cases hx
      exact ⟨rfl, h0, hostSliceLayoutBase_offset l guest_layout 0, rfl⟩
    | some j =>
      right
      simp only [HostLayout.placed] at hx
      rw [hmips j] at hx
      by_cases hj : l.level_last ≠ 0 ∧ l.level_stored_first ≤ j ∧
          j < l.level_stored_first + (l.level_stored_last + 1 - l.level_stored_first)
      · rw [if_pos hj] at hx
        have hfx := (Option.some.inj hx).symm
        subst hfx
        refine ⟨j, rfl, hj.1, hj.2.1, hj.2.2, rfl, ?_⟩
        rw [mipsBytes_succ]
        have : l.level_stored_first + (j - l.level_stored_first) = j := by omega
        rw [this]
        simp only
        omega
      · rw [if_neg hj] at hx
        cases hx
  have hmono := mipsBytes_mono l guest_layout l.level_stored_first
  rcases hslot a fa ha with ⟨rfl, ha0, hao, has⟩ | ⟨ja, rfl, hal, haf, hat, hao, hae⟩
  · rcases hslot b fb hb with ⟨rfl, _, _, _⟩ | ⟨jb, rfl, _, _, _, hbo, _⟩
    · refine ⟨?_, fun h => absurd rfl h⟩
      rw [hao, has, if_pos ha0]
      omega
    · refine ⟨?_, fun _ => Or.inl ?_⟩
      · rw [hao, has, if_pos ha0]
        omega
      · rw [hao, has, hbo, if_pos ha0]
        omega
  · have hend : fa.1.Offset + fa.2 * l.array_size ≤
        (if l.level_first = 0 then
          (hostSliceLayoutBase l guest_layout 0).2 * l.array_size else 0) +
        (if l.level_last ≠ 0 then
          mipsBytes l guest_layout (l.level_stored_last + 1 - l.level_stored_first)
            l.level_stored_first
         else 0) := by
      rw [hae, if_pos hal]
      have := hmono (ja - l.level_stored_first + 1)
        (l.level_stored_last + 1 - l.level_stored_first) (by omega)
      omega
    refine ⟨hend, fun hne => ?_⟩
    rcases hslot b fb hb with ⟨rfl, hb0, hbo, hbs⟩ | ⟨jb, rfl, _, hbf, _, hbo, hbe⟩
    · right
      rw [hbo, hbs, hao, if_pos hb0]
      omega
    · have hjne : ja ≠ jb := fun h => hne (by rw [h])
      rcases Nat.lt_or_gt_of_ne hjne with hlt | hgt
      · left
        rw [hae, hbo]
        have := hmono (ja - l.level_stored_first + 1) (jb - l.level_stored_first) (by omega)
        omega
      · right
        rw [hbe, hao]
        have := hmono (jb - l.level_stored_first + 1) (ja - l.level_stored_first) (by omega)
        omega

/-- C14: every slice of every footprint that the host layout writes starts at
a multiple of `D3D12_TEXTURE_DATA_PLACEMENT_ALIGNMENT`; and as long as the sum
of the slice sizes fits the `UINT64` `copy_buffer_size`, the byte range
`[Offset + s * size, Offset + (s + 1) * size)` of every slice ends within
`copy_buffer_size`, and the ranges of two distinct (footprint, slice) pairs do
not overlap. The slot `none` is the base, `some level` a stored mip level. -/
theorem hostLayout_slices_aligned_disjoint (l : LoadLocals) (guest_layout : TextureGuestLayout)
    (a b : Option Nat) (fa fb : HostFootprint × Nat) (sa sb : Nat)
    (ha : (hostLayout l guest_layout).placed a = some fa)
    (hb : (hostLayout l guest_layout).placed b = some fb)
    (hsa : sa < l.array_size) (hsb : sb < l.array_size) :
    D3D12_TEXTURE_DATA_PLACEMENT_ALIGNMENT ∣ fa.1.Offset + sa * fa.2 ∧
    (hostLayoutTotal l guest_layout < 2 ^ 64 →
      fa.1.Offset + (sa + 1) * fa.2 ≤ (hostLayout l guest_layout).copy_buffer_size ∧
      ((a, sa) ≠ (b, sb) →
        fa.1.Offset + (sa + 1) * fa.2 ≤ fb.1.Offset + sb * fb.2 ∨
        fb.1.Offset + (sb + 1) * fb.2 ≤ fa.1.Offset + sa * fa.2)) := by
  refine ⟨?_, fun hfit => ?_⟩
  · obtain ⟨h1, h2⟩ := (hostLayout_aligned l guest_layout).2 a fa ha
    exact dvd_add h1 (Dvd.dvd.mul_left h2 _)
  · obtain ⟨hin, hord⟩ := hostLayout_placed_ranges l guest_layout hfit a b fa fb ha hb
    have hA : (sa + 1) * fa.2 ≤ fa.2 * l.array_size := by
      rw [Nat.mul_comm fa.2]
      exact Nat.mul_le_mul_right _ hsa
    have hB : (sb + 1) * fb.2 ≤ fb.2 * l.array_size := by
      rw [Nat.mul_comm fb.2]
      exact Nat.mul_le_mul_right _ hsb
    refine ⟨by omega, fun hne => ?_⟩
    by_cases hab : a = b
    · subst hab
      have hf : fa = fb := Option.some.inj (ha.symm.trans hb)
      subst hf
      have hs : sa ≠ sb := fun h => hne (by rw [h])
      rcases Nat.lt_or_gt_of_ne hs with hlt | hgt
      · left
        have : (sa + 1) * fa.2 ≤ sb * fa.2 := Nat.mul_le_mul_right _ hlt
        omega
      · right
        have : (sb + 1) * fa.2 ≤ sa * fa.2 := Nat.mul_le_mul_right _ hgt
        omega
    · rcases hord hab with h | h
      · left
        have : 0 ≤ sb * fb.2 := Nat.zero_le _
        omega
      · right
        have : 0 ≤ sa * fa.2 := Nat.zero_le _
        omega

theorem hostLayout_slices_aligned_disjoint_witness :
    (hostLayout (loadLocals (LoadEnv.sample false) 1 1 D3D12Texture.sampleMips true true)
      D3D12Texture.sampleMips.guest_layout).placed (some 1) =
      some (⟨32768, DXGI_FORMAT.R8G8B8A8_TYPELESS, 32, 32, 1, 256⟩, 8192) ∧
    (hostLayout (loadLocals (LoadEnv.sample false) 1 1 D3D12Texture.sampleMips true true)
      D3D12Texture.sampleMips.guest_layout).placed (some 2) =
      some (⟨40960, DXGI_FORMAT.R8G8B8A8_TYPELESS, 32, 16, 1, 256⟩, 4096) ∧
    hostLayoutTotal (loadLocals (LoadEnv.sample false) 1 1 D3D12Texture.sampleMips true true)
      D3D12Texture.sampleMips.guest_layout < 2 ^ 64 ∧
    D3D12_TEXTURE_DATA_PLACEMENT_ALIGNMENT ∣ 32768 + 0 * 8192 ∧
    32768 + (0 + 1) * 8192 ≤
      (hostLayout (loadLocals (LoadEnv.sample false) 1 1 D3D12Texture.sampleMips true true)
        D3D12Texture.sampleMips.guest_layout).copy_buffer_size ∧
    (32768 + (0 + 1) * 8192 ≤ 40960 + 0 * 4096 ∨ 40960 + (0 + 1) * 4096 ≤ 32768 + 0 * 8192) :=
  have h := hostLayout_slices_aligned_disjoint
    (loadLocals (LoadEnv.sample false) 1 1 D3D12Texture.sampleMips true true)
    D3D12Texture.sampleMips.guest_layout (some 1) (some 2)
    (⟨32768, DXGI_FORMAT.R8G8B8A8_TYPELESS, 32, 32, 1, 256⟩, 8192)
    (⟨40960, DXGI_FORMAT.R8G8B8A8_TYPELESS, 32, 16, 1, 256⟩, 4096) 0 0
    (by decide) (by decide) (by decide) (by decide)
  ⟨by decide, by decide, by decide, h.1, (h.2 (by decide)).1,
    (h.2 (by decide)).2 (by decide)⟩

/-- C13: for the 64x64 three-level texture whose packed mip tail starts at
level 2, loaded with base and mips at once, the host layout also writes a
footprint for the index 0 of the mip array, a second copy of the base placed
at 16384 with a slice of 16384 bytes. No dispatch and no copy of the load
addresses it: they use the offsets 0, 32768 and 40960. So `copy_buffer_size`
is 45056 while the footprints of the loaded levels take 28672 bytes. -/
theorem hostLayout_reserves_unused_mip_footprint :
    (hostLayout (loadLocals (LoadEnv.sample false) 1 1 D3D12Texture.sampleMips true true)
      D3D12Texture.sampleMips.guest_layout).copy_buffer_size = 45056 ∧
    dispatchedFootprintBytes
      (loadLocals (LoadEnv.sample false) 1 1 D3D12Texture.sampleMips true true)
      (hostLayout (loadLocals (LoadEnv.sample false) 1 1 D3D12Texture.sampleMips true true)
        D3D12Texture.sampleMips.guest_layout) = 28672 ∧
    (hostLayout (loadLocals (LoadEnv.sample false) 1 1 D3D12Texture.sampleMips true true)
      D3D12Texture.sampleMips.guest_layout).mips 0 =
      some (⟨16384, DXGI_FORMAT.R8G8B8A8_TYPELESS, 64, 64, 1, 256⟩, 16384) ∧
    (LoadTextureDataFromResidentMemoryImpl (LoadEnv.sample false) LoadDevice.succeeding
      (Cache.initial 1 1) D3D12Texture.sampleMips true true).map
      (fun r => (r.1, dispatchHostOffsets r.2.1.calls, copySourceOffsets r.2.1.calls)) =
      some (true, [0, 32768, 40960], [0, 32768, 40960]) := by
  refine ⟨by decide, by decide, by decide, by decide⟩

/-- C19: when the load mode of the texture is `LoadMode::kUnknown`, or the key
is scaled-resolve and `load_pipelines_scaled_` holds no pipeline for the load
mode, `LoadTextureDataFromResidentMemoryImpl` returns false and leaves the
cache, with its record of calls (no scratch buffer or descriptor request, no
dispatch, copy or barrier), and the texture, with its resource state, as they
were. -/
theorem LoadTextureDataFromResidentMemoryImpl_no_pipeline (env : LoadEnv) (dev : LoadDevice)
    (c : Cache) (texture : D3D12Texture) (load_base load_mips : Bool)
    (h : GetLoadMode env.format_info texture.key = LoadMode.kUnknown ∨
      (texture.key.scaled_resolve = true ∧
        env.load_pipelines_scaled_ (GetLoadMode env.format_info texture.key) = none)) :
    LoadTextureDataFromResidentMemoryImpl env dev c texture load_base load_mips =
      some (false, c, texture) := by
  unfold LoadTextureDataFromResidentMemoryImpl
  simp only
  by_cases hu : GetLoadMode env.format_info texture.key = LoadMode.kUnknown
  · rw [if_pos hu]
  · rw [if_neg hu]
    rcases h with h | ⟨hs, hp⟩
    · exact absurd h hu
    · rw [if_pos hs, hp]

theorem LoadTextureDataFromResidentMemoryImpl_no_pipeline_witness :
    (GetLoadMode (LoadEnv.sample false).format_info
        { (D3D12Texture.sampleDXT1 0).key with width_minus_1 := 252, scaled_resolve := true } =
        LoadMode.kDXT1ToRGBA8 ∧
      (LoadEnv.sample false).load_pipelines_scaled_ LoadMode.kDXT1ToRGBA8 = none) ∧
    LoadTextureDataFromResidentMemoryImpl (LoadEnv.sample false) LoadDevice.succeeding
      (Cache.initial 2 2)
      { D3D12Texture.sampleDXT1 0 with
        key := { (D3D12Texture.sampleDXT1 0).key with
          width_minus_1 := 252, scaled_resolve := true } } true false =
      some (false, Cache.initial 2 2,
        { D3D12Texture.sampleDXT1 0 with
          key := { (D3D12Texture.sampleDXT1 0).key with
            width_minus_1 := 252, scaled_resolve := true } }) :=
  ⟨⟨by decide, by decide⟩,
    LoadTextureDataFromResidentMemoryImpl_no_pipeline (LoadEnv.sample false)
      LoadDevice.succeeding (Cache.initial 2 2)
      { D3D12Texture.sampleDXT1 0 with
        key := { (D3D12Texture.sampleDXT1 0).key with
          width_minus_1 := 252, scaled_resolve := true } } true false
      (Or.inr ⟨rfl, by decide⟩)⟩

/-! ## Properties of the texture loader -/

/-- Counting rule for a loop that falls through: a measure that every
iteration that falls through increases by `k` has increased by `n * k`. -/
theorem loopFrom_count {σ : Type} (body : Nat → σ → Flow σ) (f : σ → Nat) (k : Nat)
    (hstep : ∀ i s s1, body i s = Flow.next s1 → f s1 = f s + k) :
    ∀ (n i : Nat) (s s1 : σ), loopFrom body n i s = Flow.next s1 → f s1 = f s + n * k := by
  intro n
  induction n with
  | zero =>
    intro i s s1 h
    rw [loopFrom] at h
    cases h
    simp
  | succ n ih =>
    intro i s s1 h
    rw [loopFrom] at h
    cases hb : body i s with
    | next s2 =>
      rw [hb] at h
      rw [ih (i + 1) s2 s1 h, hstep i s s2 hb, Nat.succ_mul]
      omega
    | return_false s2 => rw [hb] at h; cases h
    | undefined => rw [hb] at h; cases h

theorem dispatchCount_record (c : Cache) (calls : List DeviceCall) :
    dispatchCount (c.record calls).calls = dispatchCount c.calls + dispatchCount calls := by
  unfold dispatchCount Cache.record
  exact List.countP_append _ _ _

theorem copyRegionCount_record (c : Cache) (calls : List DeviceCall) :
    copyRegionCount (c.record calls).calls = copyRegionCount c.calls + copyRegionCount calls := by
  unfold copyRegionCount Cache.record
  exact List.countP_append _ _ _

theorem unitBarrier_counts (owners : Nat → Nat)
    (buffers : Nat → Option ScaledResolveVirtualBuffer) (b r i : Nat) :
    dispatchCount (unitBarrier owners buffers b r i) = 0 ∧
    copyRegionCount (unitBarrier owners buffers b r i) = 0 := by
  unfold unitBarrier
  split_ifs
  · exact ⟨rfl, rfl⟩
  · cases buffers (owners i) <;> exact ⟨rfl, rfl⟩

theorem makeCurrentLoop_counts (b r : Nat) (n i : Nat) (c c1 : Cache)
    (h : loopFrom (makeCurrentBody b r) n i c = Flow.next c1) :
    dispatchCount c1.calls = dispatchCount c.calls ∧
    copyRegionCount c1.calls = copyRegionCount c.calls := by
  have hd := loopFrom_count (makeCurrentBody b r) (fun s => dispatchCount s.calls) 0
    (fun j s s1 hs => by
      have := (makeCurrentBody_spec b r j s s1 hs).1
      simp only [this, dispatchCount, List.countP_append, Nat.add_zero]
      exact congrArg _ (unitBarrier_counts _ _ b r j).1) n i c c1 h
  have hk := loopFrom_count (makeCurrentBody b r) (fun s => copyRegionCount s.calls) 0
    (fun j s s1 hs => by
      have := (makeCurrentBody_spec b r j s s1 hs).1
      simp only [this, copyRegionCount, List.countP_append, Nat.add_zero]
      exact congrArg _ (unitBarrier_counts _ _ b r j).2) n i c c1 h
  simp only [Nat.mul_zero, Nat.add_zero] at hd hk
  exact ⟨hd, hk⟩

theorem MakeScaledResolveRangeCurrent_counts (h : Header) (c c1 : Cache)
    (start_unscaled length_unscaled : Nat)
    (hs : MakeScaledResolveRangeCurrent h c start_unscaled length_unscaled = some (true, c1)) :
    dispatchCount c1.calls = dispatchCount c.calls ∧
    copyRegionCount c1.calls = copyRegionCount c.calls := by
  obtain ⟨new_buffer, c2, _, hloop, hc1, _⟩ :=
    MakeScaledResolveRangeCurrent_success_inv h c c1 start_unscaled length_unscaled hs
  have := makeCurrentLoop_counts _ _ _ _ c c2 hloop
  rw [hc1]
  exact this

theorem loadScaledSource_counts (env : LoadEnv) (l : LoadLocals) (texture : D3D12Texture)
    (copy_buffer : Nat) (is_base : Bool) (guest_address : Nat) (s s1 : LoadState)
    (h : loadScaledSource env l texture copy_buffer is_base guest_address s = Flow.next s1) :
    dispatchCount s1.cache.calls = dispatchCount s.cache.calls ∧
    copyRegionCount s1.cache.calls = copyRegionCount s.cache.calls := by
  unfold loadScaledSource at h
  simp only at h
  split at h
  · cases h
  · cases h
  · rename_i c1 hmake
    obtain ⟨hd, hk⟩ := MakeScaledResolveRangeCurrent_counts _ _ _ _ _ hmake
    unfold TransitionCurrentScaledResolveRange at h
    split at h
    · cases h
    · rename_i c2 htr
      split at htr
      · cases htr
      · rename_i buffer _
        have hc2 := (Option.some.inj htr).symm
        unfold CreateCurrentScaledResolveRangeUintPow2SRV at h
        simp only at h
        split at h
        · cases h
        · rename_i c3 hsrv
          split at hsrv
          · cases hsrv
          · have hc3 := (Option.some.inj hsrv).symm
            have hs1 := (Flow.next.inj h).symm
            rw [hs1]
            simp only
            rw [dispatchCount_record, copyRegionCount_record, hc3, dispatchCount_record,
              copyRegionCount_record, hc2, dispatchCount_record, copyRegionCount_record]
            simp only [dispatchCount_record, copyRegionCount_record]
            simp only [Cache.record] at hd hk ⊢
            refine ⟨?_, ?_⟩
            · rw [hd]; rfl
            · rw [hk]; rfl

theorem loadSliceBody_counts (dev : LoadDevice) (copy_buffer loop_level group_count_x
    group_count_y guest_slice_stride host_slice_size slice : Nat) (s s1 : LoadState)
    (h : loadSliceBody dev copy_buffer loop_level group_count_x group_count_y guest_slice_stride
      host_slice_size slice s = Flow.next s1) :
    dispatchCount s1.cache.calls = dispatchCount s.cache.calls + 1 ∧
    copyRegionCount s1.cache.calls = copyRegionCount s.cache.calls + 0 := by
  unfold loadSliceBody at h
  split_ifs at h
  · have hs1 := (Flow.next.inj h).symm
    rw [hs1]
    simp only [LoadState.record]
    rw [dispatchCount_record, copyRegionCount_record]
    exact ⟨rfl, rfl⟩

theorem loadLevelBody_counts (env : LoadEnv) (dev : LoadDevice) (l : LoadLocals)
    (texture : D3D12Texture) (layout : HostLayout) (copy_buffer loop_level : Nat)
    (s s1 : LoadState)
    (h : loadLevelBody env dev l texture layout copy_buffer loop_level s = Flow.next s1) :
    dispatchCount s1.cache.calls = dispatchCount s.cache.calls + l.array_size ∧
    copyRegionCount s1.cache.calls = copyRegionCount s.cache.calls + 0 := by
  unfold loadLevelBody at h
  simp only at h
  split at h
  · cases h
  · cases h
  · rename_i s2 hsrc
    have hsrc2 : dispatchCount s2.cache.calls = dispatchCount s.cache.calls ∧
        copyRegionCount s2.cache.calls = copyRegionCount s.cache.calls := by
      by_cases hc : texture.key.scaled_resolve = true ∧
          (decide (loop_level = 0) = true ∨ ¬ s.scaled_mips_source_set_up = true)
      · rw [if_pos hc] at hsrc
        exact loadScaledSource_counts _ _ _ _ _ _ _ _ hsrc
      · rw [if_neg hc] at hsrc
        cases hsrc
        exact ⟨rfl, rfl⟩
    split at h
    · cases h
    · have hd := loopFrom_count _ (fun st : LoadState => dispatchCount st.cache.calls) 1
        (fun i a b hab => (loadSliceBody_counts _ _ _ _ _ _ _ _ _ _ hab).1) _ _ _ _ h
      have hk := loopFrom_count _ (fun st : LoadState => copyRegionCount st.cache.calls) 0
        (fun i a b hab => (loadSliceBody_counts _ _ _ _ _ _ _ _ _ _ hab).2) _ _ _ _ h
      simp only [Nat.mul_one, Nat.mul_zero] at hd hk
      rw [hd, hk]
      exact ⟨by rw [hsrc2.1], by rw [hsrc2.2]⟩

theorem copySlices_counts (texture_level_count host_slice_size : Nat) (source_box : Option Box) :
    ∀ (n dest_subresource : Nat) (source : HostFootprint) (c : Cache),
      dispatchCount (copySlices texture_level_count host_slice_size source_box n
        dest_subresource source c).calls = dispatchCount c.calls ∧
      copyRegionCount (copySlices texture_level_count host_slice_size source_box n
        dest_subresource source c).calls = copyRegionCount c.calls + n := by
  intro n
  induction n with
  | zero => intro _ _ c; exact ⟨rfl, rfl⟩
  | succ n ih =>
    intro dest_subresource source c
    rw [copySlices]
    obtain ⟨h1, h2⟩ := ih (u32 (dest_subresource + texture_level_count))
      { source with Offset := u64 (source.Offset + host_slice_size) }
      (c.record [.D3DCopyTextureRegion dest_subresource source source_box])
    rw [h1, h2, dispatchCount_record, copyRegionCount_record]
    refine ⟨rfl, ?_⟩
    show _ + 1 + n = _
    omega

theorem copyLevelBody_counts (env : LoadEnv) (l : LoadLocals) (texture : D3D12Texture)
    (layout : HostLayout) (host_block_width host_block_height level : Nat) (c c1 : Cache)
    (h : copyLevelBody env l texture layout host_block_width host_block_height level c =
      Flow.next c1) :
    dispatchCount c1.calls = dispatchCount c.calls + 0 ∧
    copyRegionCount c1.calls = copyRegionCount c.calls + l.array_size := by
  unfold copyLevelBody at h
  simp only at h
  split at h
  · cases h
  · have hc1 := (Flow.next.inj h).symm
    rw [hc1]
    exact copySlices_counts _ _ _ _ _ _ _

theorem loadInitialState_counts (env : LoadEnv) (l : LoadLocals) (texture : D3D12Texture)
    (c : Cache) :
    dispatchCount (loadInitialState env l texture c).cache.calls = dispatchCount c.calls ∧
    copyRegionCount (loadInitialState env l texture c).cache.calls = copyRegionCount c.calls := by
  unfold loadInitialState
  simp only
  split_ifs
  all_goals first
    | exact ⟨rfl, rfl⟩
    | exact ⟨by rw [dispatchCount_record]; rfl, by rw [copyRegionCount_record]; rfl⟩

theorem loadDispatchAndCopy_counts (env : LoadEnv) (dev : LoadDevice) (l : LoadLocals)
    (texture texture1 : D3D12Texture) (layout : HostLayout)
    (copy_buffer host_block_width host_block_height : Nat) (s0 : LoadState) (c1 : Cache)
    (h : loadDispatchAndCopy env dev l texture layout copy_buffer host_block_width
      host_block_height s0 = some (true, c1, texture1)) :
    dispatchCount c1.calls = dispatchCount s0.cache.calls +
      (l.loop_level_last + 1 - l.loop_level_first) * l.array_size ∧
    copyRegionCount c1.calls = copyRegionCount s0.cache.calls +
      (l.level_last + 1 - l.level_first) * l.array_size := by
  unfold loadDispatchAndCopy at h
  split at h
  · cases h
  · cases h
  · rename_i s1 hdisp
    have hd1 := loopFrom_count _ (fun st : LoadState => dispatchCount st.cache.calls)
      l.array_size
      (fun i a b hab => (loadLevelBody_counts _ _ _ _ _ _ _ _ _ hab).1) _ _ _ _ hdisp
    have hk1 := loopFrom_count _ (fun st : LoadState => copyRegionCount st.cache.calls) 0
      (fun i a b hab => (loadLevelBody_counts _ _ _ _ _ _ _ _ _ hab).2) _ _ _ _ hdisp
    simp only [Nat.mul_zero, Nat.add_zero] at hd1 hk1
    split at h
    · rename_i c4 hcopy
      have hd2 := loopFrom_count _ (fun st : Cache => dispatchCount st.calls) 0
        (fun i a b hab => (copyLevelBody_counts _ _ _ _ _ _ _ _ _ hab).1) _ _ _ _ hcopy
      have hk2 := loopFrom_count _ (fun st : Cache => copyRegionCount st.calls) l.array_size
        (fun i a b hab => (copyLevelBody_counts _ _ _ _ _ _ _ _ _ hab).2) _ _ _ _ hcopy
      simp only [Nat.mul_zero, Nat.add_zero] at hd2 hk2
      rw [dispatchCount_record] at hd2
      rw [copyRegionCount_record] at hk2
      have hc1 := (Prod.mk.inj (Prod.mk.inj (Option.some.inj h)).2).1.symm
      rw [hc1, dispatchCount_record, copyRegionCount_record, hd2, hk2, hd1, hk1]
      exact ⟨rfl, by
        show _ + 0 + _ + 0 = _
        omega⟩
    · cases h

/-- C20: when `LoadTextureDataFromResidentMemoryImpl` returns true, it has
recorded exactly `array_size` dispatches for every counter of the dispatch
loop (every loaded stored level: the base, and the stored mip levels), and
exactly `array_size` copy regions for every mip level from `level_first` to
`level_last`. For a single-level texture (`mip_max_level` 0) loaded with its
base that is `array_size` dispatches and `array_size` copy regions. -/
theorem LoadTextureDataFromResidentMemoryImpl_counts (env : LoadEnv) (dev : LoadDevice)
    (c c1 : Cache) (texture texture1 : D3D12Texture) (load_base load_mips : Bool)
    (h : LoadTextureDataFromResidentMemoryImpl env dev c texture load_base load_mips =
      some (true, c1, texture1)) :
    (dispatchCount c1.calls = dispatchCount c.calls +
      ((loadLocals env c.draw_resolution_scale_x c.draw_resolution_scale_y texture load_base
          load_mips).loop_level_last + 1 -
        (loadLocals env c.draw_resolution_scale_x c.draw_resolution_scale_y texture load_base
          load_mips).loop_level_first) *
      (loadLocals env c.draw_resolution_scale_x c.draw_resolution_scale_y texture load_base
        load_mips).array_size ∧
    copyRegionCount c1.calls = copyRegionCount c.calls +
      ((loadLocals env c.draw_resolution_scale_x c.draw_resolution_scale_y texture load_base
          load_mips).level_last + 1 -
        (loadLocals env c.draw_resolution_scale_x c.draw_resolution_scale_y texture load_base
          load_mips).level_first) *
      (loadLocals env c.draw_resolution_scale_x c.draw_resolution_scale_y texture load_base
        load_mips).array_size) ∧
    (texture.key.mip_max_level = 0 → load_base = true →
      dispatchCount c1.calls = dispatchCount c.calls +
        (loadLocals env c.draw_resolution_scale_x c.draw_resolution_scale_y texture load_base
          load_mips).array_size ∧
      copyRegionCount c1.calls = copyRegionCount c.calls +
        (loadLocals env c.draw_resolution_scale_x c.draw_resolution_scale_y texture load_base
          load_mips).array_size) := by
  have hmain : dispatchCount c1.calls = dispatchCount c.calls +
      ((loadLocals env c.draw_resolution_scale_x c.draw_resolution_scale_y texture load_base
          load_mips).loop_level_last + 1 -
        (loadLocals env c.draw_resolution_scale_x c.draw_resolution_scale_y texture load_base
          load_mips).loop_level_first) *
      (loadLocals env c.draw_resolution_scale_x c.draw_resolution_scale_y texture load_base
        load_mips).array_size ∧
    copyRegionCount c1.calls = copyRegionCount c.calls +
      ((loadLocals env c.draw_resolution_scale_x c.draw_resolution_scale_y texture load_base
          load_mips).level_last + 1 -
        (loadLocals env c.draw_resolution_scale_x c.draw_resolution_scale_y texture load_base
          load_mips).level_first) *
      (loadLocals env c.draw_resolution_scale_x c.draw_resolution_scale_y texture load_base
        load_mips).array_size := by
    unfold LoadTextureDataFromResidentMemoryImpl at h
    simp only at h
    by_cases hu : GetLoadMode env.format_info texture.key = LoadMode.kUnknown
    · rw [if_pos hu] at h
      cases h
    rw [if_neg hu] at h
    split at h
    · cases h
    · split at h
      · cases h
      · by_cases hreq : dev.RequestOneUseSingleViewDescriptors (loadDescriptorCount env
            (loadLocals env c.draw_resolution_scale_x c.draw_resolution_scale_y texture
              load_base load_mips) texture) = false
        · rw [if_pos hreq] at h
          cases h
        rw [if_neg hreq] at h
        obtain ⟨hd, hk⟩ := loadDispatchAndCopy_counts _ _ _ _ _ _ _ _ _ _ _ h
        obtain ⟨hd0, hk0⟩ := loadInitialState_counts env
          (loadLocals env c.draw_resolution_scale_x c.draw_resolution_scale_y texture load_base
            load_mips) texture
          (c.record [.RequestScratchGPUBuffer (u32 (hostLayout (loadLocals env
              c.draw_resolution_scale_x c.draw_resolution_scale_y texture load_base
              load_mips) texture.guest_layout).copy_buffer_size)
              D3D12_RESOURCE_STATE_UNORDERED_ACCESS true,
            .RequestOneUseSingleViewDescriptors (loadDescriptorCount env (loadLocals env
              c.draw_resolution_scale_x c.draw_resolution_scale_y texture load_base
              load_mips) texture) true,
            .SetExternalPipeline _,
            .D3DSetComputeRootSignature env.load_root_signature_,
            .CreateBufferTypedUAV 0 _ _ _,
            .D3DSetComputeRootDescriptorTable 2 (.allocated 0)])
        rw [hd0, dispatchCount_record] at hd
        rw [hk0, copyRegionCount_record] at hk
        exact ⟨hd, hk⟩
  refine ⟨hmain, fun hmip hbase => ?_⟩
  obtain ⟨hd, hk⟩ := hmain
  have hlast : (loadLocals env c.draw_resolution_scale_x c.draw_resolution_scale_y texture
      load_base load_mips).level_last = 0 := by
    unfold loadLocals
    simp only [hmip, ite_self]
  have hfirst : (loadLocals env c.draw_resolution_scale_x c.draw_resolution_scale_y texture
      load_base load_mips).level_first = 0 := by
    unfold loadLocals
    simp only [hbase, if_true]
  have hsf : (loadLocals env c.draw_resolution_scale_x c.draw_resolution_scale_y texture
      load_base load_mips).level_stored_first = 0 := by
    unfold loadLocals
    simp only [hbase, if_true, Nat.zero_min]
  have hsl : (loadLocals env c.draw_resolution_scale_x c.draw_resolution_scale_y texture
      load_base load_mips).level_stored_last = 0 := by
    unfold loadLocals
    simp only [hmip, ite_self, Nat.zero_min]
  have hlf : (loadLocals env c.draw_resolution_scale_x c.draw_resolution_scale_y texture
      load_base load_mips).loop_level_first = 0 := by
    unfold LoadLocals.loop_level_first
    rw [hfirst, hsf]
    simp
  have hll : (loadLocals env c.draw_resolution_scale_x c.draw_resolution_scale_y texture
      load_base load_mips).loop_level_last = 0 := by
    unfold LoadLocals.loop_level_last
    rw [hlast, hsl]
    simp
  rw [hlf, hll] at hd
  rw [hfirst, hlast] at hk
  simp only [Nat.zero_add, Nat.sub_zero, Nat.one_mul] at hd hk
  exact ⟨hd, hk⟩

theorem LoadTextureDataFromResidentMemoryImpl_counts_witness :
    ∃ c1 texture1,
      LoadTextureDataFromResidentMemoryImpl (LoadEnv.sample false) LoadDevice.succeeding
        (Cache.initial 1 1) (D3D12Texture.sampleDXT1 5) true false =
        some (true, c1, texture1) ∧
      dispatchCount c1.calls = dispatchCount (Cache.initial 1 1).calls + 6 ∧
      copyRegionCount c1.calls = copyRegionCount (Cache.initial 1 1).calls + 6 :=
  ⟨_, _, rfl,
    (LoadTextureDataFromResidentMemoryImpl_counts (LoadEnv.sample false) LoadDevice.succeeding
      (Cache.initial 1 1) _ (D3D12Texture.sampleDXT1 5) _ true false rfl).2 rfl rfl⟩

/-! ## Further properties of the load mode selection and of the clamp -/

theorem host_formats_supported_rows : ∀ f : Fin 64,
    ((host_formats_ f).dxgi_format_resource ≠ DXGI_FORMAT.UNKNOWN →
      (host_formats_ f).load_mode ≠ LoadMode.kUnknown) ∧
    ((host_formats_ f).decompress_mode ≠ LoadMode.kUnknown ↔
      (host_formats_ f).dxgi_format_uncompressed ≠ DXGI_FORMAT.UNKNOWN) := by
  decide

/-- C30: for every guest format table, every format code whose `host_formats_`
row has a host resource format other than `DXGI_FORMAT_UNKNOWN`, and every key
of that format with `signed_separate` unset, of any width and height,
`GetLoadMode` returns a load mode other than `kUnknown`; in the table a row has
a decompression load mode exactly when it has an uncompressed host format, and
every row with a resource format has a default load mode. -/
theorem GetLoadMode_supported_format (format_info : Fin 64 → FormatInfo) (key : TextureKey)
    (hres : (host_formats_ key.format).dxgi_format_resource ≠ DXGI_FORMAT.UNKNOWN)
    (hsigned : key.signed_separate = false) :
    GetLoadMode format_info key ≠ LoadMode.kUnknown ∧
    (∀ f : Fin 64,
      ((host_formats_ f).decompress_mode ≠ LoadMode.kUnknown ↔
        (host_formats_ f).dxgi_format_uncompressed ≠ DXGI_FORMAT.UNKNOWN) ∧
      ((host_formats_ f).dxgi_format_resource ≠ DXGI_FORMAT.UNKNOWN →
        (host_formats_ f).load_mode ≠ LoadMode.kUnknown)) := by
  refine ⟨?_, fun f => ⟨(host_formats_supported_rows f).2, (host_formats_supported_rows f).1⟩⟩
  unfold GetLoadMode
  simp only [hsigned, Bool.false_eq_true, if_false]
  by_cases hd : IsDecompressionNeeded format_info key.format key.GetWidth key.GetHeight = true
  · rw [if_pos hd]
    apply (host_formats_supported_rows key.format).2.mpr
    intro hu
    unfold IsDecompressionNeeded at hd
    simp only [hu, if_true] at hd
    cases hd
  · rw [if_neg hd]
    exact (host_formats_supported_rows key.format).1 hres

theorem GetLoadMode_supported_format_witness :
    (host_formats_ (TextureKey.ofSize 18 4 4 false).format).dxgi_format_resource ≠
      DXGI_FORMAT.UNKNOWN ∧
    GetLoadMode xenosFormatInfo (TextureKey.ofSize 18 4 4 false) = LoadMode.kDXT1ToRGBA8 ∧
    GetLoadMode xenosFormatInfo (TextureKey.ofSize 18 4 4 false) ≠ LoadMode.kUnknown :=
  ⟨by decide, by decide,
    (GetLoadMode_supported_format xenosFormatInfo (TextureKey.ofSize 18 4 4 false)
      (by decide) rfl).1⟩

/-- C27: for scales of at least 1 (32-bit values) and every provider,
`ClampDrawResolutionScaleToMaxSupported` ends (within `scale_x + scale_y + 1`
iterations of its loop), the returned scales lie between 1 and the input
scales, the returned `bool` is true exactly when both scales are returned
unchanged, and without tiled resources the scales returned are 1x1. A
decrement is only ever applied to a scale of at least 2: whenever the loop,
at scales of at least 1, does not stop, the scale it decrements is at least 2
and the `uint32_t` decrement is the subtraction of 1 without wrap. -/
theorem ClampDrawResolutionScaleToMaxSupported_total (scale_x scale_y : Nat)
    (provider : D3D12Provider) (h1x : 1 ≤ scale_x) (h1y : 1 ≤ scale_y)
    (hx : scale_x < 2 ^ 32) (hy : scale_y < 2 ^ 32) :
    (∃ r, ClampDrawResolutionScaleToMaxSupported scale_x scale_y provider = some r ∧
      1 ≤ r.scale_x ∧ r.scale_x ≤ scale_x ∧ 1 ≤ r.scale_y ∧ r.scale_y ≤ scale_y ∧
      (r.result = true ↔ r.scale_x = scale_x ∧ r.scale_y = scale_y) ∧
      (provider.tiled_resources_tier < D3D12_TILED_RESOURCES_TIER_1 →
        r.scale_x = 1 ∧ r.scale_y = 1)) ∧
    (∀ (bits fuel sx sy : Nat) (was_clamped : Bool), 1 ≤ sx → 1 ≤ sy → sx < 2 ^ 32 →
      sy < 2 ^ 32 → (sx > 1 ∨ sy > 1) →
      ¬ (64 - lzcnt64 (highest_scaled_address sx sy) ≤ bits) →
      (sx ≥ sy → 2 ≤ sx ∧ sub32 sx 1 = sx - 1 ∧
        clampLoop bits (fuel + 1) sx sy was_clamped = clampLoop bits fuel (sx - 1) sy true) ∧
      (sx < sy → 2 ≤ sy ∧ sub32 sy 1 = sy - 1 ∧
        clampLoop bits (fuel + 1) sx sy was_clamped = clampLoop bits fuel sx (sy - 1) true)) := by
  refine ⟨?_, ?_⟩
  · unfold ClampDrawResolutionScaleToMaxSupported
    by_cases ht : provider.tiled_resources_tier < D3D12_TILED_RESOURCES_TIER_1
    · rw [if_pos ht]
      refine ⟨_, rfl, le_rfl, h1x, le_rfl, h1y, ?_, fun _ => ⟨rfl, rfl⟩⟩
      simp only [Bool.not_eq_true', decide_eq_false_iff_not]
      constructor
      · intro h; constructor <;> omega
      · intro h; omega
    · rw [if_neg ht]
      obtain ⟨x, y, w, heq, hxle, hyle, hx1, hy1, _, _, hw⟩ :=
        clampLoop_spec provider.virtual_address_bits_per_resource (scale_x + scale_y + 1)
          scale_x scale_y false hx hy (by omega)
      rw [heq]
      refine ⟨_, rfl, hx1 h1x, hxle, hy1 h1y, hyle, ?_, fun h => absurd h ht⟩
      simp only [Bool.not_eq_true']
      constructor
      · intro hf
        by_contra hne
        have : w = true := hw.mpr (by
          right
          by_cases hxe : x = scale_x
          · right; intro hye; exact hne ⟨hxe, hye⟩
          · left; exact hxe)
        rw [hf] at this
        cases this
      · intro ⟨hxe, hye⟩
        cases hwv : w with
        | false => rfl
        | true =>
          rcases hw.mp hwv with h | h | h
          · cases h
          · exact absurd hxe h
          · exact absurd hye h
  · intro bits fuel sx sy was_clamped hsx hsy hbx hby hcond hfit
    constructor
    · intro hge
      have h2 : 2 ≤ sx := by omega
      refine ⟨h2, sub32_one (by omega) hbx, ?_⟩
      rw [clampLoop, if_pos hcond, if_neg hfit, if_pos hge, sub32_one (by omega) hbx]
    · intro hlt
      have h2 : 2 ≤ sy := by omega
      refine ⟨h2, sub32_one (by omega) hby, ?_⟩
      rw [clampLoop, if_pos hcond, if_neg hfit, if_neg (by omega), sub32_one (by omega) hby]

theorem ClampDrawResolutionScaleToMaxSupported_total_witness :
    ∃ r, ClampDrawResolutionScaleToMaxSupported 3 3 ⟨2, 31⟩ = some r ∧
      1 ≤ r.scale_x ∧ r.scale_x ≤ 3 ∧ 1 ≤ r.scale_y ∧ r.scale_y ≤ 3 ∧
      (r.result = true ↔ r.scale_x = 3 ∧ r.scale_y = 3) ∧
      ((⟨2, 31⟩ : D3D12Provider).tiled_resources_tier < D3D12_TILED_RESOURCES_TIER_1 →
        r.scale_x = 1 ∧ r.scale_y = 1) :=
  (ClampDrawResolutionScaleToMaxSupported_total 3 3 ⟨2, 31⟩ (by decide) (by decide)
    (by decide) (by decide)).1

/-! ## Idempotence of `MakeScaledResolveRangeCurrent` -/

theorem MakeScaledResolveRangeCurrent_eq (h : Header) (c : Cache)
    (start_unscaled length_unscaled : Nat) :
    MakeScaledResolveRangeCurrent h c start_unscaled length_unscaled =
      if length_unscaled = 0 ∨ start_unscaled ≥ kBufferSize ∨
          sub32 kBufferSize start_unscaled < length_unscaled then some (false, c)
      else if (candidateBuffers h c start_unscaled length_unscaled).length = 0 then
        some (false, c)
      else
        match c.scaled_resolve_2gb_buffers_ (chosenBuffer h c start_unscaled length_unscaled) with
        | none => none
        | some new_buffer =>
          match forLE 64 (makeCurrentBody (chosenBuffer h c start_unscaled length_unscaled)
              new_buffer.resource) (c.gigabyte_first start_unscaled)
              (c.gigabyte_last start_unscaled length_unscaled) c with
          | .next c1 =>
            some (true, { c1 with
              scaled_resolve_current_range_start_scaled_ := c.start_scaled start_unscaled
              scaled_resolve_current_range_length_scaled_ := c.length_scaled length_unscaled })
          | _ => none := rfl

theorem alreadyUsed_le (owners : Nat → Nat) (candidate : Nat) :
    ∀ (n i : Nat), alreadyUsed owners candidate n i ≤ n := by
  intro n
  induction n with
  | zero => intro i; exact le_rfl
  | succ n ih =>
    intro i
    rw [alreadyUsed]
    have := ih (i + 1)
    split_ifs <;> omega

theorem alreadyUsed_owned (owners : Nat → Nat) (candidate b : Nat) :
    ∀ (n i : Nat), (∀ j, i ≤ j → j < i + n → owners j = b) →
      alreadyUsed owners candidate n i = if candidate = b then n else 0 := by
  intro n
  induction n with
  | zero => intro i _; simp [alreadyUsed]
  | succ n ih =>
    intro i hall
    rw [alreadyUsed, ih (i + 1) (fun j h1 h2 => hall j (by omega) (by omega)),
      hall i le_rfl (by omega)]
    split_ifs <;> omega

/-- The choice among the candidates is stable: once every unit of the range is
owned by the buffer chosen from the owner table `owners`, the same buffer is
chosen from the new owner table. -/
theorem chooseNewBufferIndex_stable (owners owners1 : Nat → Nat) (common : List Nat)
    (gigabyte_first gigabyte_last : Nat)
    (hall : ∀ j, gigabyte_first ≤ j → j < gigabyte_first + (gigabyte_last + 1 - gigabyte_first) →
      owners1 j = chooseNewBufferIndex owners common gigabyte_first gigabyte_last) :
    chooseNewBufferIndex owners1 common gigabyte_first gigabyte_last =
      chooseNewBufferIndex owners common gigabyte_first gigabyte_last := by
  have hu := alreadyUsed_owned owners1 (common.getD 0 0) _ _ _ hall
  have hv := alreadyUsed_owned owners1 (common.getD 1 0) _ _ _ hall
  have hle := alreadyUsed_le owners (common.getD 1 0) (gigabyte_last + 1 - gigabyte_first)
    gigabyte_first
  unfold chooseNewBufferIndex at hu hv ⊢
  by_cases h2 : common.length ≥ 2
  · simp only [if_pos h2] at hu hv ⊢
    by_cases hgt : alreadyUsed owners (common.getD 1 0) (gigabyte_last + 1 - gigabyte_first)
        gigabyte_first > alreadyUsed owners (common.getD 0 0)
          (gigabyte_last + 1 - gigabyte_first) gigabyte_first
    · simp only [if_pos hgt] at hu hv ⊢
      have hne : common.getD 0 0 ≠ common.getD 1 0 := by
        intro he
        rw [he] at hgt
        exact lt_irrefl _ hgt
      rw [hu, hv, if_neg hne]
      simp only [if_true]
      rw [if_pos (by omega)]
    · simp only [if_neg hgt] at hu hv ⊢
      rw [hu, hv]
      simp only [if_true]
      have : ¬ ((if common.getD 1 0 = common.getD 0 0 then
          gigabyte_last + 1 - gigabyte_first else 0) >
          gigabyte_last + 1 - gigabyte_first) := by
        split_ifs <;> omega
      rw [if_neg this]
  · simp only [if_neg h2]

/-- C28: `MakeScaledResolveRangeCurrent` is idempotent. When a call returns
true, the immediately repeated call with the same arguments returns true and
leaves the cache exactly as the first call left it: the same owner table, the
same current range, the same buffers and no further call recorded, so no
aliasing barrier is pushed; and it chooses the same buffer. -/
theorem MakeScaledResolveRangeCurrent_idempotent (h : Header) (c c1 : Cache)
    (start_unscaled length_unscaled : Nat)
    (hs : MakeScaledResolveRangeCurrent h c start_unscaled length_unscaled = some (true, c1)) :
    MakeScaledResolveRangeCurrent h c1 start_unscaled length_unscaled = some (true, c1) ∧
    chosenBuffer h c1 start_unscaled length_unscaled =
      chosenBuffer h c start_unscaled length_unscaled := by
  obtain ⟨new_buffer, c2, hnb, hloop, hc1, hne⟩ :=
    MakeScaledResolveRangeCurrent_success_inv h c c1 start_unscaled length_unscaled hs
  obtain ⟨_, hown, _, hres, _, hsx, hsy, _, _⟩ := makeCurrentLoop_spec _ _ _ _ c c2 hloop
  have hargs : ¬ (length_unscaled = 0 ∨ start_unscaled ≥ kBufferSize ∨
      sub32 kBufferSize start_unscaled < length_unscaled) := by
    intro hbad
    rw [MakeScaledResolveRangeCurrent_eq, if_pos hbad] at hs
    cases hs
  have hx1 : c1.draw_resolution_scale_x = c.draw_resolution_scale_x := by rw [hc1]; exact hsx
  have hy1 : c1.draw_resolution_scale_y = c.draw_resolution_scale_y := by rw [hc1]; exact hsy
  have harea : c1.draw_resolution_scale_area = c.draw_resolution_scale_area := by
    unfold Cache.draw_resolution_scale_area
    rw [hx1, hy1]
  have hstart : c1.start_scaled start_unscaled = c.start_scaled start_unscaled := by
    unfold Cache.start_scaled; rw [harea]
  have hlength : c1.length_scaled length_unscaled = c.length_scaled length_unscaled := by
    unfold Cache.length_scaled; rw [harea]
  have hlast : c1.last_scaled start_unscaled length_unscaled =
      c.last_scaled start_unscaled length_unscaled := by
    unfold Cache.last_scaled; rw [hstart, hlength]
  have hgf : c1.gigabyte_first start_unscaled = c.gigabyte_first start_unscaled := by
    unfold Cache.gigabyte_first; rw [hstart]
  have hgl : c1.gigabyte_last start_unscaled length_unscaled =
      c.gigabyte_last start_unscaled length_unscaled := by
    unfold Cache.gigabyte_last; rw [hlast]
  have hcand : candidateBuffers h c1 start_unscaled length_unscaled =
      candidateBuffers h c start_unscaled length_unscaled := by
    unfold candidateBuffers; rw [hx1, hy1, hstart, hlast]
  have hown1 : ∀ j, c.gigabyte_first start_unscaled ≤ j →
      j < c.gigabyte_first start_unscaled +
        (c.gigabyte_last start_unscaled length_unscaled + 1 -
          c.gigabyte_first start_unscaled) →
      c1.scaled_resolve_1gb_buffer_indices_ j =
        chosenBuffer h c start_unscaled length_unscaled := by
    intro j h1 h2
    rw [hc1]
    exact hown j h1 h2
  have hchosen : chosenBuffer h c1 start_unscaled length_unscaled =
      chosenBuffer h c start_unscaled length_unscaled := by
    unfold chosenBuffer
    rw [hcand, hgf, hgl]
    exact chooseNewBufferIndex_stable _ _ _ _ _ hown1
  refine ⟨?_, hchosen⟩
  rw [MakeScaledResolveRangeCurrent_eq, if_neg hargs, hcand,
    if_neg (fun h0 => hne (List.length_eq_zero.mp h0)), hchosen, hgf, hgl, hstart, hlength]
  have hbuf : ∃ nb, c1.scaled_resolve_2gb_buffers_
      (chosenBuffer h c start_unscaled length_unscaled) = some nb := by
    have hr := hres (chosenBuffer h c start_unscaled length_unscaled)
    rw [hnb] at hr
    have hr1 : (c1.scaled_resolve_2gb_buffers_
        (chosenBuffer h c start_unscaled length_unscaled)).map (fun x => x.resource) =
        some new_buffer.resource := by rw [hc1]; exact hr
    cases hb : c1.scaled_resolve_2gb_buffers_
        (chosenBuffer h c start_unscaled length_unscaled) with
    | none => rw [hb] at hr1; cases hr1
    | some nb => exact ⟨nb, rfl⟩
  obtain ⟨nb, hnb1⟩ := hbuf
  rw [hnb1]
  simp only
  have hlt : c.last_scaled start_unscaled length_unscaled < 2 ^ 64 := by
    unfold Cache.last_scaled u64
    exact Nat.mod_lt _ (by positivity)
  have hskip := forLE_skip 64
    (makeCurrentBody (chosenBuffer h c start_unscaled length_unscaled) nb.resource)
    (c.gigabyte_first start_unscaled) (c.gigabyte_last start_unscaled length_unscaled) c1
    (Or.inr (shiftRight_succ_lt hlt)) (fun j h1 h2 => by
      unfold makeCurrentBody
      simp only
      rw [if_pos (hown1 j h1 (by omega))])
  rw [hskip]
  simp only
  rw [hc1]

theorem MakeScaledResolveRangeCurrent_idempotent_witness :
    ∃ c1, MakeScaledResolveRangeCurrent xeniaHeader
        (Cache.withOwners 3 3 (fun i => if i = 0 then 1 else SIZE_MAX)) 0 4096 =
        some (true, c1) ∧
      c1.calls = [DeviceCall.PushAliasingBarrier 1001 1000] ∧
      MakeScaledResolveRangeCurrent xeniaHeader c1 0 4096 = some (true, c1) :=
  ⟨_, rfl, rfl,
    (MakeScaledResolveRangeCurrent_idempotent xeniaHeader
      (Cache.withOwners 3 3 (fun i => if i = 0 then 1 else SIZE_MAX)) _ 0 4096 rfl).1⟩

/-! ## Row pitch of the host footprints -/

theorem hostSliceLayoutMip_is_slice (l : LoadLocals) (guest_layout : TextureGuestLayout)
    (level offset : Nat) :
    ∃ width height depth,
      hostSliceLayoutMip l guest_layout level offset =
        hostSliceLayout l offset width height depth := by
  unfold hostSliceLayoutMip
  split_ifs
  · exact ⟨_, _, _, rfl⟩
  · exact ⟨_, _, _, rfl⟩

theorem hostSliceLayoutBase_is_slice (l : LoadLocals) (guest_layout : TextureGuestLayout)
    (offset : Nat) :
    ∃ width height depth,
      hostSliceLayoutBase l guest_layout offset = hostSliceLayout l offset width height depth := by
  unfold hostSliceLayoutBase
  split_ifs
  · exact ⟨_, _, _, rfl⟩
  · exact ⟨_, _, _, rfl⟩

theorem hostLayoutMips_placed_slice (l : LoadLocals) (guest_layout : TextureGuestLayout) :
    ∀ (n level : Nat) (layout : HostLayout),
      (∀ slot f, layout.placed slot = some f →
        ∃ offset width height depth, f = hostSliceLayout l offset width height depth) →
      ∀ slot f, (hostLayoutMips l guest_layout n level layout).placed slot = some f →
        ∃ offset width height depth, f = hostSliceLayout l offset width height depth := by
  intro n
  induction n with
  | zero => intro level layout h; exact h
  | succ n ih =>
    intro level layout h
    rw [hostLayoutMips]
    apply ih
    intro slot f hf
    cases slot with
    | none => exact h none f hf
    | some j =>
      simp only [HostLayout.placed, setAt] at hf
      by_cases hj : j = level
      · rw [if_pos hj] at hf
        obtain ⟨w, hh, d, he⟩ := hostSliceLayoutMip_is_slice l guest_layout level
          layout.copy_buffer_size
        exact ⟨_, w, hh, d, (Option.some.inj hf).symm.trans he⟩
      · rw [if_neg hj] at hf
        exact h (some j) f hf

/-- Every footprint that the host layout writes, for the base or for a stored
mip level, is computed by `hostSliceLayout` from some extent. -/
theorem hostLayout_placed_slice (l : LoadLocals) (guest_layout : TextureGuestLayout)
    (slot : Option Nat) (f : HostFootprint × Nat)
    (hf : (hostLayout l guest_layout).placed slot = some f) :
    ∃ offset width height depth, f = hostSliceLayout l offset width height depth := by
  unfold hostLayout at hf
  simp only at hf
  have h0 : ∀ slot f, (HostLayout.mk 0 none (fun _ => none)).placed slot = some f →
      ∃ offset width height depth, f = hostSliceLayout l offset width height depth := by
    intro slot f hf
    cases slot <;> cases hf
  have h1 : ∀ slot f,
      (if l.level_first = 0 then
        HostLayout.mk (u64 (0 + u64 ((hostSliceLayoutBase l guest_layout 0).2 * l.array_size)))
          (some (hostSliceLayoutBase l guest_layout 0)) (fun _ => none)
      else HostLayout.mk 0 none (fun _ => none)).placed slot = some f →
      ∃ offset width height depth, f = hostSliceLayout l offset width height depth := by
    intro slot f hf
    by_cases hfirst : l.level_first = 0
    · rw [if_pos hfirst] at hf
      cases slot with
      | none =>
        obtain ⟨w, hh, d, he⟩ := hostSliceLayoutBase_is_slice l guest_layout 0
        exact ⟨_, w, hh, d, (Option.some.inj hf).symm.trans he⟩
      | some j => cases hf
    · rw [if_neg hfirst] at hf
      exact h0 slot f hf
  by_cases hlast : l.level_last ≠ 0
  · rw [if_pos hlast] at hf
    exact hostLayoutMips_placed_slice l guest_layout _ _ _ h1 slot f hf
  · rw [if_neg hlast] at hf
    exact h1 slot f hf

theorem round_up_ge (value multiple : Nat) (hm : 0 < multiple)
    (hfit : value + multiple - 1 < 2 ^ 32) : value ≤ round_up value multiple := by
  unfold round_up u32
  split_ifs with h0
  · omega
  · rw [Nat.mod_eq_of_lt hfit]
    have hle : (value + multiple - 1) / multiple * multiple ≤ value + multiple - 1 :=
      Nat.div_mul_le_self _ _
    rw [Nat.mod_eq_of_lt (by omega)]
    have hlt := Nat.lt_div_mul_add hm (a := value + multiple - 1)
    omega

theorem align_ge (bits value alignment : Nat) (ha : 0 < alignment)
    (hfit : value + alignment - 1 < 2 ^ bits) : value ≤ align bits value alignment := by
  unfold align
  rw [Nat.mod_eq_of_lt hfit]
  have hlt := Nat.lt_div_mul_add ha (a := value + alignment - 1)
  omega

/-- C23: for every footprint that the host layout writes (the base or a stored
mip level, packed or not, at any resolution scale), the `RowPitch` is a
multiple of `D3D12_TEXTURE_DATA_PITCH_ALIGNMENT`; and when the row size
`round_up(Width / host_block_width, host_x_blocks_per_thread * scale_x) *
host_bytes_per_block` fits 32 bits with the alignment slack, the `RowPitch` is
at least that row size, which in turn (with a nonzero thread coverage and no
32-bit wrap in the rounding) is at least the bytes of one row of host blocks,
`Width / host_block_width * host_bytes_per_block`. -/
theorem hostLayout_row_pitch (l : LoadLocals) (guest_layout : TextureGuestLayout)
    (slot : Option Nat) (f : HostFootprint × Nat)
    (hf : (hostLayout l guest_layout).placed slot = some f) :
    D3D12_TEXTURE_DATA_PITCH_ALIGNMENT ∣ f.1.RowPitch ∧
    (round_up (f.1.Width / l.copy_block_width)
        (u32 (l.load_mode_info.host_x_blocks_per_thread * l.texture_resolution_scale_x)) *
        l.copy_bytes_per_block + 255 < 2 ^ 32 →
      round_up (f.1.Width / l.copy_block_width)
        (u32 (l.load_mode_info.host_x_blocks_per_thread * l.texture_resolution_scale_x)) *
        l.copy_bytes_per_block ≤ f.1.RowPitch ∧
      (0 < u32 (l.load_mode_info.host_x_blocks_per_thread * l.texture_resolution_scale_x) →
        f.1.Width / l.copy_block_width +
          u32 (l.load_mode_info.host_x_blocks_per_thread * l.texture_resolution_scale_x) - 1 <
          2 ^ 32 →
        f.1.Width / l.copy_block_width * l.copy_bytes_per_block ≤ f.1.RowPitch)) := by
  obtain ⟨offset, width, height, depth, rfl⟩ := hostLayout_placed_slice l guest_layout slot f hf
  refine ⟨align_dvd 32 _ 256, fun hfit => ?_⟩
  have hrow : (hostSliceLayout l offset width height depth).1.RowPitch =
      align 32 (u32 (round_up ((hostSliceLayout l offset width height depth).1.Width /
          l.copy_block_width)
        (u32 (l.load_mode_info.host_x_blocks_per_thread * l.texture_resolution_scale_x)) *
        l.copy_bytes_per_block)) D3D12_TEXTURE_DATA_PITCH_ALIGNMENT := rfl
  have hge : round_up ((hostSliceLayout l offset width height depth).1.Width /
        l.copy_block_width)
      (u32 (l.load_mode_info.host_x_blocks_per_thread * l.texture_resolution_scale_x)) *
      l.copy_bytes_per_block ≤ (hostSliceLayout l offset width height depth).1.RowPitch := by
    rw [hrow]
    have hu : u32 (round_up ((hostSliceLayout l offset width height depth).1.Width /
          l.copy_block_width)
        (u32 (l.load_mode_info.host_x_blocks_per_thread * l.texture_resolution_scale_x)) *
        l.copy_bytes_per_block) = round_up
          ((hostSliceLayout l offset width height depth).1.Width / l.copy_block_width)
        (u32 (l.load_mode_info.host_x_blocks_per_thread * l.texture_resolution_scale_x)) *
        l.copy_bytes_per_block := by
      exact Nat.mod_eq_of_lt (by omega)
    rw [hu]
    exact align_ge 32 _ 256 (by norm_num) (by omega)
  refine ⟨hge, fun hm hfit2 => ?_⟩
  exact le_trans (Nat.mul_le_mul_right _ (round_up_ge _ _ hm hfit2)) hge

theorem hostLayout_row_pitch_witness :
    (hostLayout (loadLocals (LoadEnv.sample false) 1 1 D3D12Texture.sampleMips true true)
      D3D12Texture.sampleMips.guest_layout).placed (some 1) =
      some (⟨32768, DXGI_FORMAT.R8G8B8A8_TYPELESS, 32, 32, 1, 256⟩, 8192) ∧
    D3D12_TEXTURE_DATA_PITCH_ALIGNMENT ∣ 256 ∧
    round_up (32 / 1) (u32 (8 * 1)) * 4 ≤ 256 ∧ 32 / 1 * 4 ≤ 256 :=
  have h := hostLayout_row_pitch
    (loadLocals (LoadEnv.sample false) 1 1 D3D12Texture.sampleMips true true)
    D3D12Texture.sampleMips.guest_layout (some 1)
    (⟨32768, DXGI_FORMAT.R8G8B8A8_TYPELESS, 32, 32, 1, 256⟩, 8192) (by decide)
  ⟨by decide, h.1, (h.2 (by decide)).1, (h.2 (by decide)).2 (by decide) (by decide)⟩

/-! ## Traces of the loader -/

theorem CallsExtend_refl (P : DeviceCall → Prop) (calls : List DeviceCall) :
    CallsExtend P calls calls :=
  ⟨[], (List.append_nil _).symm, fun _ h => absurd h (List.not_mem_nil _)⟩

theorem CallsExtend_trans {P : DeviceCall → Prop} {a b c : List DeviceCall}
    (h1 : CallsExtend P a b) (h2 : CallsExtend P b c) : CallsExtend P a c := by
  obtain ⟨n1, rfl, hp1⟩ := h1
  obtain ⟨n2, rfl, hp2⟩ := h2
  refine ⟨n1 ++ n2, List.append_assoc _ _ _, fun x hx => ?_⟩
  rcases List.mem_append.mp hx with h | h
  · exact hp1 x h
  · exact hp2 x h

theorem CallsExtend_record {P : DeviceCall → Prop} (c : Cache) (calls : List DeviceCall)
    (h : ∀ x ∈ calls, P x) : CallsExtend P c.calls (c.record calls).calls :=
  ⟨calls, rfl, h⟩

theorem CallsExtend_mono {P Q : DeviceCall → Prop} {a b : List DeviceCall}
    (hpq : ∀ x, P x → Q x) (h : CallsExtend P a b) : CallsExtend Q a b := by
  obtain ⟨n, he, hp⟩ := h
  exact ⟨n, he, fun x hx => hpq x (hp x hx)⟩

/-- Rule for a loop that ends, one way or the other: a preorder that every
iteration that ends respects relates the first state to the last. -/
theorem loopFrom_rel {σ : Type} (body : Nat → σ → Flow σ) (R : σ → σ → Prop)
    (hrefl : ∀ s, R s s) (htrans : ∀ a b c, R a b → R b c → R a c)
    (hstep : ∀ i s s1, (body i s).state? = some s1 → R s s1) :
    ∀ (n i : Nat) (s s1 : σ), (loopFrom body n i s).state? = some s1 → R s s1 := by
  intro n
  induction n with
  | zero =>
    intro i s s1 h
    rw [loopFrom] at h
    cases h
    exact hrefl s
  | succ n ih =>
    intro i s s1 h
    rw [loopFrom] at h
    cases hb : body i s with
    | next s2 =>
      rw [hb] at h
      exact htrans _ _ _ (hstep i s s2 (by rw [hb]; rfl)) (ih (i + 1) s2 s1 h)
    | return_false s2 =>
      rw [hb] at h
      have he : s2 = s1 := Option.some.inj h
      rw [← he]
      exact hstep i s s2 (by rw [hb]; rfl)
    | undefined => rw [hb] at h; cases h

theorem unitBarriers_mem (owners : Nat → Nat)
    (buffers : Nat → Option ScaledResolveVirtualBuffer) (b r : Nat) :
    ∀ (n i : Nat) (x : DeviceCall), x ∈ unitBarriers owners buffers b r n i →
      ∃ before after, x = DeviceCall.PushAliasingBarrier before after := by
  intro n
  induction n with
  | zero => intro i x hx; cases hx
  | succ n ih =>
    intro i x hx
    rw [unitBarriers] at hx
    rcases List.mem_append.mp hx with h | h
    · unfold unitBarrier at h
      split_ifs at h
      · cases h
      · cases hb : buffers (owners i) with
        | none => rw [hb] at h; cases h
        | some old =>
          rw [hb] at h
          simp only [List.mem_singleton] at h
          exact ⟨_, _, h⟩
    · exact ih (i + 1) x h

theorem MakeScaledResolveRangeCurrent_false_inv (h : Header) (c c1 : Cache)
    (start_unscaled length_unscaled : Nat)
    (hs : MakeScaledResolveRangeCurrent h c start_unscaled length_unscaled = some (false, c1)) :
    c1 = c := by
  rw [MakeScaledResolveRangeCurrent_eq] at hs
  split_ifs at hs
  · exact ((Prod.mk.inj (Option.some.inj hs)).2).symm
  · exact ((Prod.mk.inj (Option.some.inj hs)).2).symm
  · split at hs
    · cases hs
    · split at hs
      · cases hs
      · cases hs

/-- Whatever `MakeScaledResolveRangeCurrent` returns, the calls it records are
aliasing barriers appended to the trace. -/
theorem MakeScaledResolveRangeCurrent_calls (h : Header) (c c1 : Cache) (result : Bool)
    (start_unscaled length_unscaled : Nat)
    (hs : MakeScaledResolveRangeCurrent h c start_unscaled length_unscaled =
      some (result, c1)) :
    CallsExtend (fun x => ∃ before after, x = DeviceCall.PushAliasingBarrier before after)
      c.calls c1.calls := by
  cases result with
  | false =>
    rw [MakeScaledResolveRangeCurrent_false_inv h c c1 _ _ hs]
    exact CallsExtend_refl _ _
  | true =>
    obtain ⟨new_buffer, c2, _, hloop, hc1, _⟩ :=
      MakeScaledResolveRangeCurrent_success_inv h c c1 start_unscaled length_unscaled hs
    have hcalls := (makeCurrentLoop_spec _ _ _ _ c c2 hloop).1
    exact ⟨_, by rw [hc1]; exact hcalls, unitBarriers_mem _ _ _ _ _ _⟩

theorem loadScaledSource_calls (env : LoadEnv) (l : LoadLocals) (texture : D3D12Texture)
    (copy_buffer : Nat) (is_base : Bool) (guest_address : Nat) (s s1 : LoadState)
    (h : (loadScaledSource env l texture copy_buffer is_base guest_address s).state? =
      some s1) :
    CallsExtend DeviceCall.isSourceSetup s.cache.calls s1.cache.calls ∧
    s1.load_constants = s.load_constants := by
  unfold loadScaledSource at h
  simp only at h
  split at h
  · cases h
  · rename_i c1 hmake
    have hs1 := (Option.some.inj h).symm
    rw [hs1]
    refine ⟨?_, rfl⟩
    exact CallsExtend_trans
      (CallsExtend_mono (fun x hx => by obtain ⟨a, b, rfl⟩ := hx; trivial)
        (MakeScaledResolveRangeCurrent_calls _ _ _ _ _ _ hmake))
      (CallsExtend_record c1 _ (fun x hx => by
        simp only [List.mem_cons, List.mem_singleton, List.not_mem_nil, or_false] at hx
        rcases hx with rfl | rfl <;> trivial))
  · rename_i c1 hmake
    have hm := CallsExtend_mono (Q := DeviceCall.isSourceSetup)
      (fun x hx => by obtain ⟨a, b, rfl⟩ := hx; trivial)
      (MakeScaledResolveRangeCurrent_calls _ _ _ _ _ _ hmake)
    unfold TransitionCurrentScaledResolveRange at h
    split at h
    · cases h
    · rename_i c2 htr
      split at htr
      · cases htr
      · rename_i buffer _
        have hc2 := (Option.some.inj htr).symm
        unfold CreateCurrentScaledResolveRangeUintPow2SRV at h
        simp only at h
        split at h
        · cases h
        · rename_i c3 hsrv
          split at hsrv
          · cases hsrv
          · have hc3 := (Option.some.inj hsrv).symm
            have hs1 := (Option.some.inj h).symm
            rw [hs1]
            refine ⟨?_, rfl⟩
            simp only
            have e1 : CallsExtend DeviceCall.isSourceSetup c1.calls
                (c1.record [DeviceCall.MakeScaledResolveRangeCurrent guest_address
                  (if is_base = true then texture.guest_base_size
                    else texture.guest_mips_size) true]).calls :=
              CallsExtend_record c1 _ (fun x hx => by
                simp only [List.mem_singleton] at hx
                rw [hx]; trivial)
            have e2 : CallsExtend DeviceCall.isSourceSetup
                (c1.record [DeviceCall.MakeScaledResolveRangeCurrent guest_address
                  (if is_base = true then texture.guest_base_size
                    else texture.guest_mips_size) true]).calls c2.calls := by
              rw [hc2]
              exact ⟨_, rfl, fun x hx => by
                simp only [List.mem_singleton] at hx
                rw [hx]; trivial⟩
            have e3 : CallsExtend DeviceCall.isSourceSetup c2.calls c3.calls := by
              rw [hc3]
              exact CallsExtend_record c2 _ (fun x hx => by
                simp only [List.mem_singleton] at hx
                rw [hx]; trivial)
            have e4 : CallsExtend DeviceCall.isSourceSetup c3.calls
                (c3.record [DeviceCall.D3DSetComputeRootDescriptorTable 1
                  (DescriptorRef.allocated s.descriptor_write_index)]).calls :=
              CallsExtend_record c3 _ (fun x hx => by
                simp only [List.mem_singleton] at hx
                rw [hx]; trivial)
            exact CallsExtend_trans hm (CallsExtend_trans e1 (CallsExtend_trans e2 (CallsExtend_trans e3 e4)))

/-- The calls of one slice of a dispatched level: whatever the iteration
records satisfies `P`, if `P` holds of the calls that it can record; and the
block sizes in `load_constants` are not changed. -/
theorem loadSliceBody_calls (P : DeviceCall → Prop) (dev : LoadDevice)
    (copy_buffer loop_level group_count_x group_count_y guest_slice_stride host_slice_size
      size_blocks_2 : Nat)
    (hreq : ∀ b, P (.RequestConstantBuffer b))
    (hcbv : ∀ k, P (.D3DSetComputeRootConstantBufferView 0 k)) (hsub : P .SubmitBarriers)
    (hdisp : P (.D3DDispatch group_count_x group_count_y size_blocks_2))
    (hrel : P (.ReleaseScratchGPUBuffer copy_buffer D3D12_RESOURCE_STATE_UNORDERED_ACCESS))
    (slice : Nat) (s s1 : LoadState)
    (h : (loadSliceBody dev copy_buffer loop_level group_count_x group_count_y
      guest_slice_stride host_slice_size slice s).state? = some s1) :
    (s.load_constants.size_blocks_2 = size_blocks_2 →
      CallsExtend P s.cache.calls s1.cache.calls) ∧
    s1.load_constants.size_blocks_0 = s.load_constants.size_blocks_0 ∧
    s1.load_constants.size_blocks_1 = s.load_constants.size_blocks_1 ∧
    s1.load_constants.size_blocks_2 = s.load_constants.size_blocks_2 := by
  unfold loadSliceBody at h
  by_cases hcb : dev.RequestConstantBuffer loop_level slice = true
  · rw [if_pos hcb] at h
    have hs1 := (Option.some.inj h).symm
    rw [hs1]
    refine ⟨fun hz => ?_, rfl, rfl, rfl⟩
    refine ⟨_, rfl, fun x hx => ?_⟩
    simp only [List.mem_cons, List.mem_singleton, List.not_mem_nil, or_false] at hx
    rcases hx with rfl | rfl | rfl | rfl
    · exact hreq _
    · exact hcbv _
    · exact hsub
    · rw [hz]; exact hdisp
  · rw [if_neg hcb] at h
    have hs1 := (Option.some.inj h).symm
    rw [hs1]
    refine ⟨fun _ => ?_, rfl, rfl, rfl⟩
    refine ⟨_, rfl, fun x hx => ?_⟩
    simp only [List.mem_cons, List.mem_singleton, List.not_mem_nil, or_false] at hx
    rcases hx with rfl | rfl
    · exact hreq _
    · exact hrel

theorem loadSliceLoop_calls (P : DeviceCall → Prop) (dev : LoadDevice)
    (copy_buffer loop_level group_count_x group_count_y guest_slice_stride host_slice_size
      size_blocks_2 : Nat)
    (hreq : ∀ b, P (.RequestConstantBuffer b))
    (hcbv : ∀ k, P (.D3DSetComputeRootConstantBufferView 0 k)) (hsub : P .SubmitBarriers)
    (hdisp : P (.D3DDispatch group_count_x group_count_y size_blocks_2))
    (hrel : P (.ReleaseScratchGPUBuffer copy_buffer D3D12_RESOURCE_STATE_UNORDERED_ACCESS))
    (n i : Nat) (s s1 : LoadState)
    (h : (loopFrom (loadSliceBody dev copy_buffer loop_level group_count_x group_count_y
      guest_slice_stride host_slice_size) n i s).state? = some s1) :
    (s.load_constants.size_blocks_2 = size_blocks_2 →
      CallsExtend P s.cache.calls s1.cache.calls) ∧
    s1.load_constants.size_blocks_0 = s.load_constants.size_blocks_0 ∧
    s1.load_constants.size_blocks_1 = s.load_constants.size_blocks_1 ∧
    s1.load_constants.size_blocks_2 = s.load_constants.size_blocks_2 :=
  loopFrom_rel _
    (fun s s1 : LoadState => (s.load_constants.size_blocks_2 = size_blocks_2 →
        CallsExtend P s.cache.calls s1.cache.calls) ∧
      s1.load_constants.size_blocks_0 = s.load_constants.size_blocks_0 ∧
      s1.load_constants.size_blocks_1 = s.load_constants.size_blocks_1 ∧
      s1.load_constants.size_blocks_2 = s.load_constants.size_blocks_2)
    (fun s => ⟨fun _ => CallsExtend_refl _ _, rfl, rfl, rfl⟩)
    (fun a b c hab hbc => ⟨fun hz => CallsExtend_trans (hab.1 hz)
        (hbc.1 (by rw [hab.2.2.2]; exact hz)),
      by rw [hbc.2.1, hab.2.1], by rw [hbc.2.2.1, hab.2.2.1], by rw [hbc.2.2.2, hab.2.2.2]⟩)
    (fun j a b hab => loadSliceBody_calls P dev copy_buffer loop_level group_count_x
      group_count_y guest_slice_stride host_slice_size size_blocks_2 hreq hcbv hsub hdisp hrel
      j a b hab)
    n i s s1 h

theorem loadGroupCount_eq (size_blocks log2 : Nat) (hlog : log2 < 32)
    (hfit : size_blocks + 2 ^ log2 - 1 < 2 ^ 32) :
    loadGroupCount size_blocks log2 = (size_blocks + 2 ^ log2 - 1) / 2 ^ log2 := by
  have hpow : 2 ^ log2 < 2 ^ 32 := Nat.pow_lt_pow_right (by norm_num) hlog
  have hpos : 0 < 2 ^ log2 := by positivity
  unfold loadGroupCount
  have h1 : u32 (1 <<< log2) = 2 ^ log2 := by
    unfold u32
    rw [Nat.shiftLeft_eq, Nat.one_mul, Nat.mod_eq_of_lt hpow]
  rw [h1, sub32_one hpos hpow]
  have h2 : u32 (size_blocks + (2 ^ log2 - 1)) = size_blocks + 2 ^ log2 - 1 := by
    unfold u32
    rw [Nat.mod_eq_of_lt (by omega)]
    omega
  rw [h2, Nat.shiftRight_eq_div_pow]

/-- The thread groups of an iteration of the dispatch loop: every call that
the iteration records is appended to the trace, and every dispatch among them
has the group counts computed from the block sizes that the iteration writes
to `load_constants`. -/
theorem loadLevelBody_dispatches (env : LoadEnv) (dev : LoadDevice) (l : LoadLocals)
    (texture : D3D12Texture) (layout : HostLayout) (copy_buffer loop_level : Nat)
    (s s1 : LoadState)
    (h : (loadLevelBody env dev l texture layout copy_buffer loop_level s).state? = some s1) :
    CallsExtend (fun call => ∀ x y z, call = DeviceCall.D3DDispatch x y z →
        x = loadGroupCount s1.load_constants.size_blocks_0
          (l.load_mode_info.GetGuestXBlocksPerGroupLog2 env) ∧
        y = loadGroupCount s1.load_constants.size_blocks_1 env.kLoadGuestYBlocksPerGroupLog2 ∧
        z = s1.load_constants.size_blocks_2)
      s.cache.calls s1.cache.calls := by
  unfold loadLevelBody at h
  simp only at h
  split at h
  · cases h
  · rename_i s2 hsrc
    have hs1 : s2 = s1 := Option.some.inj h
    rw [← hs1]
    by_cases hc : texture.key.scaled_resolve = true ∧
        (decide (loop_level = 0) = true ∨ ¬ s.scaled_mips_source_set_up = true)
    · rw [if_pos hc] at hsrc
      exact CallsExtend_mono (fun x hx a b z he => by rw [he] at hx; exact absurd hx id)
        (loadScaledSource_calls _ _ _ _ _ _ _ _ (by rw [hsrc]; rfl)).1
    · rw [if_neg hc] at hsrc
      cases hsrc
  · rename_i s2 hsrc
    have hsrc2 : CallsExtend DeviceCall.isSourceSetup s.cache.calls s2.cache.calls := by
      by_cases hc : texture.key.scaled_resolve = true ∧
          (decide (loop_level = 0) = true ∨ ¬ s.scaled_mips_source_set_up = true)
      · rw [if_pos hc] at hsrc
        exact (loadScaledSource_calls _ _ _ _ _ _ _ _ (by rw [hsrc]; rfl)).1
      · rw [if_neg hc] at hsrc
        cases hsrc
        exact CallsExtend_refl _ _
    split at h
    · cases h
    · have hfields := loadSliceLoop_calls (fun _ => True) dev copy_buffer loop_level _ _ _ _ 0
        (fun _ => trivial) (fun _ => trivial) trivial trivial trivial _ _ _ s1 h
      obtain ⟨_, hf0, hf1, hf2⟩ := hfields
      simp only at hf0 hf1 hf2
      rw [← hf0, ← hf1] at h
      have hloop := loadSliceLoop_calls
        (fun call => ∀ x y z, call = DeviceCall.D3DDispatch x y z →
          x = loadGroupCount s1.load_constants.size_blocks_0
            (l.load_mode_info.GetGuestXBlocksPerGroupLog2 env) ∧
          y = loadGroupCount s1.load_constants.size_blocks_1
            env.kLoadGuestYBlocksPerGroupLog2 ∧
          z = s1.load_constants.size_blocks_2)
        dev copy_buffer loop_level
        (loadGroupCount s1.load_constants.size_blocks_0
          (l.load_mode_info.GetGuestXBlocksPerGroupLog2 env))
        (loadGroupCount s1.load_constants.size_blocks_1 env.kLoadGuestYBlocksPerGroupLog2)
        _ _ s1.load_constants.size_blocks_2
        (fun b x y z he => by cases he) (fun k x y z he => by cases he)
        (fun x y z he => by cases he)
        (fun x y z he => by cases he; exact ⟨rfl, rfl, rfl⟩)
        (fun x y z he => by cases he) _ _ _ s1 h
      exact CallsExtend_trans
        (CallsExtend_mono (fun x hx a b z he => by rw [he] at hx; exact absurd hx id) hsrc2)
        (hloop.1 hf2.symm)

/-- C22: the thread group counts of the dispatches are ceiling divisions. As
long as `size_blocks + 2^log2 - 1` fits 32 bits, the count
`(size_blocks + ((1 << log2) - 1)) >> log2` that the loader computes is
`ceil(size_blocks / 2^log2)`: the groups cover the extent, and one group less
would not. Every dispatch that an iteration of the dispatch loop records has
this count along X for `size_blocks[0]` and `GetGuestXBlocksPerGroupLog2()`,
and along Y for `size_blocks[1]` and `kLoadGuestYBlocksPerGroupLog2`, of the
`load_constants` of the iteration. -/
theorem loadGroupCount_ceil :
    (∀ size_blocks log2 : Nat, log2 < 32 → size_blocks + 2 ^ log2 - 1 < 2 ^ 32 →
      loadGroupCount size_blocks log2 = (size_blocks + 2 ^ log2 - 1) / 2 ^ log2 ∧
      size_blocks ≤ loadGroupCount size_blocks log2 * 2 ^ log2 ∧
      loadGroupCount size_blocks log2 * 2 ^ log2 < size_blocks + 2 ^ log2) ∧
    (∀ (env : LoadEnv) (dev : LoadDevice) (l : LoadLocals) (texture : D3D12Texture)
        (layout : HostLayout) (copy_buffer loop_level : Nat) (s s1 : LoadState),
      (loadLevelBody env dev l texture layout copy_buffer loop_level s).state? = some s1 →
      ∃ new, s1.cache.calls = s.cache.calls ++ new ∧
        ∀ x y z, DeviceCall.D3DDispatch x y z ∈ new →
          x = loadGroupCount s1.load_constants.size_blocks_0
            (l.load_mode_info.GetGuestXBlocksPerGroupLog2 env) ∧
          y = loadGroupCount s1.load_constants.size_blocks_1
            env.kLoadGuestYBlocksPerGroupLog2) := by
  refine ⟨fun size_blocks log2 hlog hfit => ?_, ?_⟩
  · have hpos : 0 < 2 ^ log2 := by positivity
    rw [loadGroupCount_eq size_blocks log2 hlog hfit]
    refine ⟨rfl, ?_, ?_⟩
    · have := Nat.lt_div_mul_add hpos (a := size_blocks + 2 ^ log2 - 1)
      omega
    · have := Nat.div_mul_le_self (size_blocks + 2 ^ log2 - 1) (2 ^ log2)
      omega
  · intro env dev l texture layout copy_buffer loop_level s s1 h
    obtain ⟨new, he, hp⟩ := loadLevelBody_dispatches env dev l texture layout copy_buffer
      loop_level s s1 h
    exact ⟨new, he, fun x y z hm => ⟨(hp _ hm x y z rfl).1, (hp _ hm x y z rfl).2.1⟩⟩

theorem loadGroupCount_ceil_witness :
    loadGroupCount 64 5 = 2 ∧ loadGroupCount 65 5 = 3 ∧
    (loadGroupCount 65 5 = (65 + 2 ^ 5 - 1) / 2 ^ 5 ∧ 65 ≤ loadGroupCount 65 5 * 2 ^ 5 ∧
      loadGroupCount 65 5 * 2 ^ 5 < 65 + 2 ^ 5) :=
  ⟨by decide, by decide, loadGroupCount_ceil.1 65 5 (by decide) (by decide)⟩

/-! ## Release of the scratch buffer -/

/-- Counting rule for a loop that ends: a measure that every iteration that
falls through keeps, and that every iteration that returns false increases by
`k`, is kept by a loop that falls through and increased by `k` by a loop that
returns false. -/
theorem loopFrom_count_return {σ : Type} (body : Nat → σ → Flow σ) (f : σ → Nat) (k : Nat)
    (hnext : ∀ i s s1, body i s = Flow.next s1 → f s1 = f s)
    (hret : ∀ i s s1, body i s = Flow.return_false s1 → f s1 = f s + k) :
    ∀ (n i : Nat) (s s1 : σ),
      (loopFrom body n i s = Flow.next s1 → f s1 = f s) ∧
      (loopFrom body n i s = Flow.return_false s1 → f s1 = f s + k) := by
  intro n
  induction n with
  | zero =>
    intro i s s1
    rw [loopFrom]
    refine ⟨fun h => ?_, fun h => ?_⟩
    · cases h; rfl
    · cases h
  | succ n ih =>
    intro i s s1
    rw [loopFrom]
    cases hb : body i s with
    | next s2 =>
      simp only
      obtain ⟨h1, h2⟩ := ih (i + 1) s2 s1
      exact ⟨fun h => by rw [h1 h, hnext i s s2 hb], fun h => by rw [h2 h, hnext i s s2 hb]⟩
    | return_false s2 =>
      simp only
      refine ⟨fun h => ?_, fun h => ?_⟩
      · cases h
      · have he : s2 = s1 := Flow.return_false.inj h
        rw [← he]
        exact hret i s s2 hb
    | undefined =>
      simp only
      refine ⟨fun h => ?_, fun h => ?_⟩
      · cases h
      · cases h

theorem scratchReleaseCount_record (c : Cache) (calls : List DeviceCall) :
    scratchReleaseCount (c.record calls).calls =
      scratchReleaseCount c.calls + scratchReleaseCount calls := by
  unfold scratchReleaseCount Cache.record
  exact List.countP_append _ _ _

theorem scratchRequestCount_record (c : Cache) (calls : List DeviceCall) :
    scratchRequestCount (c.record calls).calls =
      scratchRequestCount c.calls + scratchRequestCount calls := by
  unfold scratchRequestCount Cache.record
  exact List.countP_append _ _ _

/-- Calls that all are of a kind recorded elsewhere than at the request and
the release of the scratch buffer leave the two counts unchanged. -/
theorem CallsExtend_scratch_counts {P : DeviceCall → Prop} {a b : List DeviceCall}
    (hP : ∀ x, P x → scratchReleaseCount [x] = 0 ∧ scratchRequestCount [x] = 0)
    (h : CallsExtend P a b) :
    scratchReleaseCount b = scratchReleaseCount a ∧
    scratchRequestCount b = scratchRequestCount a := by
  obtain ⟨new, rfl, hp⟩ := h
  have hr : ∀ (x : DeviceCall) (l : List DeviceCall),
      scratchReleaseCount (x :: l) = scratchReleaseCount [x] + scratchReleaseCount l :=
    fun x l => List.countP_append _ [x] l
  have hq : ∀ (x : DeviceCall) (l : List DeviceCall),
      scratchRequestCount (x :: l) = scratchRequestCount [x] + scratchRequestCount l :=
    fun x l => List.countP_append _ [x] l
  have h1 : ∀ (l : List DeviceCall), (∀ x ∈ l, P x) →
      scratchReleaseCount l = 0 ∧ scratchRequestCount l = 0 := by
    intro l
    induction l with
    | nil => intro _; exact ⟨rfl, rfl⟩
    | cons x rest ih =>
      intro hall
      obtain ⟨r1, r2⟩ := ih (fun y hy => hall y (List.mem_cons_of_mem _ hy))
      obtain ⟨x1, x2⟩ := hP x (hall x (List.mem_cons_self _ _))
      rw [hr, hq, r1, r2, x1, x2]
      exact ⟨rfl, rfl⟩
  obtain ⟨q1, q2⟩ := h1 new hp
  have ha : scratchReleaseCount (a ++ new) = scratchReleaseCount a + scratchReleaseCount new :=
    List.countP_append _ a new
  have hb : scratchRequestCount (a ++ new) = scratchRequestCount a + scratchRequestCount new :=
    List.countP_append _ a new
  rw [ha, hb, q1, q2]
  exact ⟨rfl, rfl⟩

theorem loadScaledSource_scratch (env : LoadEnv) (l : LoadLocals) (texture : D3D12Texture)
    (copy_buffer : Nat) (is_base : Bool) (guest_address : Nat) (s s1 : LoadState) :
    (loadScaledSource env l texture copy_buffer is_base guest_address s = Flow.next s1 →
      scratchReleaseCount s1.cache.calls = scratchReleaseCount s.cache.calls ∧
      scratchRequestCount s1.cache.calls = scratchRequestCount s.cache.calls) ∧
    (loadScaledSource env l texture copy_buffer is_base guest_address s =
        Flow.return_false s1 →
      scratchReleaseCount s1.cache.calls = scratchReleaseCount s.cache.calls + 1 ∧
      scratchRequestCount s1.cache.calls = scratchRequestCount s.cache.calls) := by
  have hmake : ∀ r c1, MakeScaledResolveRangeCurrent env.header s.cache guest_address
      (if is_base = true then texture.guest_base_size else texture.guest_mips_size) =
      some (r, c1) →
      scratchReleaseCount c1.calls = scratchReleaseCount s.cache.calls ∧
      scratchRequestCount c1.calls = scratchRequestCount s.cache.calls := by
    intro r c1 hm
    exact CallsExtend_scratch_counts
      (fun x hx => by obtain ⟨a, b, rfl⟩ := hx; exact ⟨rfl, rfl⟩)
      (MakeScaledResolveRangeCurrent_calls _ _ _ _ _ _ hm)
  unfold loadScaledSource
  simp only
  split
  · refine ⟨fun h => ?_, fun h => ?_⟩
    · cases h
    · cases h
  · rename_i c1 hm
    obtain ⟨m1, m2⟩ := hmake _ _ hm
    refine ⟨fun h => ?_, fun h => ?_⟩
    · cases h
    · have hs1 := (Flow.return_false.inj h).symm
      rw [hs1]
      simp only
      rw [scratchReleaseCount_record, scratchRequestCount_record, m1, m2]
      exact ⟨rfl, rfl⟩
  · rename_i c1 hm
    obtain ⟨m1, m2⟩ := hmake _ _ hm
    refine ⟨fun h => ?_, fun h => ?_⟩
    · unfold TransitionCurrentScaledResolveRange at h
      split at h
      · cases h
      · rename_i c2 htr
        split at htr
        · cases htr
        · have hc2 := (Option.some.inj htr).symm
          unfold CreateCurrentScaledResolveRangeUintPow2SRV at h
          simp only at h
          split at h
          · cases h
          · rename_i c3 hsrv
            split at hsrv
            · cases hsrv
            · have hc3 := (Option.some.inj hsrv).symm
              have hs1 := (Flow.next.inj h).symm
              rw [hs1]
              simp only
              rw [scratchReleaseCount_record, scratchRequestCount_record, hc3,
                scratchReleaseCount_record, scratchRequestCount_record, hc2,
                scratchReleaseCount_record, scratchRequestCount_record]
              simp only [scratchReleaseCount_record, scratchRequestCount_record]
              rw [m1, m2]
              exact ⟨rfl, rfl⟩
    · unfold TransitionCurrentScaledResolveRange at h
      split at h
      · cases h
      · unfold CreateCurrentScaledResolveRangeUintPow2SRV at h
        simp only at h
        split at h
        · cases h
        · cases h

theorem loadSliceBody_scratch (dev : LoadDevice) (copy_buffer loop_level group_count_x
    group_count_y guest_slice_stride host_slice_size slice : Nat) (s s1 : LoadState) :
    (loadSliceBody dev copy_buffer loop_level group_count_x group_count_y guest_slice_stride
        host_slice_size slice s = Flow.next s1 →
      scratchReleaseCount s1.cache.calls = scratchReleaseCount s.cache.calls ∧
      scratchRequestCount s1.cache.calls = scratchRequestCount s.cache.calls) ∧
    (loadSliceBody dev copy_buffer loop_level group_count_x group_count_y guest_slice_stride
        host_slice_size slice s = Flow.return_false s1 →
      scratchReleaseCount s1.cache.calls = scratchReleaseCount s.cache.calls + 1 ∧
      scratchRequestCount s1.cache.calls = scratchRequestCount s.cache.calls) := by
  unfold loadSliceBody
  by_cases hcb : dev.RequestConstantBuffer loop_level slice = true
  · rw [if_pos hcb]
    refine ⟨fun h => ?_, fun h => ?_⟩
    · have hs1 := (Flow.next.inj h).symm
      rw [hs1]
      simp only [LoadState.record]
      rw [scratchReleaseCount_record, scratchRequestCount_record]
      exact ⟨rfl, rfl⟩
    · cases h
  · rw [if_neg hcb]
    refine ⟨fun h => ?_, fun h => ?_⟩
    · cases h
    · have hs1 := (Flow.return_false.inj h).symm
      rw [hs1]
      simp only [LoadState.record]
      rw [scratchReleaseCount_record, scratchRequestCount_record]
      exact ⟨rfl, rfl⟩

theorem loadLevelBody_scratch (env : LoadEnv) (dev : LoadDevice) (l : LoadLocals)
    (texture : D3D12Texture) (layout : HostLayout) (copy_buffer loop_level : Nat)
    (s s1 : LoadState) :
    (loadLevelBody env dev l texture layout copy_buffer loop_level s = Flow.next s1 →
      scratchReleaseCount s1.cache.calls = scratchReleaseCount s.cache.calls ∧
      scratchRequestCount s1.cache.calls = scratchRequestCount s.cache.calls) ∧
    (loadLevelBody env dev l texture layout copy_buffer loop_level s = Flow.return_false s1 →
      scratchReleaseCount s1.cache.calls = scratchReleaseCount s.cache.calls + 1 ∧
      scratchRequestCount s1.cache.calls = scratchRequestCount s.cache.calls) := by
  have hsrc : ∀ s2,
      ((if texture.key.scaled_resolve = true ∧
          (decide (loop_level = 0) = true ∨ ¬ s.scaled_mips_source_set_up = true) then
        loadScaledSource env l texture copy_buffer (decide (loop_level = 0))
          (u32 ((if decide (loop_level = 0) = true then texture.key.base_page
            else texture.key.mip_page) <<< 12)) s
        else Flow.next s) = Flow.next s2 →
        scratchReleaseCount s2.cache.calls = scratchReleaseCount s.cache.calls ∧
        scratchRequestCount s2.cache.calls = scratchRequestCount s.cache.calls) ∧
      ((if texture.key.scaled_resolve = true ∧
          (decide (loop_level = 0) = true ∨ ¬ s.scaled_mips_source_set_up = true) then
        loadScaledSource env l texture copy_buffer (decide (loop_level = 0))
          (u32 ((if decide (loop_level = 0) = true then texture.key.base_page
            else texture.key.mip_page) <<< 12)) s
        else Flow.next s) = Flow.return_false s2 →
        scratchReleaseCount s2.cache.calls = scratchReleaseCount s.cache.calls + 1 ∧
        scratchRequestCount s2.cache.calls = scratchRequestCount s.cache.calls) := by
    intro s2
    by_cases hc : texture.key.scaled_resolve = true ∧
        (decide (loop_level = 0) = true ∨ ¬ s.scaled_mips_source_set_up = true)
    · rw [if_pos hc]
      exact loadScaledSource_scratch _ _ _ _ _ _ _ _
    · rw [if_neg hc]
      refine ⟨fun h => ?_, fun h => ?_⟩
      · cases h; exact ⟨rfl, rfl⟩
      · cases h
  unfold loadLevelBody
  simp only
  split
  · refine ⟨fun h => ?_, fun h => ?_⟩
    · cases h
    · cases h
  · rename_i s2 hs2
    refine ⟨fun h => ?_, fun h => ?_⟩
    · cases h
    · have he : s2 = s1 := Flow.return_false.inj h
      rw [← he]
      exact (hsrc s2).2 hs2
  · rename_i s2 hs2
    obtain ⟨q1, q2⟩ := (hsrc s2).1 hs2
    split
    · refine ⟨fun h => ?_, fun h => ?_⟩
      · cases h
      · cases h
    · refine ⟨fun h => ?_, fun h => ?_⟩
      · have r1 := (loopFrom_count_return _
          (fun st : LoadState => scratchReleaseCount st.cache.calls) 1
          (fun i a b hab => (loadSliceBody_scratch _ _ _ _ _ _ _ _ _ _).1 hab |>.1)
          (fun i a b hab => (loadSliceBody_scratch _ _ _ _ _ _ _ _ _ _).2 hab |>.1)
          _ _ _ s1).1 h
        have r2 := (loopFrom_count_return _
          (fun st : LoadState => scratchRequestCount st.cache.calls) 0
          (fun i a b hab => (loadSliceBody_scratch _ _ _ _ _ _ _ _ _ _).1 hab |>.2)
          (fun i a b hab => (loadSliceBody_scratch _ _ _ _ _ _ _ _ _ _).2 hab |>.2)
          _ _ _ s1).1 h
        simp only at r1 r2
        rw [r1, r2]
        exact ⟨q1, q2⟩
      · have r1 := (loopFrom_count_return _
          (fun st : LoadState => scratchReleaseCount st.cache.calls) 1
          (fun i a b hab => (loadSliceBody_scratch _ _ _ _ _ _ _ _ _ _).1 hab |>.1)
          (fun i a b hab => (loadSliceBody_scratch _ _ _ _ _ _ _ _ _ _).2 hab |>.1)
          _ _ _ s1).2 h
        have r2 := (loopFrom_count_return _
          (fun st : LoadState => scratchRequestCount st.cache.calls) 0
          (fun i a b hab => (loadSliceBody_scratch _ _ _ _ _ _ _ _ _ _).1 hab |>.2)
          (fun i a b hab => (loadSliceBody_scratch _ _ _ _ _ _ _ _ _ _).2 hab |>.2)
          _ _ _ s1).2 h
        simp only [Nat.add_zero] at r1 r2
        rw [r1, r2, q1, q2]
        exact ⟨rfl, rfl⟩

theorem copySlices_calls (texture_level_count host_slice_size : Nat) (source_box : Option Box) :
    ∀ (n dest_subresource : Nat) (source : HostFootprint) (c : Cache),
      CallsExtend (fun x => ∃ d s, x = DeviceCall.D3DCopyTextureRegion d s source_box) c.calls
        (copySlices texture_level_count host_slice_size source_box n dest_subresource source
          c).calls := by
  intro n
  induction n with
  | zero => intro _ _ c; exact CallsExtend_refl _ _
  | succ n ih =>
    intro dest_subresource source c
    rw [copySlices]
    exact CallsExtend_trans
      (CallsExtend_record c _ (fun x hx => by
        simp only [List.mem_singleton] at hx
        exact ⟨_, _, hx⟩))
      (ih _ _ _)

/-- One iteration of the copy loop never returns false, and records copies
only. -/
theorem copyLevelBody_calls (env : LoadEnv) (l : LoadLocals) (texture : D3D12Texture)
    (layout : HostLayout) (host_block_width host_block_height level : Nat) (c c1 : Cache)
    (h : (copyLevelBody env l texture layout host_block_width host_block_height level
      c).state? = some c1) :
    CallsExtend (fun x => ∃ d s b, x = DeviceCall.D3DCopyTextureRegion d s b) c.calls
      c1.calls := by
  unfold copyLevelBody at h
  simp only at h
  split at h
  · cases h
  · have hc1 := (Option.some.inj h).symm
    rw [hc1]
    exact CallsExtend_mono (fun x hx => by obtain ⟨d, s, rfl⟩ := hx; exact ⟨_, _, _, rfl⟩)
      (copySlices_calls _ _ _ _ _ _ _)

theorem copyLoop_calls (env : LoadEnv) (l : LoadLocals) (texture : D3D12Texture)
    (layout : HostLayout) (host_block_width host_block_height : Nat) (n i : Nat)
    (c c1 : Cache)
    (h : (loopFrom (copyLevelBody env l texture layout host_block_width host_block_height)
      n i c).state? = some c1) :
    CallsExtend (fun x => ∃ d s b, x = DeviceCall.D3DCopyTextureRegion d s b) c.calls
      c1.calls :=
  loopFrom_rel _ (fun a b : Cache =>
      CallsExtend (fun x => ∃ d s b, x = DeviceCall.D3DCopyTextureRegion d s b) a.calls b.calls)
    (fun _ => CallsExtend_refl _ _) (fun _ _ _ hab hbc => CallsExtend_trans hab hbc)
    (fun j a b hab => copyLevelBody_calls env l texture layout host_block_width
      host_block_height j a b hab) n i c c1 h

theorem loadInitialState_scratch (env : LoadEnv) (l : LoadLocals) (texture : D3D12Texture)
    (c : Cache) :
    scratchReleaseCount (loadInitialState env l texture c).cache.calls =
      scratchReleaseCount c.calls ∧
    scratchRequestCount (loadInitialState env l texture c).cache.calls =
      scratchRequestCount c.calls := by
  unfold loadInitialState
  simp only
  split_ifs
  all_goals first
    | exact ⟨rfl, rfl⟩
    | exact ⟨by rw [scratchReleaseCount_record]; rfl, by rw [scratchRequestCount_record]; rfl⟩

theorem loadDispatchAndCopy_scratch (env : LoadEnv) (dev : LoadDevice) (l : LoadLocals)
    (texture texture1 : D3D12Texture) (layout : HostLayout)
    (copy_buffer host_block_width host_block_height : Nat) (s0 : LoadState) (c1 : Cache)
    (result : Bool)
    (h : loadDispatchAndCopy env dev l texture layout copy_buffer host_block_width
      host_block_height s0 = some (result, c1, texture1)) :
    scratchReleaseCount c1.calls = scratchReleaseCount s0.cache.calls + 1 ∧
    scratchRequestCount c1.calls = scratchRequestCount s0.cache.calls := by
  unfold loadDispatchAndCopy at h
  split at h
  · cases h
  · rename_i s1 hdisp
    have r1 := (loopFrom_count_return _
      (fun st : LoadState => scratchReleaseCount st.cache.calls) 1
      (fun i a b hab => (loadLevelBody_scratch _ _ _ _ _ _ _ _ _).1 hab |>.1)
      (fun i a b hab => (loadLevelBody_scratch _ _ _ _ _ _ _ _ _).2 hab |>.1)
      _ _ _ s1).2 hdisp
    have r2 := (loopFrom_count_return _
      (fun st : LoadState => scratchRequestCount st.cache.calls) 0
      (fun i a b hab => (loadLevelBody_scratch _ _ _ _ _ _ _ _ _).1 hab |>.2)
      (fun i a b hab => (loadLevelBody_scratch _ _ _ _ _ _ _ _ _).2 hab |>.2)
      _ _ _ s1).2 hdisp
    simp only [Nat.add_zero] at r1 r2
    have hc1 := (Prod.mk.inj (Prod.mk.inj (Option.some.inj h)).2).1.symm
    rw [hc1]
    exact ⟨r1, r2⟩
  · rename_i s1 hdisp
    have r1 := (loopFrom_count_return _
      (fun st : LoadState => scratchReleaseCount st.cache.calls) 1
      (fun i a b hab => (loadLevelBody_scratch _ _ _ _ _ _ _ _ _).1 hab |>.1)
      (fun i a b hab => (loadLevelBody_scratch _ _ _ _ _ _ _ _ _).2 hab |>.1)
      _ _ _ s1).1 hdisp
    have r2 := (loopFrom_count_return _
      (fun st : LoadState => scratchRequestCount st.cache.calls) 0
      (fun i a b hab => (loadLevelBody_scratch _ _ _ _ _ _ _ _ _).1 hab |>.2)
      (fun i a b hab => (loadLevelBody_scratch _ _ _ _ _ _ _ _ _).2 hab |>.2)
      _ _ _ s1).1 hdisp
    simp only at r1 r2
    split at h
    · rename_i c4 hcopy
      obtain ⟨k1, k2⟩ := CallsExtend_scratch_counts
        (fun x hx => by obtain ⟨d, s, b, rfl⟩ := hx; exact ⟨rfl, rfl⟩)
        (copyLoop_calls _ _ _ _ _ _ _ _ _ c4 (by rw [hcopy]; rfl))
      rw [scratchReleaseCount_record] at k1
      rw [scratchRequestCount_record] at k2
      have hc1 := (Prod.mk.inj (Prod.mk.inj (Option.some.inj h)).2).1.symm
      rw [hc1, scratchReleaseCount_record, scratchRequestCount_record, k1, k2, r1, r2]
      exact ⟨rfl, rfl⟩
    · cases h

/-- C29: whenever `LoadTextureDataFromResidentMemoryImpl` returns, the number
`k` of scratch buffers that it obtained (calls of `RequestScratchGPUBuffer`
that returned a buffer) is 0 or 1, and it has released the scratch buffer
exactly `k` times: once when the request succeeded, on the failure paths after
it as well as on success, and never when the load failed before the request
or the request itself failed. A load that returns true has obtained and
released the buffer once. -/
theorem LoadTextureDataFromResidentMemoryImpl_scratch_released (env : LoadEnv)
    (dev : LoadDevice) (c c1 : Cache) (texture texture1 : D3D12Texture)
    (load_base load_mips result : Bool)
    (h : LoadTextureDataFromResidentMemoryImpl env dev c texture load_base load_mips =
      some (result, c1, texture1)) :
    ∃ k, k ≤ 1 ∧
      scratchRequestCount c1.calls = scratchRequestCount c.calls + k ∧
      scratchReleaseCount c1.calls = scratchReleaseCount c.calls + k ∧
      (result = true → k = 1) := by
  unfold LoadTextureDataFromResidentMemoryImpl at h
  simp only at h
  by_cases hu : GetLoadMode env.format_info texture.key = LoadMode.kUnknown
  · rw [if_pos hu] at h
    obtain ⟨hr, hc, _⟩ := Prod.mk.inj_iff.mp (Option.some.inj h) |>.imp id Prod.mk.inj_iff.mp
    exact ⟨0, by omega, by rw [← hc]; rfl, by rw [← hc]; rfl, fun ht => by
      rw [← hr] at ht; cases ht⟩
  rw [if_neg hu] at h
  split at h
  · obtain ⟨hr, hc, _⟩ := Prod.mk.inj_iff.mp (Option.some.inj h) |>.imp id Prod.mk.inj_iff.mp
    exact ⟨0, by omega, by rw [← hc]; rfl, by rw [← hc]; rfl, fun ht => by
      rw [← hr] at ht; cases ht⟩
  · split at h
    · obtain ⟨hr, hc, _⟩ := Prod.mk.inj_iff.mp (Option.some.inj h) |>.imp id Prod.mk.inj_iff.mp
      refine ⟨0, by omega, ?_, ?_, fun ht => by rw [← hr] at ht; cases ht⟩
      · rw [← hc, scratchRequestCount_record]; rfl
      · rw [← hc, scratchReleaseCount_record]; rfl
    · by_cases hreq : dev.RequestOneUseSingleViewDescriptors (loadDescriptorCount env
          (loadLocals env c.draw_resolution_scale_x c.draw_resolution_scale_y texture
            load_base load_mips) texture) = false
      · rw [if_pos hreq] at h
        obtain ⟨hr, hc, _⟩ :=
          Prod.mk.inj_iff.mp (Option.some.inj h) |>.imp id Prod.mk.inj_iff.mp
        refine ⟨1, le_rfl, ?_, ?_, fun _ => rfl⟩
        · rw [← hc, scratchRequestCount_record]; rfl
        · rw [← hc, scratchReleaseCount_record]; rfl
      · rw [if_neg hreq] at h
        obtain ⟨q1, q2⟩ := loadDispatchAndCopy_scratch _ _ _ _ _ _ _ _ _ _ _ _ h
        obtain ⟨i1, i2⟩ := loadInitialState_scratch env
          (loadLocals env c.draw_resolution_scale_x c.draw_resolution_scale_y texture load_base
            load_mips) texture
          (c.record [.RequestScratchGPUBuffer (u32 (hostLayout (loadLocals env
              c.draw_resolution_scale_x c.draw_resolution_scale_y texture load_base
              load_mips) texture.guest_layout).copy_buffer_size)
              D3D12_RESOURCE_STATE_UNORDERED_ACCESS true,
            .RequestOneUseSingleViewDescriptors (loadDescriptorCount env (loadLocals env
              c.draw_resolution_scale_x c.draw_resolution_scale_y texture load_base
              load_mips) texture) true,
            .SetExternalPipeline _,
            .D3DSetComputeRootSignature env.load_root_signature_,
            .CreateBufferTypedUAV 0 _ _ _,
            .D3DSetComputeRootDescriptorTable 2 (.allocated 0)])
        rw [i1, scratchReleaseCount_record] at q1
        rw [i2, scratchRequestCount_record] at q2
        exact ⟨1, le_rfl, q2, q1, fun _ => rfl⟩

theorem LoadTextureDataFromResidentMemoryImpl_scratch_released_witness :
    ∃ c1 texture1,
      LoadTextureDataFromResidentMemoryImpl (LoadEnv.sample false)
        ⟨fun _ => some 900, fun _ => true, fun _ slice => decide (slice < 2)⟩
        (Cache.initial 1 1) (D3D12Texture.sampleDXT1 5) true false =
        some (false, c1, texture1) ∧
      dispatchCount c1.calls = 2 ∧
      ∃ k, k ≤ 1 ∧
        scratchRequestCount c1.calls = scratchRequestCount (Cache.initial 1 1).calls + k ∧
        scratchReleaseCount c1.calls = scratchReleaseCount (Cache.initial 1 1).calls + k ∧
        (false = true → k = 1) :=
  ⟨_, _, rfl, by decide,
    LoadTextureDataFromResidentMemoryImpl_scratch_released (LoadEnv.sample false)
      ⟨fun _ => some 900, fun _ => true, fun _ slice => decide (slice < 2)⟩
      (Cache.initial 1 1) _ (D3D12Texture.sampleDXT1 5) _ true false false rfl⟩

/-! ## The scaled source of a base-only load -/

theorem rangeCalls_append (a b : List DeviceCall) :
    rangeCalls (a ++ b) = rangeCalls a ++ rangeCalls b :=
  List.filterMap_append _ _ _

theorem dispatchCount_append (a b : List DeviceCall) :
    dispatchCount (a ++ b) = dispatchCount a + dispatchCount b :=
  List.countP_append _ _ _

theorem rangeCalls_eq_nil (P : DeviceCall → Prop) (hP : ∀ x, P x → rangeCalls [x] = [])
    (l : List DeviceCall) (h : ∀ x ∈ l, P x) : rangeCalls l = [] := by
  induction l with
  | nil => rfl
  | cons x rest ih =>
    have hx := hP x (h x (List.mem_cons_self _ _))
    have hr := ih (fun y hy => h y (List.mem_cons_of_mem _ hy))
    have : rangeCalls (x :: rest) = rangeCalls [x] ++ rangeCalls rest :=
      rangeCalls_append [x] rest
    rw [this, hx, hr]
    rfl

theorem dispatchCount_eq_zero (P : DeviceCall → Prop) (hP : ∀ x, P x → dispatchCount [x] = 0)
    (l : List DeviceCall) (h : ∀ x ∈ l, P x) : dispatchCount l = 0 := by
  induction l with
  | nil => rfl
  | cons x rest ih =>
    have hx := hP x (h x (List.mem_cons_self _ _))
    have hr := ih (fun y hy => h y (List.mem_cons_of_mem _ hy))
    have : dispatchCount (x :: rest) = dispatchCount [x] + dispatchCount rest :=
      dispatchCount_append [x] rest
    rw [this, hx, hr]

/-- The trace of the set-up of a scaled source: the aliasing barriers of
`MakeScaledResolveRangeCurrent`, the call itself with the address and the
size that it was given, and then either the release of the scratch buffer
(the call returned false, and the set-up returns false) or the transition,
the view and its binding (it returned true, and the set-up falls through). -/
theorem loadScaledSource_trace (env : LoadEnv) (l : LoadLocals) (texture : D3D12Texture)
    (copy_buffer : Nat) (is_base : Bool) (guest_address : Nat) (s s1 : LoadState)
    (h : (loadScaledSource env l texture copy_buffer is_base guest_address s).state? =
      some s1) :
    ∃ pre ok rest,
      s1.cache.calls = s.cache.calls ++ pre ++
        (DeviceCall.MakeScaledResolveRangeCurrent guest_address
          (if is_base = true then texture.guest_base_size else texture.guest_mips_size) ok ::
          rest) ∧
      dispatchCount pre = 0 ∧ rangeCalls pre = [] ∧
      dispatchCount rest = 0 ∧ rangeCalls rest = [] ∧
      (ok = false →
        loadScaledSource env l texture copy_buffer is_base guest_address s =
          Flow.return_false s1) ∧
      (ok = true →
        loadScaledSource env l texture copy_buffer is_base guest_address s = Flow.next s1) := by
  have hbar : ∀ r c1, MakeScaledResolveRangeCurrent env.header s.cache guest_address
      (if is_base = true then texture.guest_base_size else texture.guest_mips_size) =
      some (r, c1) →
      ∃ pre, c1.calls = s.cache.calls ++ pre ∧ dispatchCount pre = 0 ∧ rangeCalls pre = [] := by
    intro r c1 hm
    obtain ⟨pre, he, hp⟩ := MakeScaledResolveRangeCurrent_calls _ _ _ _ _ _ hm
    exact ⟨pre, he,
      dispatchCount_eq_zero _ (fun x hx => by obtain ⟨a, b, rfl⟩ := hx; rfl) pre hp,
      rangeCalls_eq_nil _ (fun x hx => by obtain ⟨a, b, rfl⟩ := hx; rfl) pre hp⟩
  have hdef : loadScaledSource env l texture copy_buffer is_base guest_address s =
      loadScaledSource env l texture copy_buffer is_base guest_address s := rfl
  revert hdef
  generalize hres : loadScaledSource env l texture copy_buffer is_base guest_address s = res
  intro _
  rw [hres] at h
  unfold loadScaledSource at hres
  simp only at hres
  split at hres
  · rw [← hres] at h; cases h
  · rename_i c1 hm
    obtain ⟨pre, he, hd, hr⟩ := hbar _ _ hm
    rw [← hres] at h
    have hs1 := (Option.some.inj h).symm
    refine ⟨pre, false, [.ReleaseScratchGPUBuffer copy_buffer
      D3D12_RESOURCE_STATE_UNORDERED_ACCESS], ?_, hd, hr, rfl, rfl, fun _ => ?_, fun hk => ?_⟩
    · rw [hs1]
      show c1.calls ++ _ = _
      rw [he]
    · rw [← hres, hs1]
    · cases hk
  · rename_i c1 hm
    obtain ⟨pre, he, hd, hr⟩ := hbar _ _ hm
    unfold TransitionCurrentScaledResolveRange at hres
    split at hres
    · rw [← hres] at h; cases h
    · rename_i c2 htr
      split at htr
      · cases htr
      · rename_i buffer _
        have hc2 := (Option.some.inj htr).symm
        unfold CreateCurrentScaledResolveRangeUintPow2SRV at hres
        simp only at hres
        split at hres
        · rw [← hres] at h; cases h
        · rename_i c3 hsrv
          split at hsrv
          · cases hsrv
          · rename_i buffer2 _
            have hc3 := (Option.some.inj hsrv).symm
            rw [← hres] at h
            have hs1 := (Option.some.inj h).symm
            refine ⟨pre, true,
              [.PushTransitionBarrier buffer.resource
                  (buffer.SetResourceState D3D12_RESOURCE_STATE_NON_PIXEL_SHADER_RESOURCE).1
                  D3D12_RESOURCE_STATE_NON_PIXEL_SHADER_RESOURCE,
                .CreateBufferTypedSRV s.descriptor_write_index buffer2.resource
                  l.load_mode_info.srv_bpe_log2
                  (u32 (c2.scaled_resolve_current_range_length_scaled_ >>>
                    l.load_mode_info.srv_bpe_log2))
                  (sub64 c2.scaled_resolve_current_range_start_scaled_
                    (u64 (c2.GetCurrentScaledResolveBufferIndex <<< 30)) >>>
                    l.load_mode_info.srv_bpe_log2),
                .D3DSetComputeRootDescriptorTable 1
                  (.allocated s.descriptor_write_index)],
              ?_, hd, hr, rfl, rfl, fun hk => ?_, fun _ => ?_⟩
            · rw [hs1]
              show c3.calls ++ _ = _
              rw [hc3]
              show c2.calls ++ _ ++ _ = _
              rw [hc2]
              show c1.calls ++ _ ++ _ ++ _ ++ _ = _
              rw [he]
              simp only [List.append_assoc, List.cons_append, List.nil_append]
            · cases hk
            · rw [← hres, hs1]

theorem loopFrom_one {σ : Type} (body : Nat → σ → Flow σ) (i : Nat) (s : σ) :
    loopFrom body 1 i s = body i s := by
  rw [loopFrom]
  cases body i s <;> rfl

/-- The first iteration of the dispatch loop for a resolution-scaled texture:
whatever is recorded before the call to `MakeScaledResolveRangeCurrent` for
the base is neither a dispatch nor such a call, and nothing recorded after
it is such a call; when the call returns false the iteration returns false
without a dispatch. -/
theorem loadLevelBody_base_scaled (env : LoadEnv) (dev : LoadDevice) (l : LoadLocals)
    (texture : D3D12Texture) (layout : HostLayout) (copy_buffer : Nat) (s s1 : LoadState)
    (hscaled : texture.key.scaled_resolve = true)
    (h : (loadLevelBody env dev l texture layout copy_buffer 0 s).state? = some s1) :
    ∃ pre ok rest,
      s1.cache.calls = s.cache.calls ++ pre ++
        (DeviceCall.MakeScaledResolveRangeCurrent (u32 (texture.key.base_page <<< 12))
          texture.guest_base_size ok :: rest) ∧
      dispatchCount pre = 0 ∧ rangeCalls pre = [] ∧ rangeCalls rest = [] ∧
      (ok = false → dispatchCount rest = 0 ∧
        loadLevelBody env dev l texture layout copy_buffer 0 s = Flow.return_false s1) := by
  have hc : texture.key.scaled_resolve = true ∧
      (decide (0 = 0) = true ∨ ¬ s.scaled_mips_source_set_up = true) :=
    ⟨hscaled, Or.inl (by decide)⟩
  have hc2 : texture.key.scaled_resolve = true ∧
      (decide True = true ∨ ¬ s.scaled_mips_source_set_up = true) :=
    ⟨hscaled, Or.inl (by decide)⟩
  have hdef : loadLevelBody env dev l texture layout copy_buffer 0 s =
      loadLevelBody env dev l texture layout copy_buffer 0 s := rfl
  revert hdef
  generalize hres : loadLevelBody env dev l texture layout copy_buffer 0 s = res
  intro _
  rw [hres] at h
  unfold loadLevelBody at hres
  simp only at hres
  first
    | rw [if_pos hc] at hres
    | rw [if_pos hc2] at hres
  split at hres
  · rw [← hres] at h; cases h
  · rename_i s2 hsrc
    rw [← hres] at h
    have hs1 : s2 = s1 := Option.some.inj h
    rw [hs1] at hsrc
    obtain ⟨pre, ok, rest, he, hd, hr, hd2, hr2, _, hok⟩ :=
      loadScaledSource_trace _ _ _ _ _ _ _ s1 (by rw [hsrc]; rfl)
    refine ⟨pre, ok, rest, he, hd, hr, hr2, fun _ => ⟨hd2, ?_⟩⟩
    rw [← hres, hs1]
  · rename_i s2 hsrc
    obtain ⟨pre, ok, rest, he, hd, hr, hd2, hr2, hfalse, _⟩ :=
      loadScaledSource_trace _ _ _ _ _ _ _ s2 (by rw [hsrc]; rfl)
    have hok : ok = true := by
      cases ok with
      | true => rfl
      | false =>
        have := hfalse rfl
        rw [hsrc] at this
        cases this
    split at hres
    · rw [← hres] at h; cases h
    · rw [← hres] at h
      have hfields := loadSliceLoop_calls (fun _ => True) dev copy_buffer 0 _ _ _ _ 0
        (fun _ => trivial) (fun _ => trivial) trivial trivial trivial _ _ _ s1 h
      have hloop := loadSliceLoop_calls (fun x => rangeCalls [x] = []) dev copy_buffer 0 _ _ _ _
        s1.load_constants.size_blocks_2 (fun _ => rfl) (fun _ => rfl) rfl rfl rfl _ _ _ s1 h
      obtain ⟨new, hnew, hP⟩ := hloop.1 hfields.2.2.2.symm
      have hnr : rangeCalls new = [] := rangeCalls_eq_nil _ (fun _ hx => hx) new hP
      have he2 : s2.cache.calls = s.cache.calls ++ pre ++
          (DeviceCall.MakeScaledResolveRangeCurrent (u32 (texture.key.base_page <<< 12))
            texture.guest_base_size ok :: rest) := he
      refine ⟨pre, ok, rest ++ new, ?_, hd, hr, ?_, fun hk => ?_⟩
      · rw [hnew]
        show s2.cache.calls ++ new = _
        rw [he2]
        simp only [List.append_assoc, List.cons_append]
      · rw [rangeCalls_append, hr2, hnr]; rfl
      · rw [hok] at hk; cases hk

theorem loadLocals_base_only_loop (env : LoadEnv) (scale_x scale_y : Nat)
    (texture : D3D12Texture) :
    (loadLocals env scale_x scale_y texture true false).loop_level_first = 0 ∧
    (loadLocals env scale_x scale_y texture true false).loop_level_last = 0 := by
  unfold LoadLocals.loop_level_first LoadLocals.loop_level_last loadLocals
  simp

/-- The rest of a base-only load of a resolution-scaled texture, from the
dispatch loop on. -/
theorem loadDispatchAndCopy_base_scaled (env : LoadEnv) (dev : LoadDevice) (l : LoadLocals)
    (texture texture1 : D3D12Texture) (layout : HostLayout)
    (copy_buffer host_block_width host_block_height : Nat) (s0 : LoadState) (c1 : Cache)
    (result : Bool)
    (hscaled : texture.key.scaled_resolve = true)
    (hfirst : l.loop_level_first = 0) (hlast : l.loop_level_last = 0)
    (h : loadDispatchAndCopy env dev l texture layout copy_buffer host_block_width
      host_block_height s0 = some (result, c1, texture1)) :
    ∃ pre ok rest,
      c1.calls = s0.cache.calls ++ pre ++
        (DeviceCall.MakeScaledResolveRangeCurrent (u32 (texture.key.base_page <<< 12))
          texture.guest_base_size ok :: rest) ∧
      dispatchCount pre = 0 ∧ rangeCalls pre = [] ∧ rangeCalls rest = [] ∧
      (ok = false → result = false ∧ dispatchCount rest = 0) := by
  unfold loadDispatchAndCopy at h
  rw [hfirst, hlast, loopFrom_one] at h
  split at h
  · cases h
  · rename_i s1 hbody
    obtain ⟨hr, hc, _⟩ := Prod.mk.inj_iff.mp (Option.some.inj h) |>.imp id Prod.mk.inj_iff.mp
    obtain ⟨pre, ok, rest, he, hd, hrg, hrg2, hfalse⟩ :=
      loadLevelBody_base_scaled env dev l texture layout copy_buffer s0 s1 hscaled
        (by rw [hbody]; rfl)
    exact ⟨pre, ok, rest, by rw [← hc]; exact he, hd, hrg, hrg2,
      fun hk => ⟨hr.symm, (hfalse hk).1⟩⟩
  · rename_i s1 hbody
    obtain ⟨pre, ok, rest, he, hd, hrg, hrg2, hfalse⟩ :=
      loadLevelBody_base_scaled env dev l texture layout copy_buffer s0 s1 hscaled
        (by rw [hbody]; rfl)
    have hok : ok = true := by
      cases ok with
      | true => rfl
      | false =>
        have := (hfalse rfl).2
        rw [hbody] at this
        cases this
    split at h
    · rename_i c4 hcopy
      obtain ⟨hr, hc, _⟩ := Prod.mk.inj_iff.mp (Option.some.inj h) |>.imp id Prod.mk.inj_iff.mp
      obtain ⟨new, hnew, hP⟩ := copyLoop_calls env l texture layout host_block_width
        host_block_height _ _ _ c4 (by rw [hcopy]; rfl)
      have hnr : rangeCalls new = [] :=
        rangeCalls_eq_nil _ (fun x hx => by obtain ⟨d, s, b, rfl⟩ := hx; rfl) new hP
      refine ⟨pre, ok, rest ++ ([.MarkAsUsed texture.resource,
          .PushTransitionBarrier texture.resource texture.resource_state
            D3D12_RESOURCE_STATE_COPY_DEST,
          .PushTransitionBarrier copy_buffer D3D12_RESOURCE_STATE_UNORDERED_ACCESS
            D3D12_RESOURCE_STATE_COPY_SOURCE,
          .SubmitBarriers] ++ new ++
          [.ReleaseScratchGPUBuffer copy_buffer D3D12_RESOURCE_STATE_COPY_SOURCE]),
        ?_, hd, hrg, ?_, fun hk => ?_⟩
      · rw [← hc]
        show c4.calls ++ _ = _
        rw [hnew]
        show s1.cache.calls ++ _ ++ new ++ _ = _
        rw [he]
        simp only [List.append_assoc, List.cons_append, List.nil_append]
      · rw [rangeCalls_append, rangeCalls_append, rangeCalls_append, hrg2, hnr]; rfl
      · rw [hok] at hk; cases hk
    · cases h

theorem loadInitialState_scaled_cache (env : LoadEnv) (l : LoadLocals) (texture : D3D12Texture)
    (c : Cache) (hscaled : texture.key.scaled_resolve = true) :
    (loadInitialState env l texture c).cache = c := by
  unfold loadInitialState
  simp only
  rw [if_pos hscaled]

theorem loadDescriptorCount_base_scaled (env : LoadEnv) (scale_x scale_y : Nat)
    (texture : D3D12Texture) (hscaled : texture.key.scaled_resolve = true) :
    loadDescriptorCount env (loadLocals env scale_x scale_y texture true false) texture = 2 := by
  unfold loadDescriptorCount loadLocals
  simp [hscaled]

/-- C21 (as amended): for every scaled-resolve texture loaded with
`load_base = true` and `load_mips = false`, whatever its packed level, whose
load gets to the dispatch loop (the load mode has a resolution-scaled
pipeline, the scratch buffer and the two descriptors are obtained), the trace
of the load is the old trace, calls that are neither dispatches nor calls to
`MakeScaledResolveRangeCurrent`, one call to `MakeScaledResolveRangeCurrent`
with the address `base_page << 12` and the guest base size, and calls none of
which is a call to `MakeScaledResolveRangeCurrent`; when that one call
returned false the load returns false and no dispatch follows it. -/
theorem LoadTextureDataFromResidentMemoryImpl_base_range_once (env : LoadEnv)
    (dev : LoadDevice) (c c1 : Cache) (texture texture1 : D3D12Texture) (result : Bool)
    (pipeline copy_buffer : Nat)
    (hscaled : texture.key.scaled_resolve = true)
    (hmode : GetLoadMode env.format_info texture.key ≠ LoadMode.kUnknown)
    (hpipe : env.load_pipelines_scaled_ (GetLoadMode env.format_info texture.key) =
      some pipeline)
    (hbuf : dev.RequestScratchGPUBuffer (u32 (hostLayout (loadLocals env
      c.draw_resolution_scale_x c.draw_resolution_scale_y texture true false)
      texture.guest_layout).copy_buffer_size) = some copy_buffer)
    (hdesc : dev.RequestOneUseSingleViewDescriptors 2 = true)
    (h : LoadTextureDataFromResidentMemoryImpl env dev c texture true false =
      some (result, c1, texture1)) :
    ∃ pre ok rest,
      c1.calls = c.calls ++ pre ++
        (DeviceCall.MakeScaledResolveRangeCurrent (u32 (texture.key.base_page <<< 12))
          texture.guest_base_size ok :: rest) ∧
      dispatchCount pre = 0 ∧ rangeCalls pre = [] ∧ rangeCalls rest = [] ∧
      (ok = false → result = false ∧ dispatchCount rest = 0) := by
  unfold LoadTextureDataFromResidentMemoryImpl at h
  simp only at h
  rw [if_neg hmode, if_pos hscaled, hpipe] at h
  simp only at h
  rw [hbuf] at h
  simp only at h
  rw [loadDescriptorCount_base_scaled env _ _ texture hscaled] at h
  rw [if_neg (by rw [hdesc]; decide)] at h
  obtain ⟨hfirst, hlast⟩ := loadLocals_base_only_loop env c.draw_resolution_scale_x
    c.draw_resolution_scale_y texture
  obtain ⟨pre, ok, rest, he, hd, hr, hr2, hfalse⟩ :=
    loadDispatchAndCopy_base_scaled _ _ _ _ _ _ _ _ _ _ _ _ hscaled hfirst hlast h
  rw [loadInitialState_scaled_cache _ _ _ _ hscaled] at he
  have hrec : ∀ calls : List DeviceCall, (c.record calls).calls = c.calls ++ calls :=
    fun _ => rfl
  rw [hrec] at he
  obtain ⟨first, hfirst_calls, hfd, hfr⟩ : ∃ first,
      c1.calls = c.calls ++ first ++ pre ++
        (DeviceCall.MakeScaledResolveRangeCurrent (u32 (texture.key.base_page <<< 12))
          texture.guest_base_size ok :: rest) ∧
      dispatchCount first = 0 ∧ rangeCalls first = [] := ⟨_, he, rfl, rfl⟩
  refine ⟨first ++ pre, ok, rest, ?_, ?_, ?_, hr2, hfalse⟩
  · rw [hfirst_calls]
    simp only [List.append_assoc]
  · rw [dispatchCount_append, hd, hfd]
  · rw [rangeCalls_append, hr, hfr]; rfl

theorem LoadTextureDataFromResidentMemoryImpl_base_range_once_witness :
    ∃ c1 texture1,
      LoadTextureDataFromResidentMemoryImpl (LoadEnv.sample false) LoadDevice.succeeding
        (Cache.withAllBuffers 2 2) D3D12Texture.sampleScaled true false =
        some (true, c1, texture1) ∧
      rangeCalls c1.calls = [(65536, 4096, true)] ∧
      ∃ pre ok rest,
        c1.calls = (Cache.withAllBuffers 2 2).calls ++ pre ++
          (DeviceCall.MakeScaledResolveRangeCurrent
            (u32 (D3D12Texture.sampleScaled.key.base_page <<< 12))
            D3D12Texture.sampleScaled.guest_base_size ok :: rest) ∧
        dispatchCount pre = 0 ∧ rangeCalls pre = [] ∧ rangeCalls rest = [] ∧
        (ok = false → true = false ∧ dispatchCount rest = 0) :=
  ⟨_, _, rfl, by decide,
    LoadTextureDataFromResidentMemoryImpl_base_range_once (LoadEnv.sample false)
      LoadDevice.succeeding (Cache.withAllBuffers 2 2) _ D3D12Texture.sampleScaled _ true
      _ 900 rfl (by decide) rfl rfl rfl rfl⟩

/-- A scaled-resolve `k_8_8_8_8` texture loaded with `load_base = true` and
`load_mips = false` on a device that has no scratch buffer to give: the load
returns false and `MakeScaledResolveRangeCurrent` was not called at all. -/
theorem LoadTextureDataFromResidentMemoryImpl_range_not_reached :
    ∃ c1 texture1,
      LoadTextureDataFromResidentMemoryImpl (LoadEnv.sample false)
        ⟨fun _ => none, fun _ => true, fun _ _ => true⟩
        (Cache.withAllBuffers 2 2) D3D12Texture.sampleScaled true false =
        some (false, c1, texture1) ∧
      rangeCalls c1.calls = [] :=
  ⟨_, _, rfl, by decide⟩

/-! ## The source box of a copy out of a packed tail -/

/-- C24: the source box of the copy of a level from a packed tail is not
scaled. For a scaled-resolve 16x16 `k_8_8_8_8` texture with packed level 0,
loaded at a draw resolution scale of 2x2, `CreateTexture` describes a host
resource of 32x32 texels, so that level 0 of it is 32x32, and the footprint
that the dispatch fills is scaled as well (64x32 for the tail), but the one
copy that the loader records has the source box `(0, 0, 0)-(16, 16, 1)`: the
unscaled `max(width >> level, 1)` by `max(height >> level, 1)`. -/
theorem copy_box_ignores_resolution_scale :
    ∃ c1 texture1,
      LoadTextureDataFromResidentMemoryImpl (LoadEnv.sample false) LoadDevice.succeeding
        (Cache.withAllBuffers 2 2) D3D12Texture.sampleScaled true false =
        some (true, c1, texture1) ∧
      copyBoxes c1.calls = [some ⟨0, 0, 0, 16, 16, 1⟩] ∧
      (hostLayout (loadLocals (LoadEnv.sample false) 2 2 D3D12Texture.sampleScaled true false)
        D3D12Texture.sampleScaled.guest_layout).base.map
          (fun f => (f.1.Width, f.1.Height)) = some (64, 32) ∧
      (createTextureDesc (LoadEnv.sample false).format_info 2 2
        D3D12Texture.sampleScaled.key).map (fun desc => (desc.Width, desc.Height)) =
        some (32, 32) ∧
      max ((D3D12Texture.sampleScaled.key.GetWidth * 2) >>> 0) 1 = 32 :=
  ⟨_, _, rfl, by decide, by decide, by decide, by decide⟩

/-- The source box of the copies of a level at or beyond the packed level, as
the copy loop computes it: the origin is the packed mip offset of the level,
in texels, and the extent is `max(width >> level, 1)` by
`max(height >> level, 1)`, each aligned to the host block size, by
`max(depth >> level, 1)`, all of the unscaled size of the key; a level below
the packed level is copied whole. -/
theorem copyLevelBody_box (env : LoadEnv) (l : LoadLocals) (texture : D3D12Texture)
    (layout : HostLayout) (host_block_width host_block_height level : Nat) (c c1 : Cache)
    (h : copyLevelBody env l texture layout host_block_width host_block_height level c =
      Flow.next c1) :
    ∃ new, c1.calls = c.calls ++ new ∧
      ∀ x ∈ new, ∃ d s, x = DeviceCall.D3DCopyTextureRegion d s
        (if level ≥ l.level_packed then
          some ⟨u32 ((env.GetPackedMipOffset l.width l.height l.depth texture.key.format
              level).1 * l.block_width),
            u32 ((env.GetPackedMipOffset l.width l.height l.depth texture.key.format
              level).2.1 * l.block_height),
            (env.GetPackedMipOffset l.width l.height l.depth texture.key.format level).2.2,
            u32 (u32 ((env.GetPackedMipOffset l.width l.height l.depth texture.key.format
              level).1 * l.block_width) +
              align 32 (max (l.width >>> level) 1) host_block_width),
            u32 (u32 ((env.GetPackedMipOffset l.width l.height l.depth texture.key.format
              level).2.1 * l.block_height) +
              align 32 (max (l.height >>> level) 1) host_block_height),
            u32 ((env.GetPackedMipOffset l.width l.height l.depth texture.key.format
              level).2.2 + max (l.depth >>> level) 1)⟩
        else none) := by
  unfold copyLevelBody at h
  simp only at h
  split at h
  · cases h
  · have hc1 : _ = c1 := Flow.next.inj h
    rw [← hc1]
    exact copySlices_calls _ _ _ _ _ _ _

/-! ## The offsets written by the dispatches and read by the copies -/

theorem dispatchHostOffsets_append (a b : List DeviceCall) :
    dispatchHostOffsets (a ++ b) = dispatchHostOffsets a ++ dispatchHostOffsets b :=
  List.filterMap_append _ _ _

theorem copySourceOffsets_append (a b : List DeviceCall) :
    copySourceOffsets (a ++ b) = copySourceOffsets a ++ copySourceOffsets b :=
  List.filterMap_append _ _ _

theorem dispatchHostOffsets_eq_nil (P : DeviceCall → Prop)
    (hP : ∀ x, P x → dispatchHostOffsets [x] = [])
    (l : List DeviceCall) (h : ∀ x ∈ l, P x) : dispatchHostOffsets l = [] := by
  induction l with
  | nil => rfl
  | cons x rest ih =>
    have hx := hP x (h x (List.mem_cons_self _ _))
    have hr := ih (fun y hy => h y (List.mem_cons_of_mem _ hy))
    have : dispatchHostOffsets (x :: rest) =
        dispatchHostOffsets [x] ++ dispatchHostOffsets rest :=
      dispatchHostOffsets_append [x] rest
    rw [this, hx, hr]
    rfl

theorem copySourceOffsets_eq_nil (P : DeviceCall → Prop)
    (hP : ∀ x, P x → copySourceOffsets [x] = [])
    (l : List DeviceCall) (h : ∀ x ∈ l, P x) : copySourceOffsets l = [] := by
  induction l with
  | nil => rfl
  | cons x rest ih =>
    have hx := hP x (h x (List.mem_cons_self _ _))
    have hr := ih (fun y hy => h y (List.mem_cons_of_mem _ hy))
    have : copySourceOffsets (x :: rest) =
        copySourceOffsets [x] ++ copySourceOffsets rest :=
      copySourceOffsets_append [x] rest
    rw [this, hx, hr]
    rfl

/-- A loop whose iterations fall through appends to what is read off its
state what every iteration appends, as long as an invariant of the counter
and the state is kept. -/
theorem loopFrom_trace {σ α : Type} (body : Nat → σ → Flow σ) (tr : σ → List α)
    (Inv : Nat → σ → Prop) (g : Nat → List α)
    (step : ∀ i s s1, Inv i s → body i s = Flow.next s1 →
      Inv (i + 1) s1 ∧ tr s1 = tr s ++ g i) :
    ∀ (n i : Nat) (s s1 : σ), Inv i s → loopFrom body n i s = Flow.next s1 →
      Inv (i + n) s1 ∧ tr s1 = tr s ++ (List.range n).flatMap (fun k => g (i + k)) := by
  intro n
  induction n with
  | zero =>
    intro i s s1 hinv h
    have hs : s = s1 := Flow.next.inj h
    rw [← hs]
    exact ⟨hinv, by simp⟩
  | succ n ih =>
    intro i s s1 hinv h
    rw [loopFrom] at h
    split at h
    · rename_i s2 hb
      obtain ⟨hinv2, htr2⟩ := step i s s2 hinv hb
      obtain ⟨hinv3, htr3⟩ := ih (i + 1) s2 s1 hinv2 h
      refine ⟨by rw [show i + (n + 1) = i + 1 + n by omega]; exact hinv3, ?_⟩
      rw [htr3, htr2, List.range_succ_eq_map, List.flatMap_cons, List.flatMap_map,
        List.append_assoc]
      congr 2
      apply List.flatMap_congr
      intro k _
      show g (i + 1 + k) = g (i + (k + 1))
      rw [show i + 1 + k = i + (k + 1) by omega]
    · cases h
    · cases h

theorem flatMap_singleton_range {α : Type} (f : Nat → α) (n : Nat) :
    (List.range n).flatMap (fun k => [f k]) = (List.range n).map f := by
  induction n with
  | zero => rfl
  | succ n ih =>
    rw [List.range_succ, List.flatMap_append, ih, List.map_append]
    rfl

theorem loadSliceLoop_host_offsets (dev : LoadDevice)
    (copy_buffer loop_level group_count_x group_count_y guest_slice_stride host_slice_size
      host_offset : Nat) (n : Nat) (s s1 : LoadState)
    (hs : s.load_constants.host_offset = u32 host_offset)
    (h : loopFrom (loadSliceBody dev copy_buffer loop_level group_count_x group_count_y
      guest_slice_stride host_slice_size) n 0 s = Flow.next s1) :
    dispatchHostOffsets s1.cache.calls = dispatchHostOffsets s.cache.calls ++
      (List.range n).map (fun slice => u32 (host_offset + slice * host_slice_size)) := by
  have hloop := loopFrom_trace
    (loadSliceBody dev copy_buffer loop_level group_count_x group_count_y guest_slice_stride
      host_slice_size)
    (fun s : LoadState => dispatchHostOffsets s.cache.calls)
    (fun i s => s.load_constants.host_offset = u32 (host_offset + i * host_slice_size))
    (fun i => [u32 (host_offset + i * host_slice_size)])
    (fun i a b hinv hb => by
      have hinv1 : a.load_constants.host_offset = u32 (host_offset + i * host_slice_size) :=
        hinv
      unfold loadSliceBody at hb
      by_cases hcb : dev.RequestConstantBuffer loop_level i = true
      · rw [if_pos hcb] at hb
        have hb1 := (Flow.next.inj hb).symm
        rw [hb1]
        refine ⟨?_, ?_⟩
        · show u32 (a.load_constants.host_offset + host_slice_size) = _
          rw [hinv1]
          unfold u32
          rw [Nat.mod_add_mod]
          congr 1
          rw [Nat.add_mul]
          omega
        · show dispatchHostOffsets (a.cache.calls ++ _) = _
          rw [dispatchHostOffsets_append]
          show dispatchHostOffsets a.cache.calls ++ _ =
            dispatchHostOffsets a.cache.calls ++ [u32 (host_offset + i * host_slice_size)]
          rw [← hinv1]
          rfl
      · rw [if_neg hcb] at hb
        cases hb)
    n 0 s s1 (by
      show s.load_constants.host_offset = u32 (host_offset + 0 * host_slice_size)
      rw [hs, Nat.zero_mul, Nat.add_zero]) h
  have h2 : dispatchHostOffsets s1.cache.calls = dispatchHostOffsets s.cache.calls ++
      (List.range n).flatMap (fun k => [u32 (host_offset + (0 + k) * host_slice_size)]) :=
    hloop.2
  rw [h2, flatMap_singleton_range]
  congr 1
  apply List.map_congr_left
  intro k _
  rw [Nat.zero_add]

theorem u32_add_mul_u32 (a k b : Nat) : u32 (a + k * u32 b) = u32 (a + k * b) := by
  unfold u32
  exact Nat.ModEq.add_left a (Nat.ModEq.mul_left k (Nat.mod_modEq b _))

theorem CallsExtend_offsets_unchanged {P : DeviceCall → Prop} {a b : List DeviceCall}
    (h : CallsExtend P a b) (hd : ∀ x, P x → dispatchHostOffsets [x] = [])
    (hc : ∀ x, P x → copySourceOffsets [x] = []) :
    dispatchHostOffsets b = dispatchHostOffsets a ∧
    copySourceOffsets b = copySourceOffsets a := by
  obtain ⟨new, hnew, hP⟩ := h
  rw [hnew, dispatchHostOffsets_append, copySourceOffsets_append,
    dispatchHostOffsets_eq_nil P hd new hP, copySourceOffsets_eq_nil P hc new hP,
    List.append_nil, List.append_nil]
  exact ⟨rfl, rfl⟩

theorem isSourceSetup_no_offsets (x : DeviceCall) (h : x.isSourceSetup) :
    dispatchHostOffsets [x] = [] ∧ copySourceOffsets [x] = [] := by
  cases x <;> first | exact ⟨rfl, rfl⟩ | exact absurd h id

/-- An iteration of the dispatch loop that falls through has bound, for
slice after slice of the footprint of its loop counter, constants whose
`host_offset` is the offset of the slice in 32 bits, and has recorded no
copy. -/
theorem loadLevelBody_host_offsets (env : LoadEnv) (dev : LoadDevice) (l : LoadLocals)
    (texture : D3D12Texture) (layout : HostLayout) (copy_buffer loop_level : Nat)
    (s s1 : LoadState)
    (h : loadLevelBody env dev l texture layout copy_buffer loop_level s = Flow.next s1) :
    dispatchHostOffsets s1.cache.calls = dispatchHostOffsets s.cache.calls ++
      sliceOffsets32 layout l.array_size (l.dispatchSlot loop_level) ∧
    copySourceOffsets s1.cache.calls = copySourceOffsets s.cache.calls := by
  unfold loadLevelBody at h
  simp only at h
  split at h
  · cases h
  · cases h
  · rename_i s2 hsrc
    have hsrc2 : CallsExtend DeviceCall.isSourceSetup s.cache.calls s2.cache.calls := by
      by_cases hc : texture.key.scaled_resolve = true ∧
          (decide (loop_level = 0) = true ∨ ¬ s.scaled_mips_source_set_up = true)
      · rw [if_pos hc] at hsrc
        exact (loadScaledSource_calls _ _ _ _ _ _ _ _ (by rw [hsrc]; rfl)).1
      · rw [if_neg hc] at hsrc
        cases hsrc
        exact CallsExtend_refl _ _
    obtain ⟨hd0, hc0⟩ := CallsExtend_offsets_unchanged hsrc2
      (fun x hx => (isSourceSetup_no_offsets x hx).1)
      (fun x hx => (isSourceSetup_no_offsets x hx).2)
    split at h
    · cases h
    · rename_i f heq
      have hslot : layout.placed (l.dispatchSlot loop_level) = some f := by
        unfold LoadLocals.dispatchSlot
        by_cases hj : loop_level = 0
        · rw [if_pos hj]
          rw [if_pos (by rw [hj]; decide)] at heq
          exact heq
        · rw [if_neg hj]
          rw [if_neg (by simpa using hj)] at heq
          exact heq
      have hst := congrArg Flow.state? h
      have hfields := loadSliceLoop_calls (fun _ => True) dev copy_buffer loop_level _ _ _ _ 0
        (fun _ => trivial) (fun _ => trivial) trivial trivial trivial _ _ _ s1 hst
      have hloop := loadSliceLoop_calls (fun x => copySourceOffsets [x] = []) dev copy_buffer
        loop_level _ _ _ _ s1.load_constants.size_blocks_2 (fun _ => rfl) (fun _ => rfl) rfl rfl
        rfl _ _ _ s1 hst
      obtain ⟨new, hnew, hP⟩ := hloop.1 hfields.2.2.2.symm
      have hoff := loadSliceLoop_host_offsets dev copy_buffer loop_level _ _ _ _ f.1.Offset
        l.array_size _ s1 rfl h
      refine ⟨?_, ?_⟩
      · rw [hoff]
        show dispatchHostOffsets s2.cache.calls ++ _ = _
        rw [hd0]
        congr 1
        unfold sliceOffsets32 sliceOffsets
        rw [hslot]
        simp only [List.map_map]
        apply List.map_congr_left
        intro k _
        exact u32_add_mul_u32 _ _ _
      · rw [hnew]
        show copySourceOffsets (s2.cache.calls ++ new) = _
        rw [copySourceOffsets_append, copySourceOffsets_eq_nil _ (fun _ hx => hx) new hP,
          List.append_nil, hc0]

theorem copySlices_offsets (texture_level_count host_slice_size : Nat)
    (source_box : Option Box) :
    ∀ (n dest_subresource : Nat) (source : HostFootprint) (c : Cache),
      source.Offset + n * host_slice_size < 2 ^ 64 →
      copySourceOffsets (copySlices texture_level_count host_slice_size source_box n
        dest_subresource source c).calls =
        copySourceOffsets c.calls ++
          (List.range n).map (fun slice => source.Offset + slice * host_slice_size) := by
  intro n
  induction n with
  | zero => intro _ _ c _; simp [copySlices]
  | succ n ih =>
    intro dest_subresource source c hfit
    rw [copySlices]
    have hmul : (n + 1) * host_slice_size = n * host_slice_size + host_slice_size :=
      Nat.succ_mul _ _
    have hu : u64 (source.Offset + host_slice_size) = source.Offset + host_slice_size :=
      Nat.mod_eq_of_lt (by omega)
    rw [ih _ _ _ (by
      show u64 (source.Offset + host_slice_size) + n * host_slice_size < 2 ^ 64
      rw [hu]; omega)]
    show copySourceOffsets (c.calls ++ _) ++
      (List.range n).map (fun slice =>
        u64 (source.Offset + host_slice_size) + slice * host_slice_size) = _
    rw [hu, copySourceOffsets_append, List.range_succ_eq_map, List.map_cons, List.map_map,
      List.append_assoc]
    congr 1
    show source.Offset :: _ = _
    rw [Nat.zero_mul, Nat.add_zero]
    congr 1
    apply List.map_congr_left
    intro k _
    show source.Offset + host_slice_size + k * host_slice_size =
      source.Offset + (k + 1) * host_slice_size
    rw [Nat.succ_mul]
    omega

/-- An iteration of the copy loop records, for slice after slice of the
footprint of its level, a copy that reads at the offset of the slice, as long
as the `UINT64` offset does not wrap; it binds no constants. -/
theorem copyLevelBody_offsets (env : LoadEnv) (l : LoadLocals) (texture : D3D12Texture)
    (layout : HostLayout) (host_block_width host_block_height level : Nat) (c c1 : Cache)
    (hfit : ∀ f, layout.placed (l.copySlot level) = some f →
      f.1.Offset + f.2 * l.array_size < 2 ^ 64)
    (h : copyLevelBody env l texture layout host_block_width host_block_height level c =
      Flow.next c1) :
    copySourceOffsets c1.calls = copySourceOffsets c.calls ++
      sliceOffsets layout l.array_size (l.copySlot level) ∧
    dispatchHostOffsets c1.calls = dispatchHostOffsets c.calls := by
  have hcalls := copyLevelBody_calls env l texture layout host_block_width host_block_height
    level c c1 (by rw [h]; rfl)
  refine ⟨?_, ?_⟩
  · unfold copyLevelBody at h
    simp only at h
    split at h
    · cases h
    · rename_i f heq
      have hslot : layout.placed (l.copySlot level) = some f := by
        unfold LoadLocals.copySlot
        by_cases hj : level ≠ 0
        · rw [if_pos hj]
          rw [if_pos hj] at heq
          exact heq
        · rw [if_neg hj]
          rw [if_neg hj] at heq
          exact heq
      have hc1 := (Flow.next.inj h).symm
      rw [hc1, copySlices_offsets _ _ _ _ _ _ _ (by
        have := hfit f hslot
        rw [Nat.mul_comm]
        exact this)]
      unfold sliceOffsets
      rw [hslot]
  · obtain ⟨new, hnew, hP⟩ := hcalls
    rw [hnew, dispatchHostOffsets_append, dispatchHostOffsets_eq_nil _
      (fun x hx => by obtain ⟨d, s, b, rfl⟩ := hx; rfl) new hP, List.append_nil]

theorem flatMap_nil_range {α : Type} (n : Nat) :
    (List.range n).flatMap (fun _ => ([] : List α)) = [] := by
  induction n with
  | zero => rfl
  | succ n ih => rw [List.range_succ, List.flatMap_append, ih]; rfl

theorem loadInitialState_offsets (env : LoadEnv) (l : LoadLocals) (texture : D3D12Texture)
    (c : Cache) :
    dispatchHostOffsets (loadInitialState env l texture c).cache.calls =
      dispatchHostOffsets c.calls ∧
    copySourceOffsets (loadInitialState env l texture c).cache.calls =
      copySourceOffsets c.calls := by
  unfold loadInitialState
  simp only
  split_ifs
  all_goals first
    | exact ⟨rfl, rfl⟩
    | exact ⟨by
        show dispatchHostOffsets (c.calls ++ _) = _
        rw [dispatchHostOffsets_append]; exact List.append_nil _, by
        show copySourceOffsets (c.calls ++ _) = _
        rw [copySourceOffsets_append]; exact List.append_nil _⟩

/-- The offsets of a successful load from the dispatch loop on: the
dispatches bind the slices of the footprints of the loop counters, in 32 bits,
and the copies read the slices of the footprints of the levels. -/
theorem loadDispatchAndCopy_offsets (env : LoadEnv) (dev : LoadDevice) (l : LoadLocals)
    (texture texture1 : D3D12Texture) (layout : HostLayout)
    (copy_buffer host_block_width host_block_height : Nat) (s0 : LoadState) (c1 : Cache)
    (hfit : ∀ slot f, layout.placed slot = some f → f.1.Offset + f.2 * l.array_size < 2 ^ 64)
    (h : loadDispatchAndCopy env dev l texture layout copy_buffer host_block_width
      host_block_height s0 = some (true, c1, texture1)) :
    dispatchHostOffsets c1.calls = dispatchHostOffsets s0.cache.calls ++
      (List.range (l.loop_level_last + 1 - l.loop_level_first)).flatMap (fun k =>
        sliceOffsets32 layout l.array_size (l.dispatchSlot (l.loop_level_first + k))) ∧
    copySourceOffsets c1.calls = copySourceOffsets s0.cache.calls ++
      (List.range (l.level_last + 1 - l.level_first)).flatMap (fun k =>
        sliceOffsets layout l.array_size (l.copySlot (l.level_first + k))) := by
  unfold loadDispatchAndCopy at h
  split at h
  · cases h
  · have := (Prod.mk.inj (Option.some.inj h)).1
    cases this
  · rename_i s1 hloop
    have hd1 := (loopFrom_trace (loadLevelBody env dev l texture layout copy_buffer)
      (fun s : LoadState => dispatchHostOffsets s.cache.calls) (fun _ _ => True)
      (fun j => sliceOffsets32 layout l.array_size (l.dispatchSlot j))
      (fun i a b _ hb => ⟨trivial, (loadLevelBody_host_offsets _ _ _ _ _ _ _ _ _ hb).1⟩)
      _ _ s0 s1 trivial hloop).2
    have hc1 := (loopFrom_trace (loadLevelBody env dev l texture layout copy_buffer)
      (fun s : LoadState => copySourceOffsets s.cache.calls) (fun _ _ => True)
      (fun _ => [])
      (fun i a b _ hb => ⟨trivial, by
        show copySourceOffsets b.cache.calls = copySourceOffsets a.cache.calls ++ []
        rw [List.append_nil]
        exact (loadLevelBody_host_offsets _ _ _ _ _ _ _ _ _ hb).2⟩)
      _ _ s0 s1 trivial hloop).2
    simp only at hd1 hc1
    rw [flatMap_nil_range, List.append_nil] at hc1
    split at h
    · rename_i c4 hcopy
      have hcopy1 := (loopFrom_trace
        (copyLevelBody env l texture layout host_block_width host_block_height)
        (fun c : Cache => copySourceOffsets c.calls) (fun _ _ => True)
        (fun level => sliceOffsets layout l.array_size (l.copySlot level))
        (fun i a b _ hb => ⟨trivial,
          (copyLevelBody_offsets _ _ _ _ _ _ _ _ _ (fun f hf => hfit _ f hf) hb).1⟩)
        _ _ _ c4 trivial hcopy).2
      have hcopy2 := (loopFrom_trace
        (copyLevelBody env l texture layout host_block_width host_block_height)
        (fun c : Cache => dispatchHostOffsets c.calls) (fun _ _ => True)
        (fun _ => [])
        (fun i a b _ hb => ⟨trivial, by
          show dispatchHostOffsets b.calls = dispatchHostOffsets a.calls ++ []
          rw [List.append_nil]
          exact (copyLevelBody_offsets _ _ _ _ _ _ _ _ _ (fun f hf => hfit _ f hf) hb).2⟩)
        _ _ _ c4 trivial hcopy).2
      simp only at hcopy1 hcopy2
      rw [flatMap_nil_range, List.append_nil] at hcopy2
      obtain ⟨_, hc, _⟩ := Prod.mk.inj_iff.mp (Option.some.inj h) |>.imp id Prod.mk.inj_iff.mp
      rw [← hc]
      refine ⟨?_, ?_⟩
      · show dispatchHostOffsets (c4.calls ++ _) = _
        rw [dispatchHostOffsets_append, hcopy2]
        show dispatchHostOffsets (s1.cache.calls ++ _) ++ _ = _
        rw [dispatchHostOffsets_append, hd1]
        simp only [List.append_assoc]
        congr 1
        exact List.append_nil _
      · show copySourceOffsets (c4.calls ++ _) = _
        rw [copySourceOffsets_append, hcopy1]
        show copySourceOffsets (s1.cache.calls ++ _) ++ _ ++ _ = _
        rw [copySourceOffsets_append, hc1]
        simp only [List.append_assoc]
        congr 1
        show [] ++ (_ ++ []) = _
        rw [List.nil_append, List.append_nil]
    · cases h

theorem sliceOffsets32_eq (layout : HostLayout) (array_size : Nat) (slot : Option Nat)
    (hfit : ∀ f, layout.placed slot = some f → f.1.Offset + f.2 * array_size < 2 ^ 32) :
    sliceOffsets32 layout array_size slot = sliceOffsets layout array_size slot := by
  unfold sliceOffsets32 sliceOffsets
  cases hp : layout.placed slot with
  | none => rfl
  | some f =>
    have hf := hfit f hp
    simp only [List.map_map]
    apply List.map_congr_left
    intro k hk
    have hlt : k < array_size := List.mem_range.mp hk
    have hle : k * f.2 ≤ f.2 * array_size := by
      rw [Nat.mul_comm f.2]
      exact Nat.mul_le_mul_right _ (Nat.le_of_lt hlt)
    show u32 (f.1.Offset + k * f.2) = f.1.Offset + k * f.2
    exact Nat.mod_eq_of_lt (by omega)

/-- Every level that the copy loop copies reads the footprint of a loop
counter of the dispatch loop: the base for level 0, and for another level the
stored mip level `min(level, level_packed)`, which is the counter 1 when the
packed level is 0 and the counter `min(level, level_packed)` otherwise. -/
theorem copySlot_dispatched (l : LoadLocals) (level : Nat)
    (hsf : l.level_stored_first = min l.level_first l.level_packed)
    (hsl : l.level_stored_last = min l.level_last l.level_packed)
    (hfirst : l.level_first ≤ level) (hlast : level ≤ l.level_last) :
    ∃ j, l.loop_level_first ≤ j ∧ j ≤ l.loop_level_last ∧
      l.dispatchSlot j = l.copySlot level := by
  unfold LoadLocals.loop_level_first LoadLocals.loop_level_last LoadLocals.dispatchSlot
    LoadLocals.copySlot
  by_cases h0 : level = 0
  · refine ⟨0, ?_, Nat.zero_le _, ?_⟩
    · by_cases hp : l.level_packed = 0
      · rw [if_pos hp, if_neg (by omega)]
      · rw [if_neg hp, hsf]
        omega
    · rw [if_pos rfl, if_neg (by omega)]
  · by_cases hp : l.level_packed = 0
    · refine ⟨1, ?_, ?_, ?_⟩
      · rw [if_pos hp]
        split_ifs <;> omega
      · rw [if_pos hp, if_pos (by omega)]
      · rw [if_neg (by omega), if_pos hp, if_pos h0, hp, Nat.min_zero]
    · refine ⟨min level l.level_packed, ?_, ?_, ?_⟩
      · rw [if_neg hp, hsf]
        omega
      · rw [if_neg hp, hsl]
        omega
      · rw [if_neg (by omega), if_neg hp, if_pos h0]

/-- C25 (as amended): for every successful load whose host layout fits 32
bits (the footprints of the loaded levels take less than 2^32 bytes of the
scratch buffer in all), the dispatches bind, loop counter after loop counter
and slice after slice, the offset of slice `s` of the footprint of the loop
counter as their `host_offset`; the copies read, level after level of
`[level_first, level_last]` and slice after slice, at the offset of slice `s`
of the footprint of the level (the base for level 0, the stored mip level
`min(level, level_packed)` otherwise); and the footprint of every copied level
is the footprint of a loop counter of the dispatch loop, so that the copy of
`(level, s)` reads where a dispatch wrote slice `s` of the stored level that
holds it, whatever the packed level. -/
theorem LoadTextureDataFromResidentMemoryImpl_copy_reads_dispatched (env : LoadEnv)
    (dev : LoadDevice) (c c1 : Cache) (texture texture1 : D3D12Texture)
    (load_base load_mips : Bool)
    (hfit : hostLayoutTotal (loadLocals env c.draw_resolution_scale_x
      c.draw_resolution_scale_y texture load_base load_mips) texture.guest_layout < 2 ^ 32)
    (h : LoadTextureDataFromResidentMemoryImpl env dev c texture load_base load_mips =
      some (true, c1, texture1)) :
    dispatchHostOffsets c1.calls = dispatchHostOffsets c.calls ++
      (List.range ((loadLocals env c.draw_resolution_scale_x c.draw_resolution_scale_y
          texture load_base load_mips).loop_level_last + 1 -
        (loadLocals env c.draw_resolution_scale_x c.draw_resolution_scale_y texture load_base
          load_mips).loop_level_first)).flatMap (fun k =>
        sliceOffsets
          (hostLayout (loadLocals env c.draw_resolution_scale_x c.draw_resolution_scale_y
            texture load_base load_mips) texture.guest_layout)
          (loadLocals env c.draw_resolution_scale_x c.draw_resolution_scale_y texture
            load_base load_mips).array_size
          ((loadLocals env c.draw_resolution_scale_x c.draw_resolution_scale_y texture
            load_base load_mips).dispatchSlot
            ((loadLocals env c.draw_resolution_scale_x c.draw_resolution_scale_y texture
              load_base load_mips).loop_level_first + k))) ∧
    copySourceOffsets c1.calls = copySourceOffsets c.calls ++
      (List.range ((loadLocals env c.draw_resolution_scale_x c.draw_resolution_scale_y
          texture load_base load_mips).level_last + 1 -
        (loadLocals env c.draw_resolution_scale_x c.draw_resolution_scale_y texture load_base
          load_mips).level_first)).flatMap (fun k =>
        sliceOffsets
          (hostLayout (loadLocals env c.draw_resolution_scale_x c.draw_resolution_scale_y
            texture load_base load_mips) texture.guest_layout)
          (loadLocals env c.draw_resolution_scale_x c.draw_resolution_scale_y texture
            load_base load_mips).array_size
          ((loadLocals env c.draw_resolution_scale_x c.draw_resolution_scale_y texture
            load_base load_mips).copySlot
            ((loadLocals env c.draw_resolution_scale_x c.draw_resolution_scale_y texture
              load_base load_mips).level_first + k))) ∧
    ∀ level,
      (loadLocals env c.draw_resolution_scale_x c.draw_resolution_scale_y texture load_base
        load_mips).level_first ≤ level →
      level ≤ (loadLocals env c.draw_resolution_scale_x c.draw_resolution_scale_y texture
        load_base load_mips).level_last →
      ∃ j,
        (loadLocals env c.draw_resolution_scale_x c.draw_resolution_scale_y texture load_base
          load_mips).loop_level_first ≤ j ∧
        j ≤ (loadLocals env c.draw_resolution_scale_x c.draw_resolution_scale_y texture
          load_base load_mips).loop_level_last ∧
        (loadLocals env c.draw_resolution_scale_x c.draw_resolution_scale_y texture load_base
          load_mips).dispatchSlot j =
        (loadLocals env c.draw_resolution_scale_x c.draw_resolution_scale_y texture load_base
          load_mips).copySlot level := by
  generalize hl : loadLocals env c.draw_resolution_scale_x c.draw_resolution_scale_y texture
    load_base load_mips = l at hfit ⊢
  have hsf : l.level_stored_first = min l.level_first l.level_packed := by rw [← hl]; rfl
  have hsl : l.level_stored_last = min l.level_last l.level_packed := by rw [← hl]; rfl
  have hfit64 : hostLayoutTotal l texture.guest_layout < 2 ^ 64 :=
    Nat.lt_of_lt_of_le hfit (by decide)
  have hsize := (hostLayout_spec l texture.guest_layout hfit64).1
  have hplaced : ∀ slot f, (hostLayout l texture.guest_layout).placed slot = some f →
      f.1.Offset + f.2 * l.array_size < 2 ^ 32 := by
    intro slot f hf
    have := (hostLayout_placed_ranges l texture.guest_layout hfit64 slot slot f f hf hf).1
    rw [hsize] at this
    omega
  refine ⟨?_, ?_, fun level h1 h2 => copySlot_dispatched l level hsf hsl h1 h2⟩
  all_goals
    unfold LoadTextureDataFromResidentMemoryImpl at h
    simp only at h
    rw [hl] at h
    by_cases hu : GetLoadMode env.format_info texture.key = LoadMode.kUnknown
    · rw [if_pos hu] at h
      cases (Prod.mk.inj (Option.some.inj h)).1
    rw [if_neg hu] at h
    split at h
    · cases (Prod.mk.inj (Option.some.inj h)).1
    split at h
    · cases (Prod.mk.inj (Option.some.inj h)).1
    by_cases hreq : dev.RequestOneUseSingleViewDescriptors (loadDescriptorCount env l
        texture) = false
    · rw [if_pos hreq] at h
      cases (Prod.mk.inj (Option.some.inj h)).1
    rw [if_neg hreq] at h
    have hoffs := loadDispatchAndCopy_offsets _ _ _ _ _ _ _ _ _ _ _
      (fun slot f hf => Nat.lt_of_lt_of_le (hplaced slot f hf) (by decide)) h
    rw [(loadInitialState_offsets _ _ _ _).1, (loadInitialState_offsets _ _ _ _).2] at hoffs
  · rw [hoffs.1]
    show dispatchHostOffsets (c.calls ++ _) ++ _ = _
    rw [dispatchHostOffsets_append]
    show dispatchHostOffsets c.calls ++ [] ++ _ = _
    rw [List.append_nil]
    congr 1
    apply List.flatMap_congr
    intro k _
    exact sliceOffsets32_eq _ _ _ (fun f hf => hplaced _ f hf)
  · rw [hoffs.2]
    show copySourceOffsets (c.calls ++ _) ++ _ = _
    rw [copySourceOffsets_append]
    show copySourceOffsets c.calls ++ [] ++ _ = _
    rw [List.append_nil]

theorem LoadTextureDataFromResidentMemoryImpl_copy_reads_dispatched_witness :
    ∃ c1 texture1,
      LoadTextureDataFromResidentMemoryImpl (LoadEnv.sample false) LoadDevice.succeeding
        (Cache.initial 1 1) D3D12Texture.sampleTails true true = some (true, c1, texture1) ∧
      dispatchHostOffsets c1.calls = [0, 4096, 8192, 12288] ∧
      copySourceOffsets c1.calls = [0, 4096, 8192, 12288, 8192, 12288] ∧
      (dispatchHostOffsets c1.calls = dispatchHostOffsets (Cache.initial 1 1).calls ++
        (List.range ((loadLocals (LoadEnv.sample false) 1 1 D3D12Texture.sampleTails true
            true).loop_level_last + 1 -
          (loadLocals (LoadEnv.sample false) 1 1 D3D12Texture.sampleTails true
            true).loop_level_first)).flatMap (fun k =>
          sliceOffsets
            (hostLayout (loadLocals (LoadEnv.sample false) 1 1 D3D12Texture.sampleTails true
              true) D3D12Texture.sampleTails.guest_layout)
            (loadLocals (LoadEnv.sample false) 1 1 D3D12Texture.sampleTails true
              true).array_size
            ((loadLocals (LoadEnv.sample false) 1 1 D3D12Texture.sampleTails true
              true).dispatchSlot
              ((loadLocals (LoadEnv.sample false) 1 1 D3D12Texture.sampleTails true
                true).loop_level_first + k))) ∧
      copySourceOffsets c1.calls = copySourceOffsets (Cache.initial 1 1).calls ++
        (List.range ((loadLocals (LoadEnv.sample false) 1 1 D3D12Texture.sampleTails true
            true).level_last + 1 -
          (loadLocals (LoadEnv.sample false) 1 1 D3D12Texture.sampleTails true
            true).level_first)).flatMap (fun k =>
          sliceOffsets
            (hostLayout (loadLocals (LoadEnv.sample false) 1 1 D3D12Texture.sampleTails true
              true) D3D12Texture.sampleTails.guest_layout)
            (loadLocals (LoadEnv.sample false) 1 1 D3D12Texture.sampleTails true
              true).array_size
            ((loadLocals (LoadEnv.sample false) 1 1 D3D12Texture.sampleTails true
              true).copySlot
              ((loadLocals (LoadEnv.sample false) 1 1 D3D12Texture.sampleTails true
                true).level_first + k))) ∧
      ∀ level,
        (loadLocals (LoadEnv.sample false) 1 1 D3D12Texture.sampleTails true
          true).level_first ≤ level →
        level ≤ (loadLocals (LoadEnv.sample false) 1 1 D3D12Texture.sampleTails true
          true).level_last →
        ∃ j,
          (loadLocals (LoadEnv.sample false) 1 1 D3D12Texture.sampleTails true
            true).loop_level_first ≤ j ∧
          j ≤ (loadLocals (LoadEnv.sample false) 1 1 D3D12Texture.sampleTails true
            true).loop_level_last ∧
          (loadLocals (LoadEnv.sample false) 1 1 D3D12Texture.sampleTails true
            true).dispatchSlot j =
          (loadLocals (LoadEnv.sample false) 1 1 D3D12Texture.sampleTails true
            true).copySlot level) :=
  ⟨_, _, rfl, by decide, by decide,
    LoadTextureDataFromResidentMemoryImpl_copy_reads_dispatched (LoadEnv.sample false)
      LoadDevice.succeeding (Cache.initial 1 1) _ D3D12Texture.sampleTails _ true true
      (by decide) rfl⟩

/-- An 8192x8192 `k_8_8_8_8` texture with 17 array slices is loaded at 1x
scale, every request succeeding: each slice takes 2^28 bytes of the scratch
buffer, so that slice 16 lies at the offset 2^32. The copy of slice 16 reads at
the offset 2^32 of its `UINT64` footprint offset, but the dispatch of slice 16
wrote at the `uint32_t host_offset` 0, where slice 0 was written as well. -/
theorem copy_offset_differs_from_host_offset :
    ∃ c1 texture1,
      LoadTextureDataFromResidentMemoryImpl (LoadEnv.sample false) LoadDevice.succeeding
        (Cache.initial 1 1) (D3D12Texture.sampleLarge 16) true false =
        some (true, c1, texture1) ∧
      (dispatchHostOffsets c1.calls).length = 17 ∧
      (copySourceOffsets c1.calls).length = 17 ∧
      (dispatchHostOffsets c1.calls).get? 16 = some 0 ∧
      (copySourceOffsets c1.calls).get? 16 = some 4294967296 ∧
      (dispatchHostOffsets c1.calls).get? 0 = some 0 :=
  ⟨_, _, rfl, by decide, by decide, by decide, by decide, by decide⟩
/-! ## The indices of the descriptor cache are shared out without overlap -/

theorem liveDescriptorIndices_cons (texture : D3D12Texture) (textures : List D3D12Texture) :
    liveDescriptorIndices (texture :: textures) =
      texture.srv_descriptors_.map (fun p => p.2) ++ liveDescriptorIndices textures := by
  unfold liveDescriptorIndices
  rw [List.flatMap_cons]

theorem liveDescriptorIndices_append (a b : List D3D12Texture) :
    liveDescriptorIndices (a ++ b) = liveDescriptorIndices a ++ liveDescriptorIndices b := by
  unfold liveDescriptorIndices
  rw [List.flatMap_append]

theorem liveDescriptorIndices_count_erase (a : Nat) :
    ∀ (textures : List D3D12Texture) (i : Nat) (t : D3D12Texture),
      textures.get? i = some t →
      (liveDescriptorIndices textures).count a =
        (t.srv_descriptors_.map (fun p => p.2)).count a +
          (liveDescriptorIndices (textures.eraseIdx i)).count a := by
  intro textures
  induction textures with
  | nil => intro i t h; cases h
  | cons x rest ih =>
    intro i t h
    cases i with
    | zero =>
      have hx : x = t := Option.some.inj h
      rw [hx, liveDescriptorIndices_cons, List.count_append]
      rfl
    | succ i =>
      have hrest : rest.get? i = some t := h
      have := ih i t hrest
      rw [List.eraseIdx_cons_succ, liveDescriptorIndices_cons, liveDescriptorIndices_cons,
        List.count_append, List.count_append, this]
      omega

theorem liveDescriptorIndices_count_set (a : Nat) :
    ∀ (textures : List D3D12Texture) (i : Nat) (t t1 : D3D12Texture),
      textures.get? i = some t →
      (liveDescriptorIndices (textures.set i t1)).count a =
        (t1.srv_descriptors_.map (fun p => p.2)).count a +
          (liveDescriptorIndices (textures.eraseIdx i)).count a := by
  intro textures
  induction textures with
  | nil => intro i t t1 h; cases h
  | cons x rest ih =>
    intro i t t1 h
    cases i with
    | zero =>
      rw [List.set_cons_zero, liveDescriptorIndices_cons, List.count_append]
      rfl
    | succ i =>
      have hrest : rest.get? i = some t := h
      have := ih i t t1 hrest
      rw [List.set_cons_succ, List.eraseIdx_cons_succ, liveDescriptorIndices_cons,
        liveDescriptorIndices_cons, List.count_append, List.count_append, this]
      omega

theorem liveDescriptorIndices_mem (textures : List D3D12Texture) (i : Nat) (t : D3D12Texture)
    (h : textures.get? i = some t) (p : SRVDescriptorKey × Nat) (hp : p ∈ t.srv_descriptors_) :
    p.2 ∈ liveDescriptorIndices textures := by
  unfold liveDescriptorIndices
  rw [List.mem_flatMap]
  exact ⟨t, List.get?_mem h, List.mem_map.mpr ⟨p, hp, rfl⟩⟩

theorem createCachePages_spec (decls : DescriptorDecls) (dev : DescriptorDevice) :
    ∀ (n : Nat) (c : DescriptorCache),
      (createCachePages decls dev n c).2.bindless_resources_used_ =
        c.bindless_resources_used_ ∧
      (createCachePages decls dev n c).2.srv_descriptor_cache_free_ =
        c.srv_descriptor_cache_free_ ∧
      (createCachePages decls dev n c).2.srv_descriptor_cache_allocated_ =
        c.srv_descriptor_cache_allocated_ ∧
      c.srv_descriptor_cache_.length ≤
        (createCachePages decls dev n c).2.srv_descriptor_cache_.length ∧
      ((createCachePages decls dev n c).1 = true →
        c.srv_descriptor_cache_.length + n =
          (createCachePages decls dev n c).2.srv_descriptor_cache_.length) := by
  intro n
  induction n with
  | zero => intro c; exact ⟨rfl, rfl, rfl, le_rfl, fun _ => rfl⟩
  | succ n ih =>
    intro c
    rw [createCachePages]
    cases hd : dev.CreateDescriptorHeap c.srv_descriptor_cache_.length with
    | none => exact ⟨rfl, rfl, rfl, le_rfl, fun h => by cases h⟩
    | some cache_heap =>
      dsimp only
      obtain ⟨h1, h2, h3, h4, h5⟩ := ih { c with
        srv_descriptor_cache_ := c.srv_descriptor_cache_ ++ [cache_heap]
        calls := c.calls ++
          [.CreateDescriptorHeap decls.kSRVDescriptorCachePageSize true] }
      simp only [List.length_append, List.length_singleton] at h4 h5
      exact ⟨h1, h2, h3, by omega, fun h => by have := h5 h; omega⟩

/-- The allocation of an index in the bindful model when the free list is
empty: it fails without touching the count, or it returns the count, which
goes up by one, with enough pages for it. -/
theorem allocateDescriptorIndex_bindful_empty (decls : DescriptorDecls)
    (dev : DescriptorDevice) (c : DescriptorCache)
    (hb : c.bindless_resources_used_ = false) (hfree : c.srv_descriptor_cache_free_ = []) :
    (allocateDescriptorIndex decls dev c).2.bindless_resources_used_ = false ∧
    (allocateDescriptorIndex decls dev c).2.srv_descriptor_cache_free_ = [] ∧
    c.srv_descriptor_cache_.length ≤
      (allocateDescriptorIndex decls dev c).2.srv_descriptor_cache_.length ∧
    (((allocateDescriptorIndex decls dev c).1 = none ∧
        (allocateDescriptorIndex decls dev c).2.srv_descriptor_cache_allocated_ =
          c.srv_descriptor_cache_allocated_) ∨
      ((allocateDescriptorIndex decls dev c).1 = some c.srv_descriptor_cache_allocated_ ∧
        (allocateDescriptorIndex decls dev c).2.srv_descriptor_cache_allocated_ =
          u32 (c.srv_descriptor_cache_allocated_ + 1) ∧
        u32 (c.srv_descriptor_cache_allocated_ + decls.kSRVDescriptorCachePageSize) /
            decls.kSRVDescriptorCachePageSize ≤
          (allocateDescriptorIndex decls dev c).2.srv_descriptor_cache_.length)) := by
  obtain ⟨h1, h2, h3, h4, h5⟩ := createCachePages_spec decls dev
    (u32 (c.srv_descriptor_cache_allocated_ + decls.kSRVDescriptorCachePageSize) /
      decls.kSRVDescriptorCachePageSize - c.srv_descriptor_cache_.length) c
  unfold allocateDescriptorIndex
  rw [hb, hfree]
  simp only [Bool.false_eq_true, if_false, List.getLast?_nil]
  cases hp : createCachePages decls dev
      (u32 (c.srv_descriptor_cache_allocated_ + decls.kSRVDescriptorCachePageSize) /
        decls.kSRVDescriptorCachePageSize - c.srv_descriptor_cache_.length) c with
  | mk ok c1 =>
    rw [hp] at h1 h2 h3 h4 h5
    simp only at h1 h2 h3 h4 h5
    cases ok with
    | false =>
      exact ⟨by rw [h1, hb], by rw [h2, hfree], h4, Or.inl ⟨rfl, h3⟩⟩
    | true =>
      have := h5 rfl
      refine ⟨by show c1.bindless_resources_used_ = false; rw [h1, hb],
        by show c1.srv_descriptor_cache_free_ = []; rw [h2, hfree], h4, Or.inr ⟨?_, ?_, ?_⟩⟩
      · show some c1.srv_descriptor_cache_allocated_ = _
        rw [h3]
      · show u32 (c1.srv_descriptor_cache_allocated_ + 1) = _
        rw [h3]
      · show _ ≤ c1.srv_descriptor_cache_.length
        omega

theorem destroyTexture_eq (c : DescriptorCache) (texture : D3D12Texture)
    (hb : c.bindless_resources_used_ = false) :
    destroyTexture c texture =
      { c with srv_descriptor_cache_free_ :=
          c.srv_descriptor_cache_free_ ++ texture.srv_descriptors_.map (fun p => p.2) } := by
  unfold destroyTexture
  exact destroyTexture_bindful c hb texture.srv_descriptors_ c rfl

theorem destroyTextures_bindful :
    ∀ (textures : List D3D12Texture) (c : DescriptorCache),
      c.bindless_resources_used_ = false →
      (textures.foldl destroyTexture c).bindless_resources_used_ = false := by
  intro textures
  induction textures with
  | nil => intro c hb; exact hb
  | cons t rest ih =>
    intro c hb
    rw [List.foldl_cons]
    apply ih
    rw [destroyTexture_eq c t hb]
    exact hb

theorem DescriptorSystem_Sound_mono {decls : DescriptorDecls} {n : Nat}
    {sys : DescriptorSystem} (h : sys.Sound decls n) : sys.Sound decls (n + 1) :=
  ⟨h.1, h.2.1, h.2.2.1, Nat.le_succ_of_le h.2.2.2⟩

theorem DescriptorSystem_Sound_valid {decls : DescriptorDecls} {n : Nat}
    {sys : DescriptorSystem} (h : sys.Sound decls n) (hn : n < 2 ^ 32 - 1) (i : Nat)
    (t : D3D12Texture) (ht : sys.textures.get? i = some t) : t.DescriptorsValid := by
  intro p hp
  have hmem := liveDescriptorIndices_mem sys.textures i t ht p hp
  have hcount : 0 < (sys.cache.srv_descriptor_cache_free_ ++
      liveDescriptorIndices sys.textures).count p.2 :=
    List.count_pos_iff.mpr (List.mem_append_right _ hmem)
  rw [h.2.1 p.2] at hcount
  have hlt := List.mem_range.mp (List.count_pos_iff.mp hcount)
  have := h.2.2.2
  unfold UINT32_MAX
  omega

/-- A lookup or creation of a view keeps the descriptor system sound. -/
theorem FindOrCreateTextureDescriptor_sound (decls : DescriptorDecls)
    (format_info : Fin 64 → FormatInfo) (dev : DescriptorDevice) (sys : DescriptorSystem)
    (n i : Nat) (t : D3D12Texture) (is_signed : Bool) (host_swizzle : Nat)
    (hP : 0 < decls.kSRVDescriptorCachePageSize)
    (hn : n + decls.kSRVDescriptorCachePageSize < 2 ^ 32)
    (h : sys.Sound decls n) (ht : sys.textures.get? i = some t) :
    DescriptorSystem.Sound decls (n + 1)
      { cache := (FindOrCreateTextureDescriptor decls format_info dev sys.cache t is_signed
          host_swizzle).2.1
        textures := sys.textures.set i (FindOrCreateTextureDescriptor decls format_info dev
          sys.cache t is_signed host_swizzle).2.2 } := by
  obtain ⟨hb, hcount, hpages, halloc⟩ := h
  have hvalid : t.DescriptorsValid :=
    DescriptorSystem_Sound_valid ⟨hb, hcount, hpages, halloc⟩ (by omega) i t ht
  have hsame : ∀ a, (liveDescriptorIndices (sys.textures.set i t)).count a =
      (liveDescriptorIndices sys.textures).count a := by
    intro a
    rw [liveDescriptorIndices_count_set a _ _ t t ht,
      liveDescriptorIndices_count_erase a _ _ t ht]
  by_cases hhit : t.GetSRVDescriptorIndex ⟨is_signed, host_swizzle⟩ = UINT32_MAX
  · have hm := FindOrCreateTextureDescriptor_miss decls format_info dev sys.cache t is_signed
      host_swizzle hhit
    simp only at hm
    rcases hm with ⟨_, ht2, h1, h2, h3, h4, _⟩ | ⟨_, ht2, ha, hc⟩ | ⟨desc, ha, hc, ht2⟩
    · refine ⟨by rw [h1]; exact hb, fun a => ?_, ?_, ?_⟩
      · show (_ ++ liveDescriptorIndices (sys.textures.set i _)).count a = _
        rw [ht2, h2, h3, List.count_append, hsame, ← List.count_append]
        exact hcount a
      · show _ ≤ _
        rw [h3, h4]
        exact hpages
      · show _ ≤ _
        rw [h3]
        omega
    · rcases List.eq_nil_or_concat sys.cache.srv_descriptor_cache_free_ with
        hfree | ⟨l, x, hfree⟩
      · obtain ⟨a1, a2, a3, a4⟩ :=
          allocateDescriptorIndex_bindful_empty decls dev sys.cache hb hfree
        rcases a4 with ⟨_, a5⟩ | ⟨a5, _⟩
        · refine ⟨by rw [hc]; exact a1, fun a => ?_, ?_, ?_⟩
          · show (_ ++ liveDescriptorIndices (sys.textures.set i _)).count a = _
            rw [ht2, hc, a2, a5, List.count_append, hsame, ← List.count_append,
              ← hfree]
            exact hcount a
          · show _ ≤ _
            rw [hc, a5]
            exact le_trans hpages (Nat.mul_le_mul_right _ a3)
          · show _ ≤ _
            rw [hc, a5]
            omega
        · rw [a5] at ha
          cases ha
      · rw [List.concat_eq_append] at hfree
        rw [allocateDescriptorIndex_bindful_pop decls dev sys.cache l x hb hfree] at ha
        cases ha
    · have hnone := GetSRVDescriptorIndex_miss t ⟨is_signed, host_swizzle⟩ hvalid hhit
      have hadd : ∀ idx, (t.AddSRVDescriptorIndex ⟨is_signed, host_swizzle⟩
          idx).srv_descriptors_.map (fun p => p.2) =
          t.srv_descriptors_.map (fun p => p.2) ++ [idx] := by
        intro idx
        unfold D3D12Texture.AddSRVDescriptorIndex
        rw [hnone]
        simp
      have hlive : ∀ a, (liveDescriptorIndices (sys.textures.set i
          (FindOrCreateTextureDescriptor decls format_info dev sys.cache t is_signed
            host_swizzle).2.2)).count a =
          (liveDescriptorIndices sys.textures).count a +
            [(FindOrCreateTextureDescriptor decls format_info dev sys.cache t is_signed
              host_swizzle).1].count a := by
        intro a
        rw [liveDescriptorIndices_count_set a _ _ t _ ht,
          liveDescriptorIndices_count_erase a _ _ t ht, ht2, hadd, List.count_append]
        omega
      rcases List.eq_nil_or_concat sys.cache.srv_descriptor_cache_free_ with
        hfree | ⟨l, x, hfree⟩
      · obtain ⟨a1, a2, a3, a4⟩ :=
          allocateDescriptorIndex_bindful_empty decls dev sys.cache hb hfree
        rcases a4 with ⟨a5, _⟩ | ⟨a5, a6, a7⟩
        · rw [a5] at ha
          cases ha
        · rw [a5] at ha
          have hidx := (Option.some.inj ha).symm
          have hu1 : u32 (sys.cache.srv_descriptor_cache_allocated_ + 1) =
              sys.cache.srv_descriptor_cache_allocated_ + 1 :=
            Nat.mod_eq_of_lt (by omega)
          have hu2 : u32 (sys.cache.srv_descriptor_cache_allocated_ +
              decls.kSRVDescriptorCachePageSize) =
              sys.cache.srv_descriptor_cache_allocated_ +
                decls.kSRVDescriptorCachePageSize :=
            Nat.mod_eq_of_lt (by omega)
          rw [hu1] at a6
          rw [hu2] at a7
          refine ⟨by rw [hc]; exact a1, fun a => ?_, ?_, ?_⟩
          · show (_ ++ liveDescriptorIndices (sys.textures.set i _)).count a = _
            rw [hc]
            show ((allocateDescriptorIndex decls dev sys.cache).2.srv_descriptor_cache_free_ ++
              _).count a =
              (List.range (allocateDescriptorIndex decls dev
                sys.cache).2.srv_descriptor_cache_allocated_).count a
            rw [a2, a6, List.nil_append, hlive, hidx, List.range_succ, List.count_append]
            have := hcount a
            rw [hfree, List.nil_append] at this
            rw [this]
          · show _ ≤ _
            rw [hc]
            show (allocateDescriptorIndex decls dev
              sys.cache).2.srv_descriptor_cache_allocated_ ≤
              (allocateDescriptorIndex decls dev sys.cache).2.srv_descriptor_cache_.length *
                decls.kSRVDescriptorCachePageSize
            rw [a6]
            have hdm := Nat.div_add_mod (sys.cache.srv_descriptor_cache_allocated_ +
              decls.kSRVDescriptorCachePageSize) decls.kSRVDescriptorCachePageSize
            have hmod := Nat.mod_lt (sys.cache.srv_descriptor_cache_allocated_ +
              decls.kSRVDescriptorCachePageSize) hP
            have hmul := Nat.mul_le_mul_right decls.kSRVDescriptorCachePageSize a7
            rw [Nat.mul_comm] at hdm
            omega
          · show _ ≤ _
            rw [hc]
            show (allocateDescriptorIndex decls dev
              sys.cache).2.srv_descriptor_cache_allocated_ ≤ n + 1
            rw [a6]
            omega
      · rw [List.concat_eq_append] at hfree
        have hpop := allocateDescriptorIndex_bindful_pop decls dev sys.cache l x hb hfree
        rw [hpop] at ha hc
        have hidx := (Option.some.inj ha).symm
        refine ⟨by rw [hc]; exact hb, fun a => ?_, ?_, ?_⟩
        · show (_ ++ liveDescriptorIndices (sys.textures.set i _)).count a = _
          rw [hc]
          show (l ++ _).count a =
            (List.range sys.cache.srv_descriptor_cache_allocated_).count a
          rw [List.count_append, hlive, hidx, ← hcount a, hfree, List.count_append,
            List.count_append]
          omega
        · show _ ≤ _
          rw [hc]
          exact hpages
        · show _ ≤ _
          rw [hc]
          show sys.cache.srv_descriptor_cache_allocated_ ≤ n + 1
          omega
  · rw [FindOrCreateTextureDescriptor_hit decls format_info dev sys.cache t is_signed
      host_swizzle hhit]
    refine ⟨hb, fun a => ?_, hpages, Nat.le_succ_of_le halloc⟩
    show (_ ++ liveDescriptorIndices (sys.textures.set i t)).count a = _
    rw [List.count_append, hsame, ← List.count_append]
    exact hcount a

/-- Every step of the life of the descriptors keeps the system sound. -/
theorem DescriptorSystem_step_sound (decls : DescriptorDecls)
    (format_info : Fin 64 → FormatInfo) (sys : DescriptorSystem) (n : Nat)
    (hP : 0 < decls.kSRVDescriptorCachePageSize)
    (hn : n + decls.kSRVDescriptorCachePageSize < 2 ^ 32)
    (h : sys.Sound decls n) (op : DescriptorOp) :
    (sys.step decls format_info op).Sound decls (n + 1) := by
  cases op with
  | createTexture texture =>
    obtain ⟨hb, hcount, hpages, halloc⟩ := h
    refine ⟨hb, fun a => ?_, hpages, Nat.le_succ_of_le halloc⟩
    show (_ ++ liveDescriptorIndices (sys.textures ++ [_])).count a = _
    rw [liveDescriptorIndices_append]
    show (_ ++ (liveDescriptorIndices sys.textures ++ [])).count a = _
    rw [List.append_nil]
    exact hcount a
  | findOrCreate dev i is_signed host_swizzle =>
    cases ht : sys.textures.get? i with
    | none =>
      simp only [DescriptorSystem.step, ht]
      exact DescriptorSystem_Sound_mono h
    | some t =>
      simp only [DescriptorSystem.step, ht]
      exact FindOrCreateTextureDescriptor_sound decls format_info dev sys n i t is_signed
        host_swizzle hP hn h ht
  | destroyTexture i =>
    cases ht : sys.textures.get? i with
    | none =>
      simp only [DescriptorSystem.step, ht]
      exact DescriptorSystem_Sound_mono h
    | some t =>
      obtain ⟨hb, hcount, hpages, halloc⟩ := h
      simp only [DescriptorSystem.step, ht]
      rw [destroyTexture_eq sys.cache t hb]
      refine ⟨hb, fun a => ?_, hpages, Nat.le_succ_of_le halloc⟩
      show (sys.cache.srv_descriptor_cache_free_ ++ t.srv_descriptors_.map (fun p => p.2) ++
        liveDescriptorIndices (sys.textures.eraseIdx i)).count a =
        (List.range sys.cache.srv_descriptor_cache_allocated_).count a
      rw [← hcount a, List.count_append, List.count_append, List.count_append,
        liveDescriptorIndices_count_erase a _ _ t ht]
      omega
  | clearCache =>
    refine ⟨destroyTextures_bindful _ _ h.1, fun a => rfl, Nat.zero_le _, Nat.zero_le _⟩

theorem DescriptorSystem_run_sound (decls : DescriptorDecls)
    (format_info : Fin 64 → FormatInfo) (hP : 0 < decls.kSRVDescriptorCachePageSize) :
    ∀ (ops : List DescriptorOp) (sys : DescriptorSystem) (n : Nat),
      n + ops.length + decls.kSRVDescriptorCachePageSize ≤ 2 ^ 32 →
      sys.Sound decls n →
      (ops.foldl (DescriptorSystem.step decls format_info) sys).Sound decls
        (n + ops.length) := by
  intro ops
  induction ops with
  | nil => intro sys n _ h; exact h
  | cons op rest ih =>
    intro sys n hn h
    rw [List.foldl_cons, List.length_cons]
    rw [List.length_cons] at hn
    have := ih (sys.step decls format_info op) (n + 1) (by omega)
      (DescriptorSystem_step_sound decls format_info sys n hP (by omega) h op)
    rw [show n + (rest.length + 1) = n + 1 + rest.length by omega]
    exact this

/-- C26: in the bindful model, start from a descriptor cache with nothing
allocated, nothing free and no texture (as `Initialize` and `ClearCache`
leave it), and let textures be created, views be looked up or created by
`FindOrCreateTextureDescriptor`, textures be destroyed and the cache be
cleared, in any order and whatever the device answers, fewer than 2^32 times
less the page size in all. Then the indices on the free list and the indices
held by the live textures are, together, a rearrangement of
`0 .. srv_descriptor_cache_allocated_ - 1`, each index once; the allocated
count is at most the number of pages times `kSRVDescriptorCachePageSize`; no
two live views share an index; and `GetTextureDescriptorCPUHandle` finds the
page of every live index. -/
theorem descriptor_indices_partition (decls : DescriptorDecls)
    (format_info : Fin 64 → FormatInfo) (sys0 : DescriptorSystem) (ops : List DescriptorOp)
    (hP : 0 < decls.kSRVDescriptorCachePageSize)
    (hops : ops.length + decls.kSRVDescriptorCachePageSize ≤ 2 ^ 32)
    (hb : sys0.cache.bindless_resources_used_ = false)
    (hfree : sys0.cache.srv_descriptor_cache_free_ = [])
    (halloc : sys0.cache.srv_descriptor_cache_allocated_ = 0)
    (htex : sys0.textures = []) :
    List.Perm
      ((ops.foldl (DescriptorSystem.step decls format_info) sys0).cache.srv_descriptor_cache_free_
        ++ liveDescriptorIndices
          (ops.foldl (DescriptorSystem.step decls format_info) sys0).textures)
      (List.range (ops.foldl (DescriptorSystem.step decls format_info)
        sys0).cache.srv_descriptor_cache_allocated_) ∧
    (ops.foldl (DescriptorSystem.step decls format_info)
        sys0).cache.srv_descriptor_cache_allocated_ ≤
      (ops.foldl (DescriptorSystem.step decls format_info)
        sys0).cache.srv_descriptor_cache_.length * decls.kSRVDescriptorCachePageSize ∧
    (liveDescriptorIndices
      (ops.foldl (DescriptorSystem.step decls format_info) sys0).textures).Nodup ∧
    ∀ d ∈ liveDescriptorIndices
        (ops.foldl (DescriptorSystem.step decls format_info) sys0).textures,
      (GetTextureDescriptorCPUHandle decls
        (ops.foldl (DescriptorSystem.step decls format_info) sys0).cache d).isSome = true := by
  have h0 : sys0.Sound decls 0 := by
    refine ⟨hb, fun a => ?_, ?_, ?_⟩
    · rw [hfree, htex, halloc]
      rfl
    · rw [halloc]
      exact Nat.zero_le _
    · rw [halloc]
  obtain ⟨hb1, hcount, hpages, _⟩ := DescriptorSystem_run_sound decls format_info hP ops sys0 0
    (by omega) h0
  generalize ops.foldl (DescriptorSystem.step decls format_info) sys0 = sys at hb1 hcount hpages ⊢
  have hperm : List.Perm
      (sys.cache.srv_descriptor_cache_free_ ++ liveDescriptorIndices sys.textures)
      (List.range sys.cache.srv_descriptor_cache_allocated_) :=
    List.perm_iff_count.mpr hcount
  have hnodup : (sys.cache.srv_descriptor_cache_free_ ++
      liveDescriptorIndices sys.textures).Nodup :=
    hperm.nodup_iff.mpr (List.nodup_range _)
  refine ⟨hperm, hpages, (List.nodup_append.mp hnodup).2.1, fun d hd => ?_⟩
  have hlt : d < sys.cache.srv_descriptor_cache_allocated_ :=
    List.mem_range.mp (hperm.subset (List.mem_append_right _ hd))
  have hpage : d / decls.kSRVDescriptorCachePageSize < sys.cache.srv_descriptor_cache_.length :=
    Nat.div_lt_of_lt_mul (by rw [Nat.mul_comm]; omega)
  unfold GetTextureDescriptorCPUHandle
  rw [hb1]
  simp only [Bool.false_eq_true, if_false]
  rw [List.get?_eq_get hpage]
  rfl

theorem descriptor_indices_partition_witness :
    (DescriptorOp.sampleOps.foldl (DescriptorSystem.step DescriptorDecls.sample xenosFormatInfo)
      DescriptorSystem.initial).cache.srv_descriptor_cache_free_ = [0] ∧
    liveDescriptorIndices (DescriptorOp.sampleOps.foldl
      (DescriptorSystem.step DescriptorDecls.sample xenosFormatInfo)
      DescriptorSystem.initial).textures = [1, 2] ∧
    (DescriptorOp.sampleOps.foldl (DescriptorSystem.step DescriptorDecls.sample xenosFormatInfo)
      DescriptorSystem.initial).cache.srv_descriptor_cache_allocated_ = 3 ∧
    (DescriptorOp.sampleOps.foldl (DescriptorSystem.step DescriptorDecls.sample xenosFormatInfo)
      DescriptorSystem.initial).cache.srv_descriptor_cache_ = [500] ∧
    (List.Perm
      ((DescriptorOp.sampleOps.foldl
          (DescriptorSystem.step DescriptorDecls.sample xenosFormatInfo)
          DescriptorSystem.initial).cache.srv_descriptor_cache_free_
        ++ liveDescriptorIndices
          (DescriptorOp.sampleOps.foldl
            (DescriptorSystem.step DescriptorDecls.sample xenosFormatInfo)
            DescriptorSystem.initial).textures)
      (List.range (DescriptorOp.sampleOps.foldl
        (DescriptorSystem.step DescriptorDecls.sample xenosFormatInfo)
        DescriptorSystem.initial).cache.srv_descriptor_cache_allocated_) ∧
    (DescriptorOp.sampleOps.foldl (DescriptorSystem.step DescriptorDecls.sample xenosFormatInfo)
        DescriptorSystem.initial).cache.srv_descriptor_cache_allocated_ ≤
      (DescriptorOp.sampleOps.foldl (DescriptorSystem.step DescriptorDecls.sample xenosFormatInfo)
        DescriptorSystem.initial).cache.srv_descriptor_cache_.length *
        DescriptorDecls.sample.kSRVDescriptorCachePageSize ∧
    (liveDescriptorIndices
      (DescriptorOp.sampleOps.foldl (DescriptorSystem.step DescriptorDecls.sample xenosFormatInfo)
        DescriptorSystem.initial).textures).Nodup ∧
    ∀ d ∈ liveDescriptorIndices
        (DescriptorOp.sampleOps.foldl
          (DescriptorSystem.step DescriptorDecls.sample xenosFormatInfo)
          DescriptorSystem.initial).textures,
      (GetTextureDescriptorCPUHandle DescriptorDecls.sample
        (DescriptorOp.sampleOps.foldl
          (DescriptorSystem.step DescriptorDecls.sample xenosFormatInfo)
          DescriptorSystem.initial).cache d).isSome = true) :=
  ⟨by decide, by decide, by decide, by decide,
    descriptor_indices_partition DescriptorDecls.sample xenosFormatInfo
      DescriptorSystem.initial DescriptorOp.sampleOps (by decide) (by decide) rfl rfl rfl rfl⟩

end D3D12TextureCache
